import Mathlib

/-!
# SeasideCache

A shallow embedding of `src/src/seasidecache.cpp` (nemomobile/libcontacts): the
contact cache that sits between an application and an asynchronous contact
store.  The embedding passes the cache singleton (`instancePtr`) around as an
explicit `State`; every call the cache makes on a listener, a model or a store
request is appended to `State.log`.

Conventions:

* `quint32` internal ids and `ContactIdType` api ids are `Nat`, `0` being the
  null id; `apiId` and `internalId` (qtcontacts-extensions_impl.h) convert
  between the two and are the identity here.
* a `QString` is a `String`; `x == QString()` holds exactly for the empty string;
  a `QString` whose nullness is tested (`isNull`) is an `Option String`.
* `QHash`, `QMap` and `QSet` are association lists and duplicate-free lists.
* an out-of-range `QList::at` is undefined behaviour: functions that may read
  out of range return `Option`, `none` standing for the undefined run.
* a `qint64` stored in an `int` is narrowed to 32 bits: `toInt32` takes the value
  modulo 2^32 and reads it as a signed number.
-/

set_option autoImplicit false
set_option maxRecDepth 100000
set_option synthInstance.maxSize 1024

namespace SeasideCache

/-! ## Qt containers -/

/-- `QHash<K, V>::find` / `QMap<K, V>::find`: the value stored under `k`. -/
def hashFind {κ ν : Type} [DecidableEq κ] : List (κ × ν) → κ → Option ν
  | [], _ => none
  | (k', v) :: rest, k => if k' = k then some v else hashFind rest k

/-- `QHash<K, V>::remove`. -/
def hashRemove {κ ν : Type} [DecidableEq κ] : List (κ × ν) → κ → List (κ × ν)
  | [], _ => []
  | (k', v) :: rest, k => if k' = k then hashRemove rest k else (k', v) :: hashRemove rest k

/-- `QHash<K, V>::insert` and `hash[k] = v`: replaces the value of an existing key. -/
def hashInsert {κ ν : Type} [DecidableEq κ] : List (κ × ν) → κ → ν → List (κ × ν)
  | [], k, v => [(k, v)]
  | (k', v') :: rest, k, v =>
    if k' = k then (k, v) :: rest else (k', v') :: hashInsert rest k v

/-- `QHash<K, V>::value(k, default)`. -/
def hashValue {κ ν : Type} [DecidableEq κ] (m : List (κ × ν)) (k : κ) (dflt : ν) : ν :=
  (hashFind m k).getD dflt

/-- `QSet<T>::insert`. -/
def setInsert {α : Type} [DecidableEq α] (s : List α) (a : α) : List α :=
  if a ∈ s then s else s ++ [a]

/-- `QSet<T>::remove`: the set without `a`; `QSet::remove` returns whether `a` was a member,
which is `a ∈ s` on the set before the call. -/
def setRemove {α : Type} [DecidableEq α] (s : List α) (a : α) : List α :=
  s.filter (fun b => decide (b ≠ a))

/-- `QList<T>::removeAt(i)` for an index in range; out of range it does nothing. -/
def removeAt {α : Type} : List α → Nat → List α
  | [], _ => []
  | _ :: rest, 0 => rest
  | a :: rest, i + 1 => a :: removeAt rest i

/-- `QList<T>::indexOf`: the first position of `a`, or `-1`. -/
def indexOf {α : Type} [DecidableEq α] : List α → α → Int
  | [], _ => -1
  | b :: rest, a =>
    if b = a then 0 else
      match indexOf rest a with
      | Int.negSucc _ => -1
      | Int.ofNat n => Int.ofNat (n + 1)

/-- `QList<T>::at(i)` for an `int` index; `none` when `i` is out of range. -/
def listAt {α : Type} (l : List α) (i : Int) : Option α :=
  match i with
  | Int.ofNat n => l.get? n
  | Int.negSucc _ => none

/-! ## Contacts -/

/-- The detail types the cache distinguishes (`detailType<T>()`). -/
inductive DetailTypeId
  | PhoneNumber | EmailAddress | OnlineAccount | Name | SyncTarget | Favorite
  | DisplayLabel | Nickname | Avatar | GlobalPresence | Presence | Organization
  | StatusFlags | Gender
  deriving DecidableEq, Repr

/-- A `QContactDetail` with the fields the cache reads. -/
inductive QContactDetail
  | phoneNumber (number : String)
  | emailAddress (emailAddress : String)
  | onlineAccount (accountPath accountUri : String)
  | name (firstName lastName : String)
  | syncTarget (syncTarget : String)
  | favorite (isFavorite : Bool)
  | displayLabel (label : String)
  | nickname (nickname : String)
  | avatar (imageUrl metadata : String)
  | globalPresence (nickname : String) (presenceState : Nat)
  | presence (nickname : String)
  | organization (name : String)
  | statusFlags (flagsValue : Nat)
  | gender (gender : String)
  deriving DecidableEq, Repr

/-- The `detailType(const QContactDetail &)` helper. -/
def detailType : QContactDetail → DetailTypeId
  | .phoneNumber _ => .PhoneNumber
  | .emailAddress _ => .EmailAddress
  | .onlineAccount _ _ => .OnlineAccount
  | .name _ _ => .Name
  | .syncTarget _ => .SyncTarget
  | .favorite _ => .Favorite
  | .displayLabel _ => .DisplayLabel
  | .nickname _ => .Nickname
  | .avatar _ _ => .Avatar
  | .globalPresence _ _ => .GlobalPresence
  | .presence _ => .Presence
  | .organization _ => .Organization
  | .statusFlags _ => .StatusFlags
  | .gender _ => .Gender

/-- A `QContact`: its id (`0` when null) and its details in order. -/
structure QContact where
  id : Nat := 0
  details : List QContactDetail := []
  deriving DecidableEq, Repr

/-- `QContact()`. -/
def QContact.empty : QContact := {}

/-- The numbers of `contact.details<QContactPhoneNumber>()`. -/
def QContact.phoneNumbers (c : QContact) : List String :=
  c.details.filterMap (fun d => match d with | .phoneNumber n => some n | _ => none)

/-- The addresses of `contact.details<QContactEmailAddress>()`. -/
def QContact.emailAddresses (c : QContact) : List String :=
  c.details.filterMap (fun d => match d with | .emailAddress a => some a | _ => none)

/-- The (account path, account uri) of `contact.details<QContactOnlineAccount>()`. -/
def QContact.onlineAccounts (c : QContact) : List (String × String) :=
  c.details.filterMap (fun d => match d with | .onlineAccount p u => some (p, u) | _ => none)

/-- The value of `contact.detail<QContactSyncTarget>().syncTarget()`: that of the first
sync-target detail, empty when there is none. -/
def QContact.syncTarget (c : QContact) : String :=
  ((c.details.filterMap (fun d => match d with | .syncTarget t => some t | _ => none)).head?).getD ""

/-- The value of `contact.detail<QContactName>().firstName()`. -/
def QContact.firstName (c : QContact) : String :=
  ((c.details.filterMap (fun d => match d with | .name f _ => some f | _ => none)).head?).getD ""

/-- The value of `contact.detail<QContactName>().lastName()`. -/
def QContact.lastName (c : QContact) : String :=
  ((c.details.filterMap (fun d => match d with | .name _ l => some l | _ => none)).head?).getD ""

/-- The value of `contact.detail<QContactFavorite>().isFavorite()`. -/
def QContact.isFavorite (c : QContact) : Bool :=
  ((c.details.filterMap (fun d => match d with | .favorite b => some b | _ => none)).head?).getD false

/-- The value of `contact.detail<QContactStatusFlags>().flagsValue()`. -/
def QContact.statusFlags (c : QContact) : Nat :=
  ((c.details.filterMap (fun d => match d with | .statusFlags f => some f | _ => none)).head?).getD 0

/-- The details of one type, `contact.details<T>()` as generic details. -/
def QContact.detailsOfType (c : QContact) (t : DetailTypeId) : List QContactDetail :=
  c.details.filter (fun d => decide (detailType d = t))

/-- Replaces the first sync-target detail, or appends one: `d = c.detail<QContactSyncTarget>();
d.setSyncTarget(t); c.saveDetail(&d)`. -/
def replaceSyncTarget : List QContactDetail → String → List QContactDetail
  | [], t => [.syncTarget t]
  | .syncTarget _ :: rest, t => .syncTarget t :: rest
  | d :: rest, t => d :: replaceSyncTarget rest t

/-- The contact after `setSyncTarget(t)` on its sync-target detail and `saveDetail`. -/
def QContact.setSyncTarget (c : QContact) (t : String) : QContact :=
  { c with details := replaceSyncTarget c.details t }

/-! ## Cache data -/

/-- The enum `SeasideCache::FilterType` (seasidecache.h); it indexes the per-view arrays. -/
inductive FilterType
  | FilterNone | FilterAll | FilterFavorites | FilterOnline
  deriving DecidableEq, Repr

/-- An array indexed by `FilterType`, such as `m_contacts[FilterTypesCount]`. -/
structure FilterArray (α : Type) where
  filterNone : α
  filterAll : α
  filterFavorites : α
  filterOnline : α
  deriving DecidableEq, Repr

/-- The element `a[filter]`. -/
def FilterArray.get {α : Type} (a : FilterArray α) : FilterType → α
  | .FilterNone => a.filterNone
  | .FilterAll => a.filterAll
  | .FilterFavorites => a.filterFavorites
  | .FilterOnline => a.filterOnline

/-- The array after `a[filter] = v`. -/
def FilterArray.set {α : Type} (a : FilterArray α) (f : FilterType) (v : α) : FilterArray α :=
  match f with
  | .FilterNone => { a with filterNone := v }
  | .FilterAll => { a with filterAll := v }
  | .FilterFavorites => { a with filterFavorites := v }
  | .FilterOnline => { a with filterOnline := v }

/-- An array holding `v` at every index. -/
def FilterArray.const {α : Type} (v : α) : FilterArray α := ⟨v, v, v, v⟩

/-- The enum `SeasideCache::ContactState` (seasidecache.h), in its declared order: the
cache compares states with `<`. -/
inductive ContactState
  | ContactAbsent | ContactPartial | ContactRequested | ContactComplete
  deriving DecidableEq, Repr

/-- The numeric value of a contact state. -/
def ContactState.toNat : ContactState → Nat
  | .ContactAbsent => 0
  | .ContactPartial => 1
  | .ContactRequested => 2
  | .ContactComplete => 3

/-- The enum `SeasideCache::DisplayLabelOrder`. -/
inductive DisplayLabelOrder
  | FirstNameFirst | LastNameFirst
  deriving DecidableEq, Repr

/-- The enum `SeasideCache::PopulateProgress` (seasidecache.h), in its declared order. -/
inductive PopulateProgress
  | Unpopulated | FetchFavorites | FetchMetadata | FetchOnline | Populated
  | RefetchFavorites | RefetchOthers
  deriving DecidableEq, Repr

/-- The numeric value of a populate progress. -/
def PopulateProgress.toNat : PopulateProgress → Nat
  | .Unpopulated => 0
  | .FetchFavorites => 1
  | .FetchMetadata => 2
  | .FetchOnline => 3
  | .Populated => 4
  | .RefetchFavorites => 5
  | .RefetchOthers => 6

/-- The `SeasideCache::ItemData` object a consumer attaches to an item, as far as the cache
reads it back: the list its `constituents()` returns. -/
structure ItemData where
  constituents : List Nat := []
  deriving DecidableEq, Repr

/-- The struct `SeasideCache::CacheItem`.  `nameGroup` is `none` while the `QString` is null;
`listeners` is the linked list of item listeners. -/
structure CacheItem where
  iid : Nat := 0
  contact : QContact := {}
  contactState : ContactState := .ContactAbsent
  statusFlags : Nat := 0
  displayLabel : String := ""
  nameGroup : Option String := none
  itemData : Option ItemData := none
  listeners : List Nat := []
  deriving DecidableEq, Repr

/-- `CacheItem::apiId()`: the api id of the item's contact. -/
def CacheItem.apiId (item : CacheItem) : Nat := item.contact.id

/-- The struct `SeasideCache::ResolveData`: an address pair being resolved for a listener. -/
structure ResolveData where
  first : String := ""
  second : String := ""
  compare : String := ""
  requireComplete : Bool := false
  listener : Nat := 0
  deriving DecidableEq, Repr

/-- A `QContactRelationship`: its type and the ids of its two contacts. -/
structure QContactRelationship where
  relationshipType : String
  first : Nat
  second : Nat
  deriving DecidableEq, Repr

/-- The struct `SeasideCache::ContactLinkRequest`. -/
structure ContactLinkRequest where
  contactId : Nat
  constituentsFetched : Bool := false
  deriving DecidableEq, Repr

/-- The eight store requests the cache owns. -/
inductive RequestKind
  | Fetch | FetchById | ContactId | RelationshipsFetch | Remove | Save
  | RelationshipSave | RelationshipRemove
  deriving DecidableEq, Repr

/-- The filter set on `m_fetchRequest` or `m_contactIdRequest` before it is started. -/
inductive QueryFilter
  | unset
  | allFilter
  | favoriteFilter
  | nonfavoriteFilter
  | onlineFilter
  | changedAggregates (ids : List Nat)
  | phoneNumberMatch (number : String)
  | emailAddressMatch (address : String)
  | onlineAccountMatch (accountPath accountUri : String)
  | mergeCandidates (contact : QContact)
  deriving DecidableEq, Repr

/-- What the cache calls on its collaborators: resolve listeners, item and change listeners,
view models, item data objects, the store requests and the event queue. -/
inductive Notification
  | addressResolved (listener : Nat) (first second : String) (item : Option CacheItem)
  | itemUpdated (listener : Nat) (iid : Nat)
  | changeItemUpdated (listener : Nat) (iid : Nat)
  | itemAboutToBeRemoved (listener : Nat) (iid : Nat)
  | changeItemAboutToBeRemoved (listener : Nat) (iid : Nat)
  | sourceDataChanged (model : Nat) (first last : Int)
  | sourceAboutToRemoveItems (model : Nat) (first last : Int)
  | sourceItemsRemoved (model : Nat)
  | sourceAboutToInsertItems (model : Nat) (first last : Int)
  | sourceItemsInserted (model : Nat) (first last : Int)
  | sourceItemsChanged (model : Nat)
  | makePopulated (model : Nat)
  | nameGroupsUpdated (listener : Nat) (updates : List (String × List Nat))
  | constituentsFetched (iid : Nat) (ids : List Nat)
  | mergeCandidatesFetched (iid : Nat) (ids : List Nat)
  | aggregationOperationCompleted (iid : Nat)
  | requestStart (kind : RequestKind) (wasActive : Bool) (filter : QueryFilter)
  | postUpdateRequest
  | updateDisplayLabelOrder (model : Nat)
  | updateGroupProperty (model : Nat)
  | displayLabelOrderChanged (iid : Nat) (order : DisplayLabelOrder)
  deriving DecidableEq, Repr

/-! ## The cache state and the environment -/

/-- The request `m_fetchRequest`: whether it is active, its filter, the detail types of its
fetch hint and the contacts it has delivered so far. -/
structure FetchRequest where
  active : Bool := false
  filter : QueryFilter := .unset
  detailTypesHint : List DetailTypeId := []
  contacts : List QContact := []
  deriving DecidableEq, Repr

/-- The request `m_fetchByIdRequest`; its fetch hint is never set. -/
structure FetchByIdRequest where
  active : Bool := false
  ids : List Nat := []
  contacts : List QContact := []
  deriving DecidableEq, Repr

/-- The request `m_contactIdRequest`. -/
structure ContactIdRequest where
  active : Bool := false
  filter : QueryFilter := .unset
  ids : List Nat := []
  deriving DecidableEq, Repr

/-- The request `m_relationshipsFetchRequest`. -/
structure RelationshipsFetchRequest where
  active : Bool := false
  first : Nat := 0
  relationships : List QContactRelationship := []
  deriving DecidableEq, Repr

/-- The request `m_removeRequest`. -/
structure RemoveRequest where
  active : Bool := false
  contactIds : List Nat := []
  deriving DecidableEq, Repr

/-- The request `m_saveRequest`. -/
structure SaveRequest where
  active : Bool := false
  contacts : List QContact := []
  deriving DecidableEq, Repr

/-- The requests `m_relationshipSaveRequest` and `m_relationshipRemoveRequest`. -/
structure RelationshipRequest where
  active : Bool := false
  relationships : List QContactRelationship := []
  deriving DecidableEq, Repr

/-- The members of the `SeasideCache` singleton, and the log of its outgoing calls. -/
structure State where
  m_people : List (Nat × CacheItem) := []
  m_phoneNumberIds : List (String × Nat) := []
  m_emailAddressIds : List (String × Nat) := []
  m_onlineAccountIds : List ((String × String) × Nat) := []
  m_contactsToSave : List (Nat × QContact) := []
  m_contactNameGroups : List (String × List Nat) := []
  m_contactsToCreate : List QContact := []
  m_contactsToRemove : List Nat := []
  m_changedContacts : List Nat := []
  m_contactsToFetchConstituents : List Nat := []
  m_contactsToFetchCandidates : List Nat := []
  m_contactsToLinkTo : List Nat := []
  m_contactPairsToLink : List (ContactLinkRequest × ContactLinkRequest) := []
  m_relationshipsToSave : List QContactRelationship := []
  m_relationshipsToRemove : List QContactRelationship := []
  m_constituentIds : List Nat := []
  m_candidateIds : List Nat := []
  m_resolveAddresses : List ResolveData := []
  m_unknownAddresses : List ResolveData := []
  m_activeResolve : Option ResolveData := none
  m_contacts : FilterArray (List Nat) := FilterArray.const []
  m_contactIndices : FilterArray (List (Nat × Int)) := FilterArray.const []
  m_models : FilterArray (List Nat) := FilterArray.const []
  m_nameGroupChangeListeners : List Nat := []
  m_changeListeners : List Nat := []
  m_expiredContacts : List (Nat × Int) := []
  m_fetchRequest : FetchRequest := {}
  m_fetchByIdRequest : FetchByIdRequest := {}
  m_contactIdRequest : ContactIdRequest := {}
  m_relationshipsFetchRequest : RelationshipsFetchRequest := {}
  m_removeRequest : RemoveRequest := {}
  m_saveRequest : SaveRequest := {}
  m_relationshipSaveRequest : RelationshipRequest := {}
  m_relationshipRemoveRequest : RelationshipRequest := {}
  m_resultsRead : Nat := 0
  m_populated : List FilterType := []
  m_cacheIndex : Nat := 0
  m_queryIndex : Nat := 0
  m_fetchProcessedCount : Nat := 0
  m_fetchByIdProcessedCount : Nat := 0
  m_syncFilter : FilterType := .FilterNone
  m_displayLabelOrder : DisplayLabelOrder := .FirstNameFirst
  m_sortProperty : String := "firstName"
  m_groupProperty : String := "firstName"
  m_keepPopulated : Bool := false
  m_populateProgress : PopulateProgress := .Unpopulated
  m_fetchTypes : Nat := 0
  m_fetchTypesChanged : Bool := false
  m_updatesPending : Bool := false
  m_refreshRequired : Bool := false
  m_contactsUpdated : Bool := false
  m_fetchTimer : Option Nat := none
  m_fetchPostponed : Option Nat := none
  log : List Notification := []
  deriving DecidableEq, Repr

/-- The code the cache calls that is outside the repository's sources:
`QtContactsSqliteExtensions::minimizePhoneNumber(input, 7)`, `QString::toLower`, the locale's
`indexBucket` (`none` for a null string), the installed name grouper (`none` when
`m_nameGrouper` is null), `allContactNameGroups`, the manager's self contact id, the
consumer's `ItemData::updateContact(contact, &item->contact, state)` as the contact it leaves
in the item, the default of the `requireComplete` parameter of `itemById` (seasidecache.h),
and `synchronizeList` / `completeSynchronizeList` (synchronizelists.h) as the cache they
leave. -/
structure Env where
  minimizePhoneNumber : String → String
  toLower : String → String
  indexBucket : String → Option String
  nameGroupForContact : Option (QContact → String → Option String)
  allContactNameGroups : List String
  selfContactId : Nat
  updateContact : QContact → QContact → ContactState → QContact
  requireCompleteDefault : Bool
  synchronizeList : State → State
  completeSynchronizeList : State → State

/-- The cache as its constructor leaves it. -/
def State.init : State := {}

/-- Appends one outgoing call to the log. -/
def State.emit (s : State) (n : Notification) : State :=
  { s with log := s.log ++ [n] }

/-- `SeasideCache::validId`. -/
def validId (id : Nat) : Bool := id != 0

/-- `SeasideCache::apiId(quint32)`. -/
def apiId (iid : Nat) : Nat := iid

/-- `SeasideCache::internalId`. -/
def internalId (id : Nat) : Nat := id

/-- `SeasideCache::normalizePhoneNumber`. -/
def normalizePhoneNumber (env : Env) (input : String) : String :=
  env.minimizePhoneNumber input

/-- `SeasideCache::requestUpdate`. -/
def requestUpdate (s : State) : State :=
  let s1 := if s.m_updatesPending then s else s.emit .postUpdateRequest
  { s1 with m_updatesPending := true }

/-- `SeasideCache::fetchContacts`; `WaitIntervalMs` is 250. -/
def fetchContacts (s : State) : State :=
  if s.m_fetchRequest.active then
    { s with m_fetchTimer := some 250 }
  else
    let s1 := { s with m_fetchTimer := none, m_fetchPostponed := none }
    let s2 :=
      if s1.m_contactsUpdated then
        { s1 with m_contactsUpdated := false,
                  m_refreshRequired := if s1.m_keepPopulated then true else s1.m_refreshRequired }
      else s1
    requestUpdate s2

/-- `SeasideCache::refreshContact` on the item stored under `key`. -/
def refreshContact (s : State) (key : Nat) : State :=
  match hashFind s.m_people key with
  | none => s
  | some item =>
    let s1 := { s with m_people := hashInsert s.m_people key
                         { item with contactState := .ContactRequested },
                       m_changedContacts := s.m_changedContacts ++ [item.apiId] }
    fetchContacts s1

/-- `SeasideCache::ensureCompletion` on the item stored under `key`. -/
def ensureCompletion (s : State) (key : Nat) : State :=
  match hashFind s.m_people key with
  | none => s
  | some item =>
    if item.contactState.toNat < ContactState.ContactRequested.toNat then
      refreshContact s key
    else s

/-- `SeasideCache::itemById`: the key of the returned item in `m_people` (`none` for a null
pointer) and the cache afterwards. -/
def itemById (s : State) (id : Nat) (requireComplete : Bool) : Option Nat × State :=
  if !validId id then (none, s)
  else
    let iid := internalId id
    let s1 :=
      match hashFind s.m_people iid with
      | some _ => s
      | none => { s with m_people := hashInsert s.m_people iid { contact := { id := id } } }
    let s2 := if requireComplete then ensureCompletion s1 iid else s1
    (some iid, s2)

/-- `SeasideCache::existingItem`. -/
def existingItem (s : State) (iid : Nat) : Option CacheItem :=
  hashFind s.m_people iid

/-- `SeasideCache::contactById`. -/
def contactById (s : State) (id : Nat) : QContact :=
  (hashValue s.m_people (internalId id) {}).contact

/-! ## Address lookup and resolution -/

/-- `SeasideCache::itemByPhoneNumber`. -/
def itemByPhoneNumber (env : Env) (s : State) (number : String) (requireComplete : Bool) :
    Option Nat × State :=
  match hashFind s.m_phoneNumberIds (normalizePhoneNumber env number) with
  | some iid => itemById s iid requireComplete
  | none => (none, s)

/-- `SeasideCache::itemByEmailAddress`. -/
def itemByEmailAddress (env : Env) (s : State) (email : String) (requireComplete : Bool) :
    Option Nat × State :=
  match hashFind s.m_emailAddressIds (env.toLower email) with
  | some iid => itemById s iid requireComplete
  | none => (none, s)

/-- `SeasideCache::itemByOnlineAccount`. -/
def itemByOnlineAccount (env : Env) (s : State) (localUid remoteUid : String)
    (requireComplete : Bool) : Option Nat × State :=
  match hashFind s.m_onlineAccountIds (localUid, env.toLower remoteUid) with
  | some iid => itemById s iid requireComplete
  | none => (none, s)

/-- `SeasideCache::resolveAddress`. -/
def resolveAddress (s : State) (listener : Nat) (first second : String)
    (requireComplete : Bool) : State :=
  let data : ResolveData :=
    { first := first, second := second, requireComplete := requireComplete,
      listener := listener }
  requestUpdate { s with m_resolveAddresses := s.m_resolveAddresses ++ [data] }

/-- `SeasideCache::resolvePhoneNumber`. -/
def resolvePhoneNumber (env : Env) (s : State) (listener : Nat) (number : String)
    (requireComplete : Bool) : Option Nat × State :=
  match itemByPhoneNumber env s number requireComplete with
  | (none, s1) => (none, resolveAddress s1 listener "" number requireComplete)
  | (some key, s1) => (some key, if requireComplete then ensureCompletion s1 key else s1)

/-- `SeasideCache::resolveEmailAddress`. -/
def resolveEmailAddress (env : Env) (s : State) (listener : Nat) (address : String)
    (requireComplete : Bool) : Option Nat × State :=
  match itemByEmailAddress env s address requireComplete with
  | (none, s1) => (none, resolveAddress s1 listener address "" requireComplete)
  | (some key, s1) => (some key, if requireComplete then ensureCompletion s1 key else s1)

/-- `SeasideCache::resolveOnlineAccount`. -/
def resolveOnlineAccount (env : Env) (s : State) (listener : Nat) (localUid remoteUid : String)
    (requireComplete : Bool) : Option Nat × State :=
  match itemByOnlineAccount env s localUid remoteUid requireComplete with
  | (none, s1) => (none, resolveAddress s1 listener localUid remoteUid requireComplete)
  | (some key, s1) => (some key, if requireComplete then ensureCompletion s1 key else s1)

/-! ## A concrete environment -/

/-- The last `n` elements of a list. -/
def lastN {α : Type} (n : Nat) (l : List α) : List α :=
  l.drop (l.length - n)

/-- Modelled from the spec: `QtContactsSqliteExtensions::minimizePhoneNumber` is defined in
qtcontacts-extensions_impl.h, outside the sources; the spec has it truncate a number "to the
last N significant digits (default 7) ignoring formatting". -/
def minimizePhoneNumber (input : String) : String :=
  String.mk (lastN 7 (input.data.filter Char.isDigit))

/-- Lower-casing of the letters `A`–`Z`, standing for `QString::toLower`. -/
def toLower (input : String) : String :=
  String.mk (input.data.map Char.toLower)

/-- An environment for running the cache on concrete inputs: no name grouper is installed,
a name is filed under its upper-cased first letter, an attached item data object takes over
the fetched contact, and the id lists of a resynchronisation leave the views as they are. -/
def exampleEnv : Env where
  minimizePhoneNumber := minimizePhoneNumber
  toLower := toLower
  indexBucket := fun name => (name.data.head?).map (fun c => String.mk [c.toUpper])
  nameGroupForContact := none
  allContactNameGroups := ["A", "B", "C", "D", "E", "F", "G", "#"]
  selfContactId := 1
  updateContact := fun contact _ _ => contact
  requireCompleteDefault := true
  synchronizeList := fun s => s
  completeSynchronizeList := fun s => s

/-! ## Statement helpers -/

/-- What a resolve call does, given what the address index holds for the normalized address:
with an id indexed it returns the item stored under that id and leaves the pending queue
alone; with nothing indexed it returns null and appends `entry` to the pending queue. -/
def ResolveOutcome (s : State) (indexed : Option Nat) (entry : ResolveData)
    (result : Option Nat × State) : Prop :=
  match indexed with
  | some iid =>
    result.1 = some iid ∧ (existingItem result.2 iid).isSome ∧
      result.2.m_resolveAddresses = s.m_resolveAddresses
  | none => result.1 = none ∧ result.2.m_resolveAddresses = s.m_resolveAddresses ++ [entry]

/-- The three address indexes hold valid contact ids only. They are written by
`updateContactIndexing` alone, which `contactsAvailable` and `appendContacts` call with the
internal id of a contact that the store returned. -/
def IndexedIdsValid (s : State) : Prop :=
  (∀ k id, hashFind s.m_phoneNumberIds k = some id → validId id = true) ∧
  (∀ k id, hashFind s.m_emailAddressIds k = some id → validId id = true) ∧
  (∀ k id, hashFind s.m_onlineAccountIds k = some id → validId id = true)

/-! ## Address indexing -/

/-- `addressPair(const QContactPhoneNumber &)`. -/
def addressPairPhone (env : Env) (number : String) : String × String :=
  ("", normalizePhoneNumber env number)

/-- `addressPair(const QContactEmailAddress &)`. -/
def addressPairEmail (env : Env) (emailAddress : String) : String × String :=
  (env.toLower emailAddress, "")

/-- `addressPair(const QContactOnlineAccount &)`. -/
def addressPairAccount (env : Env) (account : String × String) : String × String :=
  (account.1, env.toLower account.2)

/-- The test `resolved` in the loop of `SeasideCache::resolveUnknownAddresses`. -/
def unknownAddressResolved (first second : String) (it : ResolveData) : Bool :=
  if first = "" then
    decide (it.first = "") && decide (it.compare = second)
  else if second = "" then
    decide (it.compare = first) && decide (it.second = "")
  else
    decide (it.first = first) && decide (it.compare = second)

/-- The loop of `SeasideCache::resolveUnknownAddresses` over the entries from the iterator
on: the entries it keeps and the cache afterwards.  `item` is the key of the item passed. -/
def resolveUnknownAddressesLoop (first second : String) (item : Nat) :
    List ResolveData → State → List ResolveData × State
  | [], s => ([], s)
  | it :: rest, s =>
    if unknownAddressResolved first second it then
      let s1 := s.emit (.addressResolved it.listener it.first it.second (existingItem s item))
      let s2 := if it.requireComplete then ensureCompletion s1 item else s1
      resolveUnknownAddressesLoop first second item rest s2
    else
      let r := resolveUnknownAddressesLoop first second item rest s
      (it :: r.1, r.2)

/-- `SeasideCache::resolveUnknownAddresses`. -/
def resolveUnknownAddresses (s : State) (first second : String) (item : Nat) : State :=
  let r := resolveUnknownAddressesLoop first second item s.m_unknownAddresses s
  { r.2 with m_unknownAddresses := r.1 }

/-- The set `oldAddresses` after inserting the address pairs of the old contact's details. -/
def insertAddresses (oldAddresses : List (String × String)) (pairs : List (String × String)) :
    List (String × String) :=
  pairs.foldl setInsert oldAddresses

/-- The phone-number loop of `updateContactIndexing` over the new contact's numbers: the
remaining `oldAddresses`, the cache and `modified`. -/
def indexPhoneNumbers (env : Env) (iid item : Nat) :
    List String → List (String × String) → State → Bool →
      List (String × String) × State × Bool
  | [], oldAddresses, s, modified => (oldAddresses, s, modified)
  | number :: rest, oldAddresses, s, modified =>
    let address := addressPairPhone env number
    let s1 := if address ∈ oldAddresses then s
              else resolveUnknownAddresses s address.1 address.2 item
    let s2 := { s1 with m_phoneNumberIds := hashInsert s1.m_phoneNumberIds address.2 iid }
    indexPhoneNumbers env iid item rest (setRemove oldAddresses address) s2
      (if address ∈ oldAddresses then modified else true)

/-- The email-address loop of `updateContactIndexing`. -/
def indexEmailAddresses (env : Env) (iid item : Nat) :
    List String → List (String × String) → State → Bool →
      List (String × String) × State × Bool
  | [], oldAddresses, s, modified => (oldAddresses, s, modified)
  | emailAddress :: rest, oldAddresses, s, modified =>
    let address := addressPairEmail env emailAddress
    let s1 := if address ∈ oldAddresses then s
              else resolveUnknownAddresses s address.1 address.2 item
    let s2 := { s1 with m_emailAddressIds := hashInsert s1.m_emailAddressIds address.1 iid }
    indexEmailAddresses env iid item rest (setRemove oldAddresses address) s2
      (if address ∈ oldAddresses then modified else true)

/-- The online-account loop of `updateContactIndexing`. -/
def indexOnlineAccounts (env : Env) (iid item : Nat) :
    List (String × String) → List (String × String) → State → Bool →
      List (String × String) × State × Bool
  | [], oldAddresses, s, modified => (oldAddresses, s, modified)
  | account :: rest, oldAddresses, s, modified =>
    let address := addressPairAccount env account
    let s1 := if address ∈ oldAddresses then s
              else resolveUnknownAddresses s address.1 address.2 item
    let s2 := { s1 with m_onlineAccountIds := hashInsert s1.m_onlineAccountIds address iid }
    indexOnlineAccounts env iid item rest (setRemove oldAddresses address) s2
      (if address ∈ oldAddresses then modified else true)

/-- Whether a section of `updateContactIndexing` runs for a detail type. -/
def detailTypeQueried (queryDetailTypes : List DetailTypeId) (t : DetailTypeId) : Bool :=
  queryDetailTypes.isEmpty || decide (t ∈ queryDetailTypes)

/-- The phone-number section of `updateContactIndexing`. -/
def updatePhoneNumberIndexing (env : Env) (s : State) (oldContact contact : QContact)
    (iid item : Nat) (modified : Bool) : Bool × State :=
  let oldAddresses := insertAddresses [] (oldContact.phoneNumbers.map (addressPairPhone env))
  let r := indexPhoneNumbers env iid item contact.phoneNumbers oldAddresses s modified
  let s1 := r.2.1
  if r.1.isEmpty then (r.2.2, s1)
  else
    let index := List.foldl (fun index address => hashRemove index address.2) s1.m_phoneNumberIds r.1
    (true, { s1 with m_phoneNumberIds := index })

/-- The email-address section of `updateContactIndexing`. -/
def updateEmailAddressIndexing (env : Env) (s : State) (oldContact contact : QContact)
    (iid item : Nat) (modified : Bool) : Bool × State :=
  let oldAddresses := insertAddresses [] (oldContact.emailAddresses.map (addressPairEmail env))
  let r := indexEmailAddresses env iid item contact.emailAddresses oldAddresses s modified
  let s1 := r.2.1
  if r.1.isEmpty then (r.2.2, s1)
  else
    let index := List.foldl (fun index address => hashRemove index address.1) s1.m_emailAddressIds r.1
    (true, { s1 with m_emailAddressIds := index })

/-- The online-account section of `updateContactIndexing`. -/
def updateOnlineAccountIndexing (env : Env) (s : State) (oldContact contact : QContact)
    (iid item : Nat) (modified : Bool) : Bool × State :=
  let oldAddresses :=
    insertAddresses [] (oldContact.onlineAccounts.map (addressPairAccount env))
  let r := indexOnlineAccounts env iid item contact.onlineAccounts oldAddresses s modified
  let s1 := r.2.1
  if r.1.isEmpty then (r.2.2, s1)
  else
    let index := List.foldl (fun index address => hashRemove index address) s1.m_onlineAccountIds r.1
    (true, { s1 with m_onlineAccountIds := index })

/-- `SeasideCache::updateContactIndexing`: the value returned and the cache afterwards. -/
def updateContactIndexing (env : Env) (s : State) (oldContact contact : QContact) (iid : Nat)
    (queryDetailTypes : List DetailTypeId) (item : Nat) : Bool × State :=
  let r1 :=
    if detailTypeQueried queryDetailTypes .PhoneNumber then
      updatePhoneNumberIndexing env s oldContact contact iid item false
    else (false, s)
  let r2 :=
    if detailTypeQueried queryDetailTypes .EmailAddress then
      updateEmailAddressIndexing env r1.2 oldContact contact iid item r1.1
    else r1
  if detailTypeQueried queryDetailTypes .OnlineAccount then
    updateOnlineAccountIndexing env r2.2 oldContact contact iid item r2.1
  else r2

/-- The three address indexes of `s'` are those of `s`. -/
def SameIndexes (s s' : State) : Prop :=
  s'.m_phoneNumberIds = s.m_phoneNumberIds ∧ s'.m_emailAddressIds = s.m_emailAddressIds ∧
    s'.m_onlineAccountIds = s.m_onlineAccountIds

/-- A contact with one phone number whose id is the null id 0. -/
def nullIdContact : QContact :=
  { id := 0, details := [.name "Null" "Id", .phoneNumber "5551234"] }

/-! ## Views, name groups and the mutation calls -/

/-- Calls `f` on every model of a list, in order. -/
def notifyModels (s : State) (models : List Nat) (f : Nat → Notification) : State :=
  { s with log := s.log ++ models.map f }

/-- `SeasideCache::contactIndex`: the row returned and the cache afterwards; `none` when
`cacheIds.at(index)` reads outside the view's id list. -/
def contactIndex (s : State) (iid : Nat) (filterType : FilterType) : Option (Int × State) :=
  let indices := s.m_contactIndices.get filterType
  match hashFind indices iid with
  | none => some (-1, s)
  | some index =>
    let cacheIds := s.m_contacts.get filterType
    match listAt cacheIds index with
    | none => none
    | some contactIid =>
      if iid ≠ contactIid then
        let index' := indexOf cacheIds iid
        if index' = -1 then
          some (index', { s with m_contactIndices :=
                            s.m_contactIndices.set filterType (hashRemove indices iid) })
        else
          some (index', { s with m_contactIndices :=
                            s.m_contactIndices.set filterType (hashInsert indices iid index') })
      else some (index, s)

/-- `SeasideCache::contactDataChanged(quint32, FilterType)`. -/
def contactDataChangedIn (s : State) (iid : Nat) (filter : FilterType) : Option State :=
  match contactIndex s iid filter with
  | none => none
  | some (row, s1) =>
    if row ≠ -1 then
      some (notifyModels s1 (s1.m_models.get filter) (fun m => .sourceDataChanged m row row))
    else some s1

/-- `SeasideCache::contactDataChanged(quint32)`. -/
def contactDataChanged (s : State) (iid : Nat) : Option State :=
  match contactDataChangedIn s iid .FilterFavorites with
  | none => none
  | some s1 =>
    match contactDataChangedIn s1 iid .FilterOnline with
    | none => none
    | some s2 => contactDataChangedIn s2 iid .FilterAll

/-- `SeasideCache::saveContact`; it always returns true. -/
def saveContact (s : State) (contact : QContact) : Option State :=
  let id := contact.id
  let queued : Option State :=
    if validId id then
      contactDataChanged { s with m_contactsToSave := hashInsert s.m_contactsToSave id contact }
        (internalId id)
    else
      some { s with m_contactsToCreate := s.m_contactsToCreate ++ [contact] }
  match queued with
  | none => none
  | some s1 => some (requestUpdate s1)

/-- `SeasideCache::nameGroup`: `none` for a null string. -/
def nameGroup (cacheItem : Option CacheItem) : Option String :=
  match cacheItem with
  | none => none
  | some item => item.nameGroup

/-- `SeasideCache::addToContactNameGroup`: the cache and the set `*modifiedGroups`. -/
def addToContactNameGroup (s : State) (iid : Nat) (group : Option String)
    (modifiedGroups : List String) : State × List String :=
  match group with
  | none => (s, modifiedGroups)
  | some g =>
    let set := hashValue s.m_contactNameGroups g []
    if iid ∈ set then
      ({ s with m_contactNameGroups := hashInsert s.m_contactNameGroups g set }, modifiedGroups)
    else
      ({ s with m_contactNameGroups := hashInsert s.m_contactNameGroups g (setInsert set iid) },
        if s.m_nameGroupChangeListeners.isEmpty then modifiedGroups
        else setInsert modifiedGroups g)

/-- `SeasideCache::removeFromContactNameGroup`: the cache and the set `*modifiedGroups`. -/
def removeFromContactNameGroup (s : State) (iid : Nat) (group : Option String)
    (modifiedGroups : List String) : State × List String :=
  match group with
  | none => (s, modifiedGroups)
  | some g =>
    let set := hashValue s.m_contactNameGroups g []
    ({ s with m_contactNameGroups := hashInsert s.m_contactNameGroups g (setRemove set iid) },
      if iid ∈ set ∧ ¬ s.m_nameGroupChangeListeners.isEmpty then setInsert modifiedGroups g
      else modifiedGroups)

/-- `SeasideCache::notifyNameGroupsChanged`. -/
def notifyNameGroupsChanged (s : State) (groups : List String) : State :=
  if groups.isEmpty || s.m_nameGroupChangeListeners.isEmpty then s
  else
    let updates := groups.map (fun g => (g, hashValue s.m_contactNameGroups g []))
    { s with log := s.log ++ s.m_nameGroupChangeListeners.map
                (fun l => Notification.nameGroupsUpdated l updates) }

/-- The block of `removeContactData` for the All view: the contact leaves its name group. -/
def removeFromNameGroupOf (s : State) (iid : Nat) : State :=
  match nameGroup (existingItem s iid) with
  | none => s
  | some group =>
    let r := removeFromContactNameGroup s iid (some group) []
    notifyNameGroupsChanged r.1 r.2

/-- `SeasideCache::removeContactData`. -/
def removeContactData (s : State) (iid : Nat) (filter : FilterType) : Option State :=
  match contactIndex s iid filter with
  | none => none
  | some (row, s1) =>
    if row = -1 then some s1
    else
      let models := s1.m_models.get filter
      let s2 := notifyModels s1 models (fun m => .sourceAboutToRemoveItems m row row)
      match listAt (s2.m_contacts.get filter) row with
      | none => none
      | some rowId =>
        let s3 := { s2 with
          m_contactIndices :=
            s2.m_contactIndices.set filter (hashRemove (s2.m_contactIndices.get filter) rowId),
          m_contacts := s2.m_contacts.set filter (removeAt (s2.m_contacts.get filter) row.toNat) }
        let s4 := if filter = .FilterAll then removeFromNameGroupOf s3 iid else s3
        some (notifyModels s4 models (fun m => .sourceItemsRemoved m))

/-- `SeasideCache::removeContact`: the value returned and the cache afterwards. -/
def removeContact (s : State) (contact : QContact) : Option (Bool × State) :=
  let id := contact.id
  if !validId id then some (false, s)
  else
    let s1 := { s with m_contactsToRemove := s.m_contactsToRemove ++ [id] }
    let iid := internalId id
    match removeContactData s1 iid .FilterFavorites with
    | none => none
    | some s2 =>
      match removeContactData s2 iid .FilterOnline with
      | none => none
      | some s3 =>
        match removeContactData s3 iid .FilterAll with
        | none => none
        | some s4 => some (true, requestUpdate s4)

/-- `SeasideCache::fetchConstituents`: the value returned and the cache afterwards. -/
def fetchConstituents (s : State) (contact : QContact) : Bool × State :=
  let personId := contact.id
  if !validId personId then (false, s)
  else if personId ∈ s.m_contactsToFetchConstituents then (true, s)
  else
    (true, requestUpdate
      { s with m_contactsToFetchConstituents := s.m_contactsToFetchConstituents ++ [personId] })

/-- `SeasideCache::fetchMergeCandidates`: the value returned and the cache afterwards. -/
def fetchMergeCandidates (s : State) (contact : QContact) : Bool × State :=
  let personId := contact.id
  if !validId personId then (false, s)
  else if personId ∈ s.m_contactsToFetchCandidates then (true, s)
  else
    (true, requestUpdate
      { s with m_contactsToFetchCandidates := s.m_contactsToFetchCandidates ++ [personId] })

/-- `SeasideCache::makeRelationship`. -/
def makeRelationship (type : String) (contact1 contact2 : QContact) : QContactRelationship :=
  { relationshipType := type, first := contact1.id, second := contact2.id }

/-- The constant `aggregateRelationshipType`, `QContactRelationship::Aggregates`. -/
def aggregateRelationshipType : String := "Aggregates"

/-- The constant `syncTargetLocal`. -/
def syncTargetLocal : String := "local"

/-- The constant `syncTargetWasLocal`. -/
def syncTargetWasLocal : String := "was_local"

/-- `SeasideCache::aggregateContacts`. -/
def aggregateContacts (s : State) (contact1 contact2 : QContact) : State :=
  let s1 := { s with m_contactPairsToLink := s.m_contactPairsToLink ++
    [(({ contactId := contact1.id } : ContactLinkRequest),
      ({ contactId := contact2.id } : ContactLinkRequest))] }
  let s2 := (fetchConstituents s1 contact1).2
  (fetchConstituents s2 contact2).2

/-- `SeasideCache::disaggregateContacts`. -/
def disaggregateContacts (s : State) (contact1 contact2 : QContact) : Option State :=
  let s1 := { s with
    m_relationshipsToRemove := s.m_relationshipsToRemove ++
      [makeRelationship aggregateRelationshipType contact1 contact2],
    m_relationshipsToSave := s.m_relationshipsToSave ++
      [makeRelationship "IsNot" contact1 contact2] }
  let saved : Option State :=
    if contact2.syncTarget = syncTargetWasLocal then
      saveContact s1 (contact2.setSyncTarget syncTargetLocal)
    else some s1
  match saved with
  | none => none
  | some s2 => some (s2.emit .postUpdateRequest)

/-! ## Display labels, name groups and the cached snapshot -/

/-- The first non-empty string of a list, empty when there is none. -/
def firstNonEmpty : List String → String
  | [] => ""
  | x :: rest => if x ≠ "" then x else firstNonEmpty rest

/-- `SeasideCache::generateDisplayLabelFromNonNameDetails`. -/
def generateDisplayLabelFromNonNameDetails (contact : QContact) : String :=
  let nicknames := contact.details.filterMap
    (fun d => match d with | .nickname n => some n | _ => none)
  let globalPresences := contact.details.filterMap
    (fun d => match d with | .globalPresence n _ => some n | _ => none)
  let presences := contact.details.filterMap
    (fun d => match d with | .presence n => some n | _ => none)
  let accounts := contact.onlineAccounts.map (fun a => a.2)
  let company := ((contact.details.filterMap
    (fun d => match d with | .organization n => some n | _ => none)).head?).getD ""
  if firstNonEmpty nicknames ≠ "" then firstNonEmpty nicknames
  else if firstNonEmpty globalPresences ≠ "" then firstNonEmpty globalPresences
  else if firstNonEmpty presences ≠ "" then firstNonEmpty presences
  else if firstNonEmpty accounts ≠ "" then firstNonEmpty accounts
  else if firstNonEmpty contact.emailAddresses ≠ "" then firstNonEmpty contact.emailAddresses
  else if company ≠ "" then company
  else firstNonEmpty contact.phoneNumbers

/-- The label of `contact.detail<QContactDisplayLabel>()`. -/
def QContact.displayLabel (c : QContact) : String :=
  ((c.details.filterMap (fun d => match d with | .displayLabel l => some l | _ => none)).head?).getD ""

/-- `SeasideCache::generateDisplayLabel`. -/
def generateDisplayLabel (contact : QContact) (order : DisplayLabelOrder) : String :=
  let nameStr1 := if order = .LastNameFirst then contact.lastName else contact.firstName
  let nameStr2 := if order = .LastNameFirst then contact.firstName else contact.lastName
  let label1 := if nameStr1 ≠ "" then nameStr1 else ""
  let label2 :=
    if nameStr2 ≠ "" then (if label1 ≠ "" then label1 ++ " " else label1) ++ nameStr2
    else label1
  if label2 ≠ "" then label2
  else if generateDisplayLabelFromNonNameDetails contact ≠ "" then
    generateDisplayLabelFromNonNameDetails contact
  else if contact.displayLabel ≠ "" then contact.displayLabel
  else "(Unnamed)"

/-- The test `group.isNull() || !allContactNameGroups.contains(group)`. -/
def groupUnknown (env : Env) (group : Option String) : Bool :=
  match group with
  | none => true
  | some g => !(env.allContactNameGroups.contains g)

/-- `SeasideCache::determineNameGroup` for a non-null item. -/
def determineNameGroup (env : Env) (s : State) (cacheItem : CacheItem) : String :=
  let grouped : Option String :=
    match env.nameGroupForContact with
    | none => none
    | some grouper => grouper cacheItem.contact s.m_groupProperty
  match grouped with
  | some group => group
  | none =>
    let nameProperty := if s.m_groupProperty = "firstName" then cacheItem.contact.firstName
                        else cacheItem.contact.lastName
    let group1 : Option String :=
      if nameProperty ≠ "" then env.indexBucket nameProperty
      else if cacheItem.displayLabel ≠ "" then env.indexBucket cacheItem.displayLabel
      else none
    let group2 : Option String :=
      if groupUnknown env group1 then
        if generateDisplayLabelFromNonNameDetails cacheItem.contact ≠ "" then
          env.indexBucket (generateDisplayLabelFromNonNameDetails cacheItem.contact)
        else group1
      else group1
    if groupUnknown env group2 then "#" else group2.getD "#"

/-- `SeasideCache::reportItemUpdated`. -/
def reportItemUpdated (s : State) (item : CacheItem) : State :=
  { s with log := s.log ++ item.listeners.map (fun l => Notification.itemUpdated l item.iid)
                    ++ s.m_changeListeners.map
                        (fun l => Notification.changeItemUpdated l item.iid) }

/-- `SeasideCache::updateCache` on the item stored under `key`. -/
def updateCache (env : Env) (s : State) (key : Nat) (contact : QContact) (partialFetch : Bool) :
    State :=
  match hashFind s.m_people key with
  | none => s
  | some item =>
    let contactState :=
      if item.contactState.toNat < ContactState.ContactRequested.toNat then
        (if partialFetch then ContactState.ContactPartial else ContactState.ContactComplete)
      else if !partialFetch then ContactState.ContactComplete
      else item.contactState
    let item1 := { item with contactState := contactState, statusFlags := contact.statusFlags }
    let item2 :=
      match item1.itemData with
      | some _ => { item1 with contact := env.updateContact contact item1.contact contactState }
      | none => { item1 with contact := contact }
    let item3 :=
      { item2 with displayLabel := generateDisplayLabel item2.contact s.m_displayLabelOrder }
    let item4 := { item3 with nameGroup := some (determineNameGroup env s item3) }
    reportItemUpdated { s with m_people := hashInsert s.m_people key item4 } item4

/-- `SeasideCache::ignoreContactForNameGroups`. -/
def ignoreContactForNameGroups (env : Env) (contact : QContact) : Bool :=
  if contact.id = env.selfContactId then true
  else decide (contact.syncTarget ≠ "aggregate")

/-- The item `m_people[iid]`, default-constructed and inserted when absent. -/
def peopleItem (s : State) (iid : Nat) : CacheItem × State :=
  match hashFind s.m_people iid with
  | some item => (item, s)
  | none => ({}, { s with m_people := hashInsert s.m_people iid {} })

/-- The body of the `foreach` of `SeasideCache::appendContacts` for one contact. -/
def appendContact (env : Env) (filterType : FilterType) (partialFetch : Bool)
    (acc : State × List String) (contact : QContact) : State × List String :=
  let s := acc.1
  let iid := internalId contact.id
  let cacheIds := s.m_contacts.get filterType ++ [iid]
  let s1 := { s with
    m_contacts := s.m_contacts.set filterType cacheIds,
    m_contactIndices := s.m_contactIndices.set filterType
      (hashInsert (s.m_contactIndices.get filterType) iid (Int.ofNat (cacheIds.length - 1))) }
  let r := peopleItem s1 iid
  let cacheItem := r.1
  let s2 := r.2
  let s3 :=
    if cacheItem.iid = 0 ∨ cacheItem.contact.isFavorite = false then
      let s21 := { s2 with m_people := hashInsert s2.m_people iid { cacheItem with iid := iid } }
      let s22 := (updateContactIndexing env s21 QContact.empty contact iid [] iid).2
      updateCache env s22 iid contact partialFetch
    else s2
  if filterType = .FilterAll then
    addToContactNameGroup s3 iid (nameGroup (existingItem s3 iid)) acc.2
  else (s3, acc.2)

/-- `SeasideCache::appendContacts`. -/
def appendContacts (env : Env) (s : State) (contacts : List QContact) (filterType : FilterType)
    (partialFetch : Bool) : State :=
  if contacts.isEmpty then s
  else
    let models := s.m_models.get filterType
    let begin_ : Int := Int.ofNat (s.m_contacts.get filterType).length
    let end_ : Int := begin_ + Int.ofNat contacts.length - 1
    let s1 := notifyModels s models (fun m => .sourceAboutToInsertItems m begin_ end_)
    let r := contacts.foldl (appendContact env filterType partialFetch) (s1, [])
    let s2 := notifyModels r.1 models (fun m => .sourceItemsInserted m begin_ end_)
    notifyNameGroupsChanged s2 r.2

/-! ## Results of fetch requests -/

/-- Inequality of two `QString`s, a null string being equal to an empty one. -/
def qstringNe (a b : Option String) : Bool :=
  decide (a.getD "" ≠ b.getD "")

/-- The body of the update loop of `SeasideCache::contactsAvailable` for one contact. -/
def updateContactFromFetch (env : Env) (queryDetailTypes : List DetailTypeId)
    (partialFetch : Bool) (acc : State × List String) (fetched : QContact) :
    Option (State × List String) :=
  let s := acc.1
  let iid := internalId fetched.id
  let preexisting := (existingItem s iid).isSome
  let s1 :=
    if preexisting then s
    else { s with m_people := hashInsert s.m_people iid { iid := iid } }
  let item := hashValue s1.m_people iid {}
  let oldNameGroup : Option String := if preexisting then item.nameGroup else none
  let oldDisplayLabel : String := if preexisting then item.displayLabel else ""
  let contact : QContact :=
    if preexisting && partialFetch then
      { fetched with details := fetched.details ++
          item.contact.details.filter (fun d => decide (detailType d ∉ queryDetailTypes)) }
    else fetched
  let avatarChanged :=
    (!partialFetch || decide (DetailTypeId.Avatar ∈ queryDetailTypes)) &&
      decide (contact.detailsOfType .Avatar ≠ item.contact.detailsOfType .Avatar)
  let presenceChanged :=
    (!partialFetch || decide (DetailTypeId.GlobalPresence ∈ queryDetailTypes)) &&
      decide ((contact.detailsOfType .GlobalPresence).head? ≠
        (item.contact.detailsOfType .GlobalPresence).head?)
  let indexed := updateContactIndexing env s1 item.contact contact iid queryDetailTypes iid
  let s2 := updateCache env indexed.2 iid contact partialFetch
  let item' := hashValue s2.m_people iid {}
  let roleDataChanged :=
    avatarChanged || presenceChanged || indexed.1 ||
      decide (item'.displayLabel ≠ oldDisplayLabel)
  let grouped : State × List String :=
    if qstringNe item'.nameGroup oldNameGroup then
      if !ignoreContactForNameGroups env item'.contact then
        let added := addToContactNameGroup s2 item'.iid item'.nameGroup acc.2
        match oldNameGroup with
        | none => added
        | some g => removeFromContactNameGroup added.1 item'.iid (some g) added.2
      else (s2, acc.2)
    else (s2, acc.2)
  if roleDataChanged then
    match contactDataChanged grouped.1 item'.iid with
    | none => none
    | some s3 => some (s3, grouped.2)
  else some grouped

/-- The update loop of `SeasideCache::contactsAvailable` over the contacts from `m_resultsRead`
on. -/
def updateContactsFromFetch (env : Env) (queryDetailTypes : List DetailTypeId)
    (partialFetch : Bool) : List QContact → State × List String → Option (State × List String)
  | [], acc => some acc
  | contact :: rest, acc =>
    match updateContactFromFetch env queryDetailTypes partialFetch acc contact with
    | none => none
    | some acc' => updateContactsFromFetch env queryDetailTypes partialFetch rest acc'

/-- `SeasideCache::contactsAvailable`, called by `request` (the fetch-by-id request or the
fetch request). -/
def contactsAvailable (env : Env) (s : State) (request : RequestKind) : Option State :=
  let byId := decide (request = .FetchById)
  let delivered := if byId then s.m_fetchByIdRequest.contacts else s.m_fetchRequest.contacts
  let processed := if byId then s.m_fetchByIdProcessedCount else s.m_fetchProcessedCount
  let contacts := if processed ≠ 0 then delivered.drop processed else delivered
  let s1 :=
    if byId then
      { s with m_fetchByIdProcessedCount := s.m_fetchByIdProcessedCount + contacts.length }
    else { s with m_fetchProcessedCount := s.m_fetchProcessedCount + contacts.length }
  let queryDetailTypes : List DetailTypeId :=
    if byId then [] else s.m_fetchRequest.detailTypesHint
  let partialFetch := !queryDetailTypes.isEmpty
  if s1.m_populateProgress.toNat > PopulateProgress.Unpopulated.toNat ∧
      s1.m_populateProgress.toNat < PopulateProgress.Populated.toNat then
    let type :=
      if s1.m_populateProgress = .FetchFavorites then FilterType.FilterFavorites
      else if s1.m_populateProgress = .FetchMetadata then FilterType.FilterAll
      else FilterType.FilterOnline
    some (appendContacts env s1 contacts type partialFetch)
  else
    match updateContactsFromFetch env queryDetailTypes partialFetch
        (contacts.drop s1.m_resultsRead) (s1, []) with
    | none => none
    | some r =>
      let s2 := r.1
      some (notifyNameGroupsChanged { s2 with m_resultsRead := contacts.length } r.2)

/-! ## Aggregation -/

/-- The first constituent of a list whose cached contact has sync target "local". -/
def firstLocalConstituent (s : State) : List Nat → Option QContact
  | [] => none
  | id :: rest =>
    if (contactById s (apiId id)).syncTarget = syncTargetLocal then
      some (contactById s (apiId id))
    else firstLocalConstituent s rest

/-- The relationships `completeContactAggregation` appends for the constituents of the second
contact: those to save and those to remove. -/
def linkConstituents (s : State) (contact1Id contact2Id : Nat) :
    List Nat → List QContactRelationship × List QContactRelationship
  | [] => ([], [])
  | id :: rest =>
    let c := contactById s (apiId id)
    let r := linkConstituents s contact1Id contact2Id rest
    (makeRelationship aggregateRelationshipType (contactById s contact1Id) c :: r.1,
      makeRelationship aggregateRelationshipType (contactById s contact2Id) c :: r.2)

/-- `SeasideCache::completeContactAggregation`. -/
def completeContactAggregation (env : Env) (s : State) (contact1Id contact2Id : Nat) :
    Option State :=
  let r1 := itemById s contact1Id env.requireCompleteDefault
  let r2 := itemById r1.2 contact2Id env.requireCompleteDefault
  let s2 := r2.2
  match r1.1, r2.1 with
  | some key1, some key2 =>
    match (hashValue s2.m_people key1 {}).itemData, (hashValue s2.m_people key2 {}).itemData with
    | some data1, some data2 =>
      let constituents1 := data1.constituents
      let constituents2 := data2.constituents
      let contact2Local : Option QContact :=
        match firstLocalConstituent s2 constituents1 with
        | none => none
        | some _ => firstLocalConstituent s2 constituents2
      let saved : Option State :=
        match contact2Local with
        | some local2 => saveContact s2 (local2.setSyncTarget syncTargetWasLocal)
        | none => some s2
      match saved with
      | none => none
      | some s3 =>
        let links := linkConstituents s3 contact1Id contact2Id constituents2
        let s4 := { s3 with
          m_relationshipsToSave := s3.m_relationshipsToSave ++ links.1,
          m_relationshipsToRemove := s3.m_relationshipsToRemove ++ links.2 }
        if !s4.m_relationshipsToSave.isEmpty || !s4.m_relationshipsToRemove.isEmpty then
          some (requestUpdate s4)
        else some s4
    | _, _ => some s2
  | _, _ => some s2

/-- The loop of `SeasideCache::updateConstituentAggregations` over the pending pairs from
the iterator on: the pairs it keeps and the cache afterwards. -/
def updateConstituentAggregationsLoop (env : Env) (contactId : Nat) :
    List (ContactLinkRequest × ContactLinkRequest) → State →
      Option (List (ContactLinkRequest × ContactLinkRequest) × State)
  | [], s => some ([], s)
  | pair :: rest, s =>
    let first : ContactLinkRequest :=
      if pair.1.contactId = contactId then { pair.1 with constituentsFetched := true }
      else pair.1
    let second : ContactLinkRequest :=
      if pair.2.contactId = contactId then { pair.2 with constituentsFetched := true }
      else pair.2
    if first.constituentsFetched && second.constituentsFetched then
      match completeContactAggregation env s first.contactId second.contactId with
      | none => none
      | some s1 => updateConstituentAggregationsLoop env contactId rest s1
    else
      match updateConstituentAggregationsLoop env contactId rest s with
      | none => none
      | some r => some ((first, second) :: r.1, r.2)

/-- `SeasideCache::updateConstituentAggregations`. -/
def updateConstituentAggregations (env : Env) (s : State) (contactId : Nat) : Option State :=
  match updateConstituentAggregationsLoop env contactId s.m_contactPairsToLink s with
  | none => none
  | some r =>
    let s1 := r.2
    some { s1 with m_contactPairsToLink := r.1 }

/-! ## The dispatcher -/

/-- `basicFetchHint()`: no detail type hint. -/
def basicFetchHint : List DetailTypeId := []

/-- `metadataFetchHint(fetchTypes)`; `FetchAccountUri`, `FetchPhoneNumber` and
`FetchEmailAddress` (seasidecache.h) are bits 0, 1 and 2. -/
def metadataFetchHint (fetchTypes : Nat) : List DetailTypeId :=
  [.SyncTarget, .Name, .DisplayLabel, .Favorite, .Gender, .StatusFlags] ++
    (if fetchTypes.testBit 0 then [.OnlineAccount] else []) ++
    (if fetchTypes.testBit 1 then [.PhoneNumber] else []) ++
    (if fetchTypes.testBit 2 then [.EmailAddress] else [])

/-- `onlineFetchHint(fetchTypes)`. -/
def onlineFetchHint (fetchTypes : Nat) : List DetailTypeId :=
  metadataFetchHint fetchTypes ++ [.GlobalPresence]

/-- `favoriteFetchHint(fetchTypes)`. -/
def favoriteFetchHint (fetchTypes : Nat) : List DetailTypeId :=
  onlineFetchHint fetchTypes ++ [.Avatar]

/-- Sets filter and fetch hint of `m_fetchRequest` and calls `start()` on it. -/
def startFetchRequest (s : State) (filter : QueryFilter) (hint : List DetailTypeId) : State :=
  let s1 := s.emit (.requestStart .Fetch s.m_fetchRequest.active filter)
  { s1 with m_fetchRequest :=
      { s1.m_fetchRequest with active := true, filter := filter, detailTypesHint := hint } }

/-- Sets the filter of `m_contactIdRequest` and calls `start()` on it. -/
def startContactIdRequest (s : State) (filter : QueryFilter) : State :=
  let s1 := s.emit (.requestStart .ContactId s.m_contactIdRequest.active filter)
  { s1 with m_contactIdRequest := { s1.m_contactIdRequest with active := true, filter := filter } }

/-- The relationship rung of `SeasideCache::event`. -/
def startRelationshipRequests (s : State) : State :=
  let s1 :=
    if !s.m_relationshipsToSave.isEmpty then
      let s' := s.emit (.requestStart .RelationshipSave s.m_relationshipSaveRequest.active .unset)
      { s' with
        m_relationshipSaveRequest := { active := true, relationships := s.m_relationshipsToSave },
        m_relationshipsToSave := [] }
    else s
  if !s1.m_relationshipsToRemove.isEmpty then
    let s' := s1.emit
      (.requestStart .RelationshipRemove s1.m_relationshipRemoveRequest.active .unset)
    { s' with
      m_relationshipRemoveRequest :=
        { active := true, relationships := s1.m_relationshipsToRemove },
      m_relationshipsToRemove := [] }
  else s1

/-- The filter the resolution rung sets for a pending entry. -/
def resolveFilter (resolve : ResolveData) : QueryFilter :=
  if resolve.first = "" then .phoneNumberMatch resolve.second
  else if resolve.second = "" then .emailAddressMatch resolve.first
  else .onlineAccountMatch resolve.first resolve.second

/-- The last rung of `SeasideCache::event`: nothing to dispatch, expired items are erased. -/
def expireContacts (s : State) : State :=
  let expiredContacts := s.m_expiredContacts
  let people := expiredContacts.foldl
    (fun people entry => if entry.2 ≥ 0 then people else hashRemove people (internalId entry.1))
    s.m_people
  { s with m_updatesPending := false, m_expiredContacts := [], m_people := people }

/-- `SeasideCache::event` for an `UpdateRequest` event. -/
def event (s : State) : State :=
  if (!s.m_relationshipsToSave.isEmpty && !s.m_relationshipSaveRequest.active) ||
      (!s.m_relationshipsToRemove.isEmpty && !s.m_relationshipRemoveRequest.active) then
    startRelationshipRequests s
  else if !s.m_contactsToRemove.isEmpty && !s.m_removeRequest.active then
    let s1 := s.emit (.requestStart .Remove s.m_removeRequest.active .unset)
    { s1 with m_removeRequest := { active := true, contactIds := s.m_contactsToRemove },
              m_contactsToRemove := [] }
  else if (!s.m_contactsToCreate.isEmpty || !s.m_contactsToSave.isEmpty) &&
      !s.m_saveRequest.active then
    let contacts := s.m_contactsToCreate ++ s.m_contactsToSave.map (fun e => e.2)
    let s1 := s.emit (.requestStart .Save s.m_saveRequest.active .unset)
    { s1 with m_saveRequest := { active := true, contacts := contacts },
              m_contactsToCreate := [], m_contactsToSave := [] }
  else if !s.m_constituentIds.isEmpty && !s.m_fetchByIdRequest.active then
    let s1 := s.emit (.requestStart .FetchById s.m_fetchByIdRequest.active .unset)
    { s1 with m_fetchByIdRequest :=
                { s1.m_fetchByIdRequest with active := true, ids := s.m_constituentIds },
              m_fetchByIdProcessedCount := 0 }
  else if !s.m_contactsToFetchConstituents.isEmpty && !s.m_relationshipsFetchRequest.active then
    let aggregateId := s.m_contactsToFetchConstituents.headD 0
    let s1 := s.emit
      (.requestStart .RelationshipsFetch s.m_relationshipsFetchRequest.active .unset)
    { s1 with m_relationshipsFetchRequest :=
                { s1.m_relationshipsFetchRequest with active := true, first := aggregateId } }
  else if !s.m_contactsToFetchCandidates.isEmpty && !s.m_contactIdRequest.active then
    let contactId := s.m_contactsToFetchCandidates.headD 0
    startContactIdRequest s (.mergeCandidates (contactById s contactId))
  else if s.m_populateProgress = .Unpopulated && s.m_keepPopulated &&
      !s.m_fetchRequest.active then
    let s1 := startFetchRequest s .favoriteFilter (favoriteFetchHint s.m_fetchTypes)
    { s1 with m_fetchProcessedCount := 0, m_populateProgress := .FetchFavorites }
  else if s.m_populateProgress = .Populated && s.m_fetchTypesChanged &&
      !s.m_fetchRequest.active then
    let s1 := startFetchRequest s .favoriteFilter (favoriteFetchHint s.m_fetchTypes)
    { s1 with m_fetchProcessedCount := 0, m_fetchTypesChanged := false,
              m_populateProgress := .RefetchFavorites }
  else if !s.m_changedContacts.isEmpty && !s.m_fetchRequest.active then
    let s1 := { s with m_resultsRead := 0, m_changedContacts := [] }
    let s2 := startFetchRequest s1 (.changedAggregates s.m_changedContacts) basicFetchHint
    { s2 with m_fetchProcessedCount := 0 }
  else if !s.m_resolveAddresses.isEmpty && !s.m_fetchRequest.active then
    match s.m_resolveAddresses with
    | [] => s
    | resolve :: _ =>
      let s1 := { s with m_activeResolve := some resolve }
      let s2 := startFetchRequest s1 (resolveFilter resolve)
        (if resolve.requireComplete then basicFetchHint else favoriteFetchHint s.m_fetchTypes)
      { s2 with m_fetchProcessedCount := 0 }
  else if s.m_refreshRequired && !s.m_contactIdRequest.active then
    let s1 := { s with m_refreshRequired := false, m_resultsRead := 0,
                       m_syncFilter := .FilterFavorites }
    startContactIdRequest s1 .favoriteFilter
  else expireContacts s

/-! ## Completion of store requests -/

/-- `SeasideCache::makePopulated`. -/
def makePopulated (s : State) (filter : FilterType) : State :=
  notifyModels { s with m_populated := setInsert s.m_populated filter } (s.m_models.get filter)
    (fun m => .makePopulated m)

/-- The call `itemData->constituentsFetched(ids)` on the item stored under `key`, when it has
an item data object: the object keeps the list, which its `constituents()` returns from then
on (as `ItemWatcher` of tst_resolve.cpp does). -/
def constituentsFetched (s : State) (key : Nat) (ids : List Nat) : State :=
  match hashFind s.m_people key with
  | none => s
  | some item =>
    match item.itemData with
    | none => s
    | some data =>
      let s1 := s.emit (.constituentsFetched key ids)
      let item1 : CacheItem := { item with itemData := some { data with constituents := ids } }
      { s1 with m_people := hashInsert s1.m_people key item1 }

/-- The loop of `requestStateChanged` that informs the item data of every contact that is the
first member of a finished relationship. -/
def aggregationOperationsCompleted (env : Env) : List Nat → State → State
  | [], s => s
  | contactId :: rest, s =>
    let r := itemById s contactId env.requireCompleteDefault
    let s1 :=
      match r.1 with
      | none => r.2
      | some key =>
        match (hashValue r.2.m_people key {}).itemData with
        | none => r.2
        | some _ => r.2.emit (.aggregationOperationCompleted key)
    aggregationOperationsCompleted env rest s1

/-- The branch "Result of a specific query" of `requestStateChanged`. -/
def resolveFinished (env : Env) (s : State) : State :=
  match s.m_activeResolve with
  | none => s
  | some active =>
    let r : Option Nat × State :=
      match s.m_fetchRequest.contacts with
      | first :: _ => itemById s (apiId first.id) false
      | [] =>
        let data : ResolveData :=
          if active.first = "" then
            { active with compare := normalizePhoneNumber env active.second }
          else if active.second = "" then { active with compare := env.toLower active.first }
          else { active with compare := env.toLower active.second }
        (none, { s with m_unknownAddresses := s.m_unknownAddresses ++ [data] })
    let s1 := r.2
    let item : Option CacheItem :=
      match r.1 with
      | none => none
      | some key => existingItem s1 key
    let s2 := s1.emit (.addressResolved active.listener active.first active.second item)
    { s2 with m_activeResolve := none, m_resolveAddresses := s2.m_resolveAddresses.tail }

/-- The fetch-request branch of `requestStateChanged`: the cache afterwards and the flag
`activityCompleted`. -/
def fetchRequestFinished (env : Env) (s : State) : State × Bool :=
  if s.m_populateProgress = .Unpopulated && s.m_keepPopulated then
    let s1 := startFetchRequest s .favoriteFilter (favoriteFetchHint s.m_fetchTypes)
    ({ s1 with m_fetchProcessedCount := 0, m_populateProgress := .FetchFavorites }, false)
  else if s.m_populateProgress = .FetchFavorites then
    let s1 := makePopulated s .FilterFavorites
    let s2 := startFetchRequest s1 .allFilter (metadataFetchHint s1.m_fetchTypes)
    ({ s2 with m_fetchProcessedCount := 0, m_fetchTypesChanged := false,
               m_populateProgress := .FetchMetadata }, false)
  else if s.m_populateProgress = .FetchMetadata then
    let s1 := makePopulated (makePopulated s .FilterNone) .FilterAll
    let s2 := startFetchRequest s1 .onlineFilter (onlineFetchHint s1.m_fetchTypes)
    ({ s2 with m_fetchProcessedCount := 0, m_populateProgress := .FetchOnline }, false)
  else if s.m_populateProgress = .FetchOnline then
    let s1 := makePopulated s .FilterOnline
    ({ s1 with m_populateProgress := .Populated }, true)
  else if s.m_populateProgress = .RefetchFavorites then
    let s1 := startFetchRequest s .nonfavoriteFilter (onlineFetchHint s.m_fetchTypes)
    ({ s1 with m_fetchProcessedCount := 0, m_populateProgress := .RefetchOthers }, true)
  else if s.m_populateProgress = .RefetchOthers then
    ({ s with m_populateProgress := .Populated }, true)
  else (resolveFinished env s, true)

/-- The contact-id-request branch of `requestStateChanged`. -/
def contactIdRequestFinished (env : Env) (s : State) : Option (State × Bool) :=
  match s.m_contactsToFetchCandidates with
  | contactId :: rest =>
    let s1 := { s with m_contactsToFetchCandidates := rest }
    let r := itemById s1 contactId env.requireCompleteDefault
    match r.1 with
    | none => none
    | some key =>
      let candidateIds := (r.2.m_candidateIds.map internalId).filter
        (fun iid => decide (iid ≠ internalId contactId))
      let s2 := r.2
      let s3 := { s2 with m_candidateIds := [] }
      match (hashValue s3.m_people key {}).itemData with
      | none => some (s3, true)
      | some _ => some (s3.emit (.mergeCandidatesFetched key candidateIds), true)
  | [] =>
    if s.m_syncFilter ≠ .FilterNone then
      let s1 := env.completeSynchronizeList s
      let s2 := notifyModels s1 (s1.m_models.get s1.m_syncFilter) (fun m => .sourceItemsChanged m)
      if s2.m_syncFilter = .FilterFavorites then
        some (startContactIdRequest { s2 with m_syncFilter := .FilterAll } .allFilter, false)
      else if s2.m_syncFilter = .FilterAll then
        some (startContactIdRequest { s2 with m_syncFilter := .FilterOnline } .onlineFilter,
          false)
      else some (s2, true)
    else some (s, true)

/-- `SeasideCache::requestStateChanged(FinishedState)`, called by `request`; `none` when a
null item pointer is dereferenced. -/
def requestStateChanged (env : Env) (s : State) (request : RequestKind) : Option State :=
  let done : Option (State × Bool) :=
    match request with
    | .RelationshipsFetch =>
      match s.m_contactsToFetchConstituents with
      | [] => some (s, true)
      | aggregateId :: rest =>
        let s1 := { s with m_contactsToFetchConstituents := rest }
        if !s1.m_constituentIds.isEmpty then
          some ({ s1 with m_contactsToLinkTo := s1.m_contactsToLinkTo ++ [aggregateId] }, true)
        else
          let r := itemById s1 aggregateId env.requireCompleteDefault
          match r.1 with
          | none => none
          | some key =>
            let s2 := constituentsFetched r.2 key []
            (updateConstituentAggregations env s2 (hashValue s2.m_people key {}).apiId).map
              (fun s3 => (s3, true))
    | .FetchById =>
      match s.m_contactsToLinkTo with
      | [] => some (s, true)
      | aggregateId :: rest =>
        let s1 := { s with m_contactsToLinkTo := rest }
        let r := itemById s1 aggregateId env.requireCompleteDefault
        match r.1 with
        | none => none
        | some key =>
          let constituentIds := r.2.m_constituentIds.map internalId
          let s2 := r.2
          let s3 := constituentsFetched { s2 with m_constituentIds := [] } key constituentIds
          (updateConstituentAggregations env s3 (hashValue s3.m_people key {}).apiId).map
            (fun s4 => (s4, true))
    | .ContactId => contactIdRequestFinished env s
    | .RelationshipSave | .RelationshipRemove =>
      let contactIds := (s.m_relationshipSaveRequest.relationships ++
        s.m_relationshipRemoveRequest.relationships).foldl (fun set r => setInsert set r.first) []
      some (aggregationOperationsCompleted env contactIds s, true)
    | .Fetch => some (fetchRequestFinished env s)
    | .Remove | .Save => some (s, true)
  match done with
  | none => none
  | some (s1, activityCompleted) =>
    if activityCompleted then some (s1.emit .postUpdateRequest) else some s1

/-! ## Change notifications of the store -/

/-- The loop of `SeasideCache::contactsRemoved` over the removed ids: the cache and
`presentIds`. -/
def reportRemovals : List Nat → State × List Nat → State × List Nat
  | [], acc => acc
  | id :: rest, acc =>
    let s := acc.1
    match existingItem s (internalId id) with
    | none => reportRemovals rest acc
    | some item =>
      let calls :=
        s.m_changeListeners.map (fun l => Notification.changeItemAboutToBeRemoved l item.iid) ++
          item.listeners.map (fun l => Notification.itemAboutToBeRemoved l item.iid)
      let s1 := { s with log := s.log ++ calls }
      let item1 : CacheItem := { item with listeners := [] }
      let s2 := { s1 with m_people := hashInsert s1.m_people (internalId id) item1 }
      reportRemovals rest (s2, if s2.m_keepPopulated then acc.2 else acc.2 ++ [id])

/-- `SeasideCache::contactsRemoved`. -/
def contactsRemoved (s : State) (ids : List Nat) : State :=
  let r := reportRemovals ids (s, [])
  let s1 := r.1
  let expired := List.foldl
    (fun expired id => hashInsert expired id (hashValue expired id 0 + -1))
    s1.m_expiredContacts r.2
  let s2 :=
    if s1.m_keepPopulated then { s1 with m_refreshRequired := true }
    else { s1 with m_expiredContacts := expired }
  requestUpdate s2

/-- The conversion of a `qint64` to `int`: the value modulo 2^32, read as a signed 32 bit
number. -/
def toInt32 (v : Int) : Int :=
  if v % 4294967296 < 2147483648 then v % 4294967296 else v % 4294967296 - 4294967296

/-- `SeasideCache::updateContacts(const QList<ContactIdType> &)`; `elapsed` is the `qint64`
that `m_fetchPostponed.elapsed()` reads from the monotonic clock, and `remainder` is the
`int` that the difference `MaxPostponementMs - m_fetchPostponed.elapsed()` is stored in. -/
def updateContacts (s : State) (contactIds : List Nat) (elapsed : Nat) : State :=
  if contactIds.isEmpty then s
  else
    let s1 := { s with m_contactsUpdated := true,
                       m_changedContacts := s.m_changedContacts ++ contactIds }
    match s1.m_fetchPostponed with
    | some _ =>
      let remainder := toInt32 (5000 - (elapsed : Int))
      if remainder > 0 then { s1 with m_fetchTimer := some (min remainder 500).toNat }
      else s1
    | none => { s1 with m_fetchPostponed := some 0, m_fetchTimer := some 500 }

/-- `SeasideCache::contactsChanged`. -/
def contactsChanged (s : State) (ids : List Nat) (elapsed : Nat) : State :=
  if s.m_keepPopulated then updateContacts s ids elapsed
  else updateContacts s (ids.filter (fun id => (existingItem s (internalId id)).isSome)) elapsed

/-- `SeasideCache::contactsAdded`. -/
def contactsAdded (s : State) (ids : List Nat) (elapsed : Nat) : State :=
  if s.m_keepPopulated then updateContacts s ids elapsed else s

/-- `SeasideCache::keepPopulated`. -/
def keepPopulated (s : State) (fetchTypes : Nat) : State :=
  let s1 :=
    if (s.m_fetchTypes &&& fetchTypes) ≠ fetchTypes then
      requestUpdate { s with m_fetchTypes := s.m_fetchTypes ||| fetchTypes,
                             m_fetchTypesChanged := true }
    else s
  if !s1.m_keepPopulated then requestUpdate { s1 with m_keepPopulated := true } else s1

/-- `SeasideCache::unregisterResolveListener`. -/
def unregisterResolveListener (s : State) (listener : Nat) : State :=
  { s with
    m_activeResolve :=
      match s.m_activeResolve with
      | some active => if active.listener = listener then none else some active
      | none => none,
    m_resolveAddresses := s.m_resolveAddresses.filter (fun d => decide (d.listener ≠ listener)),
    m_unknownAddresses := s.m_unknownAddresses.filter (fun d => decide (d.listener ≠ listener)) }

/-! ## The store's side of a request -/

/-- The store delivers `contacts` as the results so far of the fetch request and signals
`resultsAvailable`. -/
def fetchResultsAvailable (env : Env) (s : State) (contacts : List QContact) : Option State :=
  contactsAvailable env { s with m_fetchRequest := { s.m_fetchRequest with contacts := contacts } }
    .Fetch

/-- The store finishes the fetch request with `contacts` as its results. -/
def fetchFinished (env : Env) (s : State) (contacts : List QContact) : Option State :=
  requestStateChanged env
    { s with m_fetchRequest := { s.m_fetchRequest with active := false, contacts := contacts } }
    .Fetch

/-- The store finishes the relationship-save request. -/
def relationshipSaveFinished (env : Env) (s : State) : Option State :=
  requestStateChanged env
    { s with m_relationshipSaveRequest := { s.m_relationshipSaveRequest with active := false } }
    .RelationshipSave

/-- The store finishes the relationship-remove request. -/
def relationshipRemoveFinished (env : Env) (s : State) : Option State :=
  requestStateChanged env
    { s with m_relationshipRemoveRequest :=
        { s.m_relationshipRemoveRequest with active := false } }
    .RelationshipRemove

/-! ## Example runs -/

/-- The contact Alfred of tst_resolve.cpp, as the store returns it. -/
def alfred : QContact :=
  { id := 1, details := [.name "Alfred" "Alfredson", .phoneNumber "+358474005000",
                         .emailAddress "alfred@alfred.com"] }

/-- The contact Berta of tst_resolve.cpp, as the store returns it. -/
def berta : QContact :=
  { id := 2, details := [.name "Berta" "Berenstain", .emailAddress "berta.b@geemail.com",
                         .onlineAccount "/example/jabber/0" "berta.b@geemail.com"] }

/-- Runs the steps of a list in order, stopping at the first undefined one. -/
def runSteps : List (State → Option State) → State → Option State
  | [], s => some s
  | step :: rest, s =>
    match step s with
    | none => none
    | some s1 => runSteps rest s1

/-- Listener 1 resolves Alfred's e-mail address and the store answers with Alfred; then
listener 2 resolves Berta's e-mail address and the store answers with Berta. -/
def resolveTwoAddresses : Option State :=
  runSteps
    [fun s => some (resolveEmailAddress exampleEnv s 1 "alfred@alfred.com" true).2,
     fun s => some (event s),
     fun s => fetchResultsAvailable exampleEnv s [alfred],
     fun s => fetchFinished exampleEnv s [alfred],
     fun s => some (event s),
     fun s => some (resolveEmailAddress exampleEnv s 2 "berta.b@geemail.com" true).2,
     fun s => some (event s),
     fun s => fetchResultsAvailable exampleEnv s [berta],
     fun s => fetchFinished exampleEnv s [berta]]
    State.init

/-- The `addressResolved` calls in a log: listener, address pair and item. -/
def addressResolutions (log : List Notification) :
    List (Nat × String × String × Option CacheItem) :=
  log.filterMap (fun n =>
    match n with
    | .addressResolved listener first second item => some (listener, first, second, item)
    | _ => none)

/-- Listener 4 resolves a phone number, the dispatcher starts the store query, a model is
registered (`keepPopulated`) while the query is in flight, and the query finishes with no
contact. -/
def resolveWhilePopulationStarts : Option State :=
  runSteps
    [fun s => some (resolvePhoneNumber exampleEnv s 4 "+358470000000" true).2,
     fun s => some (event s),
     fun s => some (keepPopulated s 0),
     fun s => fetchFinished exampleEnv s []]
    State.init

/-- The comparison key `requestStateChanged` gives an entry that found no contact. -/
def unknownCompareKey (env : Env) (data : ResolveData) : String :=
  if data.first = "" then normalizePhoneNumber env data.second
  else if data.second = "" then env.toLower data.first
  else env.toLower data.second

/-- A contact with a phone number and an online account whose account path and account uri
are both the string that listener 5 resolves as an e-mail address. -/
def carla : QContact :=
  { id := 3, details := [.name "Carla" "Rizzi", .phoneNumber "5550001",
                         .onlineAccount "room@chat" "Room@Chat"] }

/-- A cache whose unknown-address list holds the e-mail entry of listener 5 for "room@chat",
and which has an item for contact 3. -/
def emailEntryUnknown : State :=
  { m_people := [(3, { iid := 3, contact := { id := 3 } })],
    m_unknownAddresses :=
      [{ first := "room@chat", second := "", compare := "room@chat", listener := 5 }] }

/-- Listener 5 resolves the e-mail address "room@chat", which no contact has; later listener
6 resolves Carla's phone number and the store delivers Carla. -/
def resolveEmailThenAccountAppears : Option State :=
  runSteps
    [fun s => some (resolveEmailAddress exampleEnv s 5 "room@chat" true).2,
     fun s => some (event s),
     fun s => fetchFinished exampleEnv s [],
     fun s => some (event s),
     fun s => some (resolvePhoneNumber exampleEnv s 6 "5550001" true).2,
     fun s => some (event s),
     fun s => fetchResultsAvailable exampleEnv s [carla],
     fun s => fetchFinished exampleEnv s [carla]]
    State.init

/-- The contact Carlo of tst_resolve.cpp, as the store returns it. -/
def carlo : QContact :=
  { id := 3, details := [.name "Carlo" "Rizzi", .phoneNumber "+358471112222"] }

/-- Carlo's number is resolved and indexed; the store then reports Carlo removed, and the
dispatcher runs until it is idle. -/
def resolveThenRemove : Option State :=
  runSteps
    [fun s => some (resolvePhoneNumber exampleEnv s 1 "+358471112222" true).2,
     fun s => some (event s),
     fun s => fetchResultsAvailable exampleEnv s [carlo],
     fun s => fetchFinished exampleEnv s [carlo],
     fun s => some (event s),
     fun s => some (contactsRemoved s [3]),
     fun s => some (event s)]
    State.init

/-- Two constituents are split from aggregate 1, the second while the relationship-save
request of the first split is still in flight and its relationship-remove request has
finished. -/
def splitTwiceBeforeWake : Option State :=
  runSteps
    [fun s => disaggregateContacts s { id := 1 } { id := 11 },
     fun s => some (event s),
     fun s => relationshipRemoveFinished exampleEnv s,
     fun s => disaggregateContacts s { id := 1 } { id := 12 }]
    State.init

/-- The `start()` calls in a log: the request and whether it was active at the call. -/
def requestStarts (log : List Notification) : List (RequestKind × Bool) :=
  log.filterMap (fun n =>
    match n with
    | .requestStart kind wasActive _ => some (kind, wasActive)
    | _ => none)

/-- Aggregates 1 and 2 with an item data object each; 1 has the local constituent 11, 2 has
the constituents 12 (local) and 13 (synced from elsewhere). -/
def twoAggregatesWithLocals : State :=
  { m_people :=
      [(1, { iid := 1, contact := { id := 1, details := [.syncTarget "aggregate"] },
             contactState := .ContactComplete, itemData := some { constituents := [11] } }),
       (2, { iid := 2, contact := { id := 2, details := [.syncTarget "aggregate"] },
             contactState := .ContactComplete, itemData := some { constituents := [12, 13] } }),
       (11, { iid := 11, contact := { id := 11, details := [.syncTarget "local"] },
              contactState := .ContactComplete }),
       (12, { iid := 12, contact := { id := 12, details := [.syncTarget "local"] },
              contactState := .ContactComplete }),
       (13, { iid := 13, contact := { id := 13, details := [.syncTarget "telepathy"] },
              contactState := .ContactComplete })] }

/-- Listener 4 resolves the same unknown number twice; the dispatcher is woken, the first
store query finishes with no contact, and the dispatcher is woken again. -/
def resolveSameAddressTwice : Option State :=
  runSteps
    [fun s => some (resolvePhoneNumber exampleEnv s 4 "+358470000000" true).2,
     fun s => some (resolvePhoneNumber exampleEnv s 4 "+358470000000" true).2,
     fun s => some (event s),
     fun s => fetchFinished exampleEnv s [],
     fun s => some (event s)]
    State.init

/-- The store queries started on the fetch request in a log: their filters. -/
def fetchQueries (log : List Notification) : List QueryFilter :=
  log.filterMap (fun n =>
    match n with
    | .requestStart .Fetch _ filter => some filter
    | _ => none)

/-- No rung of `event` above the resolution rung has work it can start, and the fetch
request is idle. -/
def resolutionRungNext (s : State) : Bool :=
  !((!s.m_relationshipsToSave.isEmpty && !s.m_relationshipSaveRequest.active) ||
    (!s.m_relationshipsToRemove.isEmpty && !s.m_relationshipRemoveRequest.active)) &&
  !(!s.m_contactsToRemove.isEmpty && !s.m_removeRequest.active) &&
  !((!s.m_contactsToCreate.isEmpty || !s.m_contactsToSave.isEmpty) &&
    !s.m_saveRequest.active) &&
  !(!s.m_constituentIds.isEmpty && !s.m_fetchByIdRequest.active) &&
  !(!s.m_contactsToFetchConstituents.isEmpty && !s.m_relationshipsFetchRequest.active) &&
  !(!s.m_contactsToFetchCandidates.isEmpty && !s.m_contactIdRequest.active) &&
  !(s.m_populateProgress = .Unpopulated && s.m_keepPopulated) &&
  !(s.m_populateProgress = .Populated && s.m_fetchTypesChanged) &&
  s.m_changedContacts.isEmpty && !s.m_fetchRequest.active

/-- The identity store and the three address indexes of `s'` are those of `s`. -/
def SameStore (s s' : State) : Prop :=
  s'.m_people = s.m_people ∧ SameIndexes s s'

/-- The name-group sets and the id sequence of every view of `s'` are those of `s`. -/
def SameViews (s s' : State) : Prop :=
  s'.m_contactNameGroups = s.m_contactNameGroups ∧ s'.m_contacts = s.m_contacts

/-- The view `filter` of `s'` is that of `s`, or that of `s` without one row that held
`iid`. -/
def ViewWithout (s s' : State) (iid : Nat) (filter : FilterType) : Prop :=
  s'.m_contacts.get filter = s.m_contacts.get filter ∨
    ∃ row : Nat, (s.m_contacts.get filter).get? row = some iid ∧
      s'.m_contacts.get filter = removeAt (s.m_contacts.get filter) row

/-- A cache in which contact 5 is in the All view and in the name group "A", and contact 6
has a stale entry in the reverse index of the All view. -/
def viewWithStaleIndex : State :=
  { m_people := [(5, { iid := 5, contact := { id := 5 }, nameGroup := some "A" })],
    m_contacts := { filterNone := [], filterAll := [5], filterFavorites := [],
                    filterOnline := [] },
    m_contactIndices := { filterNone := [], filterAll := [(5, 0), (6, 0)],
                          filterFavorites := [], filterOnline := [] },
    m_contactNameGroups := [("A", [5])] }

/-- The three kinds of address pair. -/
inductive AddressKind
  | phoneNumber | emailAddress | onlineAccount
  deriving DecidableEq, Repr

/-- The kind of an address pair, told the way `resolveUnknownAddresses`, `requestStateChanged`
and `event` tell it: an empty first part marks a phone number, otherwise an empty second part
marks an e-mail address. -/
def addressKind (first second : String) : AddressKind :=
  if first = "" then .phoneNumber
  else if second = "" then .emailAddress
  else .onlineAccount

/-- An unknown entry waits for the updated address pair: both are of the same kind and the
entry's comparison key is the updated normalized address (for an online account, with the
same local id). -/
def entryAwaits (first second : String) (it : ResolveData) : Prop :=
  addressKind it.first it.second = addressKind first second ∧
    match addressKind first second with
    | .phoneNumber => it.compare = second
    | .emailAddress => it.compare = first
    | .onlineAccount => it.first = first ∧ it.compare = second

/-- Every position held by the reverse index of view `filter` lies inside the view's id
sequence, so `contactIndex` reads the sequence within its bounds. -/
def IndicesInRange (s : State) (filter : FilterType) : Prop :=
  ∀ iid index, hashFind (s.m_contactIndices.get filter) iid = some index →
    (listAt (s.m_contacts.get filter) index).isSome

/-- The id sequence and the reverse index of view `filter` are the same in `s` and `s'`. -/
def SameView (s s' : State) (filter : FilterType) : Prop :=
  s'.m_contacts.get filter = s.m_contacts.get filter ∧
    s'.m_contactIndices.get filter = s.m_contactIndices.get filter

/-! ## Ranges of a view and the results of the other requests -/

/-- `SeasideCache::registerChangeListener`. -/
def registerChangeListener (s : State) (listener : Nat) : State :=
  { s with m_changeListeners := s.m_changeListeners ++ [listener] }

/-- `SeasideCache::relationshipsAvailable`: the second contact of every `Aggregates`
relationship the relationship fetch request has delivered is inserted into
`m_constituentIds`. -/
def relationshipsAvailable (s : State) : State :=
  let constituentIds := s.m_relationshipsFetchRequest.relationships.foldl
    (fun ids rel =>
      if rel.relationshipType = aggregateRelationshipType then setInsert ids (apiId rel.second)
      else ids)
    s.m_constituentIds
  { s with m_constituentIds := constituentIds }

/-- `SeasideCache::contactIdsAvailable`. -/
def contactIdsAvailable (env : Env) (s : State) : State :=
  if !s.m_contactsToFetchCandidates.isEmpty then
    let candidateIds := s.m_contactIdRequest.ids.foldl setInsert s.m_candidateIds
    { s with m_candidateIds := candidateIds }
  else if s.m_syncFilter ≠ .FilterNone then env.synchronizeList s
  else s

/-- The loop of `SeasideCache::removeRange` over `count` rows; `none` when `cacheIds.at(index)`
reads outside the view's id list. -/
def removeRangeLoop (filter : FilterType) (index : Nat) : Nat → State → Option State
  | 0, s => some s
  | count + 1, s =>
    match listAt (s.m_contacts.get filter) (Int.ofNat index) with
    | none => none
    | some iid =>
      let expired :=
        if filter = .FilterAll then
          hashInsert s.m_expiredContacts (apiId iid) (hashValue s.m_expiredContacts (apiId iid) 0 - 1)
        else s.m_expiredContacts
      let indices := hashRemove (s.m_contactIndices.get filter) iid
      let cacheIds := removeAt (s.m_contacts.get filter) index
      let s1 := { s with m_expiredContacts := expired,
                         m_contactIndices := s.m_contactIndices.set filter indices,
                         m_contacts := s.m_contacts.set filter cacheIds }
      removeRangeLoop filter index count s1

/-- `SeasideCache::removeRange`. -/
def removeRange (s : State) (filter : FilterType) (index count : Nat) : Option State :=
  let models := s.m_models.get filter
  let s1 := notifyModels s models
    (fun m => .sourceAboutToRemoveItems m (Int.ofNat index) (Int.ofNat index + Int.ofNat count - 1))
  match removeRangeLoop filter index count s1 with
  | none => none
  | some s2 => some (notifyModels s2 models (fun m => .sourceItemsRemoved m))

/-- `QList<T>::insert(i, value)`: a position past the end appends. -/
def insertAt {α : Type} (l : List α) (i : Nat) (a : α) : List α :=
  l.take i ++ a :: l.drop i

/-- The loop of `SeasideCache::insertRange`, at its iteration `i` with `remaining` iterations
to go; `none` when `queryIds.at(queryIndex + i)` reads outside the list. -/
def insertRangeLoop (env : Env) (filter : FilterType) (index : Nat) (queryIds : List Nat)
    (queryIndex : Nat) : Nat → Nat → State → Option State
  | 0, _, s => some s
  | remaining + 1, i, s =>
    match listAt queryIds (Int.ofNat (queryIndex + i)) with
    | none => none
    | some iid =>
      if iid = internalId env.selfContactId then
        insertRangeLoop env filter index queryIds queryIndex remaining (i + 1) s
      else
        let expired :=
          if filter = .FilterAll then
            hashInsert s.m_expiredContacts (apiId iid)
              (hashValue s.m_expiredContacts (apiId iid) 0 + 1)
          else s.m_expiredContacts
        let cacheIds := insertAt (s.m_contacts.get filter) (index + i) iid
        let indices := hashInsert (s.m_contactIndices.get filter) iid (Int.ofNat (index + i))
        let s1 := { s with m_expiredContacts := expired,
                           m_contacts := s.m_contacts.set filter cacheIds,
                           m_contactIndices := s.m_contactIndices.set filter indices }
        insertRangeLoop env filter index queryIds queryIndex remaining (i + 1) s1

/-- `SeasideCache::insertRange`: the cache afterwards and the count returned. -/
def insertRange (env : Env) (s : State) (filter : FilterType) (index count : Nat)
    (queryIds : List Nat) (queryIndex : Nat) : Option (State × Int) :=
  let models := s.m_models.get filter
  let end_ : Int := Int.ofNat index + Int.ofNat count - 1
  let s1 := notifyModels s models (fun m => .sourceAboutToInsertItems m (Int.ofNat index) end_)
  match insertRangeLoop env filter index queryIds queryIndex count 0 s1 with
  | none => none
  | some s2 =>
    some (notifyModels s2 models (fun m => .sourceItemsInserted m (Int.ofNat index) end_),
      end_ - Int.ofNat index + 1)

/-- The store delivers `relationships` as the results so far of the relationship fetch request
and signals `resultsAvailable`. -/
def relationshipsFetchResultsAvailable (s : State) (relationships : List QContactRelationship) :
    State :=
  let request := { s.m_relationshipsFetchRequest with relationships := relationships }
  relationshipsAvailable { s with m_relationshipsFetchRequest := request }

/-- The store finishes the relationship fetch request. -/
def relationshipsFetchFinished (env : Env) (s : State) : Option State :=
  let request := { s.m_relationshipsFetchRequest with active := false }
  requestStateChanged env { s with m_relationshipsFetchRequest := request } .RelationshipsFetch

/-- The store delivers `contacts` as the results so far of the fetch-by-id request and signals
`resultsAvailable`. -/
def fetchByIdResultsAvailable (env : Env) (s : State) (contacts : List QContact) : Option State :=
  contactsAvailable env
    { s with m_fetchByIdRequest := { s.m_fetchByIdRequest with contacts := contacts } } .FetchById

/-- The store finishes the fetch-by-id request. -/
def fetchByIdFinished (env : Env) (s : State) : Option State :=
  requestStateChanged env
    { s with m_fetchByIdRequest := { s.m_fetchByIdRequest with active := false } } .FetchById

/-- The contact Dora, as the store returns her for the metadata query of the population. -/
def dora : QContact :=
  { id := 4, details := [.name "Dora" "Dorn", .syncTarget "aggregate"] }

/-- The contact Edgar, as the store returns him for the metadata query of the population. -/
def edgar : QContact :=
  { id := 6, details := [.name "Edgar" "Ems", .syncTarget "aggregate"] }

/-- The cache is populated with Dora and Edgar (no favourites, nobody online), the dispatcher
runs to idle, and Dora is removed with `removeContact`. -/
def populateTwoThenRemoveFirst : Option State :=
  runSteps
    [fun s => some (keepPopulated s 0),
     fun s => some (event s),
     fun s => fetchFinished exampleEnv s [],
     fun s => fetchResultsAvailable exampleEnv s [dora, edgar],
     fun s => fetchFinished exampleEnv s [dora, edgar],
     fun s => fetchFinished exampleEnv s [],
     fun s => some (event s),
     fun s => (removeContact s dora).map (fun r => r.2)]
    State.init

/-- Items for contacts 4 and 6 are requested complete with `itemById`; the dispatcher starts
the fetch of the changed contacts, and the store delivers its two results in two batches,
first Dora alone and then Dora and Edgar, before it finishes. -/
def fetchTwoInTwoBatches : Option State :=
  runSteps
    [fun s => some (itemById s 4 true).2,
     fun s => some (itemById s 6 true).2,
     fun s => some (event s),
     fun s => fetchResultsAvailable exampleEnv s [dora],
     fun s => fetchResultsAvailable exampleEnv s [dora, edgar],
     fun s => fetchFinished exampleEnv s [dora, edgar]]
    State.init

/-- The same requests as in `fetchTwoInTwoBatches`, with the store delivering both results in
one batch. -/
def fetchTwoInOneBatch : Option State :=
  runSteps
    [fun s => some (itemById s 4 true).2,
     fun s => some (itemById s 6 true).2,
     fun s => some (event s),
     fun s => fetchResultsAvailable exampleEnv s [dora, edgar],
     fun s => fetchFinished exampleEnv s [dora, edgar]]
    State.init

/-- The assignment `item->itemData = new ItemWatcher` that tst_resolve.cpp makes on an item it
got from the cache; the watcher starts with no constituents. -/
def attachItemData (s : State) (key : Nat) : State :=
  match hashFind s.m_people key with
  | none => s
  | some item =>
    let item1 : CacheItem := { item with itemData := some { constituents := [] } }
    { s with m_people := hashInsert s.m_people key item1 }

/-- The local constituent of Dora, as the store returns it. -/
def doraLocal : QContact :=
  { id := 41, details := [.name "Dora" "Dorn", .syncTarget "local"] }

/-- Dora (4) and Edgar (6) are cached and given item data, and are then merged with
`aggregateContacts`; the dispatcher starts Dora's relationship fetch. Meanwhile constituent 81
is split from aggregate 8, which wakes the dispatcher a second time and starts the
relationship save and remove requests. Dora's relationship fetch returns her constituent 41
and finishes, and the wake it posts starts the fetch of contact 41 by id. The relationship
save finishes while that fetch is in flight, and the wake it posts starts Edgar's relationship
fetch, which returns his constituent 61 and finishes. -/
def linkTwoWhileSplitting : Option State :=
  match fetchTwoInOneBatch with
  | none => none
  | some s0 =>
    runSteps
      [fun s => some (event s),
       fun s => some (attachItemData (attachItemData s 4) 6),
       fun s => some (aggregateContacts s dora edgar),
       fun s => some (event s),
       fun s => disaggregateContacts s { id := 8 } { id := 81 },
       fun s => some (event s),
       fun s => some (relationshipsFetchResultsAvailable s
          [{ relationshipType := "Aggregates", first := 4, second := 41 }]),
       fun s => relationshipsFetchFinished exampleEnv s,
       fun s => some (event s),
       fun s => relationshipSaveFinished exampleEnv s,
       fun s => some (event s),
       fun s => some (relationshipsFetchResultsAvailable s
          [{ relationshipType := "Aggregates", first := 6, second := 61 }]),
       fun s => relationshipsFetchFinished exampleEnv s]
      s0

/-- The run `linkTwoWhileSplitting` continued: the fetch of contact 41 by id delivers it and
finishes, the relationship remove request finishes, the fetch of the changed contact 8 that the
dispatcher starts delivers nothing, and the dispatcher is woken once for every wake posted. -/
def linkTwoWhileSplittingToIdle : Option State :=
  match linkTwoWhileSplitting with
  | none => none
  | some s0 =>
    runSteps
      [fun s => fetchByIdResultsAvailable exampleEnv s [doraLocal],
       fun s => fetchByIdFinished exampleEnv s,
       fun s => some (event s),
       fun s => relationshipRemoveFinished exampleEnv s,
       fun s => some (event s),
       fun s => fetchFinished exampleEnv s [],
       fun s => some (event s),
       fun s => some (event s)]
      s0

/-- The calls `constituentsFetched(ids)` in a log: the item and the id list of each. -/
def constituentsReports (log : List Notification) : List (Nat × List Nat) :=
  log.filterMap (fun n =>
    match n with
    | .constituentsFetched iid ids => some (iid, ids)
    | _ => none)

/-- The wakes posted in a log: their number. -/
def wakesPosted (log : List Notification) : Nat :=
  (log.filter (fun n => decide (n = .postUpdateRequest))).length

/-- Carlo, as the store returns him for the metadata query of the population: the details of
the queried types only. -/
def carloMetadata : QContact :=
  { id := 3, details := [.name "Carlo" "Rizzi", .syncTarget "aggregate"] }

/-- Carlo's number is resolved with a complete fetch and the dispatcher runs to idle. -/
def resolveCarlo : Option State :=
  runSteps
    [fun s => some (resolvePhoneNumber exampleEnv s 1 "+358471112222" true).2,
     fun s => some (event s),
     fun s => fetchResultsAvailable exampleEnv s [carlo],
     fun s => fetchFinished exampleEnv s [carlo],
     fun s => some (event s)]
    State.init

/-- After `resolveCarlo` the cache is told to stay populated; the favourites query finds
nobody, and the metadata query delivers Carlo. -/
def resolveCarloThenPopulate : Option State :=
  match resolveCarlo with
  | none => none
  | some s0 =>
    runSteps
      [fun s => some (keepPopulated s 0),
       fun s => some (event s),
       fun s => fetchFinished exampleEnv s [],
       fun s => fetchResultsAvailable exampleEnv s [carloMetadata]]
      s0

/-- `SeasideCache::timerEvent` for the timer `m_fetchTimer`. -/
def fetchTimerEvent (s : State) : State :=
  fetchContacts s

/-- The store delivers `ids` as the results so far of the contact id request and signals
`resultsAvailable`. -/
def contactIdResultsAvailable (env : Env) (s : State) (ids : List Nat) : State :=
  contactIdsAvailable env { s with m_contactIdRequest := { s.m_contactIdRequest with ids := ids } }

/-- The store finishes the contact id request. -/
def contactIdFinished (env : Env) (s : State) : Option State :=
  requestStateChanged env
    { s with m_contactIdRequest := { s.m_contactIdRequest with active := false } } .ContactId

/-- The contact Freddy of tst_resolve.cpp, as the store returns him. -/
def freddy : QContact :=
  { id := 7, details := [.name "Freddy" "Fugazi", .phoneNumber "61188889999",
                         .syncTarget "aggregate"] }

/-- The contact Graeme of tst_resolve.cpp, whose number has the minimized form of Freddy's. -/
def graeme : QContact :=
  { id := 8, details := [.name "Graeme" "Garden", .phoneNumber "99988889999",
                         .syncTarget "aggregate"] }

/-- Change listener 9 is registered and the cache is populated from an empty store; the store
then reports contact 7 added, the fetch timer fires, Freddy is fetched, and the views are
resynchronised until the dispatcher is idle. -/
def cacheFreddy : Option State :=
  runSteps
    [fun s => some (registerChangeListener s 9),
     fun s => some (keepPopulated s 0),
     fun s => some (event s),
     fun s => fetchFinished exampleEnv s [],
     fun s => fetchFinished exampleEnv s [],
     fun s => fetchFinished exampleEnv s [],
     fun s => some (event s),
     fun s => some (contactsAdded s [7] 0),
     fun s => some (fetchTimerEvent s),
     fun s => some (event s),
     fun s => fetchResultsAvailable exampleEnv s [freddy],
     fun s => fetchFinished exampleEnv s [freddy],
     fun s => some (event s),
     fun s => contactIdFinished exampleEnv s,
     fun s => contactIdFinished exampleEnv s,
     fun s => contactIdFinished exampleEnv s,
     fun s => some (event s)]
    State.init

/-- After `cacheFreddy` the store reports contact 8 added, the fetch timer fires, and Graeme
is fetched. -/
def cacheFreddyThenGraeme : Option State :=
  match cacheFreddy with
  | none => none
  | some s0 =>
    runSteps
      [fun s => some (contactsAdded s [8] 0),
       fun s => some (fetchTimerEvent s),
       fun s => some (event s),
       fun s => fetchResultsAvailable exampleEnv s [graeme],
       fun s => fetchFinished exampleEnv s [graeme]]
      s0

/-- The calls made on the change listener `listener` in a log. -/
def changeListenerCalls (log : List Notification) (listener : Nat) : List Notification :=
  log.filter (fun n =>
    match n with
    | .changeItemUpdated l _ => decide (l = listener)
    | .changeItemAboutToBeRemoved l _ => decide (l = listener)
    | _ => false)

/-! ## The priority ladder of the dispatcher, as the specification words it -/

/-- The rungs of the dispatcher, named as the specification names them. -/
inductive Rung
  | relationships | removals | saves | constituentsById | constituentRelationships
  | mergeCandidates | population | refetch | changedContacts | resolution | resync
  deriving DecidableEq, Repr

/-- The order of the rungs as the specification gives it: relationship saves/removals, contact
removals, contact creates/saves, constituent fetch-by-id, constituent relationship fetch,
merge-candidate id query, initial population, refetch after a fetch-type change, changed-id
fetch, pending address resolution fetch, deferred full resync. -/
def ladder : List Rung :=
  [.relationships, .removals, .saves, .constituentsById, .constituentRelationships,
   .mergeCandidates, .population, .refetch, .changedContacts, .resolution, .resync]

/-- The guard of a rung: work of its kind is pending and the request of its kind is idle. -/
def Rung.guard (s : State) : Rung → Bool
  | .relationships =>
    (!s.m_relationshipsToSave.isEmpty && !s.m_relationshipSaveRequest.active) ||
      (!s.m_relationshipsToRemove.isEmpty && !s.m_relationshipRemoveRequest.active)
  | .removals => !s.m_contactsToRemove.isEmpty && !s.m_removeRequest.active
  | .saves =>
    (!s.m_contactsToCreate.isEmpty || !s.m_contactsToSave.isEmpty) && !s.m_saveRequest.active
  | .constituentsById => !s.m_constituentIds.isEmpty && !s.m_fetchByIdRequest.active
  | .constituentRelationships =>
    !s.m_contactsToFetchConstituents.isEmpty && !s.m_relationshipsFetchRequest.active
  | .mergeCandidates => !s.m_contactsToFetchCandidates.isEmpty && !s.m_contactIdRequest.active
  | .population =>
    s.m_populateProgress = .Unpopulated && s.m_keepPopulated && !s.m_fetchRequest.active
  | .refetch =>
    s.m_populateProgress = .Populated && s.m_fetchTypesChanged && !s.m_fetchRequest.active
  | .changedContacts => !s.m_changedContacts.isEmpty && !s.m_fetchRequest.active
  | .resolution => !s.m_resolveAddresses.isEmpty && !s.m_fetchRequest.active
  | .resync => s.m_refreshRequired && !s.m_contactIdRequest.active

/-- What a rung does when it is the one executed: the body of its branch in
`SeasideCache::event`. -/
def Rung.body (s : State) : Rung → State
  | .relationships => startRelationshipRequests s
  | .removals =>
    let s1 := s.emit (.requestStart .Remove s.m_removeRequest.active .unset)
    { s1 with m_removeRequest := { active := true, contactIds := s.m_contactsToRemove },
              m_contactsToRemove := [] }
  | .saves =>
    let contacts := s.m_contactsToCreate ++ s.m_contactsToSave.map (fun e => e.2)
    let s1 := s.emit (.requestStart .Save s.m_saveRequest.active .unset)
    { s1 with m_saveRequest := { active := true, contacts := contacts },
              m_contactsToCreate := [], m_contactsToSave := [] }
  | .constituentsById =>
    let s1 := s.emit (.requestStart .FetchById s.m_fetchByIdRequest.active .unset)
    { s1 with m_fetchByIdRequest :=
                { s1.m_fetchByIdRequest with active := true, ids := s.m_constituentIds },
              m_fetchByIdProcessedCount := 0 }
  | .constituentRelationships =>
    let aggregateId := s.m_contactsToFetchConstituents.headD 0
    let s1 := s.emit
      (.requestStart .RelationshipsFetch s.m_relationshipsFetchRequest.active .unset)
    { s1 with m_relationshipsFetchRequest :=
                { s1.m_relationshipsFetchRequest with active := true, first := aggregateId } }
  | .mergeCandidates =>
    let contactId := s.m_contactsToFetchCandidates.headD 0
    startContactIdRequest s (.mergeCandidates (contactById s contactId))
  | .population =>
    let s1 := startFetchRequest s .favoriteFilter (favoriteFetchHint s.m_fetchTypes)
    { s1 with m_fetchProcessedCount := 0, m_populateProgress := .FetchFavorites }
  | .refetch =>
    let s1 := startFetchRequest s .favoriteFilter (favoriteFetchHint s.m_fetchTypes)
    { s1 with m_fetchProcessedCount := 0, m_fetchTypesChanged := false,
              m_populateProgress := .RefetchFavorites }
  | .changedContacts =>
    let s1 := { s with m_resultsRead := 0, m_changedContacts := [] }
    let s2 := startFetchRequest s1 (.changedAggregates s.m_changedContacts) basicFetchHint
    { s2 with m_fetchProcessedCount := 0 }
  | .resolution =>
    match s.m_resolveAddresses with
    | [] => s
    | resolve :: _ =>
      let s1 := { s with m_activeResolve := some resolve }
      let s2 := startFetchRequest s1 (resolveFilter resolve)
        (if resolve.requireComplete then basicFetchHint else favoriteFetchHint s.m_fetchTypes)
      { s2 with m_fetchProcessedCount := 0 }
  | .resync =>
    let s1 := { s with m_refreshRequired := false, m_resultsRead := 0,
                       m_syncFilter := .FilterFavorites }
    startContactIdRequest s1 .favoriteFilter

/-- One wake of the ladder as the specification words it: the first rung of the order whose
guard holds is executed and no other; when no guard holds the updates-pending flag is
cleared (and the expired items are erased). -/
def ladderStep (s : State) : State :=
  match ladder.find? (fun r => r.guard s) with
  | some r => r.body s
  | none => expireContacts s

/-- Whether a call in the log is a `start()` of a store request. -/
def isRequestStart : Notification → Bool
  | .requestStart _ _ _ => true
  | _ => false

/-- A cache whose indexes hold a number of contact 5, Alfred's e-mail address and Berta's
online account. -/
def indexedCache : State :=
  { m_people := [(1, { iid := 1, contact := alfred }), (2, { iid := 2, contact := berta }),
                 (5, { iid := 5, contact := { id := 5 } })],
    m_phoneNumberIds := [("0009955", 5)],
    m_emailAddressIds := [("alfred@alfred.com", 1)],
    m_onlineAccountIds := [(("/example/jabber/0", "berta.b@geemail.com"), 2)] }

/-! ## A resolve listener after it has unregistered -/

/-- The number of `addressResolved` calls on `listener` in a log. -/
def notificationsTo (log : List Notification) (listener : Nat) : Nat :=
  (log.filter (fun n =>
    match n with
    | .addressResolved l _ _ _ => decide (l = listener)
    | _ => false)).length

/-- No pending entry, no unknown-address entry and no active resolution belongs to `listener`,
and the log holds `count` calls of `addressResolved` on it. -/
def Unheard (listener count : Nat) (s : State) : Prop :=
  (∀ d ∈ s.m_resolveAddresses, d.listener ≠ listener) ∧
  (∀ d ∈ s.m_unknownAddresses, d.listener ≠ listener) ∧
  (∀ a, s.m_activeResolve = some a → a.listener ≠ listener) ∧
  notificationsTo s.log listener = count

/-- The resolution queues and the active resolution of `s'` are those of `s`, and the log of
`s'` holds as many `addressResolved` calls on `listener` as that of `s`. -/
def SameResolution (listener : Nat) (s s' : State) : Prop :=
  s'.m_resolveAddresses = s.m_resolveAddresses ∧
  s'.m_unknownAddresses = s.m_unknownAddresses ∧
  s'.m_activeResolve = s.m_activeResolve ∧
  notificationsTo s'.log listener = notificationsTo s.log listener

/-- What may happen to the cache later on: a wake of the dispatcher, the completion of the
fetch request with some results, an index update for a contact, and resolve calls. -/
inductive LaterStep
  | wake
  | fetchDone (contacts : List QContact)
  | indexUpdate (oldContact contact : QContact) (iid : Nat)
      (queryDetailTypes : List DetailTypeId) (item : Nat)
  | phoneResolve (listener : Nat) (number : String) (requireComplete : Bool)
  | emailResolve (listener : Nat) (address : String) (requireComplete : Bool)
  | accountResolve (listener : Nat) (localUid remoteUid : String)
      (requireComplete : Bool)

/-- The cache after a later step. -/
def LaterStep.run (env : Env) (s : State) : LaterStep → State
  | .wake => event s
  | .fetchDone contacts => (fetchFinished env s contacts).getD s
  | .indexUpdate oldContact contact iid queryDetailTypes item =>
    (updateContactIndexing env s oldContact contact iid queryDetailTypes item).2
  | .phoneResolve listener number requireComplete =>
    (resolvePhoneNumber env s listener number requireComplete).2
  | .emailResolve listener address requireComplete =>
    (resolveEmailAddress env s listener address requireComplete).2
  | .accountResolve listener localUid remoteUid requireComplete =>
    (resolveOnlineAccount env s listener localUid remoteUid requireComplete).2

/-- Whether a later step is a resolve call made by `listener`. -/
def LaterStep.isBy (listener : Nat) : LaterStep → Bool
  | .phoneResolve l _ _ => decide (l = listener)
  | .emailResolve l _ _ => decide (l = listener)
  | .accountResolve l _ _ _ => decide (l = listener)
  | _ => false

/-- The cache after a list of later steps, in order. -/
def runLater (env : Env) : List LaterStep → State → State
  | [], s => s
  | step :: rest, s => runLater env rest (step.run env s)

/-- A cache in the middle of resolving: listener 4 has the active resolution and an entry of
the unknown-address list for Carlo's number, listener 5 has a pending entry and an entry of
the unknown-address list for the same number. -/
def resolvingCache : State :=
  { m_resolveAddresses := [{ second := "+358470000001", listener := 4 },
                           { first := "berta.b@geemail.com", listener := 5 }],
    m_activeResolve := some { second := "+358470000001", listener := 4 },
    m_unknownAddresses := [{ second := "+358471112222", compare := "1112222", listener := 4 },
                           { second := "+358471112222", compare := "1112222", listener := 5 }],
    m_fetchRequest := { active := true, filter := .phoneNumberMatch "+358470000001" },
    m_updatesPending := true }

/-- Later steps in the cache `resolvingCache`: the fetch in flight finishes empty, the
dispatcher is woken, Carlo is indexed, listener 5 resolves a number, and the dispatcher is
woken again. -/
def laterSteps : List LaterStep :=
  [.fetchDone [], .wake, .indexUpdate QContact.empty carlo 3 [] 3,
   .phoneResolve 5 "+358470000002" true, .wake]

/-! ## Statement helpers for the identity store -/

/-- The internal ids that have an entry in the identity store, in the order of insertion. -/
def peopleKeys (s : State) : List Nat :=
  s.m_people.map (fun entry => entry.1)

/-- The relationship and save queues and the updates-pending flag are in `s'` as in `s`, and the
calls `s'` has logged beyond those of `s` start no request. -/
def SameQueues (s s' : State) : Prop :=
  s'.m_relationshipsToSave = s.m_relationshipsToSave ∧
  s'.m_relationshipsToRemove = s.m_relationshipsToRemove ∧
  s'.m_contactsToSave = s.m_contactsToSave ∧
  s'.m_contactsToCreate = s.m_contactsToCreate ∧
  s'.m_updatesPending = s.m_updatesPending ∧
  ∃ calls, s'.log = s.log ++ calls ∧ requestStarts calls = []

/-! ## Statement helpers for the pending link pairs -/

/-- A link pair after the sides whose contact id is `contactId` have been marked ready; the
other side keeps its flag. -/
def markFetched (contactId : Nat) (pair : ContactLinkRequest × ContactLinkRequest) :
    ContactLinkRequest × ContactLinkRequest :=
  (if pair.1.contactId = contactId then { pair.1 with constituentsFetched := true } else pair.1,
   if pair.2.contactId = contactId then { pair.2 with constituentsFetched := true } else pair.2)

/-- Whether both sides of a link pair are ready. -/
def bothFetched (pair : ContactLinkRequest × ContactLinkRequest) : Bool :=
  pair.1.constituentsFetched && pair.2.constituentsFetched

/-- The merge step run once for every pair of a list, in order; `none` when one of the runs is
undefined. -/
def mergePairs (env : Env) :
    List (ContactLinkRequest × ContactLinkRequest) → State → Option State
  | [], s => some s
  | pair :: rest, s =>
    match completeContactAggregation env s pair.1.contactId pair.2.contactId with
    | none => none
    | some s1 => mergePairs env rest s1

/-- The pairs of a pending list that have both sides ready once the sides of `contactId` are
marked, in list order. -/
def readyPairs (contactId : Nat) (pairs : List (ContactLinkRequest × ContactLinkRequest)) :
    List (ContactLinkRequest × ContactLinkRequest) :=
  (pairs.map (markFetched contactId)).filter bothFetched

/-- The other pairs of a pending list, marked, in list order. -/
def unreadyPairs (contactId : Nat) (pairs : List (ContactLinkRequest × ContactLinkRequest)) :
    List (ContactLinkRequest × ContactLinkRequest) :=
  (pairs.map (markFetched contactId)).filter (fun p => !bothFetched p)

/-! ## Frames -/

/-- The cache `s` with the identity store, the list of changed contacts, the fetch timer and
its postponement clock, the flags contacts-updated, refresh-required and updates-pending, and
the log taken from `s'`. -/
def itemFrameOf (s s' : State) : State :=
  { s with m_people := s'.m_people, m_changedContacts := s'.m_changedContacts,
           m_fetchTimer := s'.m_fetchTimer, m_fetchPostponed := s'.m_fetchPostponed,
           m_contactsUpdated := s'.m_contactsUpdated,
           m_refreshRequired := s'.m_refreshRequired,
           m_updatesPending := s'.m_updatesPending, log := s'.log }

/-- The cache `s'` differs from `s` at most in the fields that `itemFrameOf` takes from `s'`,
and its log is that of `s` with nothing but posted wakes appended. -/
def ItemFrame (s s' : State) : Prop :=
  s' = itemFrameOf s s' ∧
    ∃ calls, s'.log = s.log ++ calls ∧ ∀ n ∈ calls, n = Notification.postUpdateRequest

/-- The `Aggregates` relationship between two contact ids. -/
def aggregatesRelationship (first second : Nat) : QContactRelationship :=
  { relationshipType := aggregateRelationshipType, first := first, second := second }

/-- The local constituent of Edgar, as the store returns it. -/
def edgarLocal : QContact :=
  { id := 61, details := [.name "Edgar" "Ems", .syncTarget "local"] }

/-- Dora (4) and Edgar (6) are cached, only Edgar is given item data, and the two are merged
with `aggregateContacts`; the constituents of both are fetched, one request after the other,
and every posted wake is run. -/
def linkWithOneItemData : Option State :=
  match fetchTwoInOneBatch with
  | none => none
  | some s0 =>
    runSteps
      [fun s => some (event s),
       fun s => some (attachItemData s 6),
       fun s => some (aggregateContacts s dora edgar),
       fun s => some (event s),
       fun s => some (relationshipsFetchResultsAvailable s [aggregatesRelationship 4 41]),
       fun s => relationshipsFetchFinished exampleEnv s,
       fun s => some (event s),
       fun s => fetchByIdResultsAvailable exampleEnv s [doraLocal],
       fun s => fetchByIdFinished exampleEnv s,
       fun s => some (event s),
       fun s => some (relationshipsFetchResultsAvailable s [aggregatesRelationship 6 61]),
       fun s => relationshipsFetchFinished exampleEnv s,
       fun s => some (event s),
       fun s => fetchByIdResultsAvailable exampleEnv s [edgarLocal],
       fun s => fetchByIdFinished exampleEnv s,
       fun s => some (event s)]
      s0

/-- The cache of `twoAggregatesWithLocals` where aggregate 1 has no item data, with the pending
link pair (1, 2) whose first side is ready. -/
def firstSideWithoutItemData : State :=
  { m_people :=
      [(1, { iid := 1, contact := { id := 1, details := [.syncTarget "aggregate"] },
             contactState := .ContactComplete }),
       (2, { iid := 2, contact := { id := 2, details := [.syncTarget "aggregate"] },
             contactState := .ContactComplete, itemData := some { constituents := [12, 13] } }),
       (12, { iid := 12, contact := { id := 12, details := [.syncTarget "local"] },
              contactState := .ContactComplete }),
       (13, { iid := 13, contact := { id := 13, details := [.syncTarget "telepathy"] },
              contactState := .ContactComplete })],
    m_contactPairsToLink :=
      [({ contactId := 1, constituentsFetched := true }, { contactId := 2 })] }

/-- A cache whose view of all contacts is [3, 4, 5], with its reverse index, and with model 7
registered on that view. -/
def viewOfThree : State :=
  { m_contacts := (FilterArray.const []).set .FilterAll [3, 4, 5],
    m_contactIndices := (FilterArray.const []).set .FilterAll [(3, 0), (4, 1), (5, 2)],
    m_models := (FilterArray.const []).set .FilterAll [7] }

/-- The number of `aggregationOperationCompleted` calls on the item data of item `key` in a
log. -/
def completedCalls (log : List Notification) (key : Nat) : Nat :=
  (log.filter (fun n => decide (n = .aggregationOperationCompleted key))).length

/-- The first members of the relationships that the relationship-save request and the
relationship-remove request hold. -/
def relationshipFirsts (s : State) : List Nat :=
  (s.m_relationshipSaveRequest.relationships ++
    s.m_relationshipRemoveRequest.relationships).map (fun r => r.first)

/-- Aggregates 1 and 2 of `twoAggregatesWithLocals` are merged, the next wake starts the
relationship requests, and the store finishes the save request and then the remove request. -/
def mergeThenBothFinish : Option State :=
  runSteps
    [fun s => completeContactAggregation exampleEnv s 1 2,
     fun s => some (event s),
     fun s => relationshipSaveFinished exampleEnv s,
     fun s => relationshipRemoveFinished exampleEnv s]
    twoAggregatesWithLocals

/-! ## Statement helpers for the population -/

/-- The phase that follows a phase on the two chains of the population: Unpopulated →
FetchFavorites → FetchMetadata → FetchOnline → Populated, and Populated → RefetchFavorites →
RefetchOthers → Populated. -/
def PopulateProgress.successor : PopulateProgress → PopulateProgress
  | .Unpopulated => .FetchFavorites
  | .FetchFavorites => .FetchMetadata
  | .FetchMetadata => .FetchOnline
  | .FetchOnline => .Populated
  | .Populated => .RefetchFavorites
  | .RefetchFavorites => .RefetchOthers
  | .RefetchOthers => .Populated

/-- How far the first population has come: 0 to 3 for Unpopulated and the three Fetch phases,
4 for Populated and the two Refetch phases. -/
def PopulateProgress.rank : PopulateProgress → Nat
  | .Unpopulated => 0
  | .FetchFavorites => 1
  | .FetchMetadata => 2
  | .FetchOnline => 3
  | .Populated => 4
  | .RefetchFavorites => 4
  | .RefetchOthers => 4

/-- The view that belongs to a Fetch phase: Favorites, All and Online. -/
def PopulateProgress.view : PopulateProgress → Option FilterType
  | .FetchFavorites => some .FilterFavorites
  | .FetchMetadata => some .FilterAll
  | .FetchOnline => some .FilterOnline
  | _ => none

/-- The population progress and the populated flags of `s'` are those of `s`. -/
def SameProgress (s s' : State) : Prop :=
  s'.m_populateProgress = s.m_populateProgress ∧ s'.m_populated = s.m_populated

/-- The population progress, the populated flags and the id sequences of all views of `s'`
are those of `s`. -/
def SamePopulation (s s' : State) : Prop :=
  s'.m_populateProgress = s.m_populateProgress ∧ s'.m_populated = s.m_populated ∧
    s'.m_contacts = s.m_contacts

/-- The records `contactsAvailable` takes from `request` (the fetch-by-id request or the fetch
request): those the request has delivered beyond the ones processed before. -/
def deliveredRecords (s : State) (request : RequestKind) : List QContact :=
  let byId := decide (request = .FetchById)
  let delivered := if byId then s.m_fetchByIdRequest.contacts else s.m_fetchRequest.contacts
  let processed := if byId then s.m_fetchByIdProcessedCount else s.m_fetchProcessedCount
  if processed ≠ 0 then delivered.drop processed else delivered

/-- What may happen to the cache: a wake of the dispatcher, the fetch timer, results and
completion of each of the store requests, a change notification of the store, and the calls of
a consumer. -/
inductive CacheStep
  | wake
  | fetchTimer
  | fetchResults (contacts : List QContact)
  | fetchDone (contacts : List QContact)
  | fetchByIdResults (contacts : List QContact)
  | fetchByIdDone
  | relationshipsResults (relationships : List QContactRelationship)
  | relationshipsDone
  | contactIdResults (ids : List Nat)
  | contactIdDone
  | relationshipSaveDone
  | relationshipRemoveDone
  | removeDone
  | saveDone
  | storeAdded (ids : List Nat) (elapsed : Nat)
  | storeChanged (ids : List Nat) (elapsed : Nat)
  | storeRemoved (ids : List Nat)
  | populate (fetchTypes : Nat)
  | phoneResolve (listener : Nat) (number : String) (requireComplete : Bool)
  | emailResolve (listener : Nat) (address : String) (requireComplete : Bool)
  | accountResolve (listener : Nat) (localUid remoteUid : String) (requireComplete : Bool)
  | unregister (listener : Nat)
  | listen (listener : Nat)
  | lookup (id : Nat) (requireComplete : Bool)
  | attach (key : Nat)
  | save (contact : QContact)
  | remove (contact : QContact)
  | merge (contact1 contact2 : QContact)
  | split (aggregate constituent : QContact)
  | constituents (contact : QContact)
  | candidates (contact : QContact)

/-- The cache after a step; `none` when the code reads outside a list or dereferences a null
item pointer. -/
def CacheStep.run (env : Env) (s : State) : CacheStep → Option State
  | .wake => some (event s)
  | .fetchTimer => some (fetchTimerEvent s)
  | .fetchResults contacts => fetchResultsAvailable env s contacts
  | .fetchDone contacts => fetchFinished env s contacts
  | .fetchByIdResults contacts => fetchByIdResultsAvailable env s contacts
  | .fetchByIdDone => fetchByIdFinished env s
  | .relationshipsResults relationships =>
    some (relationshipsFetchResultsAvailable s relationships)
  | .relationshipsDone => relationshipsFetchFinished env s
  | .contactIdResults ids => some (contactIdResultsAvailable env s ids)
  | .contactIdDone => contactIdFinished env s
  | .relationshipSaveDone => relationshipSaveFinished env s
  | .relationshipRemoveDone => relationshipRemoveFinished env s
  | .removeDone =>
    requestStateChanged env
      { s with m_removeRequest := { s.m_removeRequest with active := false } } .Remove
  | .saveDone =>
    requestStateChanged env
      { s with m_saveRequest := { s.m_saveRequest with active := false } } .Save
  | .storeAdded ids elapsed => some (contactsAdded s ids elapsed)
  | .storeChanged ids elapsed => some (contactsChanged s ids elapsed)
  | .storeRemoved ids => some (contactsRemoved s ids)
  | .populate fetchTypes => some (keepPopulated s fetchTypes)
  | .phoneResolve listener number requireComplete =>
    some (resolvePhoneNumber env s listener number requireComplete).2
  | .emailResolve listener address requireComplete =>
    some (resolveEmailAddress env s listener address requireComplete).2
  | .accountResolve listener localUid remoteUid requireComplete =>
    some (resolveOnlineAccount env s listener localUid remoteUid requireComplete).2
  | .unregister listener => some (unregisterResolveListener s listener)
  | .listen listener => some (registerChangeListener s listener)
  | .lookup id requireComplete => some (itemById s id requireComplete).2
  | .attach key => some (attachItemData s key)
  | .save contact => saveContact s contact
  | .remove contact => (removeContact s contact).map (fun r => r.2)
  | .merge contact1 contact2 => some (aggregateContacts s contact1 contact2)
  | .split aggregate constituent => disaggregateContacts s aggregate constituent
  | .constituents contact => some (fetchConstituents s contact).2
  | .candidates contact => some (fetchMergeCandidates s contact).2

/-- The cache after a list of steps, in order; `none` when one of them is undefined. -/
def runCache (env : Env) : List CacheStep → State → Option State
  | [], s => some s
  | step :: rest, s =>
    match step.run env s with
    | none => none
    | some s1 => runCache env rest s1

/-- The two hooks of synchronizelists.h leave the population progress and the populated flags
of the cache as they are. -/
def KeepsProgress (env : Env) : Prop :=
  ∀ s, SameProgress s (env.synchronizeList s) ∧ SameProgress s (env.completeSynchronizeList s)

/-- The consumer asks for a populated cache, the dispatcher is woken, and the store answers the
three bulk queries in turn: Freddy as the only favorite, then Dora and Edgar in two batches,
then Edgar as the only online contact. -/
def populationSteps : List CacheStep :=
  [.populate 0, .wake,
   .fetchResults [freddy], .fetchDone [freddy],
   .fetchResults [dora], .fetchResults [dora, edgar], .fetchDone [dora, edgar],
   .fetchResults [edgar], .fetchDone [edgar]]

/-- The cache in the middle of the population: after the first five of `populationSteps` it is
in the phase FetchMetadata with one record of the metadata query processed. -/
def midPopulation : State :=
  (runCache exampleEnv (populationSteps.take 5) State.init).getD State.init

/-- A contact whose two phone numbers are two spellings of one number: both have the
normalized form "4005000". -/
def twoSpellings : QContact :=
  { id := 9, details := [.name "Hans" "Huber", .phoneNumber "+358474005000",
                         .phoneNumber "0474005000"] }

/-- A cache that holds `twoSpellings` as item 9, indexed under its normalized number. -/
def twoSpellingsCached : State :=
  { m_people := [(9, { iid := 9, contact := twoSpellings })],
    m_phoneNumberIds := [("4005000", 9)] }

/-- The contact Greta, as the store returns her. -/
def greta : QContact :=
  { id := 5, details := [.name "Greta" "Berg", .syncTarget "aggregate"] }

/-- A consumer asks for the item of contact 5 with `itemById`, which creates it and requests
its data; the dispatcher starts the fetch and the store delivers Greta. -/
def lookupThenFetch : Option State :=
  runSteps
    [fun s => some (itemById s 5 true).2,
     fun s => some (event s),
     fun s => fetchResultsAvailable exampleEnv s [greta],
     fun s => fetchFinished exampleEnv s [greta]]
    State.init

/-- An unknown-address list with one entry of each kind: listener 1 waits for the phone number
"5550001", listener 2 for the e-mail address "room@chat" and listener 3 for the online account
("room@chat", "room@chat"); item 3 is cached. -/
def threeKindsUnknown : State :=
  { m_people := [(3, { iid := 3, contact := { id := 3 } })],
    m_unknownAddresses :=
      [{ first := "", second := "5550001", compare := "5550001", listener := 1 },
       { first := "room@chat", second := "", compare := "room@chat", listener := 2 },
       { first := "room@chat", second := "room@chat", compare := "room@chat", listener := 3 }] }

/-- The cache is populated with Dora and Edgar and the dispatcher runs to idle; then row 0 of
the view of all contacts is taken out with `removeRange`, as `synchronizeList` does for a
contact that has left the store, and the dispatcher is woken. -/
def populateTwoThenRemoveRange : Option State :=
  runSteps
    [fun s => some (keepPopulated s 0),
     fun s => some (event s),
     fun s => fetchFinished exampleEnv s [],
     fun s => fetchResultsAvailable exampleEnv s [dora, edgar],
     fun s => fetchFinished exampleEnv s [dora, edgar],
     fun s => fetchFinished exampleEnv s [],
     fun s => some (event s),
     fun s => removeRange s .FilterAll 0 1,
     fun s => some (event s)]
    State.init

/-- The values `generateDisplayLabel` falls back on when both names are empty, in the order in
which it tries them: the nicknames, the nicknames of the global presences and of the
presences, the account uris, the e-mail addresses, the name of the organization detail, the
phone numbers, and last the label of the store's display-label detail. -/
def labelFallbacks (contact : QContact) : List String :=
  contact.details.filterMap (fun d => match d with | .nickname n => some n | _ => none) ++
  contact.details.filterMap (fun d => match d with | .globalPresence n _ => some n | _ => none) ++
  contact.details.filterMap (fun d => match d with | .presence n => some n | _ => none) ++
  contact.onlineAccounts.map (fun a => a.2) ++
  contact.emailAddresses ++
  [((contact.details.filterMap
      (fun d => match d with | .organization n => some n | _ => none)).head?).getD ""] ++
  contact.phoneNumbers ++
  [contact.displayLabel]

/-- The contact Daffy Duck of tst_resolve.cpp as far as its name goes. -/
def daffy : QContact :=
  { id := 10, details := [.name "Daffy" "Duck", .emailAddress "daffyd@example.com"] }

/-- A contact without a name whose nickname is the text "(Unnamed)". -/
def nicknamedUnnamed : QContact :=
  { id := 11, details := [.nickname "(Unnamed)", .phoneNumber "12345"] }

/-! ## Avatars -/

/-- The (image url, metadata) of `c.details<QContactAvatar>()`. -/
def QContact.avatars (c : QContact) : List (String × String) :=
  c.details.filterMap (fun d => match d with | .avatar u m => some (u, m) | _ => none)

/-- `QString::startsWith`. -/
def startsWith (s fragment : String) : Bool :=
  s.data.take fragment.data.length == fragment.data

/-- The loop of `avatarUrlWithMetadata` over the avatar details that remain, `i` being the
index of the first of them: the url returned from inside the loop, if any, and the indices
queued in `matchingIndices`. The scheme of a url is read by `scheme` (`QUrl::scheme`). -/
def avatarUrlLoop (scheme : String → String) (metadataFragment : String) :
    List (String × String) → Nat → List Nat → Option String × List Nat
  | [], _, matchingIndices => (none, matchingIndices)
  | av :: rest, i, matchingIndices =>
    if av.1 = "" then avatarUrlLoop scheme metadataFragment rest (i + 1) matchingIndices
    else if metadataFragment = "" ∧ av.2 = "local" then (some av.1, matchingIndices)
    else if metadataFragment = "" ∨ startsWith av.2 metadataFragment = true then
      if scheme av.1 ≠ "" ∧ scheme av.1 ≠ "file" then
        avatarUrlLoop scheme metadataFragment rest (i + 1) (matchingIndices ++ [i])
      else (some av.1, matchingIndices)
    else avatarUrlLoop scheme metadataFragment rest (i + 1) matchingIndices

/-- The static function `avatarUrlWithMetadata`; an empty text is the empty `QUrl`. -/
def avatarUrlWithMetadata (scheme : String → String) (c : QContact)
    (metadataFragment : String) : String :=
  let avatarDetails := c.avatars
  match avatarUrlLoop scheme metadataFragment avatarDetails 0 [] with
  | (some url, _) => url
  | (none, matchingIndices) =>
    match matchingIndices with
    | i :: _ => ((avatarDetails.get? i).map (fun av => av.1)).getD ""
    | [] => ""

/-- `SeasideCache::filteredAvatarUrl`. -/
def filteredAvatarUrl (scheme : String → String) (contact : QContact)
    (metadataFragments : List String) : String :=
  if metadataFragments.isEmpty then avatarUrlWithMetadata scheme contact ""
  else
    ((metadataFragments.map (avatarUrlWithMetadata scheme contact)).find?
      (fun matchingUrl => decide (matchingUrl ≠ ""))).getD ""

/-- A reading of `QUrl::scheme` for the examples: the text before the first colon of a url
that has one, empty otherwise. -/
def urlScheme (url : String) : String :=
  if ':' ∈ url.data then String.mk (url.data.takeWhile (fun ch => decide (ch ≠ ':'))) else ""

/-- A contact with a picture from the file system, a picture marked "local" and a remote
picture. -/
def threeAvatars : QContact :=
  { id := 13, details := [.name "Ida" "Ihle", .avatar "" "local",
      .avatar "/home/nemo/cover.png" "cover", .avatar "/home/nemo/own.png" "local",
      .avatar "http://example.com/ida.png" "" ] }

/-- A contact with a remote picture that precedes a picture marked "local". -/
def remoteThenLocal : QContact :=
  { id := 14, details := [.avatar "http://example.com/jo.png" "", .avatar "" "local",
      .avatar "/home/nemo/jo.png" "local"] }

/-- The id sequences and the reverse indexes of all views and the expiry table of `s'` are
those of `s`. -/
def SameViewData (s s' : State) : Prop :=
  s'.m_contacts = s.m_contacts ∧ s'.m_contactIndices = s.m_contactIndices ∧
    s'.m_expiredContacts = s.m_expiredContacts

/-- The reverse index of view `filter` holds exactly the ids of the view's id sequence as its
keys, and no id occurs twice in the sequence. -/
def ViewIndexed (s : State) (filter : FilterType) : Prop :=
  (s.m_contacts.get filter).Nodup ∧
    ∀ id, (hashFind (s.m_contactIndices.get filter) id).isSome ↔ id ∈ s.m_contacts.get filter

/-- The four operations that change the id sequence of a view. -/
inductive ViewOp
  | appendContacts (contacts : List QContact) (partialFetch : Bool)
  | insertRange (index count : Nat) (queryIds : List Nat) (queryIndex : Nat)
  | removeRange (index count : Nat)
  | removeContactData (iid : Nat)
  deriving DecidableEq, Repr

/-- The cache after an operation on view `filter`; `none` when the code reads outside a
list. -/
def ViewOp.run (env : Env) (filter : FilterType) (s : State) : ViewOp → Option State
  | .appendContacts contacts partialFetch =>
    some (SeasideCache.appendContacts env s contacts filter partialFetch)
  | .insertRange index count queryIds queryIndex =>
    (SeasideCache.insertRange env s filter index count queryIds queryIndex).map (fun r => r.1)
  | .removeRange index count => SeasideCache.removeRange s filter index count
  | .removeContactData iid => SeasideCache.removeContactData s iid filter

/-- The ids an operation inserts into the view, in the order of insertion: those of the
appended contacts, and those of the range of `queryIds` without the self contact. -/
def ViewOp.inserted (env : Env) : ViewOp → List Nat
  | .appendContacts contacts _ => contacts.map (fun c => internalId c.id)
  | .insertRange _ count queryIds queryIndex =>
    ((queryIds.drop queryIndex).take count).filter
      (fun iid => decide (iid ≠ internalId env.selfContactId))
  | .removeRange _ _ => []
  | .removeContactData _ => []

/-- The caches after each of a list of operations on view `filter`, in order; `none` when one
of the operations is undefined. -/
def viewStates (env : Env) (filter : FilterType) : State → List ViewOp → Option (List State)
  | _, [] => some []
  | s, op :: rest =>
    match op.run env filter s with
    | none => none
    | some s1 => (viewStates env filter s1 rest).map (fun states => s1 :: states)

/-- No operation of the list inserts an id that the view holds at that time or that the same
operation inserts a second time. -/
def freshInsertions (env : Env) (filter : FilterType) : State → List ViewOp → Bool
  | _, [] => true
  | s, op :: rest =>
    decide (op.inserted env).Nodup &&
      (op.inserted env).all (fun id => decide (id ∉ s.m_contacts.get filter)) &&
      match op.run env filter s with
      | none => true
      | some s1 => freshInsertions env filter s1 rest

/-- The operations of the example: three contacts are appended, the first row is removed, one
id is inserted in front, the contact 6 is removed, and the id removed first is inserted
again. -/
def viewOpsExample : List ViewOp :=
  [.appendContacts [dora, greta, edgar] false, .removeRange 0 1, .insertRange 0 1 [7] 0,
   .removeContactData 6, .insertRange 1 2 [1, 4] 0]

/-- The operations of the counterexample: the same contact is appended twice, then the first
row is removed. -/
def viewOpsWithRepeatedId : List ViewOp :=
  [.appendContacts [greta, greta] false, .removeRange 0 1]

/-! ## Changes of the display-label order and of the group property -/

/-- The name-group block that the loops of `displayLabelOrderChanged` and
`groupPropertyChanged` run for the item stored under `key`: the cache afterwards and the set
`modifiedGroups`. -/
def regroupItem (env : Env) (acc : State × List String) (key : Nat) : State × List String :=
  let s := acc.1
  match hashFind s.m_people key with
  | none => acc
  | some item =>
    let group := determineNameGroup env s item
    if qstringNe (some group) item.nameGroup then
      if !ignoreContactForNameGroups env item.contact then
        let removed : State × List String :=
          match item.nameGroup with
          | none => (s, acc.2)
          | some g => removeFromContactNameGroup s item.iid (some g) acc.2
        let item1 := { item with nameGroup := some group }
        let s1 := { removed.1 with m_people := hashInsert removed.1.m_people key item1 }
        addToContactNameGroup s1 item1.iid item1.nameGroup removed.2
      else acc
    else acc

/-- The body of the loop of `SeasideCache::displayLabelOrderChanged` for the item stored under
`key`; `none` when `contactDataChanged` reads outside a view's id list. -/
def relabelItem (env : Env) (acc : State × List String) (key : Nat) :
    Option (State × List String) :=
  let s := acc.1
  match hashFind s.m_people key with
  | none => some acc
  | some item =>
    let newLabel := generateDisplayLabel item.contact s.m_displayLabelOrder
    let relabeled : Option State :=
      if newLabel ≠ item.displayLabel then
        let item1 := { item with displayLabel := newLabel }
        let s1 := { s with m_people := hashInsert s.m_people key item1 }
        match contactDataChanged s1 item1.iid with
        | none => none
        | some s2 => some (reportItemUpdated s2 item1)
      else some s
    match relabeled with
    | none => none
    | some s3 =>
      let s4 :=
        match item.itemData with
        | some _ => s3.emit (.displayLabelOrderChanged key s.m_displayLabelOrder)
        | none => s3
      some (regroupItem env (s4, acc.2) key)

/-- The loop of `SeasideCache::displayLabelOrderChanged` over the items stored under `keys`. -/
def relabelItems (env : Env) : List Nat → State × List String → Option (State × List String)
  | [], acc => some acc
  | key :: rest, acc =>
    match relabelItem env acc key with
    | none => none
    | some acc1 => relabelItems env rest acc1

/-- The models of all views, in the order of the views. -/
def allModels (s : State) : List Nat :=
  s.m_models.get .FilterNone ++ s.m_models.get .FilterAll ++ s.m_models.get .FilterFavorites ++
    s.m_models.get .FilterOnline

/-- `SeasideCache::displayLabelOrderChanged` (built with HAS_MLITE); `displayLabelOrder` is
what `m_displayLabelOrderConf.value()` reads, `none` for an invalid variant. The items of
`m_people` are visited in the order of the table. -/
def displayLabelOrderChanged (env : Env) (s : State)
    (displayLabelOrder : Option DisplayLabelOrder) : Option State :=
  match displayLabelOrder with
  | none => some s
  | some order =>
    if order ≠ s.m_displayLabelOrder then
      let s1 := { s with m_displayLabelOrder := order }
      match relabelItems env (s1.m_people.map Prod.fst) (s1, []) with
      | none => none
      | some r =>
        let s2 := notifyNameGroupsChanged r.1 r.2
        some { s2 with log := s2.log ++ ((allModels s2).map (fun m =>
          [Notification.updateDisplayLabelOrder m, Notification.sourceItemsChanged m])).flatten }
    else some s

/-- Every id that has an item in the identity store of `s` has one in that of `s'`. -/
def KeepsItems (s s' : State) : Prop :=
  ∀ k, (hashFind s.m_people k).isSome → (hashFind s'.m_people k).isSome

/-- The two hooks of synchronizelists.h destroy no item of the identity store. -/
def HooksKeepItems (env : Env) : Prop :=
  ∀ s, KeepsItems s (env.synchronizeList s) ∧ KeepsItems s (env.completeSynchronizeList s)

/-- The expiry counter of a contact: its value in `m_expiredContacts`, 0 without an entry. -/
def expiryCounter (s : State) (id : Nat) : Int :=
  hashValue s.m_expiredContacts (apiId id) 0

/-- The cache is populated with Dora and Edgar and the dispatcher runs to idle; then, in one
pass of a resynchronisation, row 0 of the view of all contacts (Dora) is taken out with
`removeRange` and put back with `insertRange`. -/
def removeThenReinsert : Option State :=
  runSteps
    [fun s => some (keepPopulated s 0),
     fun s => some (event s),
     fun s => fetchFinished exampleEnv s [],
     fun s => fetchResultsAvailable exampleEnv s [dora, edgar],
     fun s => fetchFinished exampleEnv s [dora, edgar],
     fun s => fetchFinished exampleEnv s [],
     fun s => some (event s),
     fun s => removeRange s .FilterAll 0 1,
     fun s => (insertRange exampleEnv s .FilterAll 0 1 [4] 0).map (fun r => r.1)]
    State.init

/-- A cache at rest with the items 4 and 6, of which 6 is in the view of all contacts; the
expiry counter of 4 is -1, that of 6 is 0. -/
def expiringCache : State :=
  { m_people := [(4, { iid := 4, contact := dora }), (6, { iid := 6, contact := edgar })],
    m_contacts := { filterNone := [], filterAll := [6], filterFavorites := [],
                    filterOnline := [] },
    m_contactIndices := { filterNone := [], filterAll := [(6, 0)], filterFavorites := [],
                          filterOnline := [] },
    m_expiredContacts := [(4, -1), (6, 0)] }

/-- The name-group sets, the name-group listeners and the group property of `s'` are those of
`s`. -/
def SameGroups (s s' : State) : Prop :=
  s'.m_contactNameGroups = s.m_contactNameGroups ∧
    s'.m_nameGroupChangeListeners = s.m_nameGroupChangeListeners ∧
    s'.m_groupProperty = s.m_groupProperty

/-- Berta's record as it was cached before her e-mail address changed. -/
def bertaWithOldAddress : QContact :=
  { id := 2, details := [.name "Berta" "Berenstain", .emailAddress "berta@oldmail.com",
                         .onlineAccount "/example/jabber/0" "berta.b@geemail.com"] }

/-- A cache that holds Berta with her old e-mail address, indexed. -/
def bertaIndexedWithOldAddress : State :=
  { m_people := [(2, { iid := 2, contact := bertaWithOldAddress })],
    m_emailAddressIds := [("berta@oldmail.com", 2)],
    m_onlineAccountIds := [(("/example/jabber/0", "berta.b@geemail.com"), 2)] }

/-- The requests that the `start()` calls in a log start: `start()` on a request that is
active at the call starts nothing. -/
def startedRequests (log : List Notification) : List RequestKind :=
  (requestStarts log).filterMap (fun p => if p.2 then none else some p.1)

theorem hashFind_hashInsert_self {κ ν : Type} [DecidableEq κ] (m : List (κ × ν)) (k : κ)
    (v : ν) : hashFind (hashInsert m k v) k = some v := by
  induction m with
  | nil => simp [hashInsert, hashFind]
  | cons p rest ih =>
    obtain ⟨k', v'⟩ := p
    by_cases h : k' = k
    · simp [hashInsert, hashFind, h]
    · simp [hashInsert, hashFind, h, ih]

theorem hashFind_hashInsert_ne {κ ν : Type} [DecidableEq κ] (m : List (κ × ν)) (k k₀ : κ)
    (v : ν) (h : k ≠ k₀) : hashFind (hashInsert m k v) k₀ = hashFind m k₀ := by
  induction m with
  | nil => simp [hashInsert, hashFind, h]
  | cons p rest ih =>
    obtain ⟨k', v'⟩ := p
    by_cases h' : k' = k
    · subst h'
      simp [hashInsert, hashFind, h]
    · by_cases h'' : k' = k₀
      · subst h''
        simp [hashInsert, hashFind, h']
      · simp [hashInsert, hashFind, h', h'', ih]

theorem hashFind_hashRemove_self {κ ν : Type} [DecidableEq κ] (m : List (κ × ν)) (k : κ) :
    hashFind (hashRemove m k) k = none := by
  induction m with
  | nil => simp [hashRemove, hashFind]
  | cons p rest ih =>
    obtain ⟨k', v'⟩ := p
    by_cases h : k' = k
    · simp [hashRemove, h, ih]
    · simp [hashRemove, hashFind, h, ih]

theorem hashFind_hashRemove_ne {κ ν : Type} [DecidableEq κ] (m : List (κ × ν)) (k k₀ : κ)
    (h : k ≠ k₀) : hashFind (hashRemove m k) k₀ = hashFind m k₀ := by
  induction m with
  | nil => simp [hashRemove, hashFind]
  | cons p rest ih =>
    obtain ⟨k', v'⟩ := p
    by_cases h' : k' = k
    · subst h'
      simp [hashRemove, hashFind, h, ih]
    · by_cases h'' : k' = k₀
      · subst h''
        simp [hashRemove, hashFind, h']
      · simp [hashRemove, hashFind, h', h'', ih]

/-! ## Resolution calls: the pending queue and the returned item -/

@[simp] theorem requestUpdate_resolveAddresses (s : State) :
    (requestUpdate s).m_resolveAddresses = s.m_resolveAddresses := by
  unfold requestUpdate State.emit
  split <;> rfl

@[simp] theorem requestUpdate_people (s : State) :
    (requestUpdate s).m_people = s.m_people := by
  unfold requestUpdate State.emit
  split <;> rfl

@[simp] theorem fetchContacts_resolveAddresses (s : State) :
    (fetchContacts s).m_resolveAddresses = s.m_resolveAddresses := by
  unfold fetchContacts
  split
  · rfl
  · simp only [requestUpdate_resolveAddresses]
    split <;> rfl

@[simp] theorem fetchContacts_people (s : State) :
    (fetchContacts s).m_people = s.m_people := by
  unfold fetchContacts
  split
  · rfl
  · simp only [requestUpdate_people]
    split <;> rfl

@[simp] theorem refreshContact_resolveAddresses (s : State) (key : Nat) :
    (refreshContact s key).m_resolveAddresses = s.m_resolveAddresses := by
  unfold refreshContact
  split <;> simp

@[simp] theorem ensureCompletion_resolveAddresses (s : State) (key : Nat) :
    (ensureCompletion s key).m_resolveAddresses = s.m_resolveAddresses := by
  unfold ensureCompletion
  split
  · rfl
  · split <;> simp

theorem refreshContact_existing (s : State) (key k : Nat)
    (h : (hashFind s.m_people k).isSome) : (hashFind (refreshContact s key).m_people k).isSome := by
  unfold refreshContact
  split
  · exact h
  · simp only [fetchContacts_people]
    by_cases hk : key = k
    · subst hk
      simp [hashFind_hashInsert_self]
    · rw [hashFind_hashInsert_ne _ _ _ _ hk]
      exact h

theorem ensureCompletion_existing (s : State) (key k : Nat)
    (h : (hashFind s.m_people k).isSome) :
    (hashFind (ensureCompletion s key).m_people k).isSome := by
  unfold ensureCompletion
  split
  · exact h
  · split
    · exact refreshContact_existing s key k h
    · exact h

theorem itemById_valid (s : State) (id : Nat) (requireComplete : Bool) (h : id ≠ 0) :
    (itemById s id requireComplete).1 = some id ∧
    (hashFind (itemById s id requireComplete).2.m_people id).isSome ∧
    (itemById s id requireComplete).2.m_resolveAddresses = s.m_resolveAddresses := by
  have hv : validId id = true := by simp [validId, h]
  unfold itemById
  simp only [hv, internalId, Bool.not_true, Bool.false_eq_true, if_false]
  refine ⟨by simp, ?_, ?_⟩
  · cases hf : hashFind s.m_people id with
    | some item =>
      cases requireComplete
      · simp [hf]
      · simp only [if_true]
        exact ensureCompletion_existing _ _ _ (by simp [hf])
    | none =>
      cases requireComplete
      · simp [hashFind_hashInsert_self]
      · simp only [if_true]
        exact ensureCompletion_existing _ _ _ (by simp [hashFind_hashInsert_self])
  · cases hf : hashFind s.m_people id <;> cases requireComplete <;> simp

theorem itemById_null (s : State) (requireComplete : Bool) :
    itemById s 0 requireComplete = (none, s) := by
  simp [itemById, validId]

theorem resolveOutcome_of_itemBy (s : State) (indexed : Option Nat) (listener : Nat)
    (first second : String) (requireComplete : Bool)
    (hv : ∀ iid, indexed = some iid → validId iid = true) :
    ResolveOutcome s indexed
      { first := first, second := second, requireComplete := requireComplete,
        listener := listener }
      (match (match indexed with
              | some iid => itemById s iid requireComplete
              | none => (none, s)) with
       | (none, s1) => (none, resolveAddress s1 listener first second requireComplete)
       | (some key, s1) =>
         (some key, if requireComplete then ensureCompletion s1 key else s1)) := by
  cases indexed with
  | none => simp [ResolveOutcome, resolveAddress]
  | some iid =>
    have h : iid ≠ 0 := by
      have := hv iid rfl
      simpa [validId] using this
    obtain ⟨h1, h2, h3⟩ := itemById_valid s iid requireComplete h
    simp only [ResolveOutcome]
    generalize itemById s iid requireComplete = r at h1 h2 h3
    obtain ⟨item, s1⟩ := r
    simp only at h1 h2 h3
    subst h1
    cases requireComplete
    · exact ⟨rfl, h2, h3⟩
    · refine ⟨rfl, ?_, ?_⟩
      · exact ensureCompletion_existing _ _ _ h2
      · simp [h3]

theorem indexedIdsValid_init : IndexedIdsValid State.init :=
  ⟨fun _ _ h => (by cases h), fun _ _ h => (by cases h), fun _ _ h => (by cases h)⟩

/-- C1: for each of resolvePhoneNumber, resolveEmailAddress and resolveOnlineAccount, in
every cache whose address indexes hold valid ids (the indexes are written by
updateContactIndexing alone, with the internal id of a contact that the store returned, so
these are the caches the code reaches): when the normalized address is in the index under an
id, the call returns the item stored under that id and leaves the pending-resolution queue
as it is; when it is not in the index, the call returns null and appends to the queue exactly
one entry, which carries the listener, the address as given and the requireComplete flag. -/
theorem resolve_returns_indexed_item_or_queues (env : Env) (s : State) (listener : Nat)
    (requireComplete : Bool) (hvalid : IndexedIdsValid s) :
    (∀ number : String,
      ResolveOutcome s (hashFind s.m_phoneNumberIds (normalizePhoneNumber env number))
        { first := "", second := number, requireComplete := requireComplete,
          listener := listener }
        (resolvePhoneNumber env s listener number requireComplete)) ∧
    (∀ address : String,
      ResolveOutcome s (hashFind s.m_emailAddressIds (env.toLower address))
        { first := address, second := "", requireComplete := requireComplete,
          listener := listener }
        (resolveEmailAddress env s listener address requireComplete)) ∧
    (∀ localUid remoteUid : String,
      ResolveOutcome s (hashFind s.m_onlineAccountIds (localUid, env.toLower remoteUid))
        { first := localUid, second := remoteUid, requireComplete := requireComplete,
          listener := listener }
        (resolveOnlineAccount env s listener localUid remoteUid requireComplete)) := by
  refine ⟨?_, ?_, ?_⟩
  · intro number
    have h := resolveOutcome_of_itemBy s
      (hashFind s.m_phoneNumberIds (normalizePhoneNumber env number)) listener "" number
      requireComplete (fun iid hi => hvalid.1 _ iid hi)
    unfold resolvePhoneNumber itemByPhoneNumber
    exact h
  · intro address
    have h := resolveOutcome_of_itemBy s
      (hashFind s.m_emailAddressIds (env.toLower address)) listener address ""
      requireComplete (fun iid hi => hvalid.2.1 _ iid hi)
    unfold resolveEmailAddress itemByEmailAddress
    exact h
  · intro localUid remoteUid
    have h := resolveOutcome_of_itemBy s
      (hashFind s.m_onlineAccountIds (localUid, env.toLower remoteUid)) listener localUid
      remoteUid requireComplete (fun iid hi => hvalid.2.2 _ iid hi)
    unfold resolveOnlineAccount itemByOnlineAccount
    exact h

theorem indexedIdsValid_indexedCache : IndexedIdsValid indexedCache := by
  refine ⟨fun k id h => ?_, fun k id h => ?_, fun k id h => ?_⟩
  · have h' : (if "0009955" = k then some 5 else none) = some id := h
    split at h'
    · cases h'
      rfl
    · cases h'
  · have h' : (if "alfred@alfred.com" = k then some 1 else none) = some id := h
    split at h'
    · cases h'
      rfl
    · cases h'
  · have h' : (if ("/example/jabber/0", "berta.b@geemail.com") = k then some 2 else none) =
        some id := h
    split at h'
    · cases h'
      rfl
    · cases h'

/-- C1 (witness): in `indexedCache`, whose indexes hold the ids 5, 1 and 2, the number
"0009955" is indexed under 5 and "5551234" is not indexed. -/
theorem resolve_returns_indexed_item_or_queues_witness :
    IndexedIdsValid indexedCache ∧
    hashFind indexedCache.m_phoneNumberIds (normalizePhoneNumber exampleEnv "0009955") =
      some 5 ∧
    hashFind indexedCache.m_phoneNumberIds (normalizePhoneNumber exampleEnv "5551234") =
      none ∧
    (∀ number : String,
      ResolveOutcome indexedCache
        (hashFind indexedCache.m_phoneNumberIds (normalizePhoneNumber exampleEnv number))
        { first := "", second := number, requireComplete := false, listener := 7 }
        (resolvePhoneNumber exampleEnv indexedCache 7 number false)) ∧
    (∀ address : String,
      ResolveOutcome indexedCache
        (hashFind indexedCache.m_emailAddressIds (exampleEnv.toLower address))
        { first := address, second := "", requireComplete := false, listener := 7 }
        (resolveEmailAddress exampleEnv indexedCache 7 address false)) ∧
    (∀ localUid remoteUid : String,
      ResolveOutcome indexedCache
        (hashFind indexedCache.m_onlineAccountIds
          (localUid, exampleEnv.toLower remoteUid))
        { first := localUid, second := remoteUid, requireComplete := false, listener := 7 }
        (resolveOnlineAccount exampleEnv indexedCache 7 localUid remoteUid false)) :=
  ⟨indexedIdsValid_indexedCache, by decide, by decide,
    resolve_returns_indexed_item_or_queues exampleEnv indexedCache 7 false
      indexedIdsValid_indexedCache⟩

/-! ## Index maintenance -/

theorem sameIndexes_refl (s : State) : SameIndexes s s := ⟨rfl, rfl, rfl⟩

theorem sameIndexes_trans {s₁ s₂ s₃ : State} (h₁ : SameIndexes s₁ s₂)
    (h₂ : SameIndexes s₂ s₃) : SameIndexes s₁ s₃ :=
  ⟨h₂.1.trans h₁.1, h₂.2.1.trans h₁.2.1, h₂.2.2.trans h₁.2.2⟩

theorem requestUpdate_sameIndexes (s : State) : SameIndexes s (requestUpdate s) := by
  unfold requestUpdate State.emit
  split <;> exact ⟨rfl, rfl, rfl⟩

theorem fetchContacts_sameIndexes (s : State) : SameIndexes s (fetchContacts s) := by
  unfold fetchContacts
  split
  · exact ⟨rfl, rfl, rfl⟩
  · refine sameIndexes_trans ?_ (requestUpdate_sameIndexes _)
    split <;> exact ⟨rfl, rfl, rfl⟩

theorem refreshContact_sameIndexes (s : State) (key : Nat) :
    SameIndexes s (refreshContact s key) := by
  unfold refreshContact
  split
  · exact sameIndexes_refl s
  · exact sameIndexes_trans ⟨rfl, rfl, rfl⟩ (fetchContacts_sameIndexes _)

theorem ensureCompletion_sameIndexes (s : State) (key : Nat) :
    SameIndexes s (ensureCompletion s key) := by
  unfold ensureCompletion
  split
  · exact sameIndexes_refl s
  · split
    · exact refreshContact_sameIndexes s key
    · exact sameIndexes_refl s

theorem resolveUnknownAddressesLoop_sameIndexes (first second : String) (item : Nat)
    (l : List ResolveData) (s : State) :
    SameIndexes s (resolveUnknownAddressesLoop first second item l s).2 := by
  induction l generalizing s with
  | nil => exact sameIndexes_refl s
  | cons it rest ih =>
    unfold resolveUnknownAddressesLoop
    split
    · refine sameIndexes_trans ?_ (ih _)
      cases it.requireComplete
      · exact ⟨rfl, rfl, rfl⟩
      · exact @sameIndexes_trans s (s.emit _) _ ⟨rfl, rfl, rfl⟩
          (ensureCompletion_sameIndexes _ _)
    · exact ih s

theorem resolveUnknownAddresses_sameIndexes (s : State) (first second : String) (item : Nat) :
    SameIndexes s (resolveUnknownAddresses s first second item) := by
  have h := resolveUnknownAddressesLoop_sameIndexes first second item s.m_unknownAddresses s
  exact ⟨h.1, h.2.1, h.2.2⟩

theorem mem_insertAddresses (pairs acc : List (String × String)) (a : String × String) :
    a ∈ insertAddresses acc pairs ↔ a ∈ acc ∨ a ∈ pairs := by
  induction pairs generalizing acc with
  | nil => simp [insertAddresses]
  | cons p rest ih =>
    have h := ih (setInsert acc p)
    simp only [insertAddresses, List.foldl_cons] at h ⊢
    rw [h]
    unfold setInsert
    split
    · rename_i hp
      constructor
      · rintro (h1 | h1)
        · exact Or.inl h1
        · exact Or.inr (List.mem_cons_of_mem _ h1)
      · rintro (h1 | h1)
        · exact Or.inl h1
        · rcases List.mem_cons.mp h1 with h2 | h2
          · exact Or.inl (h2 ▸ hp)
          · exact Or.inr h2
    · simp only [List.mem_append, List.mem_singleton, List.mem_cons]
      tauto

theorem mem_setRemove {α : Type} [DecidableEq α] (s : List α) (a b : α) :
    b ∈ setRemove s a ↔ b ∈ s ∧ b ≠ a := by
  simp [setRemove]

theorem hashFind_foldl_hashRemove {κ ν α : Type} [DecidableEq κ] (keyOf : α → κ) (l : List α)
    (index : List (κ × ν)) (k : κ) :
    hashFind (List.foldl (fun index a => hashRemove index (keyOf a)) index l) k =
      if k ∈ l.map keyOf then none else hashFind index k := by
  induction l generalizing index with
  | nil => simp
  | cons a rest ih =>
    simp only [List.foldl_cons, List.map_cons, List.mem_cons]
    rw [ih]
    by_cases h1 : k ∈ rest.map keyOf
    · simp [h1]
    · by_cases h2 : k = keyOf a
      · subst h2
        simp [h1, hashFind_hashRemove_self]
      · have h3 : keyOf a ≠ k := fun h => h2 h.symm
        simp [h1, h2, hashFind_hashRemove_ne _ _ _ h3]

theorem indexPhoneNumbers_spec (env : Env) (iid item : Nat) (numbers : List String)
    (oldAddresses : List (String × String)) (s : State) (modified : Bool) :
    (∀ a, a ∈ (indexPhoneNumbers env iid item numbers oldAddresses s modified).1 ↔
      a ∈ oldAddresses ∧ a ∉ numbers.map (addressPairPhone env)) ∧
    (∀ k, hashFind (indexPhoneNumbers env iid item numbers oldAddresses s modified).2.1.m_phoneNumberIds k =
      if k ∈ numbers.map (normalizePhoneNumber env) then some iid
      else hashFind s.m_phoneNumberIds k) ∧
    (indexPhoneNumbers env iid item numbers oldAddresses s modified).2.1.m_emailAddressIds =
      s.m_emailAddressIds ∧
    (indexPhoneNumbers env iid item numbers oldAddresses s modified).2.1.m_onlineAccountIds =
      s.m_onlineAccountIds := by
  induction numbers generalizing oldAddresses s modified with
  | nil => simp [indexPhoneNumbers]
  | cons number rest ih =>
    unfold indexPhoneNumbers
    simp only []
    have hs1 : SameIndexes s (if addressPairPhone env number ∈ oldAddresses then s
        else resolveUnknownAddresses s (addressPairPhone env number).1
          (addressPairPhone env number).2 item) := by
      split
      · exact sameIndexes_refl s
      · exact resolveUnknownAddresses_sameIndexes _ _ _ _
    generalize (if addressPairPhone env number ∈ oldAddresses then s
        else resolveUnknownAddresses s (addressPairPhone env number).1
          (addressPairPhone env number).2 item) = s1 at hs1
    obtain ⟨h1, h2, h3, h4⟩ := ih (setRemove oldAddresses (addressPairPhone env number))
      { s1 with m_phoneNumberIds :=
          hashInsert s1.m_phoneNumberIds (addressPairPhone env number).2 iid }
      (if addressPairPhone env number ∈ oldAddresses then modified else true)
    refine ⟨?_, ?_, ?_, ?_⟩
    · intro a
      rw [h1, mem_setRemove]
      simp only [List.map_cons, List.mem_cons, not_or]
      tauto
    · intro k
      rw [h2]
      simp only [List.map_cons, List.mem_cons]
      by_cases hk : k ∈ rest.map (normalizePhoneNumber env)
      · simp [hk]
      · by_cases hk' : k = normalizePhoneNumber env number
        · subst hk'
          simp [addressPairPhone, hashFind_hashInsert_self]
        · have hne : (addressPairPhone env number).2 ≠ k := fun h => hk' h.symm
          simp only [hk, hk', or_self, if_false]
          rw [hashFind_hashInsert_ne _ _ _ _ hne, hs1.1]
    · rw [h3]
      exact hs1.2.1
    · rw [h4]
      exact hs1.2.2

theorem updatePhoneNumberIndexing_spec (env : Env) (s : State) (oldContact contact : QContact)
    (iid item : Nat) (modified : Bool) :
    (∀ n ∈ contact.phoneNumbers,
      hashFind (updatePhoneNumberIndexing env s oldContact contact iid item modified).2.m_phoneNumberIds
        (normalizePhoneNumber env n) = some iid) ∧
    (∀ n ∈ oldContact.phoneNumbers,
      normalizePhoneNumber env n ∉ contact.phoneNumbers.map (normalizePhoneNumber env) →
      hashFind (updatePhoneNumberIndexing env s oldContact contact iid item modified).2.m_phoneNumberIds
        (normalizePhoneNumber env n) = none) ∧
    (updatePhoneNumberIndexing env s oldContact contact iid item modified).2.m_emailAddressIds =
      s.m_emailAddressIds ∧
    (updatePhoneNumberIndexing env s oldContact contact iid item modified).2.m_onlineAccountIds =
      s.m_onlineAccountIds := by
  obtain ⟨h1, h2, h3, h4⟩ := indexPhoneNumbers_spec env iid item contact.phoneNumbers
    (insertAddresses [] (oldContact.phoneNumbers.map (addressPairPhone env))) s modified
  have hpair : ∀ n m : String, addressPairPhone env n = addressPairPhone env m ↔
      normalizePhoneNumber env n = normalizePhoneNumber env m := by
    intro n m
    simp [addressPairPhone]
  unfold updatePhoneNumberIndexing
  simp only []
  generalize indexPhoneNumbers env iid item contact.phoneNumbers
    (insertAddresses [] (oldContact.phoneNumbers.map (addressPairPhone env))) s modified = r
    at h1 h2 h3 h4
  by_cases hempty : r.1.isEmpty = true
  · simp only [hempty, if_true]
    refine ⟨?_, ?_, h3, h4⟩
    · intro n hn
      rw [h2]
      simp [List.mem_map_of_mem _ hn]
    · intro n hn hnot
      exfalso
      have hmem : addressPairPhone env n ∈ r.1 := by
        rw [h1, mem_insertAddresses]
        refine ⟨Or.inr (List.mem_map_of_mem _ hn), ?_⟩
        intro hc
        obtain ⟨m, hm, hmeq⟩ := List.mem_map.mp hc
        exact hnot (List.mem_map.mpr ⟨m, hm, (hpair m n).mp hmeq⟩)
      rw [List.isEmpty_iff] at hempty
      rw [hempty] at hmem
      exact List.not_mem_nil _ hmem
  · simp only [hempty, Bool.false_eq_true, if_false]
    refine ⟨?_, ?_, h3, h4⟩
    · intro n hn
      show hashFind (List.foldl (fun index address => hashRemove index address.2)
        r.2.1.m_phoneNumberIds r.1) (normalizePhoneNumber env n) = some iid
      rw [hashFind_foldl_hashRemove (fun a : String × String => a.2), h2]
      have hnotin : normalizePhoneNumber env n ∉ r.1.map (fun a : String × String => a.2) := by
        intro hc
        obtain ⟨a, ha, haeq⟩ := List.mem_map.mp hc
        have ha' := (h1 a).mp ha
        rw [mem_insertAddresses] at ha'
        rcases ha'.1 with hnil | hold
        · exact List.not_mem_nil _ hnil
        · obtain ⟨m, _, hmeq⟩ := List.mem_map.mp hold
          apply ha'.2
          refine List.mem_map.mpr ⟨n, hn, ?_⟩
          rw [← hmeq] at haeq ⊢
          simp only [addressPairPhone] at haeq ⊢
          rw [haeq]
      simp [hnotin, List.mem_map_of_mem _ hn]
    · intro n hn hnot
      show hashFind (List.foldl (fun index address => hashRemove index address.2)
        r.2.1.m_phoneNumberIds r.1) (normalizePhoneNumber env n) = none
      rw [hashFind_foldl_hashRemove (fun a : String × String => a.2)]
      have hmem : addressPairPhone env n ∈ r.1 := by
        rw [h1, mem_insertAddresses]
        refine ⟨Or.inr (List.mem_map_of_mem _ hn), ?_⟩
        intro hc
        obtain ⟨m, hm, hmeq⟩ := List.mem_map.mp hc
        exact hnot (List.mem_map.mpr ⟨m, hm, (hpair m n).mp hmeq⟩)
      have hin : normalizePhoneNumber env n ∈ r.1.map (fun a : String × String => a.2) :=
        List.mem_map.mpr ⟨_, hmem, rfl⟩
      simp [hin]

theorem indexEmailAddresses_spec (env : Env) (iid item : Nat) (addresses : List String)
    (oldAddresses : List (String × String)) (s : State) (modified : Bool) :
    (∀ a, a ∈ (indexEmailAddresses env iid item addresses oldAddresses s modified).1 ↔
      a ∈ oldAddresses ∧ a ∉ addresses.map (addressPairEmail env)) ∧
    (∀ k, hashFind (indexEmailAddresses env iid item addresses oldAddresses s modified).2.1.m_emailAddressIds k =
      if k ∈ addresses.map (env.toLower) then some iid
      else hashFind s.m_emailAddressIds k) ∧
    (indexEmailAddresses env iid item addresses oldAddresses s modified).2.1.m_phoneNumberIds =
      s.m_phoneNumberIds ∧
    (indexEmailAddresses env iid item addresses oldAddresses s modified).2.1.m_onlineAccountIds =
      s.m_onlineAccountIds := by
  induction addresses generalizing oldAddresses s modified with
  | nil => simp [indexEmailAddresses]
  | cons emailAddress rest ih =>
    unfold indexEmailAddresses
    simp only []
    have hs1 : SameIndexes s (if addressPairEmail env emailAddress ∈ oldAddresses then s
        else resolveUnknownAddresses s (addressPairEmail env emailAddress).1
          (addressPairEmail env emailAddress).2 item) := by
      split
      · exact sameIndexes_refl s
      · exact resolveUnknownAddresses_sameIndexes _ _ _ _
    generalize (if addressPairEmail env emailAddress ∈ oldAddresses then s
        else resolveUnknownAddresses s (addressPairEmail env emailAddress).1
          (addressPairEmail env emailAddress).2 item) = s1 at hs1
    obtain ⟨h1, h2, h3, h4⟩ := ih (setRemove oldAddresses (addressPairEmail env emailAddress))
      { s1 with m_emailAddressIds :=
          hashInsert s1.m_emailAddressIds (addressPairEmail env emailAddress).1 iid }
      (if addressPairEmail env emailAddress ∈ oldAddresses then modified else true)
    refine ⟨?_, ?_, ?_, ?_⟩
    · intro a
      rw [h1, mem_setRemove]
      simp only [List.map_cons, List.mem_cons, not_or]
      tauto
    · intro k
      rw [h2]
      simp only [List.map_cons, List.mem_cons]
      by_cases hk : k ∈ rest.map (env.toLower)
      · simp [hk]
      · by_cases hk' : k = env.toLower emailAddress
        · subst hk'
          simp [addressPairEmail, hashFind_hashInsert_self]
        · have hne : (addressPairEmail env emailAddress).1 ≠ k := fun h => hk' h.symm
          simp only [hk, hk', or_self, if_false]
          rw [hashFind_hashInsert_ne _ _ _ _ hne, hs1.2.1]
    · rw [h3]
      exact hs1.1
    · rw [h4]
      exact hs1.2.2

theorem updateEmailAddressIndexing_spec (env : Env) (s : State) (oldContact contact : QContact)
    (iid item : Nat) (modified : Bool) :
    (∀ n ∈ contact.emailAddresses,
      hashFind (updateEmailAddressIndexing env s oldContact contact iid item modified).2.m_emailAddressIds
        (env.toLower n) = some iid) ∧
    (∀ n ∈ oldContact.emailAddresses,
      env.toLower n ∉ contact.emailAddresses.map (env.toLower) →
      hashFind (updateEmailAddressIndexing env s oldContact contact iid item modified).2.m_emailAddressIds
        (env.toLower n) = none) ∧
    (updateEmailAddressIndexing env s oldContact contact iid item modified).2.m_phoneNumberIds =
      s.m_phoneNumberIds ∧
    (updateEmailAddressIndexing env s oldContact contact iid item modified).2.m_onlineAccountIds =
      s.m_onlineAccountIds := by
  obtain ⟨h1, h2, h3, h4⟩ := indexEmailAddresses_spec env iid item contact.emailAddresses
    (insertAddresses [] (oldContact.emailAddresses.map (addressPairEmail env))) s modified
  have hpair : ∀ n m : String, addressPairEmail env n = addressPairEmail env m ↔
      env.toLower n = env.toLower m := by
    intro n m
    simp [addressPairEmail]
  unfold updateEmailAddressIndexing
  simp only []
  generalize indexEmailAddresses env iid item contact.emailAddresses
    (insertAddresses [] (oldContact.emailAddresses.map (addressPairEmail env))) s modified = r
    at h1 h2 h3 h4
  by_cases hempty : r.1.isEmpty = true
  · simp only [hempty, if_true]
    refine ⟨?_, ?_, h3, h4⟩
    · intro n hn
      rw [h2]
      simp [List.mem_map_of_mem _ hn]
    · intro n hn hnot
      exfalso
      have hmem : addressPairEmail env n ∈ r.1 := by
        rw [h1, mem_insertAddresses]
        refine ⟨Or.inr (List.mem_map_of_mem _ hn), ?_⟩
        intro hc
        obtain ⟨m, hm, hmeq⟩ := List.mem_map.mp hc
        exact hnot (List.mem_map.mpr ⟨m, hm, (hpair m n).mp hmeq⟩)
      rw [List.isEmpty_iff] at hempty
      rw [hempty] at hmem
      exact List.not_mem_nil _ hmem
  · simp only [hempty, Bool.false_eq_true, if_false]
    refine ⟨?_, ?_, h3, h4⟩
    · intro n hn
      show hashFind (List.foldl (fun index address => hashRemove index address.1)
        r.2.1.m_emailAddressIds r.1) (env.toLower n) = some iid
      rw [hashFind_foldl_hashRemove (fun a : String × String => a.1), h2]
      have hnotin : env.toLower n ∉ r.1.map (fun a : String × String => a.1) := by
        intro hc
        obtain ⟨a, ha, haeq⟩ := List.mem_map.mp hc
        have ha' := (h1 a).mp ha
        rw [mem_insertAddresses] at ha'
        rcases ha'.1 with hnil | hold
        · exact List.not_mem_nil _ hnil
        · obtain ⟨m, _, hmeq⟩ := List.mem_map.mp hold
          apply ha'.2
          refine List.mem_map.mpr ⟨n, hn, ?_⟩
          rw [← hmeq] at haeq ⊢
          simp only [addressPairEmail] at haeq ⊢
          rw [haeq]
      simp [hnotin, List.mem_map_of_mem _ hn]
    · intro n hn hnot
      show hashFind (List.foldl (fun index address => hashRemove index address.1)
        r.2.1.m_emailAddressIds r.1) (env.toLower n) = none
      rw [hashFind_foldl_hashRemove (fun a : String × String => a.1)]
      have hmem : addressPairEmail env n ∈ r.1 := by
        rw [h1, mem_insertAddresses]
        refine ⟨Or.inr (List.mem_map_of_mem _ hn), ?_⟩
        intro hc
        obtain ⟨m, hm, hmeq⟩ := List.mem_map.mp hc
        exact hnot (List.mem_map.mpr ⟨m, hm, (hpair m n).mp hmeq⟩)
      have hin : env.toLower n ∈ r.1.map (fun a : String × String => a.1) :=
        List.mem_map.mpr ⟨_, hmem, rfl⟩
      simp [hin]

theorem indexOnlineAccounts_spec (env : Env) (iid item : Nat) (accounts : List (String × String))
    (oldAddresses : List (String × String)) (s : State) (modified : Bool) :
    (∀ a, a ∈ (indexOnlineAccounts env iid item accounts oldAddresses s modified).1 ↔
      a ∈ oldAddresses ∧ a ∉ accounts.map (addressPairAccount env)) ∧
    (∀ k, hashFind (indexOnlineAccounts env iid item accounts oldAddresses s modified).2.1.m_onlineAccountIds k =
      if k ∈ accounts.map (addressPairAccount env) then some iid
      else hashFind s.m_onlineAccountIds k) ∧
    (indexOnlineAccounts env iid item accounts oldAddresses s modified).2.1.m_phoneNumberIds =
      s.m_phoneNumberIds ∧
    (indexOnlineAccounts env iid item accounts oldAddresses s modified).2.1.m_emailAddressIds =
      s.m_emailAddressIds := by
  induction accounts generalizing oldAddresses s modified with
  | nil => simp [indexOnlineAccounts]
  | cons account rest ih =>
    unfold indexOnlineAccounts
    simp only []
    have hs1 : SameIndexes s (if addressPairAccount env account ∈ oldAddresses then s
        else resolveUnknownAddresses s (addressPairAccount env account).1
          (addressPairAccount env account).2 item) := by
      split
      · exact sameIndexes_refl s
      · exact resolveUnknownAddresses_sameIndexes _ _ _ _
    generalize (if addressPairAccount env account ∈ oldAddresses then s
        else resolveUnknownAddresses s (addressPairAccount env account).1
          (addressPairAccount env account).2 item) = s1 at hs1
    obtain ⟨h1, h2, h3, h4⟩ := ih (setRemove oldAddresses (addressPairAccount env account))
      { s1 with m_onlineAccountIds :=
          hashInsert s1.m_onlineAccountIds (addressPairAccount env account) iid }
      (if addressPairAccount env account ∈ oldAddresses then modified else true)
    refine ⟨?_, ?_, ?_, ?_⟩
    · intro a
      rw [h1, mem_setRemove]
      simp only [List.map_cons, List.mem_cons, not_or]
      tauto
    · intro k
      rw [h2]
      simp only [List.map_cons, List.mem_cons]
      by_cases hk : k ∈ rest.map (addressPairAccount env)
      · simp [hk]
      · by_cases hk' : k = addressPairAccount env account
        · subst hk'
          simp [hashFind_hashInsert_self]
        · have hne : addressPairAccount env account ≠ k := fun h => hk' h.symm
          simp only [hk, hk', or_self, if_false]
          rw [hashFind_hashInsert_ne _ _ _ _ hne, hs1.2.2]
    · rw [h3]
      exact hs1.1
    · rw [h4]
      exact hs1.2.1

theorem updateOnlineAccountIndexing_spec (env : Env) (s : State)
    (oldContact contact : QContact) (iid item : Nat) (modified : Bool) :
    (∀ a ∈ contact.onlineAccounts,
      hashFind (updateOnlineAccountIndexing env s oldContact contact iid item modified).2.m_onlineAccountIds
        (addressPairAccount env a) = some iid) ∧
    (∀ a ∈ oldContact.onlineAccounts,
      addressPairAccount env a ∉ contact.onlineAccounts.map (addressPairAccount env) →
      hashFind (updateOnlineAccountIndexing env s oldContact contact iid item modified).2.m_onlineAccountIds
        (addressPairAccount env a) = none) ∧
    (updateOnlineAccountIndexing env s oldContact contact iid item modified).2.m_phoneNumberIds =
      s.m_phoneNumberIds ∧
    (updateOnlineAccountIndexing env s oldContact contact iid item modified).2.m_emailAddressIds =
      s.m_emailAddressIds := by
  obtain ⟨h1, h2, h3, h4⟩ := indexOnlineAccounts_spec env iid item contact.onlineAccounts
    (insertAddresses [] (oldContact.onlineAccounts.map (addressPairAccount env))) s modified
  unfold updateOnlineAccountIndexing
  simp only []
  generalize indexOnlineAccounts env iid item contact.onlineAccounts
    (insertAddresses [] (oldContact.onlineAccounts.map (addressPairAccount env))) s modified = r
    at h1 h2 h3 h4
  by_cases hempty : r.1.isEmpty = true
  · simp only [hempty, if_true]
    refine ⟨?_, ?_, h3, h4⟩
    · intro a ha
      rw [h2]
      simp [List.mem_map_of_mem _ ha]
    · intro a ha hnot
      exfalso
      have hmem : addressPairAccount env a ∈ r.1 := by
        rw [h1, mem_insertAddresses]
        exact ⟨Or.inr (List.mem_map_of_mem _ ha), hnot⟩
      rw [List.isEmpty_iff] at hempty
      rw [hempty] at hmem
      exact List.not_mem_nil _ hmem
  · simp only [hempty, Bool.false_eq_true, if_false]
    refine ⟨?_, ?_, h3, h4⟩
    · intro a ha
      show hashFind (List.foldl (fun index address => hashRemove index address)
        r.2.1.m_onlineAccountIds r.1) (addressPairAccount env a) = some iid
      rw [hashFind_foldl_hashRemove (fun a : String × String => a), h2]
      have hnotin : addressPairAccount env a ∉ r.1.map (fun a : String × String => a) := by
        intro hc
        rw [List.map_id'] at hc
        exact ((h1 _).mp hc).2 (List.mem_map_of_mem _ ha)
      simp only [hnotin, if_false, List.mem_map_of_mem _ ha, if_true]
    · intro a ha hnot
      show hashFind (List.foldl (fun index address => hashRemove index address)
        r.2.1.m_onlineAccountIds r.1) (addressPairAccount env a) = none
      rw [hashFind_foldl_hashRemove (fun a : String × String => a)]
      have hmem : addressPairAccount env a ∈ r.1 := by
        rw [h1, mem_insertAddresses]
        exact ⟨Or.inr (List.mem_map_of_mem _ ha), hnot⟩
      have hin : addressPairAccount env a ∈ r.1.map (fun a : String × String => a) := by
        rw [List.map_id']
        exact hmem
      simp only [hin, if_true]

theorem itemById_fst (s : State) (id : Nat) (requireComplete : Bool) :
    (itemById s id requireComplete).1 = if id = 0 then none else some id := by
  by_cases h : id = 0
  · subst h
    simp [itemById_null]
  · simp [h, (itemById_valid s id requireComplete h).1]

theorem updateContactIndexing_indexes_aux (env : Env) (s : State) (oldContact contact : QContact)
    (iid : Nat) (queryDetailTypes : List DetailTypeId) (item : Nat) (s' : State)
    (hs0 : s' = (updateContactIndexing env s oldContact contact iid queryDetailTypes item).2) :
    (if detailTypeQueried queryDetailTypes .PhoneNumber then
      (∀ n ∈ contact.phoneNumbers,
        hashFind s'.m_phoneNumberIds (normalizePhoneNumber env n) = some iid ∧
        ∀ requireComplete, (itemByPhoneNumber env s' n requireComplete).1 =
          if iid = 0 then none else some iid) ∧
      (∀ n ∈ oldContact.phoneNumbers,
        normalizePhoneNumber env n ∉ contact.phoneNumbers.map (normalizePhoneNumber env) →
        hashFind s'.m_phoneNumberIds (normalizePhoneNumber env n) = none)
     else s'.m_phoneNumberIds = s.m_phoneNumberIds) ∧
    (if detailTypeQueried queryDetailTypes .EmailAddress then
      (∀ a ∈ contact.emailAddresses,
        hashFind s'.m_emailAddressIds (env.toLower a) = some iid ∧
        ∀ requireComplete, (itemByEmailAddress env s' a requireComplete).1 =
          if iid = 0 then none else some iid) ∧
      (∀ a ∈ oldContact.emailAddresses,
        env.toLower a ∉ contact.emailAddresses.map env.toLower →
        hashFind s'.m_emailAddressIds (env.toLower a) = none)
     else s'.m_emailAddressIds = s.m_emailAddressIds) ∧
    (if detailTypeQueried queryDetailTypes .OnlineAccount then
      (∀ a ∈ contact.onlineAccounts,
        hashFind s'.m_onlineAccountIds (a.1, env.toLower a.2) = some iid ∧
        ∀ requireComplete, (itemByOnlineAccount env s' a.1 a.2 requireComplete).1 =
          if iid = 0 then none else some iid) ∧
      (∀ a ∈ oldContact.onlineAccounts,
        (a.1, env.toLower a.2) ∉
          contact.onlineAccounts.map (fun b => (b.1, env.toLower b.2)) →
        hashFind s'.m_onlineAccountIds (a.1, env.toLower a.2) = none)
     else s'.m_onlineAccountIds = s.m_onlineAccountIds) := by
  -- the three sections, in order
  obtain ⟨p1, p2, p3, p4⟩ :=
    updatePhoneNumberIndexing_spec env s oldContact contact iid item false
  generalize hr1 : (if detailTypeQueried queryDetailTypes .PhoneNumber then
      updatePhoneNumberIndexing env s oldContact contact iid item false
    else (false, s)) = r1
  obtain ⟨e1, e2, e3, e4⟩ :=
    updateEmailAddressIndexing_spec env r1.2 oldContact contact iid item r1.1
  generalize hr2 : (if detailTypeQueried queryDetailTypes .EmailAddress then
      updateEmailAddressIndexing env r1.2 oldContact contact iid item r1.1
    else r1) = r2
  obtain ⟨a1, a2, a3, a4⟩ :=
    updateOnlineAccountIndexing_spec env r2.2 oldContact contact iid item r2.1
  have hs' : s' = (if detailTypeQueried queryDetailTypes .OnlineAccount then
      updateOnlineAccountIndexing env r2.2 oldContact contact iid item r2.1
    else r2).2 := by
    rw [hs0]
    unfold updateContactIndexing
    simp only [hr1, hr2]
  -- how each index travels through the later sections
  have hphone : s'.m_phoneNumberIds = r1.2.m_phoneNumberIds := by
    rw [hs']
    have h2 : r2.2.m_phoneNumberIds = r1.2.m_phoneNumberIds := by
      rw [← hr2]
      split
      · exact e3
      · rfl
    split
    · rw [a3, h2]
    · exact h2
  have hemail : s'.m_emailAddressIds = r2.2.m_emailAddressIds := by
    rw [hs']
    split
    · exact a4
    · rfl
  have haccount : detailTypeQueried queryDetailTypes .OnlineAccount = false →
      s'.m_onlineAccountIds = s.m_onlineAccountIds := by
    intro hq
    rw [hs']
    simp only [hq, Bool.false_eq_true, if_false]
    rw [← hr2]
    have h1 : r1.2.m_onlineAccountIds = s.m_onlineAccountIds := by
      rw [← hr1]
      split
      · exact p4
      · rfl
    split
    · rw [e4, h1]
    · exact h1
  refine ⟨?_, ?_, ?_⟩
  · by_cases hq : detailTypeQueried queryDetailTypes .PhoneNumber = true
    · simp only [hq, if_true] at hr1 ⊢
      rw [hphone, ← hr1]
      refine ⟨fun n hn => ⟨p1 n hn, fun requireComplete => ?_⟩, p2⟩
      unfold itemByPhoneNumber
      rw [hphone, ← hr1, p1 n hn]
      exact itemById_fst _ _ _
    · simp only [hq, Bool.false_eq_true, if_false] at hr1 ⊢
      rw [hphone, ← hr1]
  · by_cases hq : detailTypeQueried queryDetailTypes .EmailAddress = true
    · simp only [hq, if_true] at hr2 ⊢
      rw [hemail, ← hr2]
      refine ⟨fun a ha => ⟨e1 a ha, fun requireComplete => ?_⟩, e2⟩
      unfold itemByEmailAddress
      rw [hemail, ← hr2, e1 a ha]
      exact itemById_fst _ _ _
    · simp only [hq, Bool.false_eq_true, if_false] at hr2 ⊢
      rw [hemail, ← hr2, ← hr1]
      split
      · exact p3
      · rfl
  · by_cases hq : detailTypeQueried queryDetailTypes .OnlineAccount = true
    · simp only [hq, if_true] at hs' ⊢
      rw [hs']
      refine ⟨fun a ha => ⟨a1 a ha, fun requireComplete => ?_⟩, a2⟩
      unfold itemByOnlineAccount
      have := a1 a ha
      simp only [addressPairAccount] at this
      rw [this]
      exact itemById_fst _ _ _
    · simp only [hq, Bool.false_eq_true, if_false]
      exact haccount (by simpa using hq)

theorem updatePhoneNumberIndexing_ids (env : Env) (s : State) (oldContact contact : QContact)
    (iid item : Nat) (modified : Bool) (k : String) (id : Nat)
    (h : hashFind (updatePhoneNumberIndexing env s oldContact contact iid item
      modified).2.m_phoneNumberIds k = some id) :
    id = iid ∨ hashFind s.m_phoneNumberIds k = some id := by
  obtain ⟨_, h2, _, _⟩ := indexPhoneNumbers_spec env iid item contact.phoneNumbers
    (insertAddresses [] (oldContact.phoneNumbers.map (addressPairPhone env))) s modified
  unfold updatePhoneNumberIndexing at h
  simp only [] at h
  generalize indexPhoneNumbers env iid item contact.phoneNumbers
    (insertAddresses [] (oldContact.phoneNumbers.map (addressPairPhone env))) s modified = r
    at h h2
  have hidx : hashFind r.2.1.m_phoneNumberIds k = some id := by
    by_cases hempty : r.1.isEmpty = true
    · simp only [hempty, if_true] at h
      exact h
    · simp only [hempty, Bool.false_eq_true, if_false] at h
      have h' : hashFind (List.foldl (fun index address => hashRemove index address.2)
          r.2.1.m_phoneNumberIds r.1) k = some id := h
      rw [hashFind_foldl_hashRemove (fun a : String × String => a.2)] at h'
      split at h'
      · cases h'
      · exact h'
  rw [h2] at hidx
  split at hidx
  · exact Or.inl (Option.some.inj hidx).symm
  · exact Or.inr hidx

theorem updateEmailAddressIndexing_ids (env : Env) (s : State) (oldContact contact : QContact)
    (iid item : Nat) (modified : Bool) (k : String) (id : Nat)
    (h : hashFind (updateEmailAddressIndexing env s oldContact contact iid item
      modified).2.m_emailAddressIds k = some id) :
    id = iid ∨ hashFind s.m_emailAddressIds k = some id := by
  obtain ⟨_, h2, _, _⟩ := indexEmailAddresses_spec env iid item contact.emailAddresses
    (insertAddresses [] (oldContact.emailAddresses.map (addressPairEmail env))) s modified
  unfold updateEmailAddressIndexing at h
  simp only [] at h
  generalize indexEmailAddresses env iid item contact.emailAddresses
    (insertAddresses [] (oldContact.emailAddresses.map (addressPairEmail env))) s modified = r
    at h h2
  have hidx : hashFind r.2.1.m_emailAddressIds k = some id := by
    by_cases hempty : r.1.isEmpty = true
    · simp only [hempty, if_true] at h
      exact h
    · simp only [hempty, Bool.false_eq_true, if_false] at h
      have h' : hashFind (List.foldl (fun index address => hashRemove index address.1)
          r.2.1.m_emailAddressIds r.1) k = some id := h
      rw [hashFind_foldl_hashRemove (fun a : String × String => a.1)] at h'
      split at h'
      · cases h'
      · exact h'
  rw [h2] at hidx
  split at hidx
  · exact Or.inl (Option.some.inj hidx).symm
  · exact Or.inr hidx

theorem updateOnlineAccountIndexing_ids (env : Env) (s : State) (oldContact contact : QContact)
    (iid item : Nat) (modified : Bool) (k : String × String) (id : Nat)
    (h : hashFind (updateOnlineAccountIndexing env s oldContact contact iid item
      modified).2.m_onlineAccountIds k = some id) :
    id = iid ∨ hashFind s.m_onlineAccountIds k = some id := by
  obtain ⟨_, h2, _, _⟩ := indexOnlineAccounts_spec env iid item contact.onlineAccounts
    (insertAddresses [] (oldContact.onlineAccounts.map (addressPairAccount env))) s modified
  unfold updateOnlineAccountIndexing at h
  simp only [] at h
  generalize indexOnlineAccounts env iid item contact.onlineAccounts
    (insertAddresses [] (oldContact.onlineAccounts.map (addressPairAccount env))) s modified = r
    at h h2
  have hidx : hashFind r.2.1.m_onlineAccountIds k = some id := by
    by_cases hempty : r.1.isEmpty = true
    · simp only [hempty, if_true] at h
      exact h
    · simp only [hempty, Bool.false_eq_true, if_false] at h
      have h' : hashFind (List.foldl (fun index address => hashRemove index address)
          r.2.1.m_onlineAccountIds r.1) k = some id := h
      rw [hashFind_foldl_hashRemove (fun a : String × String => a)] at h'
      split at h'
      · cases h'
      · exact h'
  rw [h2] at hidx
  split at hidx
  · exact Or.inl (Option.some.inj hidx).symm
  · exact Or.inr hidx

/-- With a valid `iid`, `updateContactIndexing` leaves indexes that hold valid ids only. -/
theorem updateContactIndexing_indexedIdsValid (env : Env) (s : State)
    (oldContact contact : QContact) (iid : Nat) (queryDetailTypes : List DetailTypeId)
    (item : Nat) (hiid : validId iid = true) (hs : IndexedIdsValid s) :
    IndexedIdsValid (updateContactIndexing env s oldContact contact iid queryDetailTypes
      item).2 := by
  have step1 : ∀ modified, IndexedIdsValid
      (updatePhoneNumberIndexing env s oldContact contact iid item modified).2 := by
    intro modified
    obtain ⟨_, _, p3, p4⟩ := updatePhoneNumberIndexing_spec env s oldContact contact iid item
      modified
    refine ⟨fun k id h => ?_, fun k id h => ?_, fun k id h => ?_⟩
    · rcases updatePhoneNumberIndexing_ids env s oldContact contact iid item modified k id h
        with he | ho
      · rw [he]
        exact hiid
      · exact hs.1 k id ho
    · rw [p3] at h
      exact hs.2.1 k id h
    · rw [p4] at h
      exact hs.2.2 k id h
  have step2 : ∀ (s1 : State) modified, IndexedIdsValid s1 → IndexedIdsValid
      (updateEmailAddressIndexing env s1 oldContact contact iid item modified).2 := by
    intro s1 modified hs1
    obtain ⟨_, _, p3, p4⟩ := updateEmailAddressIndexing_spec env s1 oldContact contact iid
      item modified
    refine ⟨fun k id h => ?_, fun k id h => ?_, fun k id h => ?_⟩
    · rw [p3] at h
      exact hs1.1 k id h
    · rcases updateEmailAddressIndexing_ids env s1 oldContact contact iid item modified k id h
        with he | ho
      · rw [he]
        exact hiid
      · exact hs1.2.1 k id ho
    · rw [p4] at h
      exact hs1.2.2 k id h
  have step3 : ∀ (s1 : State) modified, IndexedIdsValid s1 → IndexedIdsValid
      (updateOnlineAccountIndexing env s1 oldContact contact iid item modified).2 := by
    intro s1 modified hs1
    obtain ⟨_, _, p3, p4⟩ := updateOnlineAccountIndexing_spec env s1 oldContact contact iid
      item modified
    refine ⟨fun k id h => ?_, fun k id h => ?_, fun k id h => ?_⟩
    · rw [p3] at h
      exact hs1.1 k id h
    · rw [p4] at h
      exact hs1.2.1 k id h
    · rcases updateOnlineAccountIndexing_ids env s1 oldContact contact iid item modified k id h
        with he | ho
      · rw [he]
        exact hiid
      · exact hs1.2.2 k id ho
  unfold updateContactIndexing
  simp only []
  have h1 : IndexedIdsValid (if detailTypeQueried queryDetailTypes .PhoneNumber then
      updatePhoneNumberIndexing env s oldContact contact iid item false
    else (false, s)).2 := by
    split
    · exact step1 false
    · exact hs
  generalize (if detailTypeQueried queryDetailTypes .PhoneNumber then
      updatePhoneNumberIndexing env s oldContact contact iid item false
    else (false, s)) = r1 at h1
  have h2 : IndexedIdsValid (if detailTypeQueried queryDetailTypes .EmailAddress then
      updateEmailAddressIndexing env r1.2 oldContact contact iid item r1.1
    else r1).2 := by
    split
    · exact step2 _ _ h1
    · exact h1
  generalize (if detailTypeQueried queryDetailTypes .EmailAddress then
      updateEmailAddressIndexing env r1.2 oldContact contact iid item r1.1
    else r1) = r2 at h2
  split
  · exact step3 _ _ h2
  · exact h2

theorem itemById_of_valid (s : State) (iid : Nat) (requireComplete : Bool)
    (hv : validId iid = true) :
    (itemById s iid requireComplete).1 = some iid ∧
    (existingItem (itemById s iid requireComplete).2 iid).isSome = true := by
  have hne : iid ≠ 0 := by simpa [validId] using hv
  obtain ⟨h1, h2, _⟩ := itemById_valid s iid requireComplete hne
  exact ⟨h1, h2⟩

theorem updateContactIndexing_lookups_aux (env : Env) (s : State)
    (oldContact contact : QContact) (iid : Nat) (queryDetailTypes : List DetailTypeId)
    (item : Nat) (s' : State)
    (hs0 : s' = (updateContactIndexing env s oldContact contact iid queryDetailTypes item).2)
    (hiid : validId iid = true) :
    (if detailTypeQueried queryDetailTypes .PhoneNumber then
      (∀ n ∈ contact.phoneNumbers,
        hashFind s'.m_phoneNumberIds (normalizePhoneNumber env n) = some iid ∧
        ∀ requireComplete,
          (itemByPhoneNumber env s' n requireComplete).1 = some iid ∧
          (existingItem (itemByPhoneNumber env s' n requireComplete).2 iid).isSome = true) ∧
      (∀ n ∈ oldContact.phoneNumbers,
        normalizePhoneNumber env n ∉ contact.phoneNumbers.map (normalizePhoneNumber env) →
        hashFind s'.m_phoneNumberIds (normalizePhoneNumber env n) = none)
     else s'.m_phoneNumberIds = s.m_phoneNumberIds) ∧
    (if detailTypeQueried queryDetailTypes .EmailAddress then
      (∀ a ∈ contact.emailAddresses,
        hashFind s'.m_emailAddressIds (env.toLower a) = some iid ∧
        ∀ requireComplete,
          (itemByEmailAddress env s' a requireComplete).1 = some iid ∧
          (existingItem (itemByEmailAddress env s' a requireComplete).2 iid).isSome = true) ∧
      (∀ a ∈ oldContact.emailAddresses,
        env.toLower a ∉ contact.emailAddresses.map env.toLower →
        hashFind s'.m_emailAddressIds (env.toLower a) = none)
     else s'.m_emailAddressIds = s.m_emailAddressIds) ∧
    (if detailTypeQueried queryDetailTypes .OnlineAccount then
      (∀ a ∈ contact.onlineAccounts,
        hashFind s'.m_onlineAccountIds (a.1, env.toLower a.2) = some iid ∧
        ∀ requireComplete,
          (itemByOnlineAccount env s' a.1 a.2 requireComplete).1 = some iid ∧
          (existingItem (itemByOnlineAccount env s' a.1 a.2 requireComplete).2
            iid).isSome = true) ∧
      (∀ a ∈ oldContact.onlineAccounts,
        (a.1, env.toLower a.2) ∉
          contact.onlineAccounts.map (fun b => (b.1, env.toLower b.2)) →
        hashFind s'.m_onlineAccountIds (a.1, env.toLower a.2) = none)
     else s'.m_onlineAccountIds = s.m_onlineAccountIds) := by
  obtain ⟨hp, he, ha⟩ :=
    updateContactIndexing_indexes_aux env s oldContact contact iid queryDetailTypes item s' hs0
  refine ⟨?_, ?_, ?_⟩
  · by_cases hq : detailTypeQueried queryDetailTypes .PhoneNumber = true
    · rw [if_pos hq] at hp ⊢
      refine ⟨fun n hn => ⟨(hp.1 n hn).1, fun requireComplete => ?_⟩, hp.2⟩
      unfold itemByPhoneNumber
      rw [(hp.1 n hn).1]
      exact itemById_of_valid s' iid requireComplete hiid
    · rw [if_neg hq] at hp ⊢
      exact hp
  · by_cases hq : detailTypeQueried queryDetailTypes .EmailAddress = true
    · rw [if_pos hq] at he ⊢
      refine ⟨fun a hn => ⟨(he.1 a hn).1, fun requireComplete => ?_⟩, he.2⟩
      unfold itemByEmailAddress
      rw [(he.1 a hn).1]
      exact itemById_of_valid s' iid requireComplete hiid
    · rw [if_neg hq] at he ⊢
      exact he
  · by_cases hq : detailTypeQueried queryDetailTypes .OnlineAccount = true
    · rw [if_pos hq] at ha ⊢
      refine ⟨fun a hn => ⟨(ha.1 a hn).1, fun requireComplete => ?_⟩, ha.2⟩
      unfold itemByOnlineAccount
      rw [(ha.1 a hn).1]
      exact itemById_of_valid s' iid requireComplete hiid
    · rw [if_neg hq] at ha ⊢
      exact ha

/-- C4: after updateContactIndexing(old, new, iid, queriedTypes, item) with a valid iid (both
callers, contactsAvailable and appendContacts, pass the internal id of a contact that the
store returned), for every address kind that is queried: every normalized address of the new
snapshot maps to iid in that kind's index, a lookup by such an address (itemByPhoneNumber,
itemByEmailAddress, itemByOnlineAccount) returns the item stored under iid, and every
normalized address of the old snapshot that the new one lacks is absent from the index. The
index of a kind that is not queried is unchanged. -/
theorem updateContactIndexing_indexes (env : Env) (s : State) (oldContact contact : QContact)
    (iid : Nat) (queryDetailTypes : List DetailTypeId) (item : Nat)
    (hiid : validId iid = true) :
    let s' := (updateContactIndexing env s oldContact contact iid queryDetailTypes item).2
    (if detailTypeQueried queryDetailTypes .PhoneNumber then
      (∀ n ∈ contact.phoneNumbers,
        hashFind s'.m_phoneNumberIds (normalizePhoneNumber env n) = some iid ∧
        ∀ requireComplete,
          (itemByPhoneNumber env s' n requireComplete).1 = some iid ∧
          (existingItem (itemByPhoneNumber env s' n requireComplete).2 iid).isSome = true) ∧
      (∀ n ∈ oldContact.phoneNumbers,
        normalizePhoneNumber env n ∉ contact.phoneNumbers.map (normalizePhoneNumber env) →
        hashFind s'.m_phoneNumberIds (normalizePhoneNumber env n) = none)
     else s'.m_phoneNumberIds = s.m_phoneNumberIds) ∧
    (if detailTypeQueried queryDetailTypes .EmailAddress then
      (∀ a ∈ contact.emailAddresses,
        hashFind s'.m_emailAddressIds (env.toLower a) = some iid ∧
        ∀ requireComplete,
          (itemByEmailAddress env s' a requireComplete).1 = some iid ∧
          (existingItem (itemByEmailAddress env s' a requireComplete).2 iid).isSome = true) ∧
      (∀ a ∈ oldContact.emailAddresses,
        env.toLower a ∉ contact.emailAddresses.map env.toLower →
        hashFind s'.m_emailAddressIds (env.toLower a) = none)
     else s'.m_emailAddressIds = s.m_emailAddressIds) ∧
    (if detailTypeQueried queryDetailTypes .OnlineAccount then
      (∀ a ∈ contact.onlineAccounts,
        hashFind s'.m_onlineAccountIds (a.1, env.toLower a.2) = some iid ∧
        ∀ requireComplete,
          (itemByOnlineAccount env s' a.1 a.2 requireComplete).1 = some iid ∧
          (existingItem (itemByOnlineAccount env s' a.1 a.2 requireComplete).2
            iid).isSome = true) ∧
      (∀ a ∈ oldContact.onlineAccounts,
        (a.1, env.toLower a.2) ∉
          contact.onlineAccounts.map (fun b => (b.1, env.toLower b.2)) →
        hashFind s'.m_onlineAccountIds (a.1, env.toLower a.2) = none)
     else s'.m_onlineAccountIds = s.m_onlineAccountIds) := by
  intro s'
  exact updateContactIndexing_lookups_aux env s oldContact contact iid queryDetailTypes item s'
    rfl hiid

/-- C4 (witness): Berta (id 2), cached and indexed with her old e-mail address, is indexed
again with her new record and all kinds queried: her new e-mail address and her online
account map to 2 and are looked up as the item 2, and her old e-mail address is no longer in
the index. -/
theorem updateContactIndexing_indexes_witness :
    validId 2 = true ∧
    detailTypeQueried [] .PhoneNumber = true ∧
    berta.emailAddresses = ["berta.b@geemail.com"] ∧
    berta.onlineAccounts = [("/example/jabber/0", "berta.b@geemail.com")] ∧
    bertaWithOldAddress.emailAddresses = ["berta@oldmail.com"] ∧
    hashFind (updateContactIndexing exampleEnv bertaIndexedWithOldAddress bertaWithOldAddress
      berta 2 [] 2).2.m_emailAddressIds "berta@oldmail.com" = none ∧
    (let s' := (updateContactIndexing exampleEnv bertaIndexedWithOldAddress
        bertaWithOldAddress berta 2 [] 2).2
    (if detailTypeQueried [] .PhoneNumber then
      (∀ n ∈ berta.phoneNumbers,
        hashFind s'.m_phoneNumberIds (normalizePhoneNumber exampleEnv n) = some 2 ∧
        ∀ requireComplete,
          (itemByPhoneNumber exampleEnv s' n requireComplete).1 = some 2 ∧
          (existingItem (itemByPhoneNumber exampleEnv s' n requireComplete).2 2).isSome =
            true) ∧
      (∀ n ∈ bertaWithOldAddress.phoneNumbers,
        normalizePhoneNumber exampleEnv n ∉
          berta.phoneNumbers.map (normalizePhoneNumber exampleEnv) →
        hashFind s'.m_phoneNumberIds (normalizePhoneNumber exampleEnv n) = none)
     else s'.m_phoneNumberIds = bertaIndexedWithOldAddress.m_phoneNumberIds) ∧
    (if detailTypeQueried [] .EmailAddress then
      (∀ a ∈ berta.emailAddresses,
        hashFind s'.m_emailAddressIds (exampleEnv.toLower a) = some 2 ∧
        ∀ requireComplete,
          (itemByEmailAddress exampleEnv s' a requireComplete).1 = some 2 ∧
          (existingItem (itemByEmailAddress exampleEnv s' a requireComplete).2 2).isSome =
            true) ∧
      (∀ a ∈ bertaWithOldAddress.emailAddresses,
        exampleEnv.toLower a ∉ berta.emailAddresses.map exampleEnv.toLower →
        hashFind s'.m_emailAddressIds (exampleEnv.toLower a) = none)
     else s'.m_emailAddressIds = bertaIndexedWithOldAddress.m_emailAddressIds) ∧
    (if detailTypeQueried [] .OnlineAccount then
      (∀ a ∈ berta.onlineAccounts,
        hashFind s'.m_onlineAccountIds (a.1, exampleEnv.toLower a.2) = some 2 ∧
        ∀ requireComplete,
          (itemByOnlineAccount exampleEnv s' a.1 a.2 requireComplete).1 = some 2 ∧
          (existingItem (itemByOnlineAccount exampleEnv s' a.1 a.2 requireComplete).2
            2).isSome = true) ∧
      (∀ a ∈ bertaWithOldAddress.onlineAccounts,
        (a.1, exampleEnv.toLower a.2) ∉
          berta.onlineAccounts.map (fun b => (b.1, exampleEnv.toLower b.2)) →
        hashFind s'.m_onlineAccountIds (a.1, exampleEnv.toLower a.2) = none)
     else s'.m_onlineAccountIds = bertaIndexedWithOldAddress.m_onlineAccountIds)) :=
  ⟨by decide, by decide, by decide, by decide, by decide, by decide,
    updateContactIndexing_indexes exampleEnv bertaIndexedWithOldAddress bertaWithOldAddress
      berta 2 [] 2 (by decide)⟩

/-! ## Completion of a resolution query -/

/-- C2 (the code at the failing input): listener 1 resolves Alfred's address and is notified
with Alfred's cached record; listener 2 then resolves Berta's address, the store returns
Berta, and listener 2 is notified with an item that holds no detail of Berta (empty snapshot,
empty display label): the update loop of contactsAvailable starts at the stale m_resultsRead
left by the first resolution. -/
theorem resolveTwoAddresses_second_item_empty :
    resolveTwoAddresses.map (fun s => (addressResolutions s.log, s.m_resultsRead)) =
      some ([(1, "alfred@alfred.com", "",
              some { iid := 1, contact := alfred, contactState := .ContactComplete,
                     displayLabel := "Alfred Alfredson", nameGroup := some "A" }),
             (2, "berta.b@geemail.com", "", some { contact := { id := 2 } })], 1) ∧
    berta.firstName = "Berta" ∧ ({ id := 2 } : QContact).firstName = "" := by
  decide

theorem resolveFinished_not_found (env : Env) (s : State) (active : ResolveData)
    (rest : List ResolveData) (h1 : s.m_activeResolve = some active)
    (h2 : s.m_resolveAddresses = active :: rest) (h3 : s.m_fetchRequest.contacts = []) :
    (resolveFinished env s).log =
      s.log ++ [.addressResolved active.listener active.first active.second none] ∧
    (resolveFinished env s).m_resolveAddresses = rest ∧
    (resolveFinished env s).m_unknownAddresses =
      s.m_unknownAddresses ++ [{ active with compare := unknownCompareKey env active }] ∧
    (resolveFinished env s).m_activeResolve = none := by
  unfold resolveFinished
  simp only [h1, h3]
  refine ⟨?_, ?_, ?_, ?_⟩
  · simp [State.emit]
  · simp [State.emit, h2]
  · simp only [State.emit, unknownCompareKey]
    split
    · rfl
    · split <;> rfl
  · trivial

/-- C3 (amended): when the store query of the active resolution finishes with no contact
while the cache is not about to start its population (populate progress Populated, or
Unpopulated with keep-populated off), the listener is notified exactly once with a null item
and the original address pair, the entry is removed from the head of the pending-resolution
queue, and a copy of it is appended to the unknown-address list with its comparison key set
to the normalized address (minimized phone number, lower-cased email, or lower-cased remote
id). -/
theorem requestStateChanged_resolution_not_found (env : Env) (s : State) (active : ResolveData)
    (rest : List ResolveData) (h1 : s.m_activeResolve = some active)
    (h2 : s.m_resolveAddresses = active :: rest) (h3 : s.m_fetchRequest.contacts = [])
    (h4 : s.m_populateProgress = .Populated ∨
      (s.m_populateProgress = .Unpopulated ∧ s.m_keepPopulated = false)) :
    ∃ s', requestStateChanged env s .Fetch = some s' ∧
      s'.log = s.log ++
        [.addressResolved active.listener active.first active.second none,
         .postUpdateRequest] ∧
      s'.m_resolveAddresses = rest ∧
      s'.m_unknownAddresses =
        s.m_unknownAddresses ++ [{ active with compare := unknownCompareKey env active }] ∧
      s'.m_activeResolve = none := by
  obtain ⟨r1, r2, r3, r4⟩ := resolveFinished_not_found env s active rest h1 h2 h3
  have hbranch : fetchRequestFinished env s = (resolveFinished env s, true) := by
    unfold fetchRequestFinished
    rcases h4 with h | ⟨h, hk⟩
    · simp [h]
    · simp [h, hk]
  refine ⟨(resolveFinished env s).emit .postUpdateRequest, ?_, ?_, r2, r3, r4⟩
  · simp [requestStateChanged, hbranch]
  · simp [State.emit, r1]

/-- C3 (witness): the theorem at the cache in which listener 4 has resolved an unknown phone
number and the dispatcher has started the store query. -/
theorem requestStateChanged_resolution_not_found_witness :
    ∃ s', requestStateChanged exampleEnv
        (event (resolvePhoneNumber exampleEnv State.init 4 "+358470000000" true).2) .Fetch =
          some s' ∧
      s'.log = (event (resolvePhoneNumber exampleEnv State.init 4 "+358470000000" true).2).log ++
        [.addressResolved 4 "" "+358470000000" none, .postUpdateRequest] ∧
      s'.m_resolveAddresses = [] ∧
      s'.m_unknownAddresses =
        [{ first := "", second := "+358470000000", compare := "0000000",
           requireComplete := true, listener := 4 }] ∧
      s'.m_activeResolve = none :=
  requestStateChanged_resolution_not_found exampleEnv
    (event (resolvePhoneNumber exampleEnv State.init 4 "+358470000000" true).2)
    { first := "", second := "+358470000000", requireComplete := true, listener := 4 } []
    (by decide) (by decide) (by decide) (Or.inr (by decide))

/-- C3 (counterexample): listener 4 resolves an unknown number and the query is started; a
model is registered while it is in flight; the query then finishes with no contact, and the
listener is not notified, the entry stays at the head of the pending queue and nothing is
appended to the unknown-address list: the cache starts its population instead. -/
theorem resolution_finish_lost_to_population :
    resolveWhilePopulationStarts.map
      (fun s => (addressResolutions s.log, s.m_resolveAddresses, s.m_unknownAddresses,
        s.m_populateProgress)) =
    some ([],
      [{ first := "", second := "+358470000000", requireComplete := true, listener := 4 }],
      [], .FetchFavorites) := by
  decide

/-! ## Runs of the cache on concrete inputs -/

/-- C6 (the code at the failing input): Carlo (id 3) is resolved and indexed by his number;
the store reports him removed and the dispatcher runs to idle, which erases his cache item;
the phone index still maps his number to id 3, and a lookup of the number returns an item
for id 3, created empty by itemById, instead of null. -/
theorem lookup_after_removal_returns_removed_contact :
    resolveThenRemove.map (fun s =>
      (existingItem s 3, s.m_phoneNumberIds, s.m_updatesPending,
       (itemByPhoneNumber exampleEnv s "+358471112222" false).1,
       existingItem (itemByPhoneNumber exampleEnv s "+358471112222" false).2 3)) =
    some (none, [("1112222", 3)], false, some 3, some { contact := { id := 3 } }) := by
  decide

/-- C7 (the code at the failing input): in the reachable cache `splitTwiceBeforeWake` both
relationship queues are non-empty, the relationship-save request is active and the
relationship-remove request is idle; the next wake calls start() on both requests, the
active relationship-save request included, and empties both queues. -/
theorem event_starts_active_relationship_save :
    splitTwiceBeforeWake.map (fun s =>
      (s.m_relationshipSaveRequest.active, s.m_relationshipRemoveRequest.active,
       s.m_relationshipsToSave, s.m_relationshipsToRemove,
       requestStarts ((event s).log.drop s.log.length),
       (event s).m_relationshipsToSave, (event s).m_relationshipsToRemove)) =
    some (true, false,
      [{ relationshipType := "IsNot", first := 1, second := 12 }],
      [{ relationshipType := "Aggregates", first := 1, second := 12 }],
      [(.RelationshipSave, true), (.RelationshipRemove, false)], [], []) := by
  decide

/-- C8 (the code at the failing input): aggregate 1 has the local constituent 11, aggregate 2
the local constituent 12 and the constituent 13; the merge step queues 12 for a save with
sync target "was_local" and still schedules the Aggregates relationship (1, 12) next to
(1, 13). -/
theorem completeContactAggregation_relinks_demoted_local :
    (completeContactAggregation exampleEnv twoAggregatesWithLocals 1 2).map (fun s =>
      (s.m_contactsToSave, s.m_relationshipsToSave, s.m_relationshipsToRemove)) =
    some ([(12, { id := 12, details := [.syncTarget "was_local"] })],
      [{ relationshipType := "Aggregates", first := 1, second := 12 },
       { relationshipType := "Aggregates", first := 1, second := 13 }],
      [{ relationshipType := "Aggregates", first := 2, second := 12 },
       { relationshipType := "Aggregates", first := 2, second := 13 }]) := by
  decide

/-! ## Repeated resolution of one address -/

theorem resolveAddress_resolveAddresses (s : State) (listener : Nat) (first second : String)
    (requireComplete : Bool) :
    (resolveAddress s listener first second requireComplete).m_resolveAddresses =
      s.m_resolveAddresses ++
        [{ first := first, second := second, requireComplete := requireComplete,
           listener := listener }] := by
  simp [resolveAddress]

theorem resolveAddress_sameIndexes (s : State) (listener : Nat) (first second : String)
    (requireComplete : Bool) :
    SameIndexes s (resolveAddress s listener first second requireComplete) := by
  unfold resolveAddress
  exact @sameIndexes_trans s { s with m_resolveAddresses := _ } _ ⟨rfl, rfl, rfl⟩
    (requestUpdate_sameIndexes _)

theorem event_resolution_rung (s : State) (resolve : ResolveData) (rest : List ResolveData)
    (hq : s.m_resolveAddresses = resolve :: rest) (hr : resolutionRungNext s = true) :
    (event s).log = s.log ++ [.requestStart .Fetch false (resolveFilter resolve)] ∧
    (event s).m_activeResolve = some resolve ∧
    (event s).m_resolveAddresses = resolve :: rest := by
  simp only [resolutionRungNext, Bool.and_eq_true, Bool.not_eq_true'] at hr
  obtain ⟨⟨⟨⟨⟨⟨⟨⟨⟨h1, h2⟩, h3⟩, h4⟩, h5⟩, h6⟩, h7⟩, h8⟩, h9⟩, h10⟩ := hr
  have h9' : s.m_changedContacts.isEmpty = true := h9
  unfold event
  simp only [h1, h2, h3, h4, h5, h6, h7, h8, h9', h10, hq, Bool.false_eq_true, if_false,
    Bool.not_true, Bool.false_and, Bool.not_false, Bool.and_true, List.isEmpty_cons, if_true,
    Bool.and_self]
  refine ⟨?_, ?_, ?_⟩ <;> simp [startFetchRequest, State.emit, h10, hq]

/-- C9 (amended): if the same listener resolves the same unindexed address twice before the
first resolution has completed, the second call appends a second pending entry equal to the
first (nothing is reused), so the queue holds two entries for the address; and whenever the
resolution rung of the dispatcher runs, it starts one store query for the entry at the head
of the queue, so the two entries are queried one after the other. -/
theorem resolve_twice_queues_two_entries (env : Env) (s : State) (listener : Nat)
    (requireComplete : Bool) :
    (∀ number : String,
      hashFind s.m_phoneNumberIds (normalizePhoneNumber env number) = none →
      (resolvePhoneNumber env (resolvePhoneNumber env s listener number requireComplete).2
          listener number requireComplete).2.m_resolveAddresses =
        s.m_resolveAddresses ++
          [{ first := "", second := number, requireComplete := requireComplete,
             listener := listener },
           { first := "", second := number, requireComplete := requireComplete,
             listener := listener }]) ∧
    (∀ address : String,
      hashFind s.m_emailAddressIds (env.toLower address) = none →
      (resolveEmailAddress env (resolveEmailAddress env s listener address requireComplete).2
          listener address requireComplete).2.m_resolveAddresses =
        s.m_resolveAddresses ++
          [{ first := address, second := "", requireComplete := requireComplete,
             listener := listener },
           { first := address, second := "", requireComplete := requireComplete,
             listener := listener }]) ∧
    (∀ localUid remoteUid : String,
      hashFind s.m_onlineAccountIds (localUid, env.toLower remoteUid) = none →
      (resolveOnlineAccount env
          (resolveOnlineAccount env s listener localUid remoteUid requireComplete).2
          listener localUid remoteUid requireComplete).2.m_resolveAddresses =
        s.m_resolveAddresses ++
          [{ first := localUid, second := remoteUid, requireComplete := requireComplete,
             listener := listener },
           { first := localUid, second := remoteUid, requireComplete := requireComplete,
             listener := listener }]) ∧
    (∀ resolve rest, s.m_resolveAddresses = resolve :: rest → resolutionRungNext s = true →
      (event s).log = s.log ++ [.requestStart .Fetch false (resolveFilter resolve)] ∧
      (event s).m_activeResolve = some resolve ∧
      (event s).m_resolveAddresses = resolve :: rest) := by
  refine ⟨?_, ?_, ?_, fun resolve rest hq hr => event_resolution_rung s resolve rest hq hr⟩
  · intro number h
    have h1 : resolvePhoneNumber env s listener number requireComplete =
        (none, resolveAddress s listener "" number requireComplete) := by
      simp [resolvePhoneNumber, itemByPhoneNumber, h]
    have h2 : hashFind (resolveAddress s listener "" number requireComplete).m_phoneNumberIds
        (normalizePhoneNumber env number) = none := by
      rw [(resolveAddress_sameIndexes s listener "" number requireComplete).1]
      exact h
    rw [h1]
    simp [resolvePhoneNumber, itemByPhoneNumber, h2, resolveAddress_resolveAddresses]
  · intro address h
    have h1 : resolveEmailAddress env s listener address requireComplete =
        (none, resolveAddress s listener address "" requireComplete) := by
      simp [resolveEmailAddress, itemByEmailAddress, h]
    have h2 : hashFind (resolveAddress s listener address "" requireComplete).m_emailAddressIds
        (env.toLower address) = none := by
      rw [(resolveAddress_sameIndexes s listener address "" requireComplete).2.1]
      exact h
    rw [h1]
    simp [resolveEmailAddress, itemByEmailAddress, h2, resolveAddress_resolveAddresses]
  · intro localUid remoteUid h
    have h1 : resolveOnlineAccount env s listener localUid remoteUid requireComplete =
        (none, resolveAddress s listener localUid remoteUid requireComplete) := by
      simp [resolveOnlineAccount, itemByOnlineAccount, h]
    have h2 : hashFind
        (resolveAddress s listener localUid remoteUid requireComplete).m_onlineAccountIds
        (localUid, env.toLower remoteUid) = none := by
      rw [(resolveAddress_sameIndexes s listener localUid remoteUid requireComplete).2.2]
      exact h
    rw [h1]
    simp [resolveOnlineAccount, itemByOnlineAccount, h2, resolveAddress_resolveAddresses]

/-- C9 (witness): the theorem at the initial cache and at the cache after two calls. -/
theorem resolve_twice_queues_two_entries_witness :
    (resolvePhoneNumber exampleEnv
        (resolvePhoneNumber exampleEnv State.init 4 "+358470000000" true).2
        4 "+358470000000" true).2.m_resolveAddresses =
      [{ first := "", second := "+358470000000", requireComplete := true, listener := 4 },
       { first := "", second := "+358470000000", requireComplete := true, listener := 4 }] ∧
    (event (resolvePhoneNumber exampleEnv
        (resolvePhoneNumber exampleEnv State.init 4 "+358470000000" true).2
        4 "+358470000000" true).2).m_activeResolve =
      some { first := "", second := "+358470000000", requireComplete := true, listener := 4 } :=
  ⟨(resolve_twice_queues_two_entries exampleEnv State.init 4 true).1 "+358470000000"
      (by decide),
   ((resolve_twice_queues_two_entries exampleEnv
      (resolvePhoneNumber exampleEnv
        (resolvePhoneNumber exampleEnv State.init 4 "+358470000000" true).2
        4 "+358470000000" true).2 4 true).2.2.2
      { first := "", second := "+358470000000", requireComplete := true, listener := 4 }
      [{ first := "", second := "+358470000000", requireComplete := true, listener := 4 }]
      (by decide) (by decide)).2.1⟩

/-- C9 (counterexample): listener 4 resolves the same unknown number twice before the first
resolution completes; the pending queue then holds two entries, and the cache issues two
store queries for the number, the second after the first has finished. -/
theorem resolveSameAddressTwice_two_queries :
    (resolvePhoneNumber exampleEnv
        (resolvePhoneNumber exampleEnv State.init 4 "+358470000000" true).2
        4 "+358470000000" true).2.m_resolveAddresses.length = 2 ∧
    resolveSameAddressTwice.map (fun s => fetchQueries s.log) =
      some [.phoneNumberMatch "+358470000000", .phoneNumberMatch "+358470000000"] := by
  decide

/-! ## What the mutation calls leave alone -/

theorem sameStore_refl (s : State) : SameStore s s := ⟨rfl, sameIndexes_refl s⟩

theorem sameStore_trans {s₁ s₂ s₃ : State} (h₁ : SameStore s₁ s₂) (h₂ : SameStore s₂ s₃) :
    SameStore s₁ s₃ :=
  ⟨h₂.1.trans h₁.1, sameIndexes_trans h₁.2 h₂.2⟩

theorem sameViews_refl (s : State) : SameViews s s := ⟨rfl, rfl⟩

theorem sameViews_trans {s₁ s₂ s₃ : State} (h₁ : SameViews s₁ s₂) (h₂ : SameViews s₂ s₃) :
    SameViews s₁ s₃ :=
  ⟨h₂.1.trans h₁.1, h₂.2.trans h₁.2⟩

theorem requestUpdate_same (s : State) :
    SameStore s (requestUpdate s) ∧ SameViews s (requestUpdate s) ∧
      (requestUpdate s).m_contactIndices = s.m_contactIndices := by
  unfold requestUpdate State.emit
  split <;> exact ⟨⟨rfl, rfl, rfl, rfl⟩, ⟨rfl, rfl⟩, rfl⟩

theorem indexOf_get {α : Type} [DecidableEq α] (l : List α) (a : α) :
    indexOf l a = -1 ∨ ∃ n : Nat, indexOf l a = Int.ofNat n ∧ l.get? n = some a := by
  induction l with
  | nil => exact Or.inl rfl
  | cons b rest ih =>
    unfold indexOf
    by_cases h : b = a
    · subst h
      exact Or.inr ⟨0, by simp, rfl⟩
    · simp only [h, if_false]
      rcases ih with h1 | ⟨n, h1, h2⟩
      · rw [h1]
        exact Or.inl rfl
      · rw [h1]
        exact Or.inr ⟨n + 1, rfl, by simpa using h2⟩

theorem contactIndex_same (s s1 : State) (iid : Nat) (filter : FilterType) (row : Int)
    (h : contactIndex s iid filter = some (row, s1)) :
    SameStore s s1 ∧ SameViews s s1 ∧ s1.m_models = s.m_models ∧
      s1.m_nameGroupChangeListeners = s.m_nameGroupChangeListeners ∧
      (row = -1 ∨ ∃ n : Nat, row = Int.ofNat n ∧ (s.m_contacts.get filter).get? n = some iid) := by
  unfold contactIndex at h
  simp only [] at h
  split at h
  · simp only [Option.some.injEq, Prod.mk.injEq] at h
    obtain ⟨h1, h2⟩ := h
    subst h1 h2
    exact ⟨sameStore_refl s, sameViews_refl s, rfl, rfl, Or.inl rfl⟩
  · rename_i index hfind
    split at h
    · exact absurd h (by simp)
    · rename_i contactIid hat
      split at h
      · split at h
        · rename_i hidx
          simp only [Option.some.injEq, Prod.mk.injEq] at h
          obtain ⟨h1, h2⟩ := h
          subst h2
          exact ⟨⟨rfl, rfl, rfl, rfl⟩, ⟨rfl, rfl⟩, rfl, rfl, Or.inl (h1 ▸ hidx)⟩
        · rename_i hidx
          simp only [Option.some.injEq, Prod.mk.injEq] at h
          obtain ⟨h1, h2⟩ := h
          subst h2
          refine ⟨⟨rfl, rfl, rfl, rfl⟩, ⟨rfl, rfl⟩, rfl, rfl, Or.inr ?_⟩
          rcases indexOf_get (s.m_contacts.get filter) iid with h3 | ⟨n, h3, h4⟩
          · exact absurd h3 hidx
          · exact ⟨n, by rw [← h1, h3], h4⟩
      · rename_i heq
        simp only [Option.some.injEq, Prod.mk.injEq] at h
        obtain ⟨h1, h2⟩ := h
        subst h2
        refine ⟨sameStore_refl s, sameViews_refl s, rfl, rfl, Or.inr ?_⟩
        have heq' : iid = contactIid := by
          by_contra hne
          exact heq hne
        cases index with
        | ofNat n =>
          refine ⟨n, by rw [← h1], ?_⟩
          simp only [listAt] at hat
          rw [hat, heq']
        | negSucc n => simp [listAt] at hat

theorem contactDataChangedIn_same (s s1 : State) (iid : Nat) (filter : FilterType)
    (h : contactDataChangedIn s iid filter = some s1) :
    SameStore s s1 ∧ SameViews s s1 := by
  unfold contactDataChangedIn at h
  split at h
  · exact absurd h (by simp)
  · rename_i row s0 hci
    obtain ⟨c1, c2, _, _, _⟩ := contactIndex_same s s0 iid filter row hci
    split at h
    · simp only [Option.some.injEq] at h
      subst h
      exact ⟨sameStore_trans c1 ⟨rfl, rfl, rfl, rfl⟩, sameViews_trans c2 ⟨rfl, rfl⟩⟩
    · simp only [Option.some.injEq] at h
      subst h
      exact ⟨c1, c2⟩

theorem contactDataChanged_same (s s1 : State) (iid : Nat)
    (h : contactDataChanged s iid = some s1) : SameStore s s1 ∧ SameViews s s1 := by
  unfold contactDataChanged at h
  split at h
  · exact absurd h (by simp)
  rename_i a ha
  split at h
  · exact absurd h (by simp)
  rename_i b hb
  have hc := h
  have h1 := contactDataChangedIn_same _ _ _ _ ha
  have h2 := contactDataChangedIn_same _ _ _ _ hb
  have h3 := contactDataChangedIn_same _ _ _ _ hc
  exact ⟨sameStore_trans (sameStore_trans h1.1 h2.1) h3.1,
    sameViews_trans (sameViews_trans h1.2 h2.2) h3.2⟩

theorem saveContact_same (s s1 : State) (contact : QContact)
    (h : saveContact s contact = some s1) : SameStore s s1 ∧ SameViews s s1 := by
  unfold saveContact at h
  simp only [] at h
  split at h
  · exact absurd h (by simp)
  rename_i a ha
  simp only [Option.some.injEq] at h
  subst h
  have hr := requestUpdate_same a
  split at ha
  · have h1 := contactDataChanged_same _ _ _ ha
    exact ⟨sameStore_trans (sameStore_trans ⟨rfl, rfl, rfl, rfl⟩ h1.1) hr.1,
      sameViews_trans (sameViews_trans ⟨rfl, rfl⟩ h1.2) hr.2.1⟩
  · simp only [Option.some.injEq] at ha
    subst ha
    exact ⟨sameStore_trans ⟨rfl, rfl, rfl, rfl⟩ hr.1, sameViews_trans ⟨rfl, rfl⟩ hr.2.1⟩

theorem fetchConstituents_same (s : State) (contact : QContact) :
    SameStore s (fetchConstituents s contact).2 ∧ SameViews s (fetchConstituents s contact).2 ∧
      (fetchConstituents s contact).2.m_contactIndices = s.m_contactIndices := by
  unfold fetchConstituents
  simp only []
  split
  · exact ⟨sameStore_refl s, sameViews_refl s, rfl⟩
  · split
    · exact ⟨sameStore_refl s, sameViews_refl s, rfl⟩
    · have hr := requestUpdate_same
        { s with m_contactsToFetchConstituents :=
            s.m_contactsToFetchConstituents ++ [contact.id] }
      exact ⟨sameStore_trans ⟨rfl, rfl, rfl, rfl⟩ hr.1, sameViews_trans ⟨rfl, rfl⟩ hr.2.1,
        hr.2.2⟩

theorem aggregateContacts_same (s : State) (contact1 contact2 : QContact) :
    SameStore s (aggregateContacts s contact1 contact2) ∧
      SameViews s (aggregateContacts s contact1 contact2) ∧
      (aggregateContacts s contact1 contact2).m_contactIndices = s.m_contactIndices := by
  unfold aggregateContacts
  simp only []
  have h1 := fetchConstituents_same
    { s with m_contactPairsToLink := s.m_contactPairsToLink ++
      [(({ contactId := contact1.id } : ContactLinkRequest),
        ({ contactId := contact2.id } : ContactLinkRequest))] } contact1
  have h2 := fetchConstituents_same (fetchConstituents
    { s with m_contactPairsToLink := s.m_contactPairsToLink ++
      [(({ contactId := contact1.id } : ContactLinkRequest),
        ({ contactId := contact2.id } : ContactLinkRequest))] } contact1).2 contact2
  exact ⟨sameStore_trans (sameStore_trans ⟨rfl, rfl, rfl, rfl⟩ h1.1) h2.1,
    sameViews_trans (sameViews_trans ⟨rfl, rfl⟩ h1.2.1) h2.2.1, h2.2.2.trans h1.2.2⟩

theorem disaggregateContacts_same (s s1 : State) (contact1 contact2 : QContact)
    (h : disaggregateContacts s contact1 contact2 = some s1) :
    SameStore s s1 ∧ SameViews s s1 := by
  unfold disaggregateContacts at h
  simp only [] at h
  split at h
  · exact absurd h (by simp)
  rename_i a ha
  simp only [Option.some.injEq] at h
  subst h
  split at ha
  · have h1 := saveContact_same _ _ _ ha
    exact ⟨sameStore_trans (sameStore_trans ⟨rfl, rfl, rfl, rfl⟩ h1.1) ⟨rfl, rfl, rfl, rfl⟩,
      sameViews_trans (sameViews_trans ⟨rfl, rfl⟩ h1.2) ⟨rfl, rfl⟩⟩
  · simp only [Option.some.injEq] at ha
    subst ha
    exact ⟨⟨rfl, rfl, rfl, rfl⟩, ⟨rfl, rfl⟩⟩

theorem filterArray_get_set_self {α : Type} (a : FilterArray α) (f : FilterType) (v : α) :
    (a.set f v).get f = v := by
  cases f <;> rfl

theorem filterArray_get_set_ne {α : Type} (a : FilterArray α) (f g : FilterType) (v : α)
    (h : g ≠ f) : (a.set f v).get g = a.get g := by
  cases f <;> cases g <;> first | rfl | exact absurd rfl h

theorem removeFromContactNameGroup_same (s : State) (iid : Nat) (group : Option String)
    (modifiedGroups : List String) :
    SameStore s (removeFromContactNameGroup s iid group modifiedGroups).1 ∧
      (removeFromContactNameGroup s iid group modifiedGroups).1.m_contacts = s.m_contacts := by
  unfold removeFromContactNameGroup
  split
  · exact ⟨sameStore_refl s, rfl⟩
  · exact ⟨⟨rfl, rfl, rfl, rfl⟩, rfl⟩

theorem notifyNameGroupsChanged_same (s : State) (groups : List String) :
    SameStore s (notifyNameGroupsChanged s groups) ∧
      (notifyNameGroupsChanged s groups).m_contacts = s.m_contacts := by
  unfold notifyNameGroupsChanged
  split
  · exact ⟨sameStore_refl s, rfl⟩
  · exact ⟨⟨rfl, rfl, rfl, rfl⟩, rfl⟩

theorem removeFromNameGroupOf_same (s : State) (iid : Nat) :
    SameStore s (removeFromNameGroupOf s iid) ∧
      (removeFromNameGroupOf s iid).m_contacts = s.m_contacts := by
  unfold removeFromNameGroupOf
  split
  · exact ⟨sameStore_refl s, rfl⟩
  · rename_i group _
    have g1 := removeFromContactNameGroup_same s iid (some group) []
    have g2 := notifyNameGroupsChanged_same (removeFromContactNameGroup s iid (some group) []).1
      (removeFromContactNameGroup s iid (some group) []).2
    exact ⟨sameStore_trans g1.1 g2.1, g2.2.trans g1.2⟩

theorem removeContactData_same (s s1 : State) (iid : Nat) (filter : FilterType)
    (h : removeContactData s iid filter = some s1) :
    SameStore s s1 ∧ (∀ g, g ≠ filter → s1.m_contacts.get g = s.m_contacts.get g) ∧
      ViewWithout s s1 iid filter := by
  unfold removeContactData at h
  split at h
  · exact absurd h (by simp)
  rename_i row s0 hci
  obtain ⟨c1, c2, _, _, c5⟩ := contactIndex_same s s0 iid filter row hci
  split at h
  · simp only [Option.some.injEq] at h
    subst h
    exact ⟨c1, fun g _ => by rw [c2.2], Or.inl (by rw [c2.2])⟩
  rename_i hrow
  simp only [] at h
  split at h
  · exact absurd h (by simp)
  rename_i rowId hat
  simp only [Option.some.injEq] at h
  subst h
  rcases c5 with c5 | ⟨n, hn, hget⟩
  · exact absurd c5 hrow
  subst hn
  -- the cache after the row is taken out of the view
  have key : ∀ s4 : State, SameStore s0 s4 →
      s4.m_contacts = s0.m_contacts.set filter (removeAt (s0.m_contacts.get filter) n) →
      SameStore s (notifyModels s4 (s0.m_models.get filter) (fun m => .sourceItemsRemoved m)) ∧
      (∀ g, g ≠ filter →
        (notifyModels s4 (s0.m_models.get filter)
          (fun m => .sourceItemsRemoved m)).m_contacts.get g = s.m_contacts.get g) ∧
      ViewWithout s
        (notifyModels s4 (s0.m_models.get filter) (fun m => .sourceItemsRemoved m)) iid
        filter := by
    intro s4 hs4 hc
    refine ⟨sameStore_trans c1 (sameStore_trans hs4 ⟨rfl, rfl, rfl, rfl⟩), ?_, Or.inr ⟨n, hget, ?_⟩⟩
    · intro g hg
      show s4.m_contacts.get g = _
      rw [hc, filterArray_get_set_ne _ _ _ _ hg, c2.2]
    · show s4.m_contacts.get filter = _
      rw [hc, filterArray_get_set_self, c2.2]
  split
  · have g := removeFromNameGroupOf_same
      { notifyModels s0 (s0.m_models.get filter)
          (fun m => .sourceAboutToRemoveItems m (Int.ofNat n) (Int.ofNat n)) with
        m_contactIndices := s0.m_contactIndices.set filter
          (hashRemove (s0.m_contactIndices.get filter) rowId),
        m_contacts := s0.m_contacts.set filter (removeAt (s0.m_contacts.get filter) n) } iid
    refine key _ (sameStore_trans ⟨rfl, rfl, rfl, rfl⟩ g.1) ?_
    exact g.2
  · exact key _ ⟨rfl, rfl, rfl, rfl⟩ rfl

theorem viewWithout_congr {s s' t t' : State} {iid : Nat} {filter : FilterType}
    (h : ViewWithout s s' iid filter)
    (h1 : t.m_contacts.get filter = s.m_contacts.get filter)
    (h2 : t'.m_contacts.get filter = s'.m_contacts.get filter) :
    ViewWithout t t' iid filter := by
  unfold ViewWithout at h ⊢
  rw [h1, h2]
  exact h

theorem removeContact_same (s s' : State) (contact : QContact) (removed : Bool)
    (h : removeContact s contact = some (removed, s')) :
    SameStore s s' ∧ ViewWithout s s' contact.id .FilterFavorites ∧
      ViewWithout s s' contact.id .FilterOnline ∧ ViewWithout s s' contact.id .FilterAll ∧
      s'.m_contacts.get .FilterNone = s.m_contacts.get .FilterNone := by
  unfold removeContact at h
  simp only [] at h
  split at h
  · simp only [Option.some.injEq, Prod.mk.injEq] at h
    obtain ⟨_, h2⟩ := h
    subst h2
    exact ⟨sameStore_refl s, Or.inl rfl, Or.inl rfl, Or.inl rfl, rfl⟩
  split at h
  · exact absurd h (by simp)
  rename_i s2 h2
  split at h
  · exact absurd h (by simp)
  rename_i s3 h3
  split at h
  · exact absurd h (by simp)
  rename_i s4 h4
  simp only [Option.some.injEq, Prod.mk.injEq] at h
  obtain ⟨_, hs'⟩ := h
  subst hs'
  obtain ⟨a1, a2, a3⟩ := removeContactData_same _ _ _ _ h2
  obtain ⟨b1, b2, b3⟩ := removeContactData_same _ _ _ _ h3
  obtain ⟨c1, c2, c3⟩ := removeContactData_same _ _ _ _ h4
  have hr := requestUpdate_same s4
  simp only [internalId] at a3 b3 c3
  refine ⟨sameStore_trans (sameStore_trans (sameStore_trans
      (sameStore_trans ⟨rfl, rfl, rfl, rfl⟩ a1) b1) c1) hr.1, ?_, ?_, ?_, ?_⟩
  · refine viewWithout_congr a3 rfl ?_
    rw [hr.2.1.2, c2 _ (by decide), b2 _ (by decide)]
  · refine viewWithout_congr b3 ?_ ?_
    · exact (a2 _ (by decide)).symm
    · rw [hr.2.1.2, c2 _ (by decide)]
  · refine viewWithout_congr c3 ?_ ?_
    · rw [b2 _ (by decide), a2 _ (by decide)]
    · rw [hr.2.1.2]
  · rw [hr.2.1.2, c2 _ (by decide), b2 _ (by decide), a2 _ (by decide)]

/-! ## The mutation calls are defined on caches with in-range reverse indexes -/

theorem indicesInRange_of_sameView {s s' : State} {filter : FilterType}
    (h : SameView s s' filter) (hr : IndicesInRange s filter) : IndicesInRange s' filter := by
  intro iid index hf
  rw [h.1]
  rw [h.2] at hf
  exact hr iid index hf

theorem sameView_trans {s₁ s₂ s₃ : State} {filter : FilterType} (h₁ : SameView s₁ s₂ filter)
    (h₂ : SameView s₂ s₃ filter) : SameView s₁ s₃ filter :=
  ⟨h₂.1.trans h₁.1, h₂.2.trans h₁.2⟩

theorem contactIndex_defined (s : State) (iid : Nat) (filter : FilterType)
    (hr : IndicesInRange s filter) : ∃ r, contactIndex s iid filter = some r := by
  unfold contactIndex
  simp only []
  cases hf : hashFind (s.m_contactIndices.get filter) iid with
  | none => exact ⟨_, rfl⟩
  | some index =>
    obtain ⟨contactIid, hat⟩ := Option.isSome_iff_exists.mp (hr iid index hf)
    simp only [hat]
    split
    · split <;> exact ⟨_, rfl⟩
    · exact ⟨_, rfl⟩

theorem contactIndex_sameView (s s1 : State) (iid : Nat) (filter g : FilterType) (row : Int)
    (h : contactIndex s iid filter = some (row, s1)) (hg : g ≠ filter) : SameView s s1 g := by
  unfold contactIndex at h
  simp only [] at h
  split at h
  · simp only [Option.some.injEq, Prod.mk.injEq] at h
    rw [← h.2]
    exact ⟨rfl, rfl⟩
  · split at h
    · exact absurd h (by simp)
    · split at h
      · split at h
        · simp only [Option.some.injEq, Prod.mk.injEq] at h
          rw [← h.2]
          exact ⟨rfl, filterArray_get_set_ne _ _ _ _ hg⟩
        · simp only [Option.some.injEq, Prod.mk.injEq] at h
          rw [← h.2]
          exact ⟨rfl, filterArray_get_set_ne _ _ _ _ hg⟩
      · simp only [Option.some.injEq, Prod.mk.injEq] at h
        rw [← h.2]
        exact ⟨rfl, rfl⟩

theorem contactDataChangedIn_defined (s : State) (iid : Nat) (filter : FilterType)
    (hr : IndicesInRange s filter) :
    ∃ s1, contactDataChangedIn s iid filter = some s1 ∧ ∀ g, g ≠ filter → SameView s s1 g := by
  obtain ⟨⟨row, s0⟩, h0⟩ := contactIndex_defined s iid filter hr
  unfold contactDataChangedIn
  rw [h0]
  simp only []
  split
  · exact ⟨_, rfl, fun g hg => contactIndex_sameView s s0 iid filter g row h0 hg⟩
  · exact ⟨_, rfl, fun g hg => contactIndex_sameView s s0 iid filter g row h0 hg⟩

theorem contactDataChanged_defined (s : State) (iid : Nat)
    (hr : ∀ filter, IndicesInRange s filter) : ∃ s1, contactDataChanged s iid = some s1 := by
  obtain ⟨s1, h1, v1⟩ := contactDataChangedIn_defined s iid .FilterFavorites (hr _)
  obtain ⟨s2, h2, v2⟩ := contactDataChangedIn_defined s1 iid .FilterOnline
    (indicesInRange_of_sameView (v1 _ (by decide)) (hr _))
  obtain ⟨s3, h3, _⟩ := contactDataChangedIn_defined s2 iid .FilterAll
    (indicesInRange_of_sameView
      (sameView_trans (v1 _ (by decide)) (v2 _ (by decide))) (hr _))
  exact ⟨s3, by simp [contactDataChanged, h1, h2, h3]⟩

theorem saveContact_defined (s : State) (contact : QContact)
    (hr : ∀ filter, IndicesInRange s filter) : ∃ s1, saveContact s contact = some s1 := by
  unfold saveContact
  simp only []
  by_cases hv : validId contact.id = true
  · obtain ⟨s1, h1⟩ := contactDataChanged_defined
      { s with m_contactsToSave := hashInsert s.m_contactsToSave contact.id contact }
      (internalId contact.id) (fun filter => hr filter)
    simp only [hv, if_true, h1]
    exact ⟨_, rfl⟩
  · simp only [hv, Bool.false_eq_true, if_false]
    exact ⟨_, rfl⟩

theorem disaggregateContacts_defined (s : State) (contact1 contact2 : QContact)
    (hr : ∀ filter, IndicesInRange s filter) :
    ∃ s1, disaggregateContacts s contact1 contact2 = some s1 := by
  unfold disaggregateContacts
  simp only []
  by_cases hw : contact2.syncTarget = syncTargetWasLocal
  · obtain ⟨s1, h1⟩ := saveContact_defined
      { s with
        m_relationshipsToRemove := s.m_relationshipsToRemove ++
          [makeRelationship aggregateRelationshipType contact1 contact2],
        m_relationshipsToSave := s.m_relationshipsToSave ++
          [makeRelationship "IsNot" contact1 contact2] }
      (contact2.setSyncTarget syncTargetLocal) (fun filter => hr filter)
    simp only [hw, if_true, h1]
    exact ⟨_, rfl⟩
  · simp only [hw, if_false]
    exact ⟨_, rfl⟩

theorem notifyNameGroupsChanged_sameView (s : State) (groups : List String)
    (g : FilterType) : SameView s (notifyNameGroupsChanged s groups) g := by
  unfold notifyNameGroupsChanged
  split <;> exact ⟨rfl, rfl⟩

theorem removeFromContactNameGroup_sameView (s : State) (iid : Nat) (group : Option String)
    (modifiedGroups : List String) (g : FilterType) :
    SameView s (removeFromContactNameGroup s iid group modifiedGroups).1 g := by
  unfold removeFromContactNameGroup
  split <;> exact ⟨rfl, rfl⟩

theorem removeFromNameGroupOf_sameView (s : State) (iid : Nat) (g : FilterType) :
    SameView s (removeFromNameGroupOf s iid) g := by
  unfold removeFromNameGroupOf
  split
  · exact ⟨rfl, rfl⟩
  · exact sameView_trans (removeFromContactNameGroup_sameView s iid _ [] g)
      (notifyNameGroupsChanged_sameView _ _ g)

theorem removeContactData_defined (s : State) (iid : Nat) (filter : FilterType)
    (hr : IndicesInRange s filter) :
    ∃ s1, removeContactData s iid filter = some s1 ∧ ∀ g, g ≠ filter → SameView s s1 g := by
  obtain ⟨⟨row, s0⟩, h0⟩ := contactIndex_defined s iid filter hr
  obtain ⟨_, c2, _, _, c5⟩ := contactIndex_same s s0 iid filter row h0
  have v0 : ∀ g, g ≠ filter → SameView s s0 g :=
    fun g hg => contactIndex_sameView s s0 iid filter g row h0 hg
  unfold removeContactData
  rw [h0]
  simp only []
  by_cases hrow : row = -1
  · simp only [hrow, if_true]
    exact ⟨_, rfl, v0⟩
  · simp only [hrow, if_false]
    rcases c5 with c5 | ⟨n, hn, hget⟩
    · exact absurd c5 hrow
    · have hat : listAt ((notifyModels s0 (s0.m_models.get filter)
          (fun m => .sourceAboutToRemoveItems m row row)).m_contacts.get filter) row =
          some iid := by
        show listAt (s0.m_contacts.get filter) row = some iid
        rw [c2.2, hn]
        exact hget
      rw [hat]
      simp only []
      refine ⟨_, rfl, fun g hg => ?_⟩
      have hset : SameView s0
          { notifyModels s0 (s0.m_models.get filter)
              (fun m => .sourceAboutToRemoveItems m row row) with
            m_contactIndices := s0.m_contactIndices.set filter
              (hashRemove (s0.m_contactIndices.get filter) iid),
            m_contacts := s0.m_contacts.set filter
              (removeAt (s0.m_contacts.get filter) row.toNat) } g :=
        ⟨filterArray_get_set_ne _ _ _ _ hg, filterArray_get_set_ne _ _ _ _ hg⟩
      split
      · exact sameView_trans (v0 g hg)
          (sameView_trans hset (sameView_trans (removeFromNameGroupOf_sameView _ iid g)
            ⟨rfl, rfl⟩))
      · exact sameView_trans (v0 g hg) (sameView_trans hset ⟨rfl, rfl⟩)

theorem removeContact_defined (s : State) (contact : QContact)
    (hr : ∀ filter, IndicesInRange s filter) : ∃ r, removeContact s contact = some r := by
  unfold removeContact
  simp only []
  by_cases hv : validId contact.id = true
  · obtain ⟨s2, h2, v2⟩ := removeContactData_defined
      { s with m_contactsToRemove := s.m_contactsToRemove ++ [contact.id] }
      (internalId contact.id) .FilterFavorites (fun iid index h => hr _ iid index h)
    obtain ⟨s3, h3, v3⟩ := removeContactData_defined s2 (internalId contact.id) .FilterOnline
      (indicesInRange_of_sameView (v2 _ (by decide)) (fun iid index h => hr _ iid index h))
    obtain ⟨s4, h4, _⟩ := removeContactData_defined s3 (internalId contact.id) .FilterAll
      (indicesInRange_of_sameView (sameView_trans (v2 _ (by decide)) (v3 _ (by decide)))
        (fun iid index h => hr _ iid index h))
    simp only [hv, Bool.not_true, Bool.false_eq_true, if_false, h2, h3, h4]
    exact ⟨_, rfl⟩
  · simp only [hv, Bool.not_false, if_true]
    exact ⟨_, rfl⟩

/-- C10 (amended): saveContact, aggregateContacts and disaggregateContacts only queue work
and wake the dispatcher: for every cache state none of them changes the identity store, the
address indexes, the name-group sets or any view's id sequence, and aggregateContacts leaves
every reverse index as it is (saveContact and disaggregateContacts may rewrite a stale
reverse-index entry while locating the saved contact's row).  removeContact changes neither
the identity store nor the address indexes, but besides queueing the removal it takes the
contact's row out of the Favorites, Online and All view sequences where its reverse index
finds one.  All four calls are defined when every reverse-index position lies inside its
view. -/
theorem mutation_calls_frame (s : State) :
    (∀ contact s', saveContact s contact = some s' → SameStore s s' ∧ SameViews s s') ∧
    (∀ contact1 contact2,
      SameStore s (aggregateContacts s contact1 contact2) ∧
      SameViews s (aggregateContacts s contact1 contact2) ∧
      (aggregateContacts s contact1 contact2).m_contactIndices = s.m_contactIndices) ∧
    (∀ contact1 contact2 s', disaggregateContacts s contact1 contact2 = some s' →
      SameStore s s' ∧ SameViews s s') ∧
    (∀ contact removed s', removeContact s contact = some (removed, s') →
      SameStore s s' ∧ ViewWithout s s' contact.id .FilterFavorites ∧
      ViewWithout s s' contact.id .FilterOnline ∧ ViewWithout s s' contact.id .FilterAll ∧
      s'.m_contacts.get .FilterNone = s.m_contacts.get .FilterNone) ∧
    ((∀ filter, IndicesInRange s filter) →
      (∀ contact, ∃ s', saveContact s contact = some s') ∧
      (∀ contact1 contact2, ∃ s', disaggregateContacts s contact1 contact2 = some s') ∧
      (∀ contact, ∃ r, removeContact s contact = some r)) :=
  ⟨fun contact s' h => saveContact_same s s' contact h,
   fun contact1 contact2 => aggregateContacts_same s contact1 contact2,
   fun contact1 contact2 s' h => disaggregateContacts_same s s' contact1 contact2 h,
   fun contact removed s' h => removeContact_same s s' contact removed h,
   fun hr => ⟨fun contact => saveContact_defined s contact hr,
     fun contact1 contact2 => disaggregateContacts_defined s contact1 contact2 hr,
     fun contact => removeContact_defined s contact hr⟩⟩

/-- C10 (witness): the theorem at a cache with one contact in the All view, for a save of
contact 6 and a removal of contact 5, both of which are defined there. -/
theorem mutation_calls_frame_witness :
    (∃ s', saveContact viewWithStaleIndex { id := 6 } = some s' ∧
      SameStore viewWithStaleIndex s' ∧ SameViews viewWithStaleIndex s') ∧
    (∃ s', removeContact viewWithStaleIndex { id := 5 } = some (true, s') ∧
      SameStore viewWithStaleIndex s' ∧ ViewWithout viewWithStaleIndex s' 5 .FilterAll) :=
  ⟨⟨(saveContact viewWithStaleIndex { id := 6 }).get (by decide), by simp,
      (mutation_calls_frame viewWithStaleIndex).1 { id := 6 } _ (by simp)⟩,
   ⟨((removeContact viewWithStaleIndex { id := 5 }).get (by decide)).2,
      by decide,
      ((mutation_calls_frame viewWithStaleIndex).2.2.2.1 { id := 5 } true _ (by decide)).1,
      ((mutation_calls_frame viewWithStaleIndex).2.2.2.1 { id := 5 } true _
        (by decide)).2.2.2.1⟩⟩

/-- C10 (counterexample): with contact 5 in the All view and in name group "A", removeContact
empties the All view's id sequence, drops 5 from its reverse index and from the set of "A";
and saveContact for contact 6 drops the stale reverse-index entry of 6. -/
theorem removeContact_changes_views :
    viewWithStaleIndex.m_contacts.filterAll = [5] ∧
    (removeContact viewWithStaleIndex { id := 5 }).map (fun r =>
      (r.1, r.2.m_contacts.filterAll, r.2.m_contactIndices.filterAll,
       r.2.m_contactNameGroups, r.2.m_contactsToRemove)) =
      some (true, [], [(6, 0)], [("A", [])], [5]) ∧
    (saveContact viewWithStaleIndex { id := 6 }).map (fun s => s.m_contactIndices.filterAll) =
      some [(5, 0)] := by
  decide

/-! ## The unknown-address list -/

theorem resolveUnknownAddressesLoop_kept (first second : String) (item : Nat)
    (l : List ResolveData) (s : State) :
    (resolveUnknownAddressesLoop first second item l s).1 =
      l.filter (fun it => !unknownAddressResolved first second it) := by
  induction l generalizing s with
  | nil => rfl
  | cons it rest ih =>
    unfold resolveUnknownAddressesLoop
    by_cases h : unknownAddressResolved first second it = true
    · simp [h, ih]
    · simp [h, ih]

theorem resolveUnknownAddresses_kept (s : State) (first second : String) (item : Nat) :
    (resolveUnknownAddresses s first second item).m_unknownAddresses =
      s.m_unknownAddresses.filter (fun it => !unknownAddressResolved first second it) := by
  simp [resolveUnknownAddresses, resolveUnknownAddressesLoop_kept]

theorem unknownAddressResolved_of_entryAwaits (first second : String) (it : ResolveData)
    (h : entryAwaits first second it) : unknownAddressResolved first second it = true := by
  obtain ⟨hk, hm⟩ := h
  unfold unknownAddressResolved
  unfold addressKind at hk hm
  by_cases h1 : first = ""
  · simp only [h1, if_true] at hk hm ⊢
    by_cases h2 : it.first = ""
    · simp [h2, hm]
    · by_cases h3 : it.second = "" <;> simp [h2, h3] at hk
  · by_cases h2 : second = ""
    · simp only [h1, h2, if_false, if_true] at hk hm ⊢
      by_cases h3 : it.first = ""
      · simp [h3] at hk
      · by_cases h4 : it.second = ""
        · simp [h4, hm]
        · simp [h3, h4] at hk
    · simp only [h1, h2, if_false] at hk hm ⊢
      simp [hm.1, hm.2]

theorem entryAwaits_of_resolved_same_kind (first second : String) (it : ResolveData)
    (hk : addressKind it.first it.second = addressKind first second)
    (h : unknownAddressResolved first second it = true) : entryAwaits first second it := by
  refine ⟨hk, ?_⟩
  unfold unknownAddressResolved at h
  unfold addressKind
  by_cases h1 : first = ""
  · simp only [h1, if_true] at h ⊢
    simp only [Bool.and_eq_true, decide_eq_true_eq] at h
    exact h.2
  · by_cases h2 : second = ""
    · simp only [h1, h2, if_false, if_true] at h ⊢
      simp only [Bool.and_eq_true, decide_eq_true_eq] at h
      exact h.1
    · simp only [h1, h2, if_false] at h ⊢
      simp only [Bool.and_eq_true, decide_eq_true_eq] at h
      exact h

/-- C5 (the code at the failing input): the unknown-address list holds the e-mail entry of
listener 5 for "room@chat" (comparison key "room@chat"); the index update for the online
account ("room@chat", "room@chat") is of another kind, so the entry does not await it, yet
the update notifies listener 5 and removes the entry.  The same happens in a run from the
initial cache, when Carla, who has that account and no e-mail address, is delivered by the
store. -/
theorem resolveUnknownAddresses_account_resolves_email_entry :
    ¬ entryAwaits "room@chat" "room@chat"
      { first := "room@chat", second := "", compare := "room@chat", listener := 5 } ∧
    unknownAddressResolved "room@chat" "room@chat"
      { first := "room@chat", second := "", compare := "room@chat", listener := 5 } = true ∧
    (resolveUnknownAddresses emailEntryUnknown "room@chat" "room@chat" 3).m_unknownAddresses =
      [] ∧
    addressResolutions
        (resolveUnknownAddresses emailEntryUnknown "room@chat" "room@chat" 3).log =
      [(5, "room@chat", "", some { iid := 3, contact := { id := 3 } })] ∧
    resolveEmailThenAccountAppears.map
        (fun s => ((addressResolutions s.log).map (fun r => (r.1, r.2.1, r.2.2.1,
          r.2.2.2.map (fun item => item.iid))), s.m_unknownAddresses, s.m_emailAddressIds)) =
      some ([(5, "room@chat", "", none), (5, "room@chat", "", some 3),
             (6, "", "5550001", some 3)], [], []) := by
  refine ⟨?_, by decide, by decide, by decide, by decide⟩
  intro h
  have hk := h.1
  revert hk
  decide

/-- C11 (the code at the failing input): the cache is populated with Dora (id 4) and Edgar
(id 6) and Dora is removed with removeContact. removeContactData takes row 0 out of the view
of all contacts without renumbering the rows behind it, so the view is [6] while the reverse
index still holds row 1 for id 6. contactIndex(6, FilterAll) then calls cacheIds.at(1) on a
list of length 1, a read outside the bounds of the sequence, although id 6 is in the sequence
at position 0; saveContact of Edgar runs into the same read. -/
theorem contactIndex_reads_past_end_after_removal :
    populateTwoThenRemoveFirst.map (fun s =>
      (s.m_contacts.get .FilterAll, s.m_contactIndices.get .FilterAll,
       listAt (s.m_contacts.get .FilterAll) 1,
       (contactIndex s 6 .FilterAll).map (fun r => r.1),
       (saveContact s edgar).isSome)) =
    some ([6], [(6, 1)], none, none, false) := by
  decide

/-- C12 (the code at the failing input): items 4 and 6 are requested complete and the fetch
of the changed contacts delivers [Dora] and then [Dora, Edgar]. For the second batch
contactsAvailable first cuts the result list with mid(m_fetchProcessedCount) to [Edgar] and
then starts its loop at m_resultsRead = 1, which the first batch left behind, so Edgar's
record is counted as processed (m_fetchProcessedCount = 2) but never applied: item 6 keeps
its empty snapshot in state ContactRequested. Delivered in one batch, both records are
applied. -/
theorem contactsAvailable_skips_record_of_second_batch :
    fetchTwoInTwoBatches.map (fun s =>
      (s.m_fetchProcessedCount,
       (existingItem s 4).map (fun i => (i.contact, i.contactState)),
       (existingItem s 6).map (fun i => (i.contact, i.contactState)))) =
      some (2, some (dora, .ContactComplete), some ({ id := 6 }, .ContactRequested)) ∧
    fetchTwoInOneBatch.map (fun s =>
      (s.m_fetchProcessedCount,
       (existingItem s 4).map (fun i => (i.contact, i.contactState)),
       (existingItem s 6).map (fun i => (i.contact, i.contactState)))) =
      some (2, some (dora, .ContactComplete), some (edgar, .ContactComplete)) := by
  decide

/-- C13 (the code at the failing input): Dora (4) and Edgar (6) are merged while a split of
another aggregate has the relationship save request in flight. Dora's own relationship fetch
returned the single constituent 41 and Edgar's the single constituent 61, but Edgar's fetch
ran while Dora's fetch by id was in flight and added 61 to the shared set m_constituentIds:
the only constituentsFetched call is made on Dora's item with [41, 61], and it empties the
set. After each of the ten posted wakes has run the cache is idle (no request active,
updates-pending flag cleared) with Edgar still queued in m_contactsToLinkTo and his side of the link pair not
ready, and a further wake changes none of this. -/
theorem constituent_fetches_of_two_aggregates_interfere :
    linkTwoWhileSplittingToIdle.map (fun s =>
      (constituentsReports s.log, s.m_constituentIds, s.m_contactsToLinkTo,
       s.m_contactsToFetchConstituents, s.m_contactPairsToLink)) =
      some ([(4, [41, 61])], [], [6], [],
        [({ contactId := 4, constituentsFetched := true },
          { contactId := 6, constituentsFetched := false })]) ∧
    linkTwoWhileSplittingToIdle.map (fun s =>
      (s.m_updatesPending, s.m_fetchRequest.active, s.m_fetchByIdRequest.active,
       s.m_relationshipsFetchRequest.active, s.m_relationshipSaveRequest.active,
       s.m_relationshipRemoveRequest.active, wakesPosted s.log)) =
      some (false, false, false, false, false, false, 10) ∧
    linkTwoWhileSplittingToIdle.map (fun s =>
      ((event s).m_contactsToLinkTo, decide ((event s).log = s.log),
       decide ((event s).m_contactPairsToLink = s.m_contactPairsToLink))) =
      some ([6], true, true) := by
  decide

/-! ## The completeness state of an item -/

theorem updateCache_contactState (env : Env) (s : State) (key : Nat) (item : CacheItem)
    (h : hashFind s.m_people key = some item) (contact : QContact) (partialFetch : Bool) :
    (existingItem (updateCache env s key contact partialFetch) key).map
        (fun i => i.contactState) =
      some (if item.contactState.toNat < ContactState.ContactRequested.toNat then
              (if partialFetch then ContactState.ContactPartial else ContactState.ContactComplete)
            else if !partialFetch then ContactState.ContactComplete
            else item.contactState) := by
  unfold updateCache existingItem reportItemUpdated
  simp only [h]
  cases hd : item.itemData <;> simp [hashFind_hashInsert_self]

/-- C14 (as amended): for an item in state ContactComplete, updateCache leaves the state
ContactComplete after a partial and after a full fetch, and ensureCompletion leaves the whole
cache as it is; refreshContact sets the state to ContactRequested. -/
theorem complete_state_kept_except_by_refreshContact (env : Env) (s : State) (key : Nat)
    (item : CacheItem) (h : hashFind s.m_people key = some item)
    (hc : item.contactState = .ContactComplete) (contact : QContact) (partialFetch : Bool) :
    (existingItem (updateCache env s key contact partialFetch) key).map
        (fun i => i.contactState) = some .ContactComplete ∧
    ensureCompletion s key = s ∧
    (existingItem (refreshContact s key) key).map (fun i => i.contactState) =
      some .ContactRequested := by
  refine ⟨?_, ?_, ?_⟩
  · rw [updateCache_contactState env s key item h, hc]
    cases partialFetch <;> simp [ContactState.toNat]
  · unfold ensureCompletion
    simp [h, hc, ContactState.toNat]
  · unfold refreshContact existingItem
    simp only [h, fetchContacts_people]
    simp [hashFind_hashInsert_self]

/-- Witness for C14, at an item of contact 4 in state ContactComplete and a partial fetch of
Dora. -/
theorem complete_state_kept_except_by_refreshContact_witness :
    (existingItem (updateCache exampleEnv
        { m_people := [(4, { iid := 4, contactState := .ContactComplete })] } 4 dora true)
        4).map (fun i => i.contactState) = some .ContactComplete ∧
    ensureCompletion { m_people := [(4, { iid := 4, contactState := .ContactComplete })] } 4 =
      { m_people := [(4, { iid := 4, contactState := .ContactComplete })] } ∧
    (existingItem (refreshContact
        { m_people := [(4, { iid := 4, contactState := .ContactComplete })] } 4) 4).map
      (fun i => i.contactState) = some .ContactRequested :=
  complete_state_kept_except_by_refreshContact exampleEnv
    { m_people := [(4, { iid := 4, contactState := .ContactComplete })] } 4
    { iid := 4, contactState := .ContactComplete } (by decide) rfl dora true

/-- C14 (counterexample to the claim as written): Dora's item is ContactComplete after the
fetch of the changed contacts; refreshContact on it leaves it ContactRequested. -/
theorem refreshContact_resets_complete_state :
    fetchTwoInOneBatch.map (fun s =>
      ((existingItem s 4).map (fun i => i.contactState),
       (existingItem (refreshContact s 4) 4).map (fun i => i.contactState))) =
    some (some .ContactComplete, some .ContactRequested) := by
  decide

/-- C15 (the code at the failing input): Carlo (id 3) is cached with his phone number by a
complete fetch. The population then delivers him for the metadata query, a partial fetch
whose detail types do not include phone numbers. appendContacts hands the fetched contact to
updateCache as it is, without copying the old details of the types not fetched as the update
path of contactsAvailable does, so the snapshot loses the phone number, while the item stays
ContactComplete and the phone index still maps the number to id 3. -/
theorem appendContacts_drops_details_not_fetched :
    resolveCarlo.map (fun s =>
      ((existingItem s 3).map (fun i => (i.contact.phoneNumbers, i.contactState)),
       s.m_phoneNumberIds)) =
      some (some (["+358471112222"], .ContactComplete), [("1112222", 3)]) ∧
    resolveCarloThenPopulate.map (fun s =>
      (s.m_fetchRequest.detailTypesHint.contains .PhoneNumber,
       (existingItem s 3).map (fun i => (i.contact, i.contactState)),
       s.m_phoneNumberIds)) =
      some (false, some (carloMetadata, .ContactComplete), [("1112222", 3)]) := by
  decide

/-- C16 (the code at the failing input): with change listener 9 registered and the cache kept
populated, the store adds Freddy (id 7, number 61188889999), whose fetch indexes the key
8889999 under id 7, and then Graeme (id 8, number 99988889999), whose fetch makes
updateContactIndexing map the key 8889999 to id 8. The cache has no
address-resolutions-changed call, which tst_resolve.cpp declares on its change listener and
expects here: over the whole run the only calls on listener 9 are itemUpdated for item 7 and
itemUpdated for item 8, and the calls the cache makes on anybody while Graeme is added are
a posted wake, the start of the fetch, itemUpdated for item 8 and a posted wake; none
names the address pair whose mapping changed. -/
theorem index_remap_reports_no_address_change :
    cacheFreddy.map (fun s => (s.m_phoneNumberIds, s.m_changeListeners)) =
      some ([("8889999", 7)], [9]) ∧
    cacheFreddyThenGraeme.map (fun s =>
      (s.m_phoneNumberIds, changeListenerCalls s.log 9,
       s.log.drop ((cacheFreddy.map (fun s0 => s0.log.length)).getD 0))) =
      some ([("8889999", 8)], [.changeItemUpdated 9 7, .changeItemUpdated 9 8],
        [.postUpdateRequest,
         .requestStart .Fetch false (.changedAggregates [8]), .changeItemUpdated 9 8,
         .postUpdateRequest]) := by
  decide

/-! ## The dispatcher and the priority ladder -/

theorem ladderStep_eq (s : State) :
    ladderStep s =
      if Rung.guard s .relationships then Rung.body s .relationships
      else if Rung.guard s .removals then Rung.body s .removals
      else if Rung.guard s .saves then Rung.body s .saves
      else if Rung.guard s .constituentsById then Rung.body s .constituentsById
      else if Rung.guard s .constituentRelationships then Rung.body s .constituentRelationships
      else if Rung.guard s .mergeCandidates then Rung.body s .mergeCandidates
      else if Rung.guard s .population then Rung.body s .population
      else if Rung.guard s .refetch then Rung.body s .refetch
      else if Rung.guard s .changedContacts then Rung.body s .changedContacts
      else if Rung.guard s .resolution then Rung.body s .resolution
      else if Rung.guard s .resync then Rung.body s .resync
      else expireContacts s := by
  unfold ladderStep ladder
  simp only [List.find?]
  cases h1 : Rung.guard s .relationships
  swap
  · simp only [Bool.false_eq_true, if_false, if_true]
  simp only [Bool.false_eq_true, if_false]
  cases h2 : Rung.guard s .removals
  swap
  · simp only [Bool.false_eq_true, if_false, if_true]
  simp only [Bool.false_eq_true, if_false]
  cases h3 : Rung.guard s .saves
  swap
  · simp only [Bool.false_eq_true, if_false, if_true]
  simp only [Bool.false_eq_true, if_false]
  cases h4 : Rung.guard s .constituentsById
  swap
  · simp only [Bool.false_eq_true, if_false, if_true]
  simp only [Bool.false_eq_true, if_false]
  cases h5 : Rung.guard s .constituentRelationships
  swap
  · simp only [Bool.false_eq_true, if_false, if_true]
  simp only [Bool.false_eq_true, if_false]
  cases h6 : Rung.guard s .mergeCandidates
  swap
  · simp only [Bool.false_eq_true, if_false, if_true]
  simp only [Bool.false_eq_true, if_false]
  cases h7 : Rung.guard s .population
  swap
  · simp only [Bool.false_eq_true, if_false, if_true]
  simp only [Bool.false_eq_true, if_false]
  cases h8 : Rung.guard s .refetch
  swap
  · simp only [Bool.false_eq_true, if_false, if_true]
  simp only [Bool.false_eq_true, if_false]
  cases h9 : Rung.guard s .changedContacts
  swap
  · simp only [Bool.false_eq_true, if_false, if_true]
  simp only [Bool.false_eq_true, if_false]
  cases h10 : Rung.guard s .resolution
  swap
  · simp only [Bool.false_eq_true, if_false, if_true]
  simp only [Bool.false_eq_true, if_false]
  cases h11 : Rung.guard s .resync
  swap
  · simp only [Bool.false_eq_true, if_false, if_true]
  simp only [Bool.false_eq_true, if_false]

theorem event_eq_ladderStep (s : State) : event s = ladderStep s := by
  rw [ladderStep_eq]
  rfl

theorem body_updatesPending (s : State) (r : Rung) :
    (Rung.body s r).m_updatesPending = s.m_updatesPending := by
  cases r <;>
    simp only [Rung.body, startRelationshipRequests, startFetchRequest, startContactIdRequest,
      State.emit]
  · split_ifs <;> rfl
  · cases s.m_resolveAddresses <;> rfl

theorem expireContacts_log (s : State) : (expireContacts s).log = s.log := rfl

theorem body_resolve_lists (s : State) (r : Rung) :
    (Rung.body s r).m_resolveAddresses = s.m_resolveAddresses ∧
    (Rung.body s r).m_unknownAddresses = s.m_unknownAddresses ∧
    ((Rung.body s r).m_activeResolve = s.m_activeResolve ∨
      ∃ d ∈ s.m_resolveAddresses, (Rung.body s r).m_activeResolve = some d) := by
  cases r
  case relationships =>
    simp only [Rung.body, startRelationshipRequests, State.emit]
    split_ifs <;> exact ⟨rfl, rfl, Or.inl rfl⟩
  case resolution =>
    simp only [Rung.body, startFetchRequest, State.emit]
    cases h : s.m_resolveAddresses with
    | nil => exact ⟨h, rfl, Or.inl rfl⟩
    | cons d rest => exact ⟨rfl, rfl, Or.inr ⟨d, by simp, rfl⟩⟩
  all_goals exact ⟨rfl, rfl, Or.inl rfl⟩

/-- C19: every wake of the dispatcher is one step of the priority ladder, that is, it executes
the first rung in the order relationship saves/removals, contact removals, contact
creates/saves, constituent fetch-by-id, constituent relationship fetch, merge-candidate id
query, initial population, refetch, changed-id fetch, address resolution fetch, full resync
whose guard holds, and nothing else; the updates-pending flag is left as it is when a rung is
executed and is cleared when no guard holds. -/
theorem event_runs_first_rung_of_ladder (s : State) :
    event s = ladderStep s ∧
    event s =
      (match ladder.find? (fun r => r.guard s) with
       | some r => r.body s
       | none => { expireContacts s with m_updatesPending := false }) ∧
    (event s).m_updatesPending =
      (match ladder.find? (fun r => r.guard s) with
       | some _ => s.m_updatesPending
       | none => false) := by
  refine ⟨event_eq_ladderStep s, ?_, ?_⟩
  · rw [event_eq_ladderStep]
    unfold ladderStep
    cases ladder.find? (fun r => r.guard s) <;> rfl
  · rw [event_eq_ladderStep]
    unfold ladderStep
    cases ladder.find? (fun r => r.guard s) with
    | none => rfl
    | some r => exact body_updatesPending s r

theorem requestStarts_append (l₁ l₂ : List Notification) :
    requestStarts (l₁ ++ l₂) = requestStarts l₁ ++ requestStarts l₂ := by
  simp [requestStarts]

theorem requestStarts_length (l : List Notification) (h : l.all isRequestStart = true) :
    (requestStarts l).length = l.length := by
  induction l with
  | nil => rfl
  | cons n rest ih =>
    simp only [List.all_cons, Bool.and_eq_true] at h
    cases n <;> simp_all [requestStarts, isRequestStart]

theorem startRelationshipRequests_log (s : State) :
    ∃ started, (startRelationshipRequests s).log = s.log ++ started ∧
      started.all isRequestStart = true ∧
      started.length = (if s.m_relationshipsToSave.isEmpty then 0 else 1) +
        (if s.m_relationshipsToRemove.isEmpty then 0 else 1) := by
  unfold startRelationshipRequests
  cases h1 : s.m_relationshipsToSave.isEmpty <;> cases h2 : s.m_relationshipsToRemove.isEmpty
  · exact ⟨[.requestStart .RelationshipSave s.m_relationshipSaveRequest.active .unset,
      .requestStart .RelationshipRemove s.m_relationshipRemoveRequest.active .unset],
      by simp [State.emit, h2], rfl, by simp⟩
  · exact ⟨[.requestStart .RelationshipSave s.m_relationshipSaveRequest.active .unset],
      by simp [State.emit, h2], rfl, by simp⟩
  · exact ⟨[.requestStart .RelationshipRemove s.m_relationshipRemoveRequest.active .unset],
      by simp [State.emit, h2], rfl, by simp⟩
  · exact ⟨[], by simp [h2], rfl, by simp⟩

theorem body_log (s : State) (r : Rung) (hr : r ≠ .relationships) :
    ∃ started, (Rung.body s r).log = s.log ++ started ∧
      started.all isRequestStart = true ∧ started.length ≤ 1 := by
  cases r
  case relationships => exact absurd rfl hr
  case resolution =>
    simp only [Rung.body, startFetchRequest, State.emit]
    cases h : s.m_resolveAddresses with
    | nil => exact ⟨[], by simp, rfl, by simp⟩
    | cons d rest => exact ⟨[.requestStart .Fetch s.m_fetchRequest.active (resolveFilter d)],
        rfl, rfl, by simp⟩
  case removals => exact ⟨[.requestStart .Remove s.m_removeRequest.active .unset], rfl, rfl,
    by simp⟩
  case saves => exact ⟨[.requestStart .Save s.m_saveRequest.active .unset], rfl, rfl, by simp⟩
  case constituentsById =>
    exact ⟨[.requestStart .FetchById s.m_fetchByIdRequest.active .unset], rfl, rfl, by simp⟩
  case constituentRelationships =>
    exact ⟨[.requestStart .RelationshipsFetch s.m_relationshipsFetchRequest.active .unset], rfl,
      rfl, by simp⟩
  case mergeCandidates =>
    exact ⟨[.requestStart .ContactId s.m_contactIdRequest.active
      (.mergeCandidates (contactById s (s.m_contactsToFetchCandidates.headD 0)))], rfl, rfl,
      by simp⟩
  case population =>
    exact ⟨[.requestStart .Fetch s.m_fetchRequest.active .favoriteFilter], rfl, rfl, by simp⟩
  case refetch =>
    exact ⟨[.requestStart .Fetch s.m_fetchRequest.active .favoriteFilter], rfl, rfl, by simp⟩
  case changedContacts =>
    exact ⟨[.requestStart .Fetch s.m_fetchRequest.active
      (.changedAggregates s.m_changedContacts)], rfl, rfl, by simp⟩
  case resync =>
    exact ⟨[.requestStart .ContactId s.m_contactIdRequest.active .favoriteFilter], rfl, rfl,
      by simp⟩

theorem startedRequests_append (l₁ l₂ : List Notification) :
    startedRequests (l₁ ++ l₂) = startedRequests l₁ ++ startedRequests l₂ := by
  simp [startedRequests, requestStarts_append]

theorem startedRequests_length_le (l : List Notification) :
    (startedRequests l).length ≤ l.length := by
  unfold startedRequests requestStarts
  exact Nat.le_trans (List.length_filterMap_le _ _) (List.length_filterMap_le _ _)

theorem startRelationshipRequests_started (s : State) :
    ∃ calls, (startRelationshipRequests s).log = s.log ++ calls ∧
      startedRequests calls =
        (if !s.m_relationshipsToSave.isEmpty && !s.m_relationshipSaveRequest.active then
          [RequestKind.RelationshipSave] else []) ++
        (if !s.m_relationshipsToRemove.isEmpty && !s.m_relationshipRemoveRequest.active then
          [RequestKind.RelationshipRemove] else []) := by
  unfold startRelationshipRequests
  cases h1 : s.m_relationshipsToSave.isEmpty <;> cases h2 : s.m_relationshipsToRemove.isEmpty
  · refine ⟨[.requestStart .RelationshipSave s.m_relationshipSaveRequest.active .unset,
      .requestStart .RelationshipRemove s.m_relationshipRemoveRequest.active .unset],
      by simp [State.emit, h2], ?_⟩
    cases s.m_relationshipSaveRequest.active <;> cases s.m_relationshipRemoveRequest.active <;>
      simp [startedRequests, requestStarts]
  · refine ⟨[.requestStart .RelationshipSave s.m_relationshipSaveRequest.active .unset],
      by simp [State.emit, h2], ?_⟩
    cases s.m_relationshipSaveRequest.active <;> simp [startedRequests, requestStarts]
  · refine ⟨[.requestStart .RelationshipRemove s.m_relationshipRemoveRequest.active .unset],
      by simp [State.emit, h2], ?_⟩
    cases s.m_relationshipRemoveRequest.active <;> simp [startedRequests, requestStarts]
  · exact ⟨[], by simp [h2], by simp [startedRequests, requestStarts]⟩

/-- C20 (as amended): a wake appends a list `calls` to the log of calls. When both
relationship queues are non-empty and both relationship requests are idle, the requests
these calls start are the relationship save and the relationship remove, in that order; in
every other state of the cache the calls start at most one request. -/
theorem event_starts_one_request_or_both_idle_relationship_requests (s : State) :
    ∃ calls, (event s).log = s.log ++ calls ∧
      (if (!s.m_relationshipsToSave.isEmpty && !s.m_relationshipsToRemove.isEmpty &&
            !s.m_relationshipSaveRequest.active && !s.m_relationshipRemoveRequest.active) then
         startedRequests calls = [.RelationshipSave, .RelationshipRemove]
       else (startedRequests calls).length ≤ 1) := by
  rw [event_eq_ladderStep]
  unfold ladderStep
  cases hfind : ladder.find? (fun r => r.guard s) with
  | none =>
    have hrel : Rung.guard s .relationships = false := by
      have := List.find?_eq_none.mp hfind Rung.relationships (by simp [ladder])
      simpa using this
    refine ⟨[], by simp [expireContacts_log], ?_⟩
    simp only [Rung.guard] at hrel
    cases h1 : s.m_relationshipsToSave.isEmpty <;>
      cases h2 : s.m_relationshipsToRemove.isEmpty <;>
      cases h3 : s.m_relationshipSaveRequest.active <;>
      cases h4 : s.m_relationshipRemoveRequest.active <;>
      simp_all [startedRequests, requestStarts]
  | some r =>
    by_cases hr : r = .relationships
    · subst hr
      obtain ⟨l, hl, hstarted⟩ := startRelationshipRequests_started s
      refine ⟨l, hl, ?_⟩
      rw [hstarted]
      cases h1 : s.m_relationshipsToSave.isEmpty <;>
        cases h2 : s.m_relationshipsToRemove.isEmpty <;>
        cases h3 : s.m_relationshipSaveRequest.active <;>
        cases h4 : s.m_relationshipRemoveRequest.active <;>
        simp
    · obtain ⟨l, hl, _, hlen⟩ := body_log s r hr
      refine ⟨l, hl, ?_⟩
      have hle : (startedRequests l).length ≤ 1 :=
        Nat.le_trans (startedRequests_length_le l) hlen
      have hrel : Rung.guard s .relationships = false := by
        cases hrel : Rung.guard s .relationships
        · rfl
        · simp [ladder, List.find?, hrel] at hfind
          exact absurd hfind.symm hr
      simp only [Rung.guard] at hrel
      cases h1 : s.m_relationshipsToSave.isEmpty <;>
        cases h2 : s.m_relationshipsToRemove.isEmpty <;>
        cases h3 : s.m_relationshipSaveRequest.active <;>
        cases h4 : s.m_relationshipRemoveRequest.active <;>
        simp_all

/-- C20 (counterexample to the claim as written): after one disaggregateContacts call on the
new cache both relationship queues hold an entry and both requests are idle; the next wake
starts the relationship-save and the relationship-remove request. -/
theorem event_starts_two_relationship_requests :
    (disaggregateContacts State.init { id := 1 } { id := 11 }).map (fun s =>
      (s.m_relationshipsToSave.length, s.m_relationshipsToRemove.length,
       requestStarts ((event s).log.drop s.log.length))) =
    some (1, 1, [(.RelationshipSave, false), (.RelationshipRemove, false)]) := by
  decide

/-! ## Lookups by normalized key -/

/-- C18: two numbers with the same minimized form get the same result from
itemByPhoneNumber, two addresses equal after lower-casing get the same result from
itemByEmailAddress, and two account pairs with the same local id and remote ids equal after
lower-casing get the same result from itemByOnlineAccount; pairs with different local ids
are looked up under different keys: indexing an id under the one pair does not change what
the lookup of the other pair finds. -/
theorem lookups_depend_on_normalized_key (env : Env) (s : State) (requireComplete : Bool)
    (number₁ number₂ email₁ email₂ localUid localUid' remoteUid₁ remoteUid₂ : String)
    (iid : Nat)
    (hn : normalizePhoneNumber env number₁ = normalizePhoneNumber env number₂)
    (he : env.toLower email₁ = env.toLower email₂)
    (hr : env.toLower remoteUid₁ = env.toLower remoteUid₂)
    (hl : localUid ≠ localUid') :
    itemByPhoneNumber env s number₁ requireComplete =
      itemByPhoneNumber env s number₂ requireComplete ∧
    itemByEmailAddress env s email₁ requireComplete =
      itemByEmailAddress env s email₂ requireComplete ∧
    itemByOnlineAccount env s localUid remoteUid₁ requireComplete =
      itemByOnlineAccount env s localUid remoteUid₂ requireComplete ∧
    (itemByOnlineAccount env
        { s with m_onlineAccountIds :=
            hashInsert s.m_onlineAccountIds (localUid, env.toLower remoteUid₁) iid }
        localUid' remoteUid₂ requireComplete).1 =
      (itemByOnlineAccount env s localUid' remoteUid₂ requireComplete).1 := by
  refine ⟨?_, ?_, ?_, ?_⟩
  · unfold itemByPhoneNumber
    rw [hn]
  · unfold itemByEmailAddress
    rw [he]
  · unfold itemByOnlineAccount
    rw [hr]
  · unfold itemByOnlineAccount
    have hk : (localUid, env.toLower remoteUid₁) ≠ (localUid', env.toLower remoteUid₂) := by
      intro h
      exact hl (Prod.mk.inj h).1
    simp only [hashFind_hashInsert_ne _ _ _ _ hk]
    cases hashFind s.m_onlineAccountIds (localUid', env.toLower remoteUid₂) with
    | none => rfl
    | some found => simp only [itemById_fst]

/-- Witness for C18, in a cache that has indexed a number of contact 5, Alfred's e-mail
address and Berta's account: the numbers "+358470009955" and "0470009955", two spellings of
Alfred's address, two spellings of Berta's remote id, and a second local account id. -/
theorem lookups_depend_on_normalized_key_witness :
    itemByPhoneNumber exampleEnv indexedCache "+358470009955" true =
      itemByPhoneNumber exampleEnv indexedCache "0470009955" true ∧
    itemByEmailAddress exampleEnv indexedCache "Alfred@Alfred.com" true =
      itemByEmailAddress exampleEnv indexedCache "alfred@alfred.com" true ∧
    itemByOnlineAccount exampleEnv indexedCache "/example/jabber/0" "Berta.B@geemail.com" true =
      itemByOnlineAccount exampleEnv indexedCache "/example/jabber/0" "berta.b@geemail.com"
        true ∧
    (itemByOnlineAccount exampleEnv
        { indexedCache with
          m_onlineAccountIds :=
            hashInsert indexedCache.m_onlineAccountIds
              ("/example/jabber/0", exampleEnv.toLower "Berta.B@geemail.com") 2 }
        "/example/jabber/1" "berta.b@geemail.com" true).1 =
      (itemByOnlineAccount exampleEnv indexedCache "/example/jabber/1" "berta.b@geemail.com"
        true).1 :=
  lookups_depend_on_normalized_key exampleEnv indexedCache true "+358470009955" "0470009955"
    "Alfred@Alfred.com" "alfred@alfred.com" "/example/jabber/0" "/example/jabber/1"
    "Berta.B@geemail.com" "berta.b@geemail.com" 2 (by decide) (by decide) (by decide)
    (by decide)

/-! ## A resolve listener after it has unregistered -/

theorem notificationsTo_append (l₁ l₂ : List Notification) (listener : Nat) :
    notificationsTo (l₁ ++ l₂) listener =
      notificationsTo l₁ listener + notificationsTo l₂ listener := by
  simp [notificationsTo]

theorem notificationsTo_of_starts (l : List Notification) (listener : Nat)
    (h : l.all isRequestStart = true) : notificationsTo l listener = 0 := by
  induction l with
  | nil => rfl
  | cons n rest ih =>
    simp only [List.all_cons, Bool.and_eq_true] at h
    cases n <;> simp_all [notificationsTo, isRequestStart]

theorem sameResolution_refl (listener : Nat) (s : State) : SameResolution listener s s :=
  ⟨rfl, rfl, rfl, rfl⟩

theorem sameResolution_trans {listener : Nat} {s₁ s₂ s₃ : State}
    (h₁ : SameResolution listener s₁ s₂) (h₂ : SameResolution listener s₂ s₃) :
    SameResolution listener s₁ s₃ :=
  ⟨h₂.1.trans h₁.1, h₂.2.1.trans h₁.2.1, h₂.2.2.1.trans h₁.2.2.1, h₂.2.2.2.trans h₁.2.2.2⟩

theorem unheard_of_sameResolution {listener count : Nat} {s s' : State}
    (h : SameResolution listener s s') (hu : Unheard listener count s) :
    Unheard listener count s' := by
  obtain ⟨h1, h2, h3, h4⟩ := h
  unfold Unheard
  rw [h1, h2, h3, h4]
  exact hu

theorem requestUpdate_sameResolution (listener : Nat) (s : State) :
    SameResolution listener s (requestUpdate s) := by
  unfold requestUpdate
  by_cases h : s.m_updatesPending = true
  · simp only [h, if_true]
    exact ⟨rfl, rfl, rfl, rfl⟩
  · simp only [h, if_false]
    exact ⟨rfl, rfl, rfl, by simp [State.emit, notificationsTo]⟩

theorem fetchContacts_sameResolution (listener : Nat) (s : State) :
    SameResolution listener s (fetchContacts s) := by
  unfold fetchContacts
  split
  · exact ⟨rfl, rfl, rfl, rfl⟩
  · refine sameResolution_trans ?_ (requestUpdate_sameResolution listener _)
    split <;> exact ⟨rfl, rfl, rfl, rfl⟩

theorem refreshContact_sameResolution (listener : Nat) (s : State) (key : Nat) :
    SameResolution listener s (refreshContact s key) := by
  unfold refreshContact
  split
  · exact sameResolution_refl listener s
  · exact sameResolution_trans ⟨rfl, rfl, rfl, rfl⟩ (fetchContacts_sameResolution listener _)

theorem ensureCompletion_sameResolution (listener : Nat) (s : State) (key : Nat) :
    SameResolution listener s (ensureCompletion s key) := by
  unfold ensureCompletion
  split
  · exact sameResolution_refl listener s
  · split
    · exact refreshContact_sameResolution listener s key
    · exact sameResolution_refl listener s

theorem itemById_sameResolution (listener : Nat) (s : State) (id : Nat)
    (requireComplete : Bool) :
    SameResolution listener s (itemById s id requireComplete).2 := by
  unfold itemById
  split
  · exact sameResolution_refl listener s
  · simp only
    have h0 : SameResolution listener s
        (match hashFind s.m_people (internalId id) with
         | some _ => s
         | none => { s with m_people := hashInsert s.m_people (internalId id)
                                          { contact := { id := id } } }) := by
      split <;> exact ⟨rfl, rfl, rfl, rfl⟩
    split
    · exact sameResolution_trans h0 (ensureCompletion_sameResolution listener _ _)
    · exact h0

theorem event_unheard (listener count : Nat) (s : State) (hu : Unheard listener count s) :
    Unheard listener count (event s) := by
  rw [event_eq_ladderStep]
  unfold ladderStep
  cases ladder.find? (fun r => r.guard s) with
  | none => exact hu
  | some r =>
    obtain ⟨h1, h2, h3⟩ := body_resolve_lists s r
    have hlog : notificationsTo (Rung.body s r).log listener = notificationsTo s.log listener := by
      by_cases hr : r = .relationships
      · subst hr
        obtain ⟨l, hl, hall, _⟩ := startRelationshipRequests_log s
        show notificationsTo (startRelationshipRequests s).log listener = _
        rw [hl, notificationsTo_append, notificationsTo_of_starts l listener hall]
        rfl
      · obtain ⟨l, hl, hall, _⟩ := body_log s r hr
        rw [hl, notificationsTo_append, notificationsTo_of_starts l listener hall]
        rfl
    refine ⟨by rw [h1]; exact hu.1, by rw [h2]; exact hu.2.1, ?_, by rw [hlog]; exact hu.2.2.2⟩
    intro a ha
    rcases h3 with h3 | ⟨d, hd, h3⟩
    · exact hu.2.2.1 a (by rw [← h3]; exact ha)
    · rw [h3] at ha
      have hda : d = a := Option.some.inj ha
      rw [← hda]
      exact hu.1 d hd

theorem resolveUnknownAddressesLoop_quiet (listener : Nat) (first second : String) (item : Nat)
    (l : List ResolveData) (s : State) (hl : ∀ d ∈ l, d.listener ≠ listener) :
    SameResolution listener s (resolveUnknownAddressesLoop first second item l s).2 := by
  induction l generalizing s with
  | nil => exact sameResolution_refl listener s
  | cons it rest ih =>
    have hit : it.listener ≠ listener := hl it (by simp)
    have hrest : ∀ d ∈ rest, d.listener ≠ listener := fun d hd => hl d (by simp [hd])
    unfold resolveUnknownAddressesLoop
    split
    · refine sameResolution_trans ?_ (ih _ hrest)
      have he : SameResolution listener s
          (s.emit (.addressResolved it.listener it.first it.second (existingItem s item))) :=
        ⟨rfl, rfl, rfl, by simp [State.emit, notificationsTo, hit]⟩
      cases it.requireComplete
      · exact he
      · exact sameResolution_trans he (ensureCompletion_sameResolution listener _ _)
    · exact ih s hrest

theorem resolveUnknownAddresses_unheard (listener count : Nat) (s : State)
    (first second : String) (item : Nat) (hu : Unheard listener count s) :
    Unheard listener count (resolveUnknownAddresses s first second item) := by
  have hq := resolveUnknownAddressesLoop_quiet listener first second item s.m_unknownAddresses s
    hu.2.1
  have hu' := unheard_of_sameResolution hq hu
  unfold resolveUnknownAddresses
  refine ⟨hu'.1, ?_, hu'.2.2.1, hu'.2.2.2⟩
  intro d hd
  simp only [resolveUnknownAddressesLoop_kept] at hd
  exact hu.2.1 d (List.mem_filter.mp hd).1

theorem indexPhoneNumbers_unheard (listener count : Nat) (env : Env) (iid item : Nat)
    (numbers : List String) (oldAddresses : List (String × String)) (s : State)
    (modified : Bool) (hu : Unheard listener count s) :
    Unheard listener count
      (indexPhoneNumbers env iid item numbers oldAddresses s modified).2.1 := by
  induction numbers generalizing oldAddresses s modified with
  | nil => exact hu
  | cons number rest ih =>
    unfold indexPhoneNumbers
    apply ih
    by_cases h : addressPairPhone env number ∈ oldAddresses
    · simp only [h, if_true]
      exact hu
    · simp only [h, if_false]
      exact resolveUnknownAddresses_unheard listener count s _ _ item hu

theorem indexEmailAddresses_unheard (listener count : Nat) (env : Env) (iid item : Nat)
    (addresses : List String) (oldAddresses : List (String × String)) (s : State)
    (modified : Bool) (hu : Unheard listener count s) :
    Unheard listener count
      (indexEmailAddresses env iid item addresses oldAddresses s modified).2.1 := by
  induction addresses generalizing oldAddresses s modified with
  | nil => exact hu
  | cons address rest ih =>
    unfold indexEmailAddresses
    apply ih
    by_cases h : addressPairEmail env address ∈ oldAddresses
    · simp only [h, if_true]
      exact hu
    · simp only [h, if_false]
      exact resolveUnknownAddresses_unheard listener count s _ _ item hu

theorem indexOnlineAccounts_unheard (listener count : Nat) (env : Env) (iid item : Nat)
    (accounts : List (String × String)) (oldAddresses : List (String × String)) (s : State)
    (modified : Bool) (hu : Unheard listener count s) :
    Unheard listener count
      (indexOnlineAccounts env iid item accounts oldAddresses s modified).2.1 := by
  induction accounts generalizing oldAddresses s modified with
  | nil => exact hu
  | cons account rest ih =>
    unfold indexOnlineAccounts
    apply ih
    by_cases h : addressPairAccount env account ∈ oldAddresses
    · simp only [h, if_true]
      exact hu
    · simp only [h, if_false]
      exact resolveUnknownAddresses_unheard listener count s _ _ item hu

theorem updateContactIndexing_unheard (listener count : Nat) (env : Env) (s : State)
    (oldContact contact : QContact) (iid : Nat) (queryDetailTypes : List DetailTypeId)
    (item : Nat) (hu : Unheard listener count s) :
    Unheard listener count
      (updateContactIndexing env s oldContact contact iid queryDetailTypes item).2 := by
  have hp : ∀ (s : State) (m : Bool), Unheard listener count s →
      Unheard listener count (updatePhoneNumberIndexing env s oldContact contact iid item m).2 := by
    intro s m hs
    unfold updatePhoneNumberIndexing
    have := indexPhoneNumbers_unheard listener count env iid item contact.phoneNumbers
      (insertAddresses [] (oldContact.phoneNumbers.map (addressPairPhone env))) s m hs
    simp only
    split <;> exact this
  have he : ∀ (s : State) (m : Bool), Unheard listener count s →
      Unheard listener count (updateEmailAddressIndexing env s oldContact contact iid item m).2 := by
    intro s m hs
    unfold updateEmailAddressIndexing
    have := indexEmailAddresses_unheard listener count env iid item contact.emailAddresses
      (insertAddresses [] (oldContact.emailAddresses.map (addressPairEmail env))) s m hs
    simp only
    split <;> exact this
  have ha : ∀ (s : State) (m : Bool), Unheard listener count s →
      Unheard listener count (updateOnlineAccountIndexing env s oldContact contact iid item m).2 := by
    intro s m hs
    unfold updateOnlineAccountIndexing
    have := indexOnlineAccounts_unheard listener count env iid item contact.onlineAccounts
      (insertAddresses [] (oldContact.onlineAccounts.map (addressPairAccount env))) s m hs
    simp only
    split <;> exact this
  unfold updateContactIndexing
  simp only
  have h1 : Unheard listener count
      (if detailTypeQueried queryDetailTypes .PhoneNumber then
        updatePhoneNumberIndexing env s oldContact contact iid item false
       else (false, s)).2 := by
    split
    · exact hp s false hu
    · exact hu
  have h2 : Unheard listener count
      (if detailTypeQueried queryDetailTypes .EmailAddress then
        updateEmailAddressIndexing env
          (if detailTypeQueried queryDetailTypes .PhoneNumber then
            updatePhoneNumberIndexing env s oldContact contact iid item false
           else (false, s)).2 oldContact contact iid item
          (if detailTypeQueried queryDetailTypes .PhoneNumber then
            updatePhoneNumberIndexing env s oldContact contact iid item false
           else (false, s)).1
       else (if detailTypeQueried queryDetailTypes .PhoneNumber then
            updatePhoneNumberIndexing env s oldContact contact iid item false
           else (false, s))).2 := by
    split
    · exact he _ _ h1
    · exact h1
  split
  · exact ha _ _ h2
  · exact h2

theorem resolveFinished_end (listener count : Nat) (r : State) (active : ResolveData)
    (item : Option CacheItem) (hne : active.listener ≠ listener)
    (hr : Unheard listener count r) :
    Unheard listener count
      { r.emit (.addressResolved active.listener active.first active.second item) with
        m_activeResolve := none,
        m_resolveAddresses := r.m_resolveAddresses.tail } := by
  refine ⟨?_, hr.2.1, ?_, ?_⟩
  · intro d hd
    exact hr.1 d (List.mem_of_mem_tail hd)
  · intro a ha
    cases ha
  · show notificationsTo (r.log ++ [_]) listener = count
    rw [notificationsTo_append, hr.2.2.2]
    simp [notificationsTo, hne]

theorem resolveFinished_unheard (listener count : Nat) (env : Env) (s : State)
    (hu : Unheard listener count s) : Unheard listener count (resolveFinished env s) := by
  unfold resolveFinished
  cases hact : s.m_activeResolve with
  | none => exact hu
  | some active =>
    have hne : active.listener ≠ listener := hu.2.2.1 active hact
    simp only
    cases hc : s.m_fetchRequest.contacts with
    | nil =>
      refine resolveFinished_end listener count _ active _ hne ?_
      refine ⟨hu.1, ?_, ?_, hu.2.2.2⟩
      · intro d hd
        simp only [List.mem_append, List.mem_singleton] at hd
        rcases hd with hd | hd
        · exact hu.2.1 d hd
        · rw [hd]
          split_ifs <;> exact hne
      · intro a ha
        exact hu.2.2.1 a (ha.symm ▸ hact ▸ rfl)
    | cons first rest =>
      exact resolveFinished_end listener count _ active _ hne
        (unheard_of_sameResolution (itemById_sameResolution listener s _ false) hu)

theorem startFetchRequest_sameResolution (listener : Nat) (s : State) (filter : QueryFilter)
    (hint : List DetailTypeId) : SameResolution listener s (startFetchRequest s filter hint) :=
  ⟨rfl, rfl, rfl, by simp [startFetchRequest, State.emit, notificationsTo]⟩

theorem makePopulated_sameResolution (listener : Nat) (s : State) (filter : FilterType) :
    SameResolution listener s (makePopulated s filter) := by
  refine ⟨rfl, rfl, rfl, ?_⟩
  show notificationsTo (s.log ++ (s.m_models.get filter).map (fun m => .makePopulated m))
    listener = _
  rw [notificationsTo_append]
  have : ∀ models : List Nat,
      notificationsTo (models.map (fun m => Notification.makePopulated m)) listener = 0 := by
    intro models
    induction models with
    | nil => rfl
    | cons m rest ih => simp [notificationsTo]
  rw [this]
  rfl

theorem fetchRequestFinished_unheard (listener count : Nat) (env : Env) (s : State)
    (hu : Unheard listener count s) :
    Unheard listener count (fetchRequestFinished env s).1 := by
  unfold fetchRequestFinished
  split_ifs
  · have h := startFetchRequest_sameResolution listener s .favoriteFilter
      (favoriteFetchHint s.m_fetchTypes)
    exact @unheard_of_sameResolution listener count s _ ⟨h.1, h.2.1, h.2.2.1, h.2.2.2⟩ hu
  · have h1 := makePopulated_sameResolution listener s .FilterFavorites
    have h2 := startFetchRequest_sameResolution listener (makePopulated s .FilterFavorites)
      .allFilter (metadataFetchHint (makePopulated s .FilterFavorites).m_fetchTypes)
    have h := sameResolution_trans h1 h2
    exact @unheard_of_sameResolution listener count s _ ⟨h.1, h.2.1, h.2.2.1, h.2.2.2⟩ hu
  · have h1 := makePopulated_sameResolution listener s .FilterNone
    have h2 := makePopulated_sameResolution listener (makePopulated s .FilterNone) .FilterAll
    have h3 := startFetchRequest_sameResolution listener
      (makePopulated (makePopulated s .FilterNone) .FilterAll) .onlineFilter
      (onlineFetchHint (makePopulated (makePopulated s .FilterNone) .FilterAll).m_fetchTypes)
    have h := sameResolution_trans (sameResolution_trans h1 h2) h3
    exact @unheard_of_sameResolution listener count s _ ⟨h.1, h.2.1, h.2.2.1, h.2.2.2⟩ hu
  · have h := makePopulated_sameResolution listener s .FilterOnline
    exact @unheard_of_sameResolution listener count s _ ⟨h.1, h.2.1, h.2.2.1, h.2.2.2⟩ hu
  · have h := startFetchRequest_sameResolution listener s .nonfavoriteFilter
      (onlineFetchHint s.m_fetchTypes)
    exact @unheard_of_sameResolution listener count s _ ⟨h.1, h.2.1, h.2.2.1, h.2.2.2⟩ hu
  · exact hu
  · exact resolveFinished_unheard listener count env s hu

theorem fetchFinished_unheard (listener count : Nat) (env : Env) (s : State)
    (contacts : List QContact) (hu : Unheard listener count s) :
    Unheard listener count ((fetchFinished env s contacts).getD s) := by
  unfold fetchFinished requestStateChanged
  simp only
  have h := fetchRequestFinished_unheard listener count env
    { s with m_fetchRequest := { s.m_fetchRequest with active := false, contacts := contacts } }
    hu
  split_ifs
  · exact ⟨h.1, h.2.1, h.2.2.1, by
      show notificationsTo (_ ++ [Notification.postUpdateRequest]) listener = count
      rw [notificationsTo_append, h.2.2.2]
      rfl⟩
  · exact h

theorem resolveAddress_unheard (listener count : Nat) (s : State) (other : Nat)
    (first second : String) (requireComplete : Bool) (ho : other ≠ listener)
    (hu : Unheard listener count s) :
    Unheard listener count (resolveAddress s other first second requireComplete) := by
  unfold resolveAddress
  refine unheard_of_sameResolution (requestUpdate_sameResolution listener _) ?_
  refine ⟨?_, hu.2.1, hu.2.2.1, hu.2.2.2⟩
  intro d hd
  simp only [List.mem_append, List.mem_singleton] at hd
  rcases hd with hd | hd
  · exact hu.1 d hd
  · rw [hd]
    exact ho

theorem resolve_end_unheard (listener count : Nat) (s : State) (r : Option Nat × State)
    (other : Nat) (first second : String) (requireComplete : Bool) (ho : other ≠ listener)
    (hr : SameResolution listener s r.2) (hu : Unheard listener count s) :
    Unheard listener count
      (match r with
       | (none, s1) => ((none : Option Nat), resolveAddress s1 other first second requireComplete)
       | (some key, s1) =>
         (some key, if requireComplete then ensureCompletion s1 key else s1)).2 := by
  obtain ⟨key, s1⟩ := r
  have hu1 : Unheard listener count s1 := unheard_of_sameResolution hr hu
  cases key with
  | none => exact resolveAddress_unheard listener count s1 other first second requireComplete ho hu1
  | some key =>
    cases requireComplete
    · exact hu1
    · exact unheard_of_sameResolution (ensureCompletion_sameResolution listener s1 key) hu1

theorem resolvePhoneNumber_unheard (listener count : Nat) (env : Env) (s : State) (other : Nat)
    (number : String) (requireComplete : Bool) (ho : other ≠ listener)
    (hu : Unheard listener count s) :
    Unheard listener count (resolvePhoneNumber env s other number requireComplete).2 := by
  have hr : SameResolution listener s (itemByPhoneNumber env s number requireComplete).2 := by
    unfold itemByPhoneNumber
    split
    · exact itemById_sameResolution listener s _ requireComplete
    · exact sameResolution_refl listener s
  exact resolve_end_unheard listener count s _ other "" number requireComplete ho hr hu

theorem resolveEmailAddress_unheard (listener count : Nat) (env : Env) (s : State) (other : Nat)
    (address : String) (requireComplete : Bool) (ho : other ≠ listener)
    (hu : Unheard listener count s) :
    Unheard listener count (resolveEmailAddress env s other address requireComplete).2 := by
  have hr : SameResolution listener s (itemByEmailAddress env s address requireComplete).2 := by
    unfold itemByEmailAddress
    split
    · exact itemById_sameResolution listener s _ requireComplete
    · exact sameResolution_refl listener s
  exact resolve_end_unheard listener count s _ other address "" requireComplete ho hr hu

theorem resolveOnlineAccount_unheard (listener count : Nat) (env : Env) (s : State)
    (other : Nat) (localUid remoteUid : String) (requireComplete : Bool)
    (ho : other ≠ listener) (hu : Unheard listener count s) :
    Unheard listener count
      (resolveOnlineAccount env s other localUid remoteUid requireComplete).2 := by
  have hr : SameResolution listener s
      (itemByOnlineAccount env s localUid remoteUid requireComplete).2 := by
    unfold itemByOnlineAccount
    split
    · exact itemById_sameResolution listener s _ requireComplete
    · exact sameResolution_refl listener s
  exact resolve_end_unheard listener count s _ other localUid remoteUid requireComplete ho hr hu

theorem laterStep_unheard (listener count : Nat) (env : Env) (s : State) (step : LaterStep)
    (hs : step.isBy listener = false) (hu : Unheard listener count s) :
    Unheard listener count (step.run env s) := by
  cases step with
  | wake => exact event_unheard listener count s hu
  | fetchDone contacts => exact fetchFinished_unheard listener count env s contacts hu
  | indexUpdate oldContact contact iid queryDetailTypes item =>
    exact updateContactIndexing_unheard listener count env s oldContact contact iid
      queryDetailTypes item hu
  | phoneResolve other number requireComplete =>
    exact resolvePhoneNumber_unheard listener count env s other number requireComplete
      (by simpa [LaterStep.isBy] using hs) hu
  | emailResolve other address requireComplete =>
    exact resolveEmailAddress_unheard listener count env s other address requireComplete
      (by simpa [LaterStep.isBy] using hs) hu
  | accountResolve other localUid remoteUid requireComplete =>
    exact resolveOnlineAccount_unheard listener count env s other localUid remoteUid
      requireComplete (by simpa [LaterStep.isBy] using hs) hu

theorem runLater_unheard (listener count : Nat) (env : Env) (steps : List LaterStep)
    (s : State) (hs : ∀ step ∈ steps, step.isBy listener = false)
    (hu : Unheard listener count s) : Unheard listener count (runLater env steps s) := by
  induction steps generalizing s with
  | nil => exact hu
  | cons step rest ih =>
    unfold runLater
    exact ih _ (fun st hst => hs st (by simp [hst]))
      (laterStep_unheard listener count env s step (hs step (by simp)) hu)

theorem unregisterResolveListener_unheard (s : State) (listener : Nat) :
    Unheard listener (notificationsTo s.log listener) (unregisterResolveListener s listener) := by
  unfold unregisterResolveListener
  refine ⟨?_, ?_, ?_, rfl⟩
  · intro d hd
    simpa using (List.mem_filter.mp hd).2
  · intro d hd
    simpa using (List.mem_filter.mp hd).2
  · intro a ha
    simp only at ha
    cases hact : s.m_activeResolve with
    | none => simp [hact] at ha
    | some active =>
      by_cases h : active.listener = listener
      · simp [hact, h] at ha
      · simp only [hact, h, if_false] at ha
        cases ha
        exact h

/-- C17: after unregisterResolveListener(L) the pending-resolution queue and the
unknown-address list are the old lists without the entries of L, in the old order, so that
neither holds an entry of L; the active resolution is cleared if it belonged to L and is kept
otherwise; and whatever happens later (wakes of the dispatcher, completions of the fetch
request with any results, index updates for any contact, resolve calls of other listeners, in
any number and order), the log holds no further addressResolved call on L. -/
theorem unregisterResolveListener_silences_listener (env : Env) (s : State) (listener : Nat)
    (steps : List LaterStep) (hs : ∀ step ∈ steps, step.isBy listener = false) :
    (unregisterResolveListener s listener).m_resolveAddresses =
      s.m_resolveAddresses.filter (fun d => decide (d.listener ≠ listener)) ∧
    (unregisterResolveListener s listener).m_unknownAddresses =
      s.m_unknownAddresses.filter (fun d => decide (d.listener ≠ listener)) ∧
    (∀ d ∈ (unregisterResolveListener s listener).m_resolveAddresses, d.listener ≠ listener) ∧
    (∀ d ∈ (unregisterResolveListener s listener).m_unknownAddresses, d.listener ≠ listener) ∧
    (unregisterResolveListener s listener).m_activeResolve =
      s.m_activeResolve.filter (fun a => decide (a.listener ≠ listener)) ∧
    notificationsTo (runLater env steps (unregisterResolveListener s listener)).log listener =
      notificationsTo s.log listener := by
  have hu := unregisterResolveListener_unheard s listener
  refine ⟨rfl, rfl, hu.1, hu.2.1, ?_, (runLater_unheard listener _ env steps _ hs hu).2.2.2⟩
  unfold unregisterResolveListener
  cases hact : s.m_activeResolve with
  | none => rfl
  | some active =>
    by_cases h : active.listener = listener <;> simp [Option.filter, h]

/-- Witness for C17: listener 4 unregisters from the cache `resolvingCache`, and the steps
`laterSteps` follow. -/
theorem unregisterResolveListener_silences_listener_witness :
    (unregisterResolveListener resolvingCache 4).m_resolveAddresses =
      resolvingCache.m_resolveAddresses.filter (fun d => decide (d.listener ≠ 4)) ∧
    (unregisterResolveListener resolvingCache 4).m_unknownAddresses =
      resolvingCache.m_unknownAddresses.filter (fun d => decide (d.listener ≠ 4)) ∧
    (∀ d ∈ (unregisterResolveListener resolvingCache 4).m_resolveAddresses, d.listener ≠ 4) ∧
    (∀ d ∈ (unregisterResolveListener resolvingCache 4).m_unknownAddresses, d.listener ≠ 4) ∧
    (unregisterResolveListener resolvingCache 4).m_activeResolve =
      resolvingCache.m_activeResolve.filter (fun a => decide (a.listener ≠ 4)) ∧
    notificationsTo
        (runLater exampleEnv laterSteps (unregisterResolveListener resolvingCache 4)).log 4 =
      notificationsTo resolvingCache.log 4 :=
  unregisterResolveListener_silences_listener exampleEnv resolvingCache 4 laterSteps
    (by decide)

/-! ## Items of the identity store -/

theorem hashInsert_keys_of_found {κ ν : Type} [DecidableEq κ] (m : List (κ × ν)) (k : κ)
    (v v₀ : ν) (h : hashFind m k = some v₀) :
    (hashInsert m k v).map (fun entry => entry.1) = m.map (fun entry => entry.1) := by
  induction m with
  | nil => simp [hashFind] at h
  | cons p rest ih =>
    obtain ⟨k', v'⟩ := p
    by_cases hk : k' = k
    · simp [hashInsert, hk]
    · simp only [hashFind, hk, if_false] at h
      simp [hashInsert, hk, ih h]

theorem hashInsert_keys_of_absent {κ ν : Type} [DecidableEq κ] (m : List (κ × ν)) (k : κ)
    (v : ν) (h : hashFind m k = none) :
    (hashInsert m k v).map (fun entry => entry.1) = m.map (fun entry => entry.1) ++ [k] := by
  induction m with
  | nil => simp [hashInsert]
  | cons p rest ih =>
    obtain ⟨k', v'⟩ := p
    by_cases hk : k' = k
    · simp [hashFind, hk] at h
    · simp only [hashFind, hk, if_false] at h
      simp [hashInsert, hk, ih h]

theorem refreshContact_entry (s : State) (key : Nat) (item : CacheItem)
    (h : hashFind s.m_people key = some item) :
    hashFind (refreshContact s key).m_people key =
        some { item with contactState := .ContactRequested } ∧
      peopleKeys (refreshContact s key) = peopleKeys s ∧
      ∀ k, k ≠ key → hashFind (refreshContact s key).m_people k = hashFind s.m_people k := by
  unfold refreshContact peopleKeys
  simp only [h, fetchContacts_people]
  exact ⟨hashFind_hashInsert_self _ _ _, hashInsert_keys_of_found _ _ _ _ h,
    fun k hk => hashFind_hashInsert_ne _ _ _ _ (Ne.symm hk)⟩

theorem ensureCompletion_entry (s : State) (key : Nat) (item : CacheItem)
    (h : hashFind s.m_people key = some item) :
    (∃ item', hashFind (ensureCompletion s key).m_people key = some item' ∧
        { item' with contactState := item.contactState } = item) ∧
      peopleKeys (ensureCompletion s key) = peopleKeys s ∧
      ∀ k, k ≠ key → hashFind (ensureCompletion s key).m_people k = hashFind s.m_people k := by
  unfold ensureCompletion
  simp only [h]
  split
  · obtain ⟨h1, h2, h3⟩ := refreshContact_entry s key item h
    exact ⟨⟨_, h1, rfl⟩, h2, h3⟩
  · exact ⟨⟨item, h, rfl⟩, rfl, fun _ _ => rfl⟩

theorem itemById_entry (s : State) (id : Nat) (requireComplete : Bool) (hid : id ≠ 0) :
    (∃ item', hashFind (itemById s id requireComplete).2.m_people id = some item' ∧
        { item' with contactState := ((hashFind s.m_people id).getD
            { contact := { id := id } }).contactState } =
          (hashFind s.m_people id).getD { contact := { id := id } }) ∧
      peopleKeys (itemById s id requireComplete).2 =
        (if (hashFind s.m_people id).isSome then peopleKeys s else peopleKeys s ++ [id]) ∧
      ∀ k, k ≠ id → hashFind (itemById s id requireComplete).2.m_people k =
        hashFind s.m_people k := by
  have hv : validId id = true := by simp [validId, hid]
  unfold itemById
  simp only [hv, internalId, Bool.not_true, Bool.false_eq_true, if_false]
  cases hf : hashFind s.m_people id with
  | some item =>
    simp only [Option.getD_some, Option.isSome_some, if_true]
    cases requireComplete
    · exact ⟨⟨item, hf, rfl⟩, rfl, fun _ _ => rfl⟩
    · exact ensureCompletion_entry s id item hf
  | none =>
    simp only [Option.getD_none, Option.isSome_none, Bool.false_eq_true, if_false]
    have hnew : hashFind (hashInsert s.m_people id ({ contact := { id := id } } : CacheItem)) id =
        some { contact := { id := id } } := hashFind_hashInsert_self _ _ _
    have hkeys : (hashInsert s.m_people id ({ contact := { id := id } } : CacheItem)).map
        (fun entry => entry.1) = peopleKeys s ++ [id] := hashInsert_keys_of_absent _ _ _ hf
    cases requireComplete
    · exact ⟨⟨_, hnew, rfl⟩, hkeys, fun k hk => hashFind_hashInsert_ne _ _ _ _ (Ne.symm hk)⟩
    · obtain ⟨h1, h2, h3⟩ := ensureCompletion_entry
        { s with m_people := hashInsert s.m_people id { contact := { id := id } } } id _ hnew
      exact ⟨h1, h2.trans hkeys,
        fun k hk => (h3 k hk).trans (hashFind_hashInsert_ne _ _ _ _ (Ne.symm hk))⟩

theorem not_mem_keys_of_absent {κ ν : Type} [DecidableEq κ] (m : List (κ × ν)) (k : κ)
    (h : hashFind m k = none) : k ∉ m.map (fun entry => entry.1) := by
  induction m with
  | nil => simp
  | cons p rest ih =>
    obtain ⟨k', v'⟩ := p
    by_cases hk : k' = k
    · simp [hashFind, hk] at h
    · simp only [hashFind, hk, if_false] at h
      simp only [List.map_cons, List.mem_cons, not_or]
      exact ⟨fun h' => hk h'.symm, ih h⟩

/-- C29: itemById with the null id returns null and leaves the cache, and so the identity
store, as it is; removeContact and fetchConstituents with a contact whose id is invalid return
false and leave the cache, and so every queue, as it is. -/
theorem invalid_id_calls_change_nothing (s : State) (requireComplete : Bool)
    (contact : QContact) (h : validId contact.id = false) :
    itemById s contact.id requireComplete = (none, s) ∧
    removeContact s contact = some (false, s) ∧
    fetchConstituents s contact = (false, s) := by
  refine ⟨?_, ?_, ?_⟩
  · simp [itemById, h]
  · simp [removeContact, h]
  · simp [fetchConstituents, h]

/-- Witness for C29, at the contact with the null id in the cache `indexedCache`. -/
theorem invalid_id_calls_change_nothing_witness :
    itemById indexedCache nullIdContact.id true = (none, indexedCache) ∧
    removeContact indexedCache nullIdContact = some (false, indexedCache) ∧
    fetchConstituents indexedCache nullIdContact = (false, indexedCache) :=
  invalid_id_calls_change_nothing indexedCache true nullIdContact (by decide)

/-- C30: for a valid id, itemById returns the item stored under the id's internal id; the
store gets a new entry, for that id, exactly when it had none, and an entry that existed keeps
everything but possibly its completeness state; the entries of all other ids are untouched,
and a store without duplicate ids stays so. A second itemById with the same id returns the
same item, adds no entry and again changes at most the completeness state of the item. -/
theorem itemById_one_item_per_id (s : State) (id : Nat) (requireComplete again : Bool)
    (hid : validId id = true) :
    (itemById s id requireComplete).1 = some (internalId id) ∧
    (existingItem (itemById s id requireComplete).2 (internalId id)).isSome ∧
    peopleKeys (itemById s id requireComplete).2 =
      (if (existingItem s (internalId id)).isSome then peopleKeys s
       else peopleKeys s ++ [internalId id]) ∧
    (∀ item, existingItem s (internalId id) = some item →
      ∃ item', existingItem (itemById s id requireComplete).2 (internalId id) = some item' ∧
        { item' with contactState := item.contactState } = item) ∧
    (∀ k, k ≠ internalId id →
      existingItem (itemById s id requireComplete).2 k = existingItem s k) ∧
    ((peopleKeys s).Nodup → (peopleKeys (itemById s id requireComplete).2).Nodup) ∧
    (itemById (itemById s id requireComplete).2 id again).1 =
      (itemById s id requireComplete).1 ∧
    peopleKeys (itemById (itemById s id requireComplete).2 id again).2 =
      peopleKeys (itemById s id requireComplete).2 ∧
    (∀ item, existingItem (itemById s id requireComplete).2 (internalId id) = some item →
      ∃ item', existingItem (itemById (itemById s id requireComplete).2 id again).2
          (internalId id) = some item' ∧
        { item' with contactState := item.contactState } = item) := by
  have hne : id ≠ 0 := by simpa [validId] using hid
  obtain ⟨⟨item₁, hf₁, he₁⟩, hk₁, ho₁⟩ := itemById_entry s id requireComplete hne
  obtain ⟨⟨item₂, hf₂, he₂⟩, hk₂, _⟩ :=
    itemById_entry (itemById s id requireComplete).2 id again hne
  simp only [internalId, existingItem]
  refine ⟨(itemById_valid s id requireComplete hne).1, by simp [hf₁], hk₁, ?_, ho₁, ?_, ?_, ?_,
    ?_⟩
  · intro item hitem
    rw [hitem] at he₁
    exact ⟨item₁, hf₁, he₁⟩
  · intro hnd
    rw [hk₁]
    cases hf : hashFind s.m_people id with
    | some item => simpa using hnd
    | none =>
      simp only [Option.isSome_none, Bool.false_eq_true, if_false]
      refine List.Nodup.append hnd (List.nodup_singleton id) ?_
      intro a ha hb
      simp only [List.mem_singleton] at hb
      subst hb
      exact not_mem_keys_of_absent s.m_people a hf ha
  · rw [(itemById_valid _ id again hne).1, (itemById_valid s id requireComplete hne).1]
  · rw [hk₂]
    simp [hf₁]
  · intro item hitem
    rw [hitem] at he₂
    exact ⟨item₂, hf₂, he₂⟩

/-- Witness for C30, at the id 9, which the cache `indexedCache` does not hold. -/
theorem itemById_one_item_per_id_witness :
    (itemById indexedCache 9 true).1 = some (internalId 9) ∧
    (existingItem (itemById indexedCache 9 true).2 (internalId 9)).isSome ∧
    peopleKeys (itemById indexedCache 9 true).2 =
      (if (existingItem indexedCache (internalId 9)).isSome then peopleKeys indexedCache
       else peopleKeys indexedCache ++ [internalId 9]) ∧
    (∀ item, existingItem indexedCache (internalId 9) = some item →
      ∃ item', existingItem (itemById indexedCache 9 true).2 (internalId 9) = some item' ∧
        { item' with contactState := item.contactState } = item) ∧
    (∀ k, k ≠ internalId 9 →
      existingItem (itemById indexedCache 9 true).2 k = existingItem indexedCache k) ∧
    ((peopleKeys indexedCache).Nodup → (peopleKeys (itemById indexedCache 9 true).2).Nodup) ∧
    (itemById (itemById indexedCache 9 true).2 9 false).1 =
      (itemById indexedCache 9 true).1 ∧
    peopleKeys (itemById (itemById indexedCache 9 true).2 9 false).2 =
      peopleKeys (itemById indexedCache 9 true).2 ∧
    (∀ item, existingItem (itemById indexedCache 9 true).2 (internalId 9) = some item →
      ∃ item', existingItem (itemById (itemById indexedCache 9 true).2 9 false).2
          (internalId 9) = some item' ∧
        { item' with contactState := item.contactState } = item) :=
  itemById_one_item_per_id indexedCache 9 true false (by decide)

/-! ## Postponement of the fetch of changed contacts -/

theorem fetchConstituents_queue (s : State) (contact : QContact) :
    (fetchConstituents s contact).1 = validId contact.id ∧
    (fetchConstituents s contact).2.m_contactsToFetchConstituents =
      (if validId contact.id = true ∧ contact.id ∉ s.m_contactsToFetchConstituents then
         s.m_contactsToFetchConstituents ++ [contact.id]
       else s.m_contactsToFetchConstituents) ∧
    (fetchConstituents s contact).2.m_contactPairsToLink = s.m_contactPairsToLink := by
  unfold fetchConstituents
  by_cases hv : validId contact.id = true
  · by_cases hm : contact.id ∈ s.m_contactsToFetchConstituents
    · simp [hv, hm]
    · have hr : ∀ t : State,
          (requestUpdate t).m_contactsToFetchConstituents = t.m_contactsToFetchConstituents ∧
          (requestUpdate t).m_contactPairsToLink = t.m_contactPairsToLink := by
        intro t
        unfold requestUpdate State.emit
        split <;> exact ⟨rfl, rfl⟩
      simp [hv, hm, hr]
  · simp [hv]

theorem nodup_append_new {α : Type} [DecidableEq α] (l : List α) (a : α) (P : Prop)
    [Decidable P] (h : l.Nodup) : (if P ∧ a ∉ l then l ++ [a] else l).Nodup := by
  split
  · rename_i hc
    refine List.Nodup.append h (List.nodup_singleton a) ?_
    intro b hb hb'
    simp only [List.mem_singleton] at hb'
    subst hb'
    exact hc.2 hb
  · exact h

theorem mem_append_new {α : Type} [DecidableEq α] (l : List α) (a : α) (P : Prop)
    [Decidable P] (hP : P) : a ∈ (if P ∧ a ∉ l then l ++ [a] else l) := by
  by_cases h : a ∈ l
  · simp [h]
  · simp [h, hP]

theorem mem_append_new_of_mem {α : Type} [DecidableEq α] (l : List α) (a b : α) (P : Prop)
    [Decidable P] (h : b ∈ l) : b ∈ (if P ∧ a ∉ l then l ++ [a] else l) := by
  split
  · simp [h]
  · exact h

theorem mem_of_mem_append_new {α : Type} [DecidableEq α] (l : List α) (a b : α) (P : Prop)
    [Decidable P] (h : b ∈ (if P ∧ a ∉ l then l ++ [a] else l)) : b ∈ l ∨ b = a := by
  split at h
  · simpa using h
  · exact Or.inl h

/-- C25: aggregateContacts(A, B) appends exactly one link pair (A, B) with both sides not
ready and passes A and then B to fetchConstituents, so that each of them that has a valid id
is in the constituent-fetch queue afterwards. fetchConstituents returns whether the id is
valid, appends the id only if it is valid and not yet in the queue, and otherwise leaves the
cache as it is; a queue without duplicates therefore stays without duplicates under both
calls. -/
theorem aggregateContacts_queues_pair_once (s : State) (contact1 contact2 contact : QContact) :
    (aggregateContacts s contact1 contact2).m_contactPairsToLink =
      s.m_contactPairsToLink ++
        [({ contactId := contact1.id, constituentsFetched := false },
          { contactId := contact2.id, constituentsFetched := false })] ∧
    (validId contact1.id = true →
      contact1.id ∈ (aggregateContacts s contact1 contact2).m_contactsToFetchConstituents) ∧
    (validId contact2.id = true →
      contact2.id ∈ (aggregateContacts s contact1 contact2).m_contactsToFetchConstituents) ∧
    (∀ id, id ∈ (aggregateContacts s contact1 contact2).m_contactsToFetchConstituents →
      id ∈ s.m_contactsToFetchConstituents ∨ id = contact1.id ∨ id = contact2.id) ∧
    (s.m_contactsToFetchConstituents.Nodup →
      (aggregateContacts s contact1 contact2).m_contactsToFetchConstituents.Nodup) ∧
    (fetchConstituents s contact).1 = validId contact.id ∧
    (fetchConstituents s contact).2.m_contactsToFetchConstituents =
      (if validId contact.id = true ∧ contact.id ∉ s.m_contactsToFetchConstituents then
         s.m_contactsToFetchConstituents ++ [contact.id]
       else s.m_contactsToFetchConstituents) ∧
    (s.m_contactsToFetchConstituents.Nodup →
      (fetchConstituents s contact).2.m_contactsToFetchConstituents.Nodup) ∧
    (validId contact.id = false → fetchConstituents s contact = (false, s)) ∧
    (contact.id ∈ s.m_contactsToFetchConstituents → (fetchConstituents s contact).2 = s) := by
  have hf := fetchConstituents_queue s contact
  have hq : ∀ (s : State) (c : QContact), s.m_contactsToFetchConstituents.Nodup →
      (fetchConstituents s c).2.m_contactsToFetchConstituents.Nodup := by
    intro s c hn
    rw [(fetchConstituents_queue s c).2.1]
    exact nodup_append_new _ _ _ hn
  have h1 := fetchConstituents_queue
    { s with m_contactPairsToLink := s.m_contactPairsToLink ++
      [(({ contactId := contact1.id } : ContactLinkRequest),
        ({ contactId := contact2.id } : ContactLinkRequest))] } contact1
  have h2 := fetchConstituents_queue (fetchConstituents
    { s with m_contactPairsToLink := s.m_contactPairsToLink ++
      [(({ contactId := contact1.id } : ContactLinkRequest),
        ({ contactId := contact2.id } : ContactLinkRequest))] } contact1).2 contact2
  have hA : (aggregateContacts s contact1 contact2).m_contactsToFetchConstituents =
      (if validId contact2.id = true ∧ contact2.id ∉
          (if validId contact1.id = true ∧ contact1.id ∉ s.m_contactsToFetchConstituents then
            s.m_contactsToFetchConstituents ++ [contact1.id]
           else s.m_contactsToFetchConstituents) then
        (if validId contact1.id = true ∧ contact1.id ∉ s.m_contactsToFetchConstituents then
          s.m_contactsToFetchConstituents ++ [contact1.id]
         else s.m_contactsToFetchConstituents) ++ [contact2.id]
       else
        (if validId contact1.id = true ∧ contact1.id ∉ s.m_contactsToFetchConstituents then
          s.m_contactsToFetchConstituents ++ [contact1.id]
         else s.m_contactsToFetchConstituents)) := by
    unfold aggregateContacts
    simp only
    rw [h2.2.1, h1.2.1]
  have hP : (aggregateContacts s contact1 contact2).m_contactPairsToLink =
      s.m_contactPairsToLink ++
        [({ contactId := contact1.id, constituentsFetched := false },
          { contactId := contact2.id, constituentsFetched := false })] := by
    unfold aggregateContacts
    simp only
    rw [h2.2.2, h1.2.2]
  clear h1 h2
  refine ⟨hP, ?_, ?_, ?_, ?_, hf.1, hf.2.1, hq s contact, ?_, ?_⟩
  · intro hv
    rw [hA]
    exact mem_append_new_of_mem _ _ _ _ (mem_append_new _ _ _ hv)
  · intro hv
    rw [hA]
    exact mem_append_new _ _ _ hv
  · intro id hid
    rw [hA] at hid
    rcases mem_of_mem_append_new _ _ _ _ hid with hid | hid
    · rcases mem_of_mem_append_new _ _ _ _ hid with hid | hid
      · exact Or.inl hid
      · exact Or.inr (Or.inl hid)
    · exact Or.inr (Or.inr hid)
  · intro hn
    rw [hA]
    exact nodup_append_new _ _ _ (nodup_append_new _ _ _ hn)
  · intro hv
    simp [fetchConstituents, hv]
  · intro hm
    unfold fetchConstituents
    by_cases hv : validId contact.id = true <;> simp [hv, hm]

theorem sameQueues_refl (s : State) : SameQueues s s :=
  ⟨rfl, rfl, rfl, rfl, rfl, [], by simp, rfl⟩

theorem sameQueues_trans {s₁ s₂ s₃ : State} (h₁ : SameQueues s₁ s₂) (h₂ : SameQueues s₂ s₃) :
    SameQueues s₁ s₃ := by
  obtain ⟨a1, a2, a3, a4, a5, l1, hl1, hs1⟩ := h₁
  obtain ⟨b1, b2, b3, b4, b5, l2, hl2, hs2⟩ := h₂
  refine ⟨b1.trans a1, b2.trans a2, b3.trans a3, b4.trans a4, b5.trans a5, l1 ++ l2, ?_, ?_⟩
  · rw [hl2, hl1, List.append_assoc]
  · rw [requestStarts_append, hs1, hs2]
    rfl

theorem notifyModels_sameQueues (s : State) (models : List Nat) (f : Nat → Notification)
    (hf : ∀ m, isRequestStart (f m) = false) : SameQueues s (notifyModels s models f) := by
  refine ⟨rfl, rfl, rfl, rfl, rfl, models.map f, rfl, ?_⟩
  induction models with
  | nil => rfl
  | cons m rest ih =>
    have hm := hf m
    simp only [List.map_cons, requestStarts, List.filterMap_cons] at ih ⊢
    cases hfm : f m <;> simp_all [isRequestStart, requestStarts]

theorem contactIndex_sameQueues (s s1 : State) (iid : Nat) (filter : FilterType) (row : Int)
    (h : contactIndex s iid filter = some (row, s1)) : SameQueues s s1 := by
  unfold contactIndex at h
  simp only [] at h
  split at h
  · simp only [Option.some.injEq, Prod.mk.injEq] at h
    rw [← h.2]
    exact sameQueues_refl s
  · split at h
    · exact absurd h (by simp)
    · split at h
      · split at h <;>
          (simp only [Option.some.injEq, Prod.mk.injEq] at h
           rw [← h.2]
           exact ⟨rfl, rfl, rfl, rfl, rfl, [], by simp, rfl⟩)
      · simp only [Option.some.injEq, Prod.mk.injEq] at h
        rw [← h.2]
        exact sameQueues_refl s

theorem contactDataChangedIn_sameQueues (s s1 : State) (iid : Nat) (filter : FilterType)
    (h : contactDataChangedIn s iid filter = some s1) : SameQueues s s1 := by
  unfold contactDataChangedIn at h
  split at h
  · exact absurd h (by simp)
  · rename_i row s0 hci
    have h0 := contactIndex_sameQueues s s0 iid filter row hci
    split at h
    · simp only [Option.some.injEq] at h
      rw [← h]
      exact sameQueues_trans h0 (notifyModels_sameQueues _ _ _ (fun _ => rfl))
    · simp only [Option.some.injEq] at h
      rw [← h]
      exact h0

theorem contactDataChanged_sameQueues (s s1 : State) (iid : Nat)
    (h : contactDataChanged s iid = some s1) : SameQueues s s1 := by
  unfold contactDataChanged at h
  split at h
  · exact absurd h (by simp)
  rename_i a ha
  split at h
  · exact absurd h (by simp)
  rename_i b hb
  exact sameQueues_trans
    (sameQueues_trans (contactDataChangedIn_sameQueues _ _ _ _ ha)
      (contactDataChangedIn_sameQueues _ _ _ _ hb))
    (contactDataChangedIn_sameQueues _ _ _ _ h)

theorem requestUpdate_queues (s : State) :
    (requestUpdate s).m_relationshipsToSave = s.m_relationshipsToSave ∧
    (requestUpdate s).m_relationshipsToRemove = s.m_relationshipsToRemove ∧
    (requestUpdate s).m_contactsToSave = s.m_contactsToSave ∧
    (requestUpdate s).m_contactsToCreate = s.m_contactsToCreate ∧
    (requestUpdate s).m_updatesPending = true ∧
    (requestUpdate s).m_people = s.m_people ∧
    ∃ calls, (requestUpdate s).log = s.log ++ calls ∧ requestStarts calls = [] := by
  unfold requestUpdate State.emit
  split
  · exact ⟨rfl, rfl, rfl, rfl, rfl, rfl, [], by simp, rfl⟩
  · exact ⟨rfl, rfl, rfl, rfl, rfl, rfl, [.postUpdateRequest], rfl, rfl⟩

theorem saveContact_queues (s s1 : State) (contact : QContact)
    (h : saveContact s contact = some s1) :
    s1.m_relationshipsToSave = s.m_relationshipsToSave ∧
    s1.m_relationshipsToRemove = s.m_relationshipsToRemove ∧
    s1.m_contactsToSave =
      (if validId contact.id then hashInsert s.m_contactsToSave contact.id contact
       else s.m_contactsToSave) ∧
    s1.m_contactsToCreate =
      (if validId contact.id then s.m_contactsToCreate else s.m_contactsToCreate ++ [contact]) ∧
    s1.m_updatesPending = true ∧
    ∃ calls, s1.log = s.log ++ calls ∧ requestStarts calls = [] := by
  unfold saveContact at h
  simp only [] at h
  split at h
  · exact absurd h (by simp)
  rename_i a ha
  simp only [Option.some.injEq] at h
  subst h
  obtain ⟨r1, r2, r3, r4, r5, _, l2, hl2, hs2⟩ := requestUpdate_queues a
  by_cases hv : validId contact.id = true
  · simp only [hv, if_true] at ha ⊢
    obtain ⟨q1, q2, q3, q4, _, l1, hl1, hs1⟩ := contactDataChanged_sameQueues _ _ _ ha
    refine ⟨r1.trans q1, r2.trans q2, r3.trans q3, r4.trans q4, r5, l1 ++ l2, ?_, ?_⟩
    · rw [hl2, hl1, List.append_assoc]
    · rw [requestStarts_append, hs1, hs2]
      rfl
  · simp only [hv, Bool.false_eq_true, if_false, Option.some.injEq] at ha ⊢
    subst ha
    exact ⟨r1, r2, r3, r4, r5, l2, hl2, hs2⟩

theorem replaceSyncTarget_head (details : List QContactDetail) (t : String) :
    ((replaceSyncTarget details t).filterMap
      (fun d => match d with | .syncTarget t => some t | _ => none)).head? = some t := by
  induction details with
  | nil => rfl
  | cons d rest ih =>
    cases d <;> simp_all [replaceSyncTarget]

theorem setSyncTarget_syncTarget (c : QContact) (t : String) :
    (c.setSyncTarget t).syncTarget = t ∧ (c.setSyncTarget t).id = c.id := by
  exact ⟨congrArg (fun o => o.getD "") (replaceSyncTarget_head c.details t), rfl⟩

/-- C26: whenever disaggregateContacts(aggregate, constituent) returns, the calls it has made
start no request; the relationships-to-remove queue has grown by exactly the Aggregates
relationship (aggregate, constituent) and the relationships-to-save queue by exactly the
"IsNot" relationship (aggregate, constituent); and if the constituent's sync target is
"was_local" the constituent with sync target "local" has been queued for a save (under its id
in the contacts-to-save table, or in the contacts-to-create list when its id is null), while
otherwise both of these are as before. The call returns when the sync target is not
"was_local", and also when every reverse-index position lies inside its view. -/
theorem disaggregateContacts_queues_split (s : State) (aggregate constituent : QContact) :
    (∀ s', disaggregateContacts s aggregate constituent = some s' →
      (∃ calls, s'.log = s.log ++ calls ∧ requestStarts calls = []) ∧
      s'.m_relationshipsToRemove = s.m_relationshipsToRemove ++
        [{ relationshipType := "Aggregates", first := aggregate.id,
           second := constituent.id }] ∧
      s'.m_relationshipsToSave = s.m_relationshipsToSave ++
        [{ relationshipType := "IsNot", first := aggregate.id, second := constituent.id }] ∧
      (constituent.syncTarget = "was_local" →
        (constituent.setSyncTarget "local").syncTarget = "local" ∧
        (constituent.setSyncTarget "local").id = constituent.id ∧
        s'.m_contactsToSave =
          (if validId constituent.id then
             hashInsert s.m_contactsToSave constituent.id (constituent.setSyncTarget "local")
           else s.m_contactsToSave) ∧
        s'.m_contactsToCreate =
          (if validId constituent.id then s.m_contactsToCreate
           else s.m_contactsToCreate ++ [constituent.setSyncTarget "local"])) ∧
      (constituent.syncTarget ≠ "was_local" →
        s'.m_contactsToSave = s.m_contactsToSave ∧
        s'.m_contactsToCreate = s.m_contactsToCreate)) ∧
    (constituent.syncTarget ≠ "was_local" →
      ∃ s', disaggregateContacts s aggregate constituent = some s') ∧
    ((∀ filter, IndicesInRange s filter) →
      ∃ s', disaggregateContacts s aggregate constituent = some s') := by
  refine ⟨?_, ?_, fun hr => disaggregateContacts_defined s aggregate constituent hr⟩
  · intro s' h
    unfold disaggregateContacts at h
    simp only [] at h
    split at h
    · exact absurd h (by simp)
    rename_i a ha
    simp only [Option.some.injEq] at h
    subst h
    by_cases hw : constituent.syncTarget = syncTargetWasLocal
    · simp only [hw, if_true] at ha
      obtain ⟨q1, q2, q3, q4, _, l, hl, hs⟩ := saveContact_queues _ _ _ ha
      have hid := (setSyncTarget_syncTarget constituent syncTargetLocal).2
      rw [hid] at q3 q4
      refine ⟨⟨l ++ [.postUpdateRequest], ?_, ?_⟩, q2, q1, ?_, ?_⟩
      · show a.log ++ [Notification.postUpdateRequest] = _
        rw [hl, List.append_assoc]
      · rw [requestStarts_append, hs]
        rfl
      · intro _
        exact ⟨(setSyncTarget_syncTarget constituent "local").1, hid, q3, q4⟩
      · intro hne
        exact absurd hw hne
    · simp only [hw, if_false, Option.some.injEq] at ha
      subst ha
      refine ⟨⟨[.postUpdateRequest], rfl, rfl⟩, rfl, rfl, ?_, ?_⟩
      · intro hw'
        exact absurd hw' hw
      · intro _
        exact ⟨rfl, rfl⟩
  · intro hw
    have hw' : ¬ constituent.syncTarget = syncTargetWasLocal := hw
    unfold disaggregateContacts
    simp only [hw', if_false]
    exact ⟨_, rfl⟩

/-! ## Pending link pairs -/

theorem updateConstituentAggregationsLoop_eq (env : Env) (contactId : Nat)
    (pairs : List (ContactLinkRequest × ContactLinkRequest)) (s : State) :
    updateConstituentAggregationsLoop env contactId pairs s =
      (mergePairs env ((pairs.map (markFetched contactId)).filter bothFetched) s).map
        (fun s1 => ((pairs.map (markFetched contactId)).filter (fun p => !bothFetched p), s1)) := by
  induction pairs generalizing s with
  | nil => rfl
  | cons pair rest ih =>
    unfold updateConstituentAggregationsLoop
    simp only [List.map_cons]
    by_cases hb : bothFetched (markFetched contactId pair) = true
    · have hb' : ((if pair.1.contactId = contactId then
            ({ pair.1 with constituentsFetched := true } : ContactLinkRequest)
          else pair.1).constituentsFetched &&
          (if pair.2.contactId = contactId then
            ({ pair.2 with constituentsFetched := true } : ContactLinkRequest)
          else pair.2).constituentsFetched) = true := hb
      have hid : (markFetched contactId pair).1.contactId = pair.1.contactId ∧
          (markFetched contactId pair).2.contactId = pair.2.contactId := by
        by_cases h1 : pair.1.contactId = contactId <;>
          by_cases h2 : pair.2.contactId = contactId <;> simp [markFetched, h1, h2]
      have hid1 : (if pair.1.contactId = contactId then
            ({ pair.1 with constituentsFetched := true } : ContactLinkRequest)
          else pair.1).contactId = pair.1.contactId := hid.1
      have hid2 : (if pair.2.contactId = contactId then
            ({ pair.2 with constituentsFetched := true } : ContactLinkRequest)
          else pair.2).contactId = pair.2.contactId := hid.2
      simp only [hb', if_true, hid1, hid2, List.filter_cons, hb, Bool.not_true,
        Bool.false_eq_true, if_false, mergePairs, hid.1, hid.2]
      cases completeContactAggregation env s pair.1.contactId pair.2.contactId with
      | none => rfl
      | some s1 => exact ih s1
    · have hb0 : bothFetched (markFetched contactId pair) = false := by simpa using hb
      have hb' : ((if pair.1.contactId = contactId then
            ({ pair.1 with constituentsFetched := true } : ContactLinkRequest)
          else pair.1).constituentsFetched &&
          (if pair.2.contactId = contactId then
            ({ pair.2 with constituentsFetched := true } : ContactLinkRequest)
          else pair.2).constituentsFetched) = false := hb0
      simp only [hb', Bool.false_eq_true, if_false, List.filter_cons, hb0, Bool.not_false,
        if_true, ih s]
      cases mergePairs env (List.filter bothFetched (List.map (markFetched contactId) rest)) s with
      | none => rfl
      | some s1 => rfl

/-- C24: updateConstituentAggregations(id) marks ready every side of every pending pair whose
contact id is id (the other sides keep their flags), runs the merge step once, in list order,
for each pair whose two sides are then ready, and leaves as pending list exactly the other
marked pairs in their original order; so whenever it returns no pending pair has both sides
ready. -/
theorem updateConstituentAggregations_retires_ready_pairs (env : Env) (s : State)
    (contactId : Nat) :
    updateConstituentAggregations env s contactId =
      (mergePairs env (readyPairs contactId s.m_contactPairsToLink) s).map
        (fun s1 =>
          { s1 with m_contactPairsToLink := unreadyPairs contactId s.m_contactPairsToLink }) ∧
    (∀ s', updateConstituentAggregations env s contactId = some s' →
      s'.m_contactPairsToLink =
        (s.m_contactPairsToLink.map (markFetched contactId)).filter (fun p => !bothFetched p) ∧
      (∀ p ∈ s'.m_contactPairsToLink, bothFetched p = false) ∧
      (∀ p ∈ s'.m_contactPairsToLink, ∃ p₀ ∈ s.m_contactPairsToLink,
        p = markFetched contactId p₀)) ∧
    (∀ p : ContactLinkRequest × ContactLinkRequest,
      (markFetched contactId p).1.contactId = p.1.contactId ∧
      (markFetched contactId p).2.contactId = p.2.contactId ∧
      (markFetched contactId p).1.constituentsFetched =
        (p.1.constituentsFetched || decide (p.1.contactId = contactId)) ∧
      (markFetched contactId p).2.constituentsFetched =
        (p.2.constituentsFetched || decide (p.2.contactId = contactId))) := by
  have heq : updateConstituentAggregations env s contactId =
      (mergePairs env (readyPairs contactId s.m_contactPairsToLink) s).map
        (fun s1 =>
          { s1 with m_contactPairsToLink := unreadyPairs contactId s.m_contactPairsToLink }) := by
    unfold updateConstituentAggregations readyPairs unreadyPairs
    rw [updateConstituentAggregationsLoop_eq]
    cases mergePairs env
      ((s.m_contactPairsToLink.map (markFetched contactId)).filter bothFetched) s <;> rfl
  refine ⟨heq, ?_, ?_⟩
  · intro s' hs'
    rw [heq] at hs'
    obtain ⟨s1, _, h1⟩ := Option.map_eq_some'.mp hs'
    have hp : s'.m_contactPairsToLink =
        (s.m_contactPairsToLink.map (markFetched contactId)).filter
          (fun p => !bothFetched p) := by
      rw [← h1]
      rfl
    refine ⟨hp, ?_, ?_⟩
    · intro p hm
      rw [hp] at hm
      simpa using (List.mem_filter.mp hm).2
    · intro p hm
      rw [hp] at hm
      obtain ⟨p₀, hp₀, he⟩ := List.mem_map.mp (List.mem_filter.mp hm).1
      exact ⟨p₀, hp₀, he.symm⟩
  · intro p
    unfold markFetched
    by_cases h1 : p.1.contactId = contactId <;> by_cases h2 : p.2.contactId = contactId <;>
      simp [h1, h2]

/-! ## What itemById leaves alone -/

theorem itemFrame_refl (s : State) : ItemFrame s s := ⟨rfl, [], by simp, by simp⟩

theorem itemFrame_trans {s₁ s₂ s₃ : State} (h₁ : ItemFrame s₁ s₂) (h₂ : ItemFrame s₂ s₃) :
    ItemFrame s₁ s₃ := by
  obtain ⟨e1, l1, hl1, hp1⟩ := h₁
  obtain ⟨e2, l2, hl2, hp2⟩ := h₂
  refine ⟨?_, l1 ++ l2, by rw [hl2, hl1, List.append_assoc], ?_⟩
  · have h : itemFrameOf s₂ s₃ = itemFrameOf (itemFrameOf s₁ s₂) s₃ :=
      congrArg (fun x => itemFrameOf x s₃) e1
    exact e2.trans h
  · intro n hn
    rcases List.mem_append.mp hn with h | h
    · exact hp1 n h
    · exact hp2 n h

theorem requestUpdate_itemFrame (s : State) : ItemFrame s (requestUpdate s) := by
  unfold requestUpdate State.emit
  split
  · exact ⟨rfl, [], by simp, by simp⟩
  · exact ⟨rfl, [.postUpdateRequest], rfl, by simp⟩

theorem fetchContacts_itemFrame (s : State) : ItemFrame s (fetchContacts s) := by
  unfold fetchContacts
  split
  · exact ⟨rfl, [], by simp, by simp⟩
  · refine itemFrame_trans ?_ (requestUpdate_itemFrame _)
    by_cases h : s.m_contactsUpdated = true
    · simp only [h, if_true]
      exact ⟨rfl, [], by simp, by simp⟩
    · simp only [h, if_false]
      exact ⟨rfl, [], by simp, by simp⟩

theorem refreshContact_itemFrame (s : State) (key : Nat) : ItemFrame s (refreshContact s key) := by
  unfold refreshContact
  split
  · exact itemFrame_refl s
  · exact itemFrame_trans ⟨rfl, [], by simp, by simp⟩ (fetchContacts_itemFrame _)

theorem ensureCompletion_itemFrame (s : State) (key : Nat) :
    ItemFrame s (ensureCompletion s key) := by
  unfold ensureCompletion
  split
  · exact itemFrame_refl s
  · split
    · exact refreshContact_itemFrame s key
    · exact itemFrame_refl s

theorem itemById_itemFrame (s : State) (id : Nat) (requireComplete : Bool) :
    ItemFrame s (itemById s id requireComplete).2 := by
  unfold itemById
  split
  · exact itemFrame_refl s
  · simp only
    have h0 : ItemFrame s
        (match hashFind s.m_people (internalId id) with
         | some _ => s
         | none => { s with m_people := hashInsert s.m_people (internalId id)
                                          { contact := { id := id } } }) := by
      split
      · exact itemFrame_refl s
      · exact ⟨rfl, [], by simp, by simp⟩
    split
    · exact itemFrame_trans h0 (ensureCompletion_itemFrame _ _)
    · exact h0

theorem itemFrame_fields {s s' : State} (h : ItemFrame s s') :
    s'.m_relationshipsToSave = s.m_relationshipsToSave ∧
    s'.m_relationshipsToRemove = s.m_relationshipsToRemove ∧
    s'.m_contacts = s.m_contacts ∧ s'.m_contactIndices = s.m_contactIndices ∧
    s'.m_contactsToSave = s.m_contactsToSave ∧ s'.m_contactsToCreate = s.m_contactsToCreate ∧
    s'.m_populateProgress = s.m_populateProgress ∧ s'.m_populated = s.m_populated ∧
    s'.m_models = s.m_models ∧ s'.m_contactPairsToLink = s.m_contactPairsToLink := by
  obtain ⟨e, _⟩ := h
  have h1 := congrArg State.m_relationshipsToSave e
  have h2 := congrArg State.m_relationshipsToRemove e
  have h3 := congrArg State.m_contacts e
  have h4 := congrArg State.m_contactIndices e
  have h5 := congrArg State.m_contactsToSave e
  have h6 := congrArg State.m_contactsToCreate e
  have h7 := congrArg State.m_populateProgress e
  have h8 := congrArg State.m_populated e
  have h9 := congrArg State.m_models e
  have h10 := congrArg State.m_contactPairsToLink e
  exact ⟨h1, h2, h3, h4, h5, h6, h7, h8, h9, h10⟩

/-! ## The merge step -/

theorem itemById_snapshot (s : State) (id : Nat) (requireComplete : Bool)
    (hex : (hashFind s.m_people id).isSome) (k : Nat) :
    (hashFind (itemById s id requireComplete).2.m_people k).map
        (fun i => (i.contact, i.itemData)) =
      (hashFind s.m_people k).map (fun i => (i.contact, i.itemData)) := by
  by_cases hid : id = 0
  · subst hid
    rw [itemById_null]
  · obtain ⟨⟨item', hf, he⟩, _, ho⟩ := itemById_entry s id requireComplete hid
    by_cases hk : k = id
    · subst hk
      obtain ⟨item, hitem⟩ := Option.isSome_iff_exists.mp hex
      rw [hitem] at he
      simp only [Option.getD_some] at he
      rw [hf, hitem]
      simp only [Option.map_some', Option.some.injEq, Prod.mk.injEq]
      have hc := congrArg CacheItem.contact he
      have hd := congrArg CacheItem.itemData he
      exact ⟨hc, hd⟩
    · rw [ho k hk]

theorem contactById_of_snapshot (s s' : State)
    (h : ∀ k, (hashFind s'.m_people k).map (fun i => (i.contact, i.itemData)) =
      (hashFind s.m_people k).map (fun i => (i.contact, i.itemData))) (id : Nat) :
    contactById s' id = contactById s id ∧
      (hashValue s'.m_people id {}).itemData = (hashValue s.m_people id {}).itemData := by
  have hk := h id
  unfold contactById hashValue internalId
  cases h1 : hashFind s'.m_people id <;> cases h2 : hashFind s.m_people id <;>
    simp_all

theorem linkConstituents_eq (s : State) (contact1Id contact2Id : Nat) (l : List Nat)
    (h1 : (contactById s contact1Id).id = contact1Id)
    (h2 : (contactById s contact2Id).id = contact2Id)
    (hc : ∀ c ∈ l, (contactById s c).id = c) :
    linkConstituents s contact1Id contact2Id l =
      (l.map (aggregatesRelationship contact1Id), l.map (aggregatesRelationship contact2Id)) := by
  induction l with
  | nil => rfl
  | cons c rest ih =>
    unfold linkConstituents
    simp only [ih (fun c' hc' => hc c' (by simp [hc'])), List.map_cons, makeRelationship,
      aggregatesRelationship, h1, h2, apiId, hc c (by simp)]

theorem link_tail (s3 s' : State) (contact1Id contact2Id : Nat) (l : List Nat)
    (h1 : (contactById s3 contact1Id).id = contact1Id)
    (h2 : (contactById s3 contact2Id).id = contact2Id)
    (hc : ∀ c ∈ l, (contactById s3 c).id = c)
    (h : (if (!(s3.m_relationshipsToSave ++
              (linkConstituents s3 contact1Id contact2Id l).1).isEmpty ||
            !(s3.m_relationshipsToRemove ++
              (linkConstituents s3 contact1Id contact2Id l).2).isEmpty) = true then
          some (requestUpdate
            { s3 with
              m_relationshipsToSave := s3.m_relationshipsToSave ++
                (linkConstituents s3 contact1Id contact2Id l).1,
              m_relationshipsToRemove := s3.m_relationshipsToRemove ++
                (linkConstituents s3 contact1Id contact2Id l).2 })
        else
          some { s3 with
            m_relationshipsToSave := s3.m_relationshipsToSave ++
              (linkConstituents s3 contact1Id contact2Id l).1,
            m_relationshipsToRemove := s3.m_relationshipsToRemove ++
              (linkConstituents s3 contact1Id contact2Id l).2 }) = some s') :
    s'.m_relationshipsToSave =
        s3.m_relationshipsToSave ++ l.map (aggregatesRelationship contact1Id) ∧
      s'.m_relationshipsToRemove =
        s3.m_relationshipsToRemove ++ l.map (aggregatesRelationship contact2Id) ∧
      ((s'.m_relationshipsToSave ≠ [] ∨ s'.m_relationshipsToRemove ≠ []) →
        s'.m_updatesPending = true) := by
  rw [linkConstituents_eq s3 contact1Id contact2Id l h1 h2 hc] at h
  simp only at h
  split at h
  · simp only [Option.some.injEq] at h
    subst h
    have hq := requestUpdate_queues
      { s3 with
        m_relationshipsToSave := s3.m_relationshipsToSave ++
          l.map (aggregatesRelationship contact1Id),
        m_relationshipsToRemove := s3.m_relationshipsToRemove ++
          l.map (aggregatesRelationship contact2Id) }
    exact ⟨hq.1, hq.2.1, fun _ => hq.2.2.2.2.1⟩
  · rename_i hne
    simp only [Option.some.injEq] at h
    subst h
    refine ⟨rfl, rfl, ?_⟩
    intro hor
    exfalso
    apply hne
    rcases hor with hor | hor
    · cases hl : s3.m_relationshipsToSave ++ l.map (aggregatesRelationship contact1Id) with
      | nil => exact absurd hl hor
      | cons a b => simp [hl]
    · cases hl : s3.m_relationshipsToRemove ++ l.map (aggregatesRelationship contact2Id) with
      | nil => exact absurd hl hor
      | cons a b => simp [hl]

theorem merge_rest (s s2 : State) (A B : Nat) (l : List Nat) (local2 : Option QContact)
    (hcb : ∀ id, contactById s2 id = contactById s id)
    (hqs : s2.m_relationshipsToSave = s.m_relationshipsToSave)
    (hqr : s2.m_relationshipsToRemove = s.m_relationshipsToRemove)
    (hcA : (contactById s A).id = A) (hcB : (contactById s B).id = B)
    (hC : ∀ c ∈ l, (contactById s c).id = c) :
    (∀ s' : State,
      (match (match local2 with
              | some c => saveContact s2 (c.setSyncTarget syncTargetWasLocal)
              | none => some s2) with
       | none => none
       | some s3 =>
         if (!(s3.m_relationshipsToSave ++ (linkConstituents s3 A B l).1).isEmpty ||
             !(s3.m_relationshipsToRemove ++ (linkConstituents s3 A B l).2).isEmpty) = true then
           some (requestUpdate
             { s3 with
               m_relationshipsToSave := s3.m_relationshipsToSave ++ (linkConstituents s3 A B l).1,
               m_relationshipsToRemove :=
                 s3.m_relationshipsToRemove ++ (linkConstituents s3 A B l).2 })
         else
           some { s3 with
             m_relationshipsToSave := s3.m_relationshipsToSave ++ (linkConstituents s3 A B l).1,
             m_relationshipsToRemove :=
               s3.m_relationshipsToRemove ++ (linkConstituents s3 A B l).2 }) = some s' →
      s'.m_relationshipsToSave = s.m_relationshipsToSave ++ l.map (aggregatesRelationship A) ∧
      s'.m_relationshipsToRemove =
        s.m_relationshipsToRemove ++ l.map (aggregatesRelationship B) ∧
      ((s'.m_relationshipsToSave ≠ [] ∨ s'.m_relationshipsToRemove ≠ []) →
        s'.m_updatesPending = true)) ∧
    ((∀ filter, IndicesInRange s2 filter) →
      ∃ s' : State,
        (match (match local2 with
                | some c => saveContact s2 (c.setSyncTarget syncTargetWasLocal)
                | none => some s2) with
         | none => none
         | some s3 =>
           if (!(s3.m_relationshipsToSave ++ (linkConstituents s3 A B l).1).isEmpty ||
               !(s3.m_relationshipsToRemove ++ (linkConstituents s3 A B l).2).isEmpty) = true
           then
             some (requestUpdate
               { s3 with
                 m_relationshipsToSave :=
                   s3.m_relationshipsToSave ++ (linkConstituents s3 A B l).1,
                 m_relationshipsToRemove :=
                   s3.m_relationshipsToRemove ++ (linkConstituents s3 A B l).2 })
           else
             some { s3 with
               m_relationshipsToSave := s3.m_relationshipsToSave ++ (linkConstituents s3 A B l).1,
               m_relationshipsToRemove :=
                 s3.m_relationshipsToRemove ++ (linkConstituents s3 A B l).2 }) = some s') := by
  cases local2 with
  | none =>
    refine ⟨?_, fun _ => ?_⟩
    · intro s' h
      have := link_tail s2 s' A B l
        (by rw [hcb]; exact hcA) (by rw [hcb]; exact hcB)
        (fun c hc => by rw [hcb]; exact hC c hc) h
      rw [hqs, hqr] at this
      exact this
    · simp only
      split <;> exact ⟨_, rfl⟩
  | some c =>
    refine ⟨?_, fun hr => ?_⟩
    · intro s' h
      cases hsave : saveContact s2 (c.setSyncTarget syncTargetWasLocal) with
      | none => simp [hsave] at h
      | some s3 =>
        simp only [hsave] at h
        have hq := saveContact_queues s2 s3 _ hsave
        have hp := (saveContact_same s2 s3 _ hsave).1.1
        have hcb3 : ∀ id, contactById s3 id = contactById s id := by
          intro id
          rw [← hcb id]
          unfold contactById
          rw [hp]
        have := link_tail s3 s' A B l
          (by rw [hcb3]; exact hcA) (by rw [hcb3]; exact hcB)
          (fun c hc => by rw [hcb3]; exact hC c hc) h
        rw [hq.1, hq.2.1, hqs, hqr] at this
        exact this
    · obtain ⟨s3, hsave⟩ := saveContact_defined s2 (c.setSyncTarget syncTargetWasLocal) hr
      simp only [hsave]
      split <;> exact ⟨_, rfl⟩

/-- C23 (as amended): let the cache hold items for A and B that both have an item data
object and whose cached contacts carry the ids A and B, and let every constituent c in the
list of B's item data be cached under its own id. Whenever the merge step for (A, B) returns,
the relationships-to-save queue has grown by exactly one Aggregates relationship (A, c) and the
relationships-to-remove queue by exactly one Aggregates relationship (B, c) for every such c,
in the order of the list, and the updates-pending flag is set if either queue is non-empty.
The step returns when every reverse-index position lies inside its view. -/
theorem completeContactAggregation_links_constituents (env : Env) (s : State) (A B : Nat)
    (itemA itemB : CacheItem) (dataA dataB : ItemData)
    (hvA : validId A = true) (hvB : validId B = true)
    (hA : hashFind s.m_people A = some itemA) (hB : hashFind s.m_people B = some itemB)
    (hdA : itemA.itemData = some dataA) (hdB : itemB.itemData = some dataB)
    (hiA : itemA.contact.id = A) (hiB : itemB.contact.id = B)
    (hC : ∀ c ∈ dataB.constituents, (contactById s c).id = c) :
    (∀ s', completeContactAggregation env s A B = some s' →
      s'.m_relationshipsToSave =
        s.m_relationshipsToSave ++ dataB.constituents.map (aggregatesRelationship A) ∧
      s'.m_relationshipsToRemove =
        s.m_relationshipsToRemove ++ dataB.constituents.map (aggregatesRelationship B) ∧
      ((s'.m_relationshipsToSave ≠ [] ∨ s'.m_relationshipsToRemove ≠ []) →
        s'.m_updatesPending = true)) ∧
    ((∀ filter, IndicesInRange s filter) →
      ∃ s', completeContactAggregation env s A B = some s') := by
  have hnA : A ≠ 0 := by simpa [validId] using hvA
  have hnB : B ≠ 0 := by simpa [validId] using hvB
  have hk1 := (itemById_valid s A env.requireCompleteDefault hnA).1
  have hk2 := (itemById_valid (itemById s A env.requireCompleteDefault).2 B
    env.requireCompleteDefault hnB).1
  have hf1 := itemById_itemFrame s A env.requireCompleteDefault
  have hf2 := itemById_itemFrame (itemById s A env.requireCompleteDefault).2 B
    env.requireCompleteDefault
  have hf := itemFrame_trans hf1 hf2
  have hsn1 := itemById_snapshot s A env.requireCompleteDefault (by simp [hA])
  have hB1 : (hashFind (itemById s A env.requireCompleteDefault).2.m_people B).isSome := by
    have := hsn1 B
    rw [hB] at this
    cases hx : hashFind (itemById s A env.requireCompleteDefault).2.m_people B with
    | none => simp [hx] at this
    | some _ => rfl
  have hsn2 := itemById_snapshot (itemById s A env.requireCompleteDefault).2 B
    env.requireCompleteDefault hB1
  have hsn : ∀ k, (hashFind (itemById (itemById s A env.requireCompleteDefault).2 B
      env.requireCompleteDefault).2.m_people k).map (fun i => (i.contact, i.itemData)) =
      (hashFind s.m_people k).map (fun i => (i.contact, i.itemData)) :=
    fun k => (hsn2 k).trans (hsn1 k)
  generalize hs2 : (itemById (itemById s A env.requireCompleteDefault).2 B
    env.requireCompleteDefault).2 = s2 at hf hsn
  have hcb := contactById_of_snapshot s s2 hsn
  have hd1 : (hashValue s2.m_people A {}).itemData = some dataA := by
    rw [(hcb A).2]
    simp [hashValue, hA, hdA]
  have hd2 : (hashValue s2.m_people B {}).itemData = some dataB := by
    rw [(hcb B).2]
    simp [hashValue, hB, hdB]
  have hcA : (contactById s A).id = A := by simp [contactById, hashValue, internalId, hA, hiA]
  have hcB : (contactById s B).id = B := by simp [contactById, hashValue, internalId, hB, hiB]
  obtain ⟨hqs, hqr, hc, hi, _⟩ := itemFrame_fields hf
  have hr2 : (∀ filter, IndicesInRange s filter) → ∀ filter, IndicesInRange s2 filter := by
    intro hr filter
    unfold IndicesInRange
    rw [hc, hi]
    exact hr filter
  have hm := merge_rest s s2 A B dataB.constituents
    (match firstLocalConstituent s2 dataA.constituents with
     | none => none
     | some _ => firstLocalConstituent s2 dataB.constituents)
    (fun id => (hcb id).1) hqs hqr hcA hcB hC
  unfold completeContactAggregation
  simp only [hk1, hk2, hs2, hd1, hd2]
  exact ⟨hm.1, fun hr => hm.2 (hr2 hr)⟩

/-- C23 (the theorem at a concrete cache): aggregates 1 and 2 of `twoAggregatesWithLocals` both
have item data and the constituents 12 and 13 of aggregate 2 are cached. -/
theorem completeContactAggregation_links_constituents_witness :
    (∀ s', completeContactAggregation exampleEnv twoAggregatesWithLocals 1 2 = some s' →
      s'.m_relationshipsToSave =
        twoAggregatesWithLocals.m_relationshipsToSave ++
          [12, 13].map (aggregatesRelationship 1) ∧
      s'.m_relationshipsToRemove =
        twoAggregatesWithLocals.m_relationshipsToRemove ++
          [12, 13].map (aggregatesRelationship 2) ∧
      ((s'.m_relationshipsToSave ≠ [] ∨ s'.m_relationshipsToRemove ≠ []) →
        s'.m_updatesPending = true)) ∧
    ((∀ filter, IndicesInRange twoAggregatesWithLocals filter) →
      ∃ s', completeContactAggregation exampleEnv twoAggregatesWithLocals 1 2 = some s') :=
  completeContactAggregation_links_constituents exampleEnv twoAggregatesWithLocals 1 2
    { iid := 1, contact := { id := 1, details := [.syncTarget "aggregate"] },
      contactState := .ContactComplete, itemData := some { constituents := [11] } }
    { iid := 2, contact := { id := 2, details := [.syncTarget "aggregate"] },
      contactState := .ContactComplete, itemData := some { constituents := [12, 13] } }
    { constituents := [11] } { constituents := [12, 13] }
    (by decide) (by decide) (by decide) (by decide) rfl rfl rfl rfl (by decide)

/-- C23 (the claim as written fails): the pair (1, 2) has its first side ready and aggregate 2
has the constituents 12 and 13, but aggregate 1 has no item data; when the second side becomes
ready the pair is retired and neither queue receives a relationship. The same happens on the
public interface: Dora (4) and Edgar (6) are merged while only Edgar has item data, Edgar's
constituent 61 is reported, and after both constituent fetches the pair is gone, both queues
are empty and no wake is pending. -/
theorem merge_without_item_data_queues_nothing :
    (updateConstituentAggregations exampleEnv firstSideWithoutItemData 2).map (fun s =>
      (s.m_contactPairsToLink, s.m_relationshipsToSave, s.m_relationshipsToRemove,
        s.m_updatesPending)) = some ([], [], [], false) ∧
    linkWithOneItemData.map (fun s =>
      (s.m_contactPairsToLink, s.m_relationshipsToSave, s.m_relationshipsToRemove,
        s.m_updatesPending, constituentsReports s.log,
        (existingItem s 6).map (fun i => i.itemData))) =
      some ([], [], [], false, [(6, [61])], some (some { constituents := [61] })) := by
  decide

/-- C28 (the code at the failing input): the view of all contacts is [3, 4, 5] with model 7
registered, the self contact has id 1, and insertRange is called for rows 1 to 3 with the
queried ids [6, 1, 8]. The model is told before and after that rows 1 to 3 are inserted and
3 is returned, but the loop skips the self contact: only two ids enter the view, at the
positions 1 and 3, and the id 4 that was there before stays at position 2 of the announced
range. -/
theorem insertRange_announces_row_of_skipped_self_contact :
    (insertRange exampleEnv viewOfThree .FilterAll 1 3 [6, 1, 8] 0).map (fun r =>
      (r.1.m_contacts.get .FilterAll, r.1.log, r.2)) =
    some ([3, 6, 4, 8, 5],
      [.sourceAboutToInsertItems 7 1 3, .sourceItemsInserted 7 1 3], 3) := by
  decide

/-! ## Completion of the relationship requests -/

theorem itemById_itemData (s : State) (id : Nat) (requireComplete : Bool) (k : Nat) :
    (hashValue (itemById s id requireComplete).2.m_people k {}).itemData =
      (hashValue s.m_people k {}).itemData := by
  by_cases hid : id = 0
  · subst hid
    rw [itemById_null]
  · obtain ⟨⟨item', hf, he⟩, _, ho⟩ := itemById_entry s id requireComplete hid
    unfold hashValue
    by_cases hk : k = id
    · subst hk
      rw [hf]
      have hd := congrArg CacheItem.itemData he
      cases h2 : hashFind s.m_people k with
      | none =>
        rw [h2] at hd
        exact hd
      | some item =>
        rw [h2] at hd
        exact hd
    · rw [ho k hk]

theorem completedCalls_append (log calls : List Notification) (key : Nat) :
    completedCalls (log ++ calls) key = completedCalls log key + completedCalls calls key := by
  simp [completedCalls, List.filter_append]

theorem completedCalls_wakes (calls : List Notification) (key : Nat)
    (h : ∀ n ∈ calls, n = Notification.postUpdateRequest) : completedCalls calls key = 0 := by
  unfold completedCalls
  rw [List.length_eq_zero, List.filter_eq_nil_iff]
  intro n hn
  rw [h n hn]
  simp

theorem itemById_completedCalls (s : State) (id : Nat) (requireComplete : Bool) (key : Nat) :
    completedCalls (itemById s id requireComplete).2.log key = completedCalls s.log key := by
  obtain ⟨_, calls, hl, hc⟩ := itemById_itemFrame s id requireComplete
  rw [hl, completedCalls_append, completedCalls_wakes calls key hc, Nat.add_zero]

theorem aggregationOperationsCompleted_cons (env : Env) (c : Nat) (rest : List Nat)
    (s : State) :
    aggregationOperationsCompleted env (c :: rest) s =
      aggregationOperationsCompleted env rest (aggregationOperationsCompleted env [c] s) :=
  rfl

theorem aggregationOperationsCompleted_one (env : Env) (c : Nat) (s : State) :
    (∀ k, (hashValue (aggregationOperationsCompleted env [c] s).m_people k {}).itemData =
      (hashValue s.m_people k {}).itemData) ∧
    ∀ key, completedCalls (aggregationOperationsCompleted env [c] s).log key =
      completedCalls s.log key +
        (if validId c && decide (key = c) && (hashValue s.m_people c {}).itemData.isSome
         then 1 else 0) := by
  unfold aggregationOperationsCompleted aggregationOperationsCompleted
  simp only [itemById_fst]
  by_cases hc : c = 0
  · subst hc
    simp [itemById_null, validId]
  · have hv : validId c = true := by simp [validId, hc]
    simp only [hc, if_false, hv, Bool.true_and]
    have hd := itemById_itemData s c env.requireCompleteDefault c
    cases hi : (hashValue (itemById s c env.requireCompleteDefault).2.m_people c {}).itemData with
    | none =>
      rw [hi] at hd
      simp only [← hd, Option.isSome_none, Bool.and_false, Bool.false_eq_true, if_false,
        Nat.add_zero]
      exact ⟨fun k => itemById_itemData s c _ k, fun key => itemById_completedCalls s c _ key⟩
    | some d =>
      rw [hi] at hd
      simp only [← hd, Option.isSome_some, Bool.and_true]
      refine ⟨fun k => itemById_itemData s c _ k, fun key => ?_⟩
      simp only [State.emit]
      rw [completedCalls_append, itemById_completedCalls]
      by_cases hk : key = c
      · subst hk
        simp [completedCalls]
      · have hne : c ≠ key := fun h => hk h.symm
        simp [completedCalls, hk, hne]

theorem aggregationOperationsCompleted_calls (env : Env) (ids : List Nat) :
    ∀ s : State, ids.Nodup →
      (∀ k, (hashValue (aggregationOperationsCompleted env ids s).m_people k {}).itemData =
        (hashValue s.m_people k {}).itemData) ∧
      ∀ key, completedCalls (aggregationOperationsCompleted env ids s).log key =
        completedCalls s.log key +
          (if validId key && decide (key ∈ ids) && (hashValue s.m_people key {}).itemData.isSome
           then 1 else 0) := by
  induction ids with
  | nil =>
    intro s _
    exact ⟨fun _ => rfl, fun key => by simp [aggregationOperationsCompleted]⟩
  | cons c rest ih =>
    intro s hnd
    rw [List.nodup_cons] at hnd
    obtain ⟨h1d, h1c⟩ := aggregationOperationsCompleted_one env c s
    obtain ⟨h2d, h2c⟩ := ih (aggregationOperationsCompleted env [c] s) hnd.2
    rw [aggregationOperationsCompleted_cons]
    refine ⟨fun k => (h2d k).trans (h1d k), fun key => ?_⟩
    rw [h2c key, h1c key, h1d key]
    by_cases hk : key = c
    · subst hk
      have hnot : ¬ key ∈ rest := hnd.1
      simp [hnot]
    · by_cases hm : key ∈ rest
      · simp [hk, hm]
      · simp [hk, hm]

theorem foldl_setInsert_firsts (l : List QContactRelationship) :
    ∀ acc : List Nat, acc.Nodup →
      (l.foldl (fun set r => setInsert set r.first) acc).Nodup ∧
      ∀ k, k ∈ l.foldl (fun set r => setInsert set r.first) acc ↔
        k ∈ acc ∨ k ∈ l.map (fun r => r.first) := by
  induction l with
  | nil =>
    intro acc h
    exact ⟨h, fun k => by simp⟩
  | cons r rest ih =>
    intro acc h
    have hn : (setInsert acc r.first).Nodup := by
      unfold setInsert
      split
      · exact h
      · rename_i hc
        refine List.Nodup.append h (List.nodup_singleton _) ?_
        intro b hb hb'
        simp only [List.mem_singleton] at hb'
        subst hb'
        exact hc hb
    obtain ⟨i1, i2⟩ := ih (setInsert acc r.first) hn
    refine ⟨i1, fun k => ?_⟩
    simp only [List.foldl_cons, List.map_cons, List.mem_cons]
    rw [i2 k]
    unfold setInsert
    split
    · rename_i hc
      constructor
      · rintro (h1 | h1)
        · exact Or.inl h1
        · exact Or.inr (Or.inr h1)
      · rintro (h1 | h1 | h1)
        · exact Or.inl h1
        · exact Or.inl (h1 ▸ hc)
        · exact Or.inr h1
    · simp only [List.mem_append, List.mem_singleton]
      tauto

theorem relationshipFinished_calls (env : Env) (s : State) (key : Nat) :
    ∃ s', requestStateChanged env s .RelationshipSave = some s' ∧
      requestStateChanged env s .RelationshipRemove = some s' ∧
      completedCalls s'.log key = completedCalls s.log key +
        (if validId key && decide (key ∈ relationshipFirsts s) &&
            (hashValue s.m_people key {}).itemData.isSome
         then 1 else 0) := by
  obtain ⟨hn, hm⟩ := foldl_setInsert_firsts
    (s.m_relationshipSaveRequest.relationships ++ s.m_relationshipRemoveRequest.relationships)
    [] List.nodup_nil
  obtain ⟨_, hc⟩ := aggregationOperationsCompleted_calls env _ s hn
  refine ⟨_, rfl, rfl, ?_⟩
  simp only [State.emit]
  rw [completedCalls_append, hc key]
  have hw : completedCalls [Notification.postUpdateRequest] key = 0 := by
    simp [completedCalls]
  rw [hw, Nat.add_zero]
  have hiff := hm key
  simp only [List.not_mem_nil, false_or] at hiff
  unfold relationshipFirsts
  rw [decide_eq_decide.mpr hiff]

/-- C27 (amended): when the relationship-save request finishes, and likewise when the
relationship-remove request finishes, requestStateChanged returns, and on that one completion
the item data of a contact receives aggregationOperationCompleted exactly once if the contact
has a valid id, is the first member of some relationship held by either of the two requests
and has an item data, however many of these relationships name it, and not at all
otherwise. -/
theorem relationship_finish_notifies_first_members_once (env : Env) (s : State) (key : Nat) :
    (∃ s', requestStateChanged env s .RelationshipSave = some s' ∧
      completedCalls s'.log key = completedCalls s.log key +
        (if validId key && decide (key ∈ relationshipFirsts s) &&
            (hashValue s.m_people key {}).itemData.isSome
         then 1 else 0)) ∧
    (∃ s', requestStateChanged env s .RelationshipRemove = some s' ∧
      completedCalls s'.log key = completedCalls s.log key +
        (if validId key && decide (key ∈ relationshipFirsts s) &&
            (hashValue s.m_people key {}).itemData.isSome
         then 1 else 0)) := by
  obtain ⟨s', h1, h2, h3⟩ := relationshipFinished_calls env s key
  exact ⟨⟨s', h1, h3⟩, ⟨s', h2, h3⟩⟩

/-- C27 (the claim as written fails): aggregates 1 and 2, both with item data, are merged;
one wake starts the relationship-save request with the relationships (1, 12) and (1, 13) and
the relationship-remove request with (2, 12) and (2, 13). After the save request has finished
the item data of 1 and of 2 have received aggregationOperationCompleted once each, and after
the remove request of the same batch has finished as well they have received it twice
each. -/
theorem merge_batch_notifies_item_data_twice :
    (runSteps
      [fun s => completeContactAggregation exampleEnv s 1 2,
       fun s => some (event s),
       fun s => relationshipSaveFinished exampleEnv s]
      twoAggregatesWithLocals).map (fun s =>
        (requestStarts s.log, s.m_relationshipSaveRequest.relationships,
         s.m_relationshipRemoveRequest.relationships,
         completedCalls s.log 1, completedCalls s.log 2)) =
      some ([(.RelationshipSave, false), (.RelationshipRemove, false)],
        [aggregatesRelationship 1 12, aggregatesRelationship 1 13],
        [aggregatesRelationship 2 12, aggregatesRelationship 2 13], 1, 1) ∧
    mergeThenBothFinish.map (fun s =>
        (requestStarts s.log, completedCalls s.log 1, completedCalls s.log 2)) =
      some ([(.RelationshipSave, false), (.RelationshipRemove, false)], 2, 2) := by
  decide

/-! ## The population -/

theorem samePopulation_refl (s : State) : SamePopulation s s := ⟨rfl, rfl, rfl⟩

theorem samePopulation_trans {s₁ s₂ s₃ : State} (h₁ : SamePopulation s₁ s₂)
    (h₂ : SamePopulation s₂ s₃) : SamePopulation s₁ s₃ :=
  ⟨h₂.1.trans h₁.1, h₂.2.1.trans h₁.2.1, h₂.2.2.trans h₁.2.2⟩

theorem sameProgress_refl (s : State) : SameProgress s s := ⟨rfl, rfl⟩

theorem sameProgress_trans {s₁ s₂ s₃ : State} (h₁ : SameProgress s₁ s₂)
    (h₂ : SameProgress s₂ s₃) : SameProgress s₁ s₃ :=
  ⟨h₂.1.trans h₁.1, h₂.2.trans h₁.2⟩

theorem sameProgress_of_samePopulation {s s' : State} (h : SamePopulation s s') :
    SameProgress s s' := ⟨h.1, h.2.1⟩

theorem samePopulation_of_itemFrame {s s' : State} (h : ItemFrame s s') :
    SamePopulation s s' := by
  obtain ⟨_, _, h3, _, _, _, h7, h8, _, _⟩ := itemFrame_fields h
  exact ⟨h7, h8, h3⟩

theorem requestUpdate_samePopulation (s : State) : SamePopulation s (requestUpdate s) :=
  samePopulation_of_itemFrame (requestUpdate_itemFrame s)

theorem ensureCompletion_samePopulation (s : State) (key : Nat) :
    SamePopulation s (ensureCompletion s key) :=
  samePopulation_of_itemFrame (ensureCompletion_itemFrame s key)

theorem itemById_samePopulation (s : State) (id : Nat) (requireComplete : Bool) :
    SamePopulation s (itemById s id requireComplete).2 :=
  samePopulation_of_itemFrame (itemById_itemFrame s id requireComplete)

theorem fetchContacts_samePopulation (s : State) : SamePopulation s (fetchContacts s) :=
  samePopulation_of_itemFrame (fetchContacts_itemFrame s)

theorem resolveUnknownAddressesLoop_samePopulation (first second : String) (item : Nat)
    (l : List ResolveData) :
    ∀ s : State, SamePopulation s (resolveUnknownAddressesLoop first second item l s).2 := by
  induction l with
  | nil => intro s; exact samePopulation_refl s
  | cons it rest ih =>
    intro s
    unfold resolveUnknownAddressesLoop
    split
    · refine samePopulation_trans ?_ (ih _)
      split
      · exact @samePopulation_trans s (s.emit _) _ ⟨rfl, rfl, rfl⟩
          (ensureCompletion_samePopulation _ _)
      · exact ⟨rfl, rfl, rfl⟩
    · exact ih s

theorem resolveUnknownAddresses_samePopulation (s : State) (first second : String)
    (item : Nat) : SamePopulation s (resolveUnknownAddresses s first second item) := by
  have h := resolveUnknownAddressesLoop_samePopulation first second item s.m_unknownAddresses s
  exact ⟨h.1, h.2.1, h.2.2⟩

theorem indexPhoneNumbers_samePopulation (env : Env) (iid item : Nat) (numbers : List String) :
    ∀ (oldAddresses : List (String × String)) (s : State) (modified : Bool),
      SamePopulation s (indexPhoneNumbers env iid item numbers oldAddresses s modified).2.1 := by
  induction numbers with
  | nil => intro _ s _; exact samePopulation_refl s
  | cons number rest ih =>
    intro oldAddresses s modified
    unfold indexPhoneNumbers
    refine samePopulation_trans ?_ (ih _ _ _)
    by_cases h : addressPairPhone env number ∈ oldAddresses
    · simp only [h, if_true]
      exact ⟨rfl, rfl, rfl⟩
    · simp only [h, if_false]
      have h1 := resolveUnknownAddresses_samePopulation s (addressPairPhone env number).1
        (addressPairPhone env number).2 item
      exact ⟨h1.1, h1.2.1, h1.2.2⟩

theorem indexEmailAddresses_samePopulation (env : Env) (iid item : Nat)
    (addresses : List String) :
    ∀ (oldAddresses : List (String × String)) (s : State) (modified : Bool),
      SamePopulation s
        (indexEmailAddresses env iid item addresses oldAddresses s modified).2.1 := by
  induction addresses with
  | nil => intro _ s _; exact samePopulation_refl s
  | cons address rest ih =>
    intro oldAddresses s modified
    unfold indexEmailAddresses
    refine samePopulation_trans ?_ (ih _ _ _)
    by_cases h : addressPairEmail env address ∈ oldAddresses
    · simp only [h, if_true]
      exact ⟨rfl, rfl, rfl⟩
    · simp only [h, if_false]
      have h1 := resolveUnknownAddresses_samePopulation s (addressPairEmail env address).1
        (addressPairEmail env address).2 item
      exact ⟨h1.1, h1.2.1, h1.2.2⟩

theorem indexOnlineAccounts_samePopulation (env : Env) (iid item : Nat)
    (accounts : List (String × String)) :
    ∀ (oldAddresses : List (String × String)) (s : State) (modified : Bool),
      SamePopulation s
        (indexOnlineAccounts env iid item accounts oldAddresses s modified).2.1 := by
  induction accounts with
  | nil => intro _ s _; exact samePopulation_refl s
  | cons account rest ih =>
    intro oldAddresses s modified
    unfold indexOnlineAccounts
    refine samePopulation_trans ?_ (ih _ _ _)
    by_cases h : addressPairAccount env account ∈ oldAddresses
    · simp only [h, if_true]
      exact ⟨rfl, rfl, rfl⟩
    · simp only [h, if_false]
      have h1 := resolveUnknownAddresses_samePopulation s (addressPairAccount env account).1
        (addressPairAccount env account).2 item
      exact ⟨h1.1, h1.2.1, h1.2.2⟩

theorem updatePhoneNumberIndexing_samePopulation (env : Env) (s : State)
    (oldContact contact : QContact) (iid item : Nat) (modified : Bool) :
    SamePopulation s
      (updatePhoneNumberIndexing env s oldContact contact iid item modified).2 := by
  unfold updatePhoneNumberIndexing
  simp only
  have h := indexPhoneNumbers_samePopulation env iid item contact.phoneNumbers
    (insertAddresses [] (oldContact.phoneNumbers.map (addressPairPhone env))) s modified
  split
  · exact h
  · exact ⟨h.1, h.2.1, h.2.2⟩

theorem updateEmailAddressIndexing_samePopulation (env : Env) (s : State)
    (oldContact contact : QContact) (iid item : Nat) (modified : Bool) :
    SamePopulation s
      (updateEmailAddressIndexing env s oldContact contact iid item modified).2 := by
  unfold updateEmailAddressIndexing
  simp only
  have h := indexEmailAddresses_samePopulation env iid item contact.emailAddresses
    (insertAddresses [] (oldContact.emailAddresses.map (addressPairEmail env))) s modified
  split
  · exact h
  · exact ⟨h.1, h.2.1, h.2.2⟩

theorem updateOnlineAccountIndexing_samePopulation (env : Env) (s : State)
    (oldContact contact : QContact) (iid item : Nat) (modified : Bool) :
    SamePopulation s
      (updateOnlineAccountIndexing env s oldContact contact iid item modified).2 := by
  unfold updateOnlineAccountIndexing
  simp only
  have h := indexOnlineAccounts_samePopulation env iid item contact.onlineAccounts
    (insertAddresses [] (oldContact.onlineAccounts.map (addressPairAccount env))) s modified
  split
  · exact h
  · exact ⟨h.1, h.2.1, h.2.2⟩

theorem updateContactIndexing_samePopulation (env : Env) (s : State)
    (oldContact contact : QContact) (iid : Nat) (queryDetailTypes : List DetailTypeId)
    (item : Nat) :
    SamePopulation s
      (updateContactIndexing env s oldContact contact iid queryDetailTypes item).2 := by
  unfold updateContactIndexing
  simp only
  have h1 : SamePopulation s
      (if detailTypeQueried queryDetailTypes .PhoneNumber then
        updatePhoneNumberIndexing env s oldContact contact iid item false
      else (false, s)).2 := by
    split
    · exact updatePhoneNumberIndexing_samePopulation _ _ _ _ _ _ _
    · exact samePopulation_refl s
  generalize (if detailTypeQueried queryDetailTypes .PhoneNumber then
        updatePhoneNumberIndexing env s oldContact contact iid item false
      else (false, s)) = r1 at h1 ⊢
  have h2 : SamePopulation s
      (if detailTypeQueried queryDetailTypes .EmailAddress then
        updateEmailAddressIndexing env r1.2 oldContact contact iid item r1.1
      else r1).2 := by
    split
    · exact samePopulation_trans h1 (updateEmailAddressIndexing_samePopulation _ _ _ _ _ _ _)
    · exact h1
  generalize (if detailTypeQueried queryDetailTypes .EmailAddress then
        updateEmailAddressIndexing env r1.2 oldContact contact iid item r1.1
      else r1) = r2 at h2 ⊢
  split
  · exact samePopulation_trans h2 (updateOnlineAccountIndexing_samePopulation _ _ _ _ _ _ _)
  · exact h2

theorem updateCache_samePopulation (env : Env) (s : State) (key : Nat) (contact : QContact)
    (partialFetch : Bool) : SamePopulation s (updateCache env s key contact partialFetch) := by
  unfold updateCache
  split
  · exact samePopulation_refl s
  · exact ⟨rfl, rfl, rfl⟩

theorem addToContactNameGroup_samePopulation (s : State) (iid : Nat) (group : Option String)
    (modifiedGroups : List String) :
    SamePopulation s (addToContactNameGroup s iid group modifiedGroups).1 := by
  unfold addToContactNameGroup
  split
  · exact samePopulation_refl s
  · simp only
    split <;> exact ⟨rfl, rfl, rfl⟩

theorem removeFromContactNameGroup_samePopulation (s : State) (iid : Nat)
    (group : Option String) (modifiedGroups : List String) :
    SamePopulation s (removeFromContactNameGroup s iid group modifiedGroups).1 := by
  unfold removeFromContactNameGroup
  split
  · exact samePopulation_refl s
  · exact ⟨rfl, rfl, rfl⟩

theorem notifyNameGroupsChanged_samePopulation (s : State) (groups : List String) :
    SamePopulation s (notifyNameGroupsChanged s groups) := by
  unfold notifyNameGroupsChanged
  split
  · exact samePopulation_refl s
  · exact ⟨rfl, rfl, rfl⟩

theorem contactIndex_samePopulation (s s1 : State) (iid : Nat) (filter : FilterType)
    (row : Int) (h : contactIndex s iid filter = some (row, s1)) : SamePopulation s s1 := by
  unfold contactIndex at h
  simp only at h
  split at h
  · cases h
    exact samePopulation_refl s
  · split at h
    · cases h
    · split at h
      · split at h <;> (cases h; exact ⟨rfl, rfl, rfl⟩)
      · cases h
        exact samePopulation_refl s

theorem contactDataChangedIn_samePopulation (s s1 : State) (iid : Nat) (filter : FilterType)
    (h : contactDataChangedIn s iid filter = some s1) : SamePopulation s s1 := by
  unfold contactDataChangedIn at h
  split at h
  · cases h
  · rename_i row s0 hc
    have h0 := contactIndex_samePopulation s s0 iid filter row hc
    split at h
    · cases h
      exact ⟨h0.1, h0.2.1, h0.2.2⟩
    · cases h
      exact h0

theorem contactDataChanged_samePopulation (s s1 : State) (iid : Nat)
    (h : contactDataChanged s iid = some s1) : SamePopulation s s1 := by
  unfold contactDataChanged at h
  split at h
  · cases h
  · rename_i sa ha
    split at h
    · cases h
    · rename_i sb hb
      exact samePopulation_trans (contactDataChangedIn_samePopulation _ _ _ _ ha)
        (samePopulation_trans (contactDataChangedIn_samePopulation _ _ _ _ hb)
          (contactDataChangedIn_samePopulation _ _ _ _ h))

theorem saveContact_samePopulation (s s1 : State) (contact : QContact)
    (h : saveContact s contact = some s1) : SamePopulation s s1 := by
  unfold saveContact at h
  simp only at h
  split at h
  · cases h
  · rename_i s0 hq
    cases h
    refine samePopulation_trans ?_ (requestUpdate_samePopulation s0)
    split at hq
    · have h0 := contactDataChanged_samePopulation _ _ _ hq
      exact ⟨h0.1, h0.2.1, h0.2.2⟩
    · cases hq
      exact ⟨rfl, rfl, rfl⟩

theorem filterArray_set_set {α : Type} (a : FilterArray α) (f : FilterType) (v w : α) :
    (a.set f v).set f w = a.set f w := by
  cases f <;> rfl

theorem filterArray_set_get {α : Type} (a : FilterArray α) (f : FilterType) :
    a.set f (a.get f) = a := by
  cases f <;> rfl

theorem peopleItem_samePopulation (s : State) (iid : Nat) :
    SamePopulation s (peopleItem s iid).2 := by
  unfold peopleItem
  split
  · exact samePopulation_refl s
  · exact ⟨rfl, rfl, rfl⟩

theorem appendContact_population (env : Env) (filterType : FilterType) (partialFetch : Bool)
    (acc : State × List String) (contact : QContact) :
    (appendContact env filterType partialFetch acc contact).1.m_populateProgress =
        acc.1.m_populateProgress ∧
      (appendContact env filterType partialFetch acc contact).1.m_populated =
        acc.1.m_populated ∧
      (appendContact env filterType partialFetch acc contact).1.m_contacts =
        acc.1.m_contacts.set filterType
          (acc.1.m_contacts.get filterType ++ [internalId contact.id]) := by
  have key : ∀ s1 : State, SamePopulation s1
      (let r := peopleItem s1 (internalId contact.id)
       let cacheItem := r.1
       let s2 := r.2
       let s3 :=
         if cacheItem.iid = 0 ∨ cacheItem.contact.isFavorite = false then
           let s21 := { s2 with m_people := hashInsert s2.m_people (internalId contact.id)
                                  { cacheItem with iid := internalId contact.id } }
           let s22 := (updateContactIndexing env s21 QContact.empty contact
             (internalId contact.id) [] (internalId contact.id)).2
           updateCache env s22 (internalId contact.id) contact partialFetch
         else s2
       if filterType = .FilterAll then
         addToContactNameGroup s3 (internalId contact.id)
           (nameGroup (existingItem s3 (internalId contact.id))) acc.2
       else (s3, acc.2)).1 := by
    intro s1
    simp only
    have h2 := peopleItem_samePopulation s1 (internalId contact.id)
    have h3 : SamePopulation s1
        (if (peopleItem s1 (internalId contact.id)).1.iid = 0 ∨
            (peopleItem s1 (internalId contact.id)).1.contact.isFavorite = false then
          updateCache env
            (updateContactIndexing env
              { (peopleItem s1 (internalId contact.id)).2 with
                m_people := hashInsert (peopleItem s1 (internalId contact.id)).2.m_people
                  (internalId contact.id)
                  { (peopleItem s1 (internalId contact.id)).1 with
                    iid := internalId contact.id } }
              QContact.empty contact (internalId contact.id) [] (internalId contact.id)).2
            (internalId contact.id) contact partialFetch
        else (peopleItem s1 (internalId contact.id)).2) := by
      split
      · refine samePopulation_trans ?_ (updateCache_samePopulation _ _ _ _ _)
        refine samePopulation_trans ?_ (updateContactIndexing_samePopulation _ _ _ _ _ _ _)
        exact ⟨h2.1, h2.2.1, h2.2.2⟩
      · exact h2
    split
    · exact samePopulation_trans h3 (addToContactNameGroup_samePopulation _ _ _ _)
    · exact h3
  have h := key { acc.1 with
    m_contacts := acc.1.m_contacts.set filterType
      (acc.1.m_contacts.get filterType ++ [internalId contact.id]),
    m_contactIndices := acc.1.m_contactIndices.set filterType
      (hashInsert (acc.1.m_contactIndices.get filterType) (internalId contact.id)
        (Int.ofNat ((acc.1.m_contacts.get filterType ++ [internalId contact.id]).length - 1))) }
  exact ⟨h.1, h.2.1, h.2.2⟩

theorem appendContact_foldl_population (env : Env) (filterType : FilterType)
    (partialFetch : Bool) (contacts : List QContact) :
    ∀ acc : State × List String,
      (contacts.foldl (appendContact env filterType partialFetch) acc).1.m_populateProgress =
          acc.1.m_populateProgress ∧
        (contacts.foldl (appendContact env filterType partialFetch) acc).1.m_populated =
          acc.1.m_populated ∧
        (contacts.foldl (appendContact env filterType partialFetch) acc).1.m_contacts =
          acc.1.m_contacts.set filterType
            (acc.1.m_contacts.get filterType ++ contacts.map (fun c => internalId c.id)) := by
  induction contacts with
  | nil =>
    intro acc
    simp [filterArray_set_get]
  | cons contact rest ih =>
    intro acc
    obtain ⟨h1, h2, h3⟩ := appendContact_population env filterType partialFetch acc contact
    obtain ⟨i1, i2, i3⟩ := ih (appendContact env filterType partialFetch acc contact)
    simp only [List.foldl_cons, List.map_cons]
    refine ⟨i1.trans h1, i2.trans h2, ?_⟩
    rw [i3, h3, filterArray_get_set_self, filterArray_set_set, List.append_assoc]
    rfl

theorem appendContacts_population (env : Env) (s : State) (contacts : List QContact)
    (filterType : FilterType) (partialFetch : Bool) :
    (appendContacts env s contacts filterType partialFetch).m_populateProgress =
        s.m_populateProgress ∧
      (appendContacts env s contacts filterType partialFetch).m_populated = s.m_populated ∧
      (appendContacts env s contacts filterType partialFetch).m_contacts =
        s.m_contacts.set filterType
          (s.m_contacts.get filterType ++ contacts.map (fun c => internalId c.id)) := by
  unfold appendContacts
  split
  · rename_i he
    have hn : contacts = [] := by simpa using he
    subst hn
    simp [filterArray_set_get]
  · simp only
    obtain ⟨h1, h2, h3⟩ := appendContact_foldl_population env filterType partialFetch contacts
      (notifyModels s (s.m_models.get filterType)
        (fun m => .sourceAboutToInsertItems m
          (Int.ofNat (s.m_contacts.get filterType).length)
          (Int.ofNat (s.m_contacts.get filterType).length + Int.ofNat contacts.length - 1)), [])
    have hn := notifyNameGroupsChanged_samePopulation
      (notifyModels
        (contacts.foldl (appendContact env filterType partialFetch)
          (notifyModels s (s.m_models.get filterType)
            (fun m => .sourceAboutToInsertItems m
              (Int.ofNat (s.m_contacts.get filterType).length)
              (Int.ofNat (s.m_contacts.get filterType).length + Int.ofNat contacts.length - 1)),
            [])).1
        (s.m_models.get filterType)
        (fun m => .sourceItemsInserted m
          (Int.ofNat (s.m_contacts.get filterType).length)
          (Int.ofNat (s.m_contacts.get filterType).length + Int.ofNat contacts.length - 1)))
      (contacts.foldl (appendContact env filterType partialFetch)
          (notifyModels s (s.m_models.get filterType)
            (fun m => .sourceAboutToInsertItems m
              (Int.ofNat (s.m_contacts.get filterType).length)
              (Int.ofNat (s.m_contacts.get filterType).length + Int.ofNat contacts.length - 1)),
            [])).2
    exact ⟨hn.1.trans h1, hn.2.1.trans h2, hn.2.2.trans h3⟩

theorem updateContactFromFetch_samePopulation (env : Env) (queryDetailTypes : List DetailTypeId)
    (partialFetch : Bool) (acc acc' : State × List String) (fetched : QContact)
    (h : updateContactFromFetch env queryDetailTypes partialFetch acc fetched = some acc') :
    SamePopulation acc.1 acc'.1 := by
  unfold updateContactFromFetch at h
  lift_lets at h
  extract_lets s iid preexisting s1 item oldNameGroup oldDisplayLabel contact avatarChanged
    presenceChanged indexed s2 item' roleDataChanged added grouped at h
  have h1 : SamePopulation acc.1 s1 := by
    by_cases hp : preexisting = true
    · have e : s1 = s := if_pos hp
      rw [e]
      exact samePopulation_refl _
    · have e : s1 = { s with m_people := hashInsert s.m_people iid { iid := iid } } := if_neg hp
      rw [e]
      exact ⟨rfl, rfl, rfl⟩
  have h2 : SamePopulation s1 indexed.2 := updateContactIndexing_samePopulation _ _ _ _ _ _ _
  have h3 : SamePopulation indexed.2 s2 := updateCache_samePopulation _ _ _ _ _
  have h4 : SamePopulation s2 grouped.1 := by
    have e : grouped = (if qstringNe item'.nameGroup oldNameGroup = true then
        if (!ignoreContactForNameGroups env item'.contact) = true then
          match oldNameGroup with
          | none => added
          | some g => removeFromContactNameGroup added.1 item'.iid (some g) added.2
        else (s2, acc.2)
      else (s2, acc.2)) := rfl
    have ha : SamePopulation s2 added.1 := addToContactNameGroup_samePopulation _ _ _ _
    have hm : ∀ o : Option String, SamePopulation s2
        (match o with
          | none => added
          | some g => removeFromContactNameGroup added.1 item'.iid (some g) added.2).1 := by
      intro o
      cases o with
      | none => exact ha
      | some g => exact samePopulation_trans ha (removeFromContactNameGroup_samePopulation _ _ _ _)
    rw [e]
    split
    · split
      · exact hm oldNameGroup
      · exact samePopulation_refl _
    · exact samePopulation_refl _
  have h14 := samePopulation_trans h1 (samePopulation_trans h2 (samePopulation_trans h3 h4))
  split at h
  · split at h
    · cases h
    · rename_i s3 hd
      cases h
      exact samePopulation_trans h14 (contactDataChanged_samePopulation _ _ _ hd)
  · have e := Option.some.inj h
    rw [← e]
    exact h14

theorem updateContactsFromFetch_samePopulation (env : Env)
    (queryDetailTypes : List DetailTypeId) (partialFetch : Bool) (contacts : List QContact) :
    ∀ acc acc' : State × List String,
      updateContactsFromFetch env queryDetailTypes partialFetch contacts acc = some acc' →
        SamePopulation acc.1 acc'.1 := by
  induction contacts with
  | nil =>
    intro acc acc' h
    unfold updateContactsFromFetch at h
    cases h
    exact samePopulation_refl _
  | cons contact rest ih =>
    intro acc acc' h
    unfold updateContactsFromFetch at h
    split at h
    · cases h
    · rename_i acc1 h1
      exact samePopulation_trans (updateContactFromFetch_samePopulation _ _ _ _ _ _ h1)
        (ih _ _ h)

theorem contactsAvailable_samePopulation (env : Env) (s s' : State) (request : RequestKind)
    (hp : s.m_populateProgress.view = none)
    (h : contactsAvailable env s request = some s') : SamePopulation s s' := by
  unfold contactsAvailable at h
  simp only at h
  have hprog : ∀ s1 : State, s1.m_populateProgress = s.m_populateProgress →
      ¬ (s1.m_populateProgress.toNat > PopulateProgress.Unpopulated.toNat ∧
        s1.m_populateProgress.toNat < PopulateProgress.Populated.toNat) := by
    intro s1 e
    rw [e]
    revert hp
    cases s.m_populateProgress <;> simp [PopulateProgress.view, PopulateProgress.toNat]
  by_cases hb : request = .FetchById
  · subst hb
    simp only [decide_True, if_true] at h
    rw [if_neg (hprog _ rfl)] at h
    split at h
    · cases h
    · rename_i r hr
      cases h
      have h0 := updateContactsFromFetch_samePopulation _ _ _ _ _ _ hr
      have ha : SamePopulation s r.1 := ⟨h0.1, h0.2.1, h0.2.2⟩
      refine samePopulation_trans ha ?_
      refine samePopulation_trans ?_ (notifyNameGroupsChanged_samePopulation _ _)
      exact ⟨rfl, rfl, rfl⟩
  · have hd : decide (request = .FetchById) = false := by simp [hb]
    simp only [hd, Bool.false_eq_true, if_false] at h
    rw [if_neg (hprog _ rfl)] at h
    split at h
    · cases h
    · rename_i r hr
      cases h
      have h0 := updateContactsFromFetch_samePopulation _ _ _ _ _ _ hr
      have ha : SamePopulation s r.1 := ⟨h0.1, h0.2.1, h0.2.2⟩
      refine samePopulation_trans ha ?_
      refine samePopulation_trans ?_ (notifyNameGroupsChanged_samePopulation _ _)
      exact ⟨rfl, rfl, rfl⟩

theorem contactsAvailable_appends (env : Env) (s : State) (request : RequestKind)
    (type : FilterType) (hp : s.m_populateProgress.view = some type) :
    ∃ s', contactsAvailable env s request = some s' ∧
      s'.m_populateProgress = s.m_populateProgress ∧ s'.m_populated = s.m_populated ∧
      s'.m_contacts = s.m_contacts.set type
        (s.m_contacts.get type ++ (deliveredRecords s request).map (fun c => internalId c.id)) := by
  unfold contactsAvailable
  simp only
  have hprog : ∀ s1 : State, s1.m_populateProgress = s.m_populateProgress →
      (s1.m_populateProgress.toNat > PopulateProgress.Unpopulated.toNat ∧
        s1.m_populateProgress.toNat < PopulateProgress.Populated.toNat) ∧
      (if s1.m_populateProgress = .FetchFavorites then FilterType.FilterFavorites
        else if s1.m_populateProgress = .FetchMetadata then FilterType.FilterAll
        else FilterType.FilterOnline) = type := by
    intro s1 e
    rw [e]
    revert hp
    cases s.m_populateProgress <;> simp [PopulateProgress.view, PopulateProgress.toNat]
  by_cases hb : request = .FetchById
  · subst hb
    simp only [decide_True, if_true]
    obtain ⟨hc, ht⟩ := hprog
      { s with m_fetchByIdProcessedCount := s.m_fetchByIdProcessedCount +
          (if s.m_fetchByIdProcessedCount ≠ 0 then
            s.m_fetchByIdRequest.contacts.drop s.m_fetchByIdProcessedCount
           else s.m_fetchByIdRequest.contacts).length } rfl
    rw [if_pos hc, ht]
    refine ⟨_, rfl, ?_⟩
    obtain ⟨a1, a2, a3⟩ := appendContacts_population env
      { s with m_fetchByIdProcessedCount := s.m_fetchByIdProcessedCount +
          (if s.m_fetchByIdProcessedCount ≠ 0 then
            s.m_fetchByIdRequest.contacts.drop s.m_fetchByIdProcessedCount
           else s.m_fetchByIdRequest.contacts).length }
      (if s.m_fetchByIdProcessedCount ≠ 0 then
            s.m_fetchByIdRequest.contacts.drop s.m_fetchByIdProcessedCount
           else s.m_fetchByIdRequest.contacts) type (!([] : List DetailTypeId).isEmpty)
    exact ⟨a1, a2, a3⟩
  · have hd : decide (request = .FetchById) = false := by simp [hb]
    simp only [hd, Bool.false_eq_true, if_false]
    obtain ⟨hc, ht⟩ := hprog
      { s with m_fetchProcessedCount := s.m_fetchProcessedCount +
          (if s.m_fetchProcessedCount ≠ 0 then
            s.m_fetchRequest.contacts.drop s.m_fetchProcessedCount
           else s.m_fetchRequest.contacts).length } rfl
    rw [if_pos hc, ht]
    refine ⟨_, rfl, ?_⟩
    obtain ⟨a1, a2, a3⟩ := appendContacts_population env
      { s with m_fetchProcessedCount := s.m_fetchProcessedCount +
          (if s.m_fetchProcessedCount ≠ 0 then
            s.m_fetchRequest.contacts.drop s.m_fetchProcessedCount
           else s.m_fetchRequest.contacts).length }
      (if s.m_fetchProcessedCount ≠ 0 then
            s.m_fetchRequest.contacts.drop s.m_fetchProcessedCount
           else s.m_fetchRequest.contacts) type (!s.m_fetchRequest.detailTypesHint.isEmpty)
    refine ⟨a1, a2, ?_⟩
    rw [a3]
    simp [deliveredRecords, hd]

theorem contactsAvailable_sameProgress (env : Env) (s s' : State) (request : RequestKind)
    (h : contactsAvailable env s request = some s') : SameProgress s s' := by
  cases hv : s.m_populateProgress.view with
  | none => exact sameProgress_of_samePopulation (contactsAvailable_samePopulation _ _ _ _ hv h)
  | some type =>
    obtain ⟨s1, e, h1, h2, _⟩ := contactsAvailable_appends env s request type hv
    rw [e] at h
    cases h
    exact ⟨h1, h2⟩

theorem completeContactAggregation_samePopulation (env : Env) (s s' : State) (A B : Nat)
    (h : completeContactAggregation env s A B = some s') : SamePopulation s s' := by
  have h2 : SamePopulation s
      (itemById (itemById s A env.requireCompleteDefault).2 B env.requireCompleteDefault).2 :=
    samePopulation_trans (itemById_samePopulation _ _ _) (itemById_samePopulation _ _ _)
  unfold completeContactAggregation at h
  simp only at h
  split at h
  · split at h
    · split at h
      · cases h
      · rename_i s3 hs3
        have h3 : SamePopulation s s3 := by
          refine samePopulation_trans h2 ?_
          split at hs3
          · exact saveContact_samePopulation _ _ _ hs3
          · cases hs3
            exact samePopulation_refl _
        split at h
        · cases h
          refine samePopulation_trans ?_ (requestUpdate_samePopulation _)
          exact ⟨h3.1, h3.2.1, h3.2.2⟩
        · cases h
          exact ⟨h3.1, h3.2.1, h3.2.2⟩
    · cases h
      exact h2
  · cases h
    exact h2

theorem mergePairs_samePopulation (env : Env)
    (pairs : List (ContactLinkRequest × ContactLinkRequest)) :
    ∀ s s' : State, mergePairs env pairs s = some s' → SamePopulation s s' := by
  induction pairs with
  | nil =>
    intro s s' h
    unfold mergePairs at h
    cases h
    exact samePopulation_refl _
  | cons pair rest ih =>
    intro s s' h
    unfold mergePairs at h
    split at h
    · cases h
    · rename_i s1 h1
      exact samePopulation_trans (completeContactAggregation_samePopulation _ _ _ _ _ h1)
        (ih _ _ h)

theorem updateConstituentAggregations_samePopulation (env : Env) (s s' : State)
    (contactId : Nat) (h : updateConstituentAggregations env s contactId = some s') :
    SamePopulation s s' := by
  unfold updateConstituentAggregations at h
  rw [updateConstituentAggregationsLoop_eq] at h
  cases hm : mergePairs env
      ((s.m_contactPairsToLink.map (markFetched contactId)).filter bothFetched) s with
  | none =>
    rw [hm] at h
    cases h
  | some s1 =>
    rw [hm] at h
    cases h
    have h1 := mergePairs_samePopulation env _ _ _ hm
    exact ⟨h1.1, h1.2.1, h1.2.2⟩

theorem constituentsFetched_samePopulation (s : State) (key : Nat) (ids : List Nat) :
    SamePopulation s (constituentsFetched s key ids) := by
  unfold constituentsFetched
  split
  · exact samePopulation_refl s
  · split
    · exact samePopulation_refl s
    · exact ⟨rfl, rfl, rfl⟩

theorem aggregationOperationsCompleted_samePopulation (env : Env) (ids : List Nat) :
    ∀ s : State, SamePopulation s (aggregationOperationsCompleted env ids s) := by
  induction ids with
  | nil => intro s; exact samePopulation_refl s
  | cons c rest ih =>
    intro s
    unfold aggregationOperationsCompleted
    refine samePopulation_trans ?_ (ih _)
    have h := itemById_samePopulation s c env.requireCompleteDefault
    split
    · exact h
    · split
      · exact h
      · exact ⟨h.1, h.2.1, h.2.2⟩

theorem resolveFinished_samePopulation (env : Env) (s : State) :
    SamePopulation s (resolveFinished env s) := by
  unfold resolveFinished
  split
  · exact samePopulation_refl s
  · simp only
    split
    · rename_i first _ hc
      have h1 := itemById_samePopulation s (apiId first.id) false
      exact ⟨h1.1, h1.2.1, h1.2.2⟩
    · exact ⟨rfl, rfl, rfl⟩

theorem startFetchRequest_samePopulation (s : State) (filter : QueryFilter)
    (hint : List DetailTypeId) : SamePopulation s (startFetchRequest s filter hint) :=
  ⟨rfl, rfl, rfl⟩

theorem startContactIdRequest_samePopulation (s : State) (filter : QueryFilter) :
    SamePopulation s (startContactIdRequest s filter) :=
  ⟨rfl, rfl, rfl⟩

theorem startRelationshipRequests_samePopulation (s : State) :
    SamePopulation s (startRelationshipRequests s) := by
  unfold startRelationshipRequests
  simp only
  split <;> split <;> exact ⟨rfl, rfl, rfl⟩

theorem body_population (s : State) (r : Rung) (hg : Rung.guard s r = true) :
    (Rung.body s r).m_populated = s.m_populated ∧ (Rung.body s r).m_contacts = s.m_contacts ∧
    ((Rung.body s r).m_populateProgress = s.m_populateProgress ∨
      (s.m_populateProgress = .Unpopulated ∧ s.m_keepPopulated = true ∧
        s.m_fetchRequest.active = false ∧
        (Rung.body s r).m_populateProgress = .FetchFavorites) ∨
      (s.m_populateProgress = .Populated ∧ s.m_fetchTypesChanged = true ∧
        s.m_fetchRequest.active = false ∧
        (Rung.body s r).m_populateProgress = .RefetchFavorites)) := by
  cases r
  case relationships =>
    have h := startRelationshipRequests_samePopulation s
    exact ⟨h.2.1, h.2.2, Or.inl h.1⟩
  case population =>
    simp only [Rung.guard, Bool.and_eq_true, decide_eq_true_eq, Bool.not_eq_true'] at hg
    exact ⟨rfl, rfl, Or.inr (Or.inl ⟨hg.1.1, hg.1.2, hg.2, rfl⟩)⟩
  case refetch =>
    simp only [Rung.guard, Bool.and_eq_true, decide_eq_true_eq, Bool.not_eq_true'] at hg
    exact ⟨rfl, rfl, Or.inr (Or.inr ⟨hg.1.1, hg.1.2, hg.2, rfl⟩)⟩
  case resolution =>
    unfold Rung.body
    cases s.m_resolveAddresses <;> exact ⟨rfl, rfl, Or.inl rfl⟩
  all_goals exact ⟨rfl, rfl, Or.inl rfl⟩

theorem event_population (s : State) :
    (event s).m_populated = s.m_populated ∧ (event s).m_contacts = s.m_contacts ∧
    ((event s).m_populateProgress = s.m_populateProgress ∨
      (s.m_populateProgress = .Unpopulated ∧ s.m_keepPopulated = true ∧
        s.m_fetchRequest.active = false ∧ (event s).m_populateProgress = .FetchFavorites) ∨
      (s.m_populateProgress = .Populated ∧ s.m_fetchTypesChanged = true ∧
        s.m_fetchRequest.active = false ∧
        (event s).m_populateProgress = .RefetchFavorites)) := by
  rw [event_eq_ladderStep]
  unfold ladderStep
  cases hf : ladder.find? (fun r => r.guard s) with
  | none => exact ⟨rfl, rfl, Or.inl rfl⟩
  | some r => exact body_population s r (List.find?_some hf)

theorem mem_setInsert_of_mem {α : Type} [DecidableEq α] (l : List α) (a f : α) (hf : f ∈ l) :
    f ∈ setInsert l a := by
  unfold setInsert
  split
  · exact hf
  · exact List.mem_append_left _ hf

theorem makePopulated_fields (s : State) (filter : FilterType) :
    (makePopulated s filter).m_contacts = s.m_contacts ∧
    (makePopulated s filter).m_populated = setInsert s.m_populated filter ∧
    (makePopulated s filter).m_populateProgress = s.m_populateProgress :=
  ⟨rfl, rfl, rfl⟩

theorem startFetchRequest_fields (s : State) (filter : QueryFilter)
    (hint : List DetailTypeId) :
    (startFetchRequest s filter hint).m_contacts = s.m_contacts ∧
    (startFetchRequest s filter hint).m_populated = s.m_populated ∧
    (startFetchRequest s filter hint).m_populateProgress = s.m_populateProgress :=
  ⟨rfl, rfl, rfl⟩

theorem fetchRequestFinished_contacts (env : Env) (s : State) :
    (fetchRequestFinished env s).1.m_contacts = s.m_contacts := by
  unfold fetchRequestFinished
  split_ifs
  · rfl
  · simp only [(startFetchRequest_fields _ _ _).1, (makePopulated_fields _ _).1]
  · simp only [(startFetchRequest_fields _ _ _).1, (makePopulated_fields _ _).1]
  · simp only [(makePopulated_fields _ _).1]
  · rfl
  · rfl
  · exact (resolveFinished_samePopulation env s).2.2

theorem fetchRequestFinished_populated (env : Env) (s : State) :
    (fetchRequestFinished env s).1.m_populated =
      (match s.m_populateProgress with
       | .FetchFavorites => setInsert s.m_populated .FilterFavorites
       | .FetchMetadata => setInsert (setInsert s.m_populated .FilterNone) .FilterAll
       | .FetchOnline => setInsert s.m_populated .FilterOnline
       | _ => s.m_populated) := by
  unfold fetchRequestFinished
  split_ifs with h1 h2 h3 h4 h5 h6
  · have hp : s.m_populateProgress = .Unpopulated := by
      simp only [Bool.and_eq_true, decide_eq_true_eq] at h1
      exact h1.1
    rw [hp]
    rfl
  · rw [h2]
    simp only [(startFetchRequest_fields _ _ _).2.1, (makePopulated_fields _ _).2.1]
  · rw [h3]
    simp only [(startFetchRequest_fields _ _ _).2.1, (makePopulated_fields _ _).2.1]
  · rw [h4]
    simp only [(makePopulated_fields _ _).2.1]
  · rw [h5]
    rfl
  · rw [h6]
  · rw [(resolveFinished_samePopulation env s).2.1]
    revert h2 h3 h4
    cases s.m_populateProgress <;> simp

theorem fetchRequestFinished_progress (env : Env) (s : State) :
    (fetchRequestFinished env s).1.m_populateProgress =
      (match s.m_populateProgress with
       | .Unpopulated => if s.m_keepPopulated then .FetchFavorites else .Unpopulated
       | .Populated => .Populated
       | p => p.successor) := by
  have hres := (resolveFinished_samePopulation env s).1
  unfold fetchRequestFinished
  split_ifs with h1 h2 h3 h4 h5 h6 h7 h8 h9 h10 h11 h12
  all_goals first
    | (simp_all [PopulateProgress.successor]; done)
    | (rw [hres]
       cases hp : s.m_populateProgress <;> simp_all [PopulateProgress.successor])

theorem contactIdRequestFinished_sameProgress (env : Env) (henv : KeepsProgress env)
    (s : State) (r : State × Bool) (h : contactIdRequestFinished env s = some r) :
    SameProgress s r.1 := by
  unfold contactIdRequestFinished at h
  split at h
  · rename_i contactId rest hc
    simp only at h
    have hi := itemById_samePopulation { s with m_contactsToFetchCandidates := rest } contactId
      env.requireCompleteDefault
    split at h
    · cases h
    · split at h <;> (cases h; exact ⟨hi.1, hi.2.1⟩)
  · split at h
    · have hc := (henv s).2
      generalize env.completeSynchronizeList s = sc at h hc
      simp only at h
      split at h
      · have e := Option.some.inj h
        rw [← e]
        exact ⟨hc.1, hc.2⟩
      · split at h
        · have e := Option.some.inj h
          rw [← e]
          exact ⟨hc.1, hc.2⟩
        · have e := Option.some.inj h
          rw [← e]
          exact ⟨hc.1, hc.2⟩
    · cases h
      exact sameProgress_refl s

theorem requestStateChanged_sameProgress (env : Env) (henv : KeepsProgress env) (s s' : State)
    (request : RequestKind) (hr : request ≠ .Fetch)
    (h : requestStateChanged env s request = some s') : SameProgress s s' := by
  have hdone : ∀ (done : Option (State × Bool)),
      (∀ r, done = some r → SameProgress s r.1) →
      (match done with
       | none => none
       | some (s1, activityCompleted) =>
         if activityCompleted then some (s1.emit .postUpdateRequest) else some s1) = some s' →
      SameProgress s s' := by
    intro done hd h
    cases done with
    | none => cases h
    | some r =>
      have h1 := hd r rfl
      obtain ⟨s1, b⟩ := r
      simp only at h
      split at h <;> (cases h; exact ⟨h1.1, h1.2⟩)
  unfold requestStateChanged at h
  refine hdone _ ?_ h
  intro r hd
  cases request
  case Fetch => exact absurd rfl hr
  case RelationshipsFetch =>
    simp only at hd
    split at hd
    · cases hd
      exact sameProgress_refl s
    · rename_i aggregateId rest _
      split at hd
      · cases hd
        exact ⟨rfl, rfl⟩
      · split at hd
        · cases hd
        · rename_i key hk
          have hi := itemById_samePopulation { s with m_contactsToFetchConstituents := rest }
            aggregateId env.requireCompleteDefault
          have hc := constituentsFetched_samePopulation
            (itemById { s with m_contactsToFetchConstituents := rest } aggregateId
              env.requireCompleteDefault).2 key []
          cases hu : updateConstituentAggregations env
            (constituentsFetched (itemById { s with m_contactsToFetchConstituents := rest }
              aggregateId env.requireCompleteDefault).2 key [])
            (hashValue (constituentsFetched (itemById
              { s with m_contactsToFetchConstituents := rest } aggregateId
              env.requireCompleteDefault).2 key []).m_people key {}).apiId with
          | none =>
            rw [hu] at hd
            cases hd
          | some s3 =>
            rw [hu] at hd
            cases hd
            have h3 := updateConstituentAggregations_samePopulation _ _ _ _ hu
            have h4 := samePopulation_trans hi (samePopulation_trans hc h3)
            exact ⟨h4.1, h4.2.1⟩
  case FetchById =>
    simp only at hd
    split at hd
    · cases hd
      exact sameProgress_refl s
    · rename_i aggregateId rest _
      split at hd
      · cases hd
      · rename_i key hk
        have hi := itemById_samePopulation { s with m_contactsToLinkTo := rest }
          aggregateId env.requireCompleteDefault
        generalize (itemById { s with m_contactsToLinkTo := rest } aggregateId
          env.requireCompleteDefault).2 = s2 at hd hi
        have hc := constituentsFetched_samePopulation { s2 with m_constituentIds := [] } key
          (s2.m_constituentIds.map internalId)
        cases hu : updateConstituentAggregations env
          (constituentsFetched { s2 with m_constituentIds := [] } key
            (s2.m_constituentIds.map internalId))
          (hashValue (constituentsFetched { s2 with m_constituentIds := [] } key
            (s2.m_constituentIds.map internalId)).m_people key {}).apiId with
        | none =>
          rw [hu] at hd
          cases hd
        | some s4 =>
          rw [hu] at hd
          cases hd
          have h3 := updateConstituentAggregations_samePopulation _ _ _ _ hu
          have h4 := samePopulation_trans hc h3
          exact ⟨h4.1.trans hi.1, h4.2.1.trans hi.2.1⟩
  case ContactId => exact contactIdRequestFinished_sameProgress env henv s r hd
  case RelationshipSave =>
    cases hd
    exact sameProgress_of_samePopulation (aggregationOperationsCompleted_samePopulation _ _ _)
  case RelationshipRemove =>
    cases hd
    exact sameProgress_of_samePopulation (aggregationOperationsCompleted_samePopulation _ _ _)
  case Remove =>
    cases hd
    exact sameProgress_refl s
  case Save =>
    cases hd
    exact sameProgress_refl s

theorem contactsAvailable_run_sameProgress (env : Env) (s0 s s' : State) (request : RequestKind)
    (h0 : SameProgress s0 s) (h : contactsAvailable env s request = some s') :
    SameProgress s0 s' :=
  sameProgress_trans h0 (contactsAvailable_sameProgress env s s' request h)

theorem updateContacts_samePopulation (s : State) (contactIds : List Nat) (elapsed : Nat) :
    SamePopulation s (updateContacts s contactIds elapsed) := by
  unfold updateContacts
  split
  · exact samePopulation_refl s
  · simp only
    split
    · split <;> exact ⟨rfl, rfl, rfl⟩
    · exact ⟨rfl, rfl, rfl⟩

theorem contactsChanged_samePopulation (s : State) (ids : List Nat) (elapsed : Nat) :
    SamePopulation s (contactsChanged s ids elapsed) := by
  unfold contactsChanged
  split <;> exact updateContacts_samePopulation _ _ _

theorem contactsAdded_samePopulation (s : State) (ids : List Nat) (elapsed : Nat) :
    SamePopulation s (contactsAdded s ids elapsed) := by
  unfold contactsAdded
  split
  · exact updateContacts_samePopulation _ _ _
  · exact samePopulation_refl s

theorem reportRemovals_samePopulation (ids : List Nat) :
    ∀ acc : State × List Nat, SamePopulation acc.1 (reportRemovals ids acc).1 := by
  induction ids with
  | nil => intro acc; exact samePopulation_refl _
  | cons id rest ih =>
    intro acc
    unfold reportRemovals
    simp only
    split
    · exact ih acc
    · refine samePopulation_trans ?_ (ih _)
      exact ⟨rfl, rfl, rfl⟩

theorem contactsRemoved_samePopulation (s : State) (ids : List Nat) :
    SamePopulation s (contactsRemoved s ids) := by
  unfold contactsRemoved
  simp only
  have h := reportRemovals_samePopulation ids (s, [])
  refine samePopulation_trans ?_ (requestUpdate_samePopulation _)
  split <;> exact ⟨h.1, h.2.1, h.2.2⟩

theorem keepPopulated_samePopulation (s : State) (fetchTypes : Nat) :
    SamePopulation s (keepPopulated s fetchTypes) := by
  unfold keepPopulated
  simp only
  have h1 : SamePopulation s
      (if (s.m_fetchTypes &&& fetchTypes) ≠ fetchTypes then
        requestUpdate { s with m_fetchTypes := s.m_fetchTypes ||| fetchTypes,
                               m_fetchTypesChanged := true }
      else s) := by
    split
    · exact @samePopulation_trans s
        { s with m_fetchTypes := s.m_fetchTypes ||| fetchTypes, m_fetchTypesChanged := true } _
        ⟨rfl, rfl, rfl⟩ (requestUpdate_samePopulation _)
    · exact samePopulation_refl s
  generalize (if (s.m_fetchTypes &&& fetchTypes) ≠ fetchTypes then
        requestUpdate { s with m_fetchTypes := s.m_fetchTypes ||| fetchTypes,
                               m_fetchTypesChanged := true }
      else s) = s1 at h1 ⊢
  split
  · exact samePopulation_trans h1
      (@samePopulation_trans s1 { s1 with m_keepPopulated := true } _ ⟨rfl, rfl, rfl⟩
        (requestUpdate_samePopulation _))
  · exact h1

theorem resolveAddress_samePopulation (s : State) (listener : Nat) (first second : String)
    (requireComplete : Bool) :
    SamePopulation s (resolveAddress s listener first second requireComplete) := by
  unfold resolveAddress
  exact @samePopulation_trans s _ _ ⟨rfl, rfl, rfl⟩ (requestUpdate_samePopulation _)

theorem resolve_end_samePopulation (s : State) (r : Option Nat × State)
    (hr : SamePopulation s r.2) (listener : Nat) (first second : String)
    (requireComplete : Bool) :
    SamePopulation s
      (match r with
       | (none, s1) => ((none : Option Nat), resolveAddress s1 listener first second requireComplete)
       | (some key, s1) =>
         (some key, if requireComplete then ensureCompletion s1 key else s1)).2 := by
  obtain ⟨k, s1⟩ := r
  cases k with
  | none => exact samePopulation_trans hr (resolveAddress_samePopulation _ _ _ _ _)
  | some key =>
    simp only
    split
    · exact samePopulation_trans hr (ensureCompletion_samePopulation _ _)
    · exact hr

theorem resolvePhoneNumber_samePopulation (env : Env) (s : State) (listener : Nat)
    (number : String) (requireComplete : Bool) :
    SamePopulation s (resolvePhoneNumber env s listener number requireComplete).2 := by
  unfold resolvePhoneNumber
  refine resolve_end_samePopulation s _ ?_ listener "" number requireComplete
  unfold itemByPhoneNumber
  split
  · exact itemById_samePopulation _ _ _
  · exact samePopulation_refl s

theorem resolveEmailAddress_samePopulation (env : Env) (s : State) (listener : Nat)
    (address : String) (requireComplete : Bool) :
    SamePopulation s (resolveEmailAddress env s listener address requireComplete).2 := by
  unfold resolveEmailAddress
  refine resolve_end_samePopulation s _ ?_ listener address "" requireComplete
  unfold itemByEmailAddress
  split
  · exact itemById_samePopulation _ _ _
  · exact samePopulation_refl s

theorem resolveOnlineAccount_samePopulation (env : Env) (s : State) (listener : Nat)
    (localUid remoteUid : String) (requireComplete : Bool) :
    SamePopulation s
      (resolveOnlineAccount env s listener localUid remoteUid requireComplete).2 := by
  unfold resolveOnlineAccount
  refine resolve_end_samePopulation s _ ?_ listener localUid remoteUid requireComplete
  unfold itemByOnlineAccount
  split
  · exact itemById_samePopulation _ _ _
  · exact samePopulation_refl s

theorem attachItemData_samePopulation (s : State) (key : Nat) :
    SamePopulation s (attachItemData s key) := by
  unfold attachItemData
  split
  · exact samePopulation_refl s
  · exact ⟨rfl, rfl, rfl⟩

theorem removeFromNameGroupOf_samePopulation (s : State) (iid : Nat) :
    SamePopulation s (removeFromNameGroupOf s iid) := by
  unfold removeFromNameGroupOf
  split
  · exact samePopulation_refl s
  · exact samePopulation_trans (removeFromContactNameGroup_samePopulation _ _ _ _)
      (notifyNameGroupsChanged_samePopulation _ _)

theorem removeContactData_sameProgress (s s' : State) (iid : Nat) (filter : FilterType)
    (h : removeContactData s iid filter = some s') : SameProgress s s' := by
  unfold removeContactData at h
  split at h
  · cases h
  · rename_i row s1 hc
    have h1 := contactIndex_samePopulation s s1 iid filter row hc
    split at h
    · cases h
      exact ⟨h1.1, h1.2.1⟩
    · simp only at h
      split at h
      · cases h
      · cases h
        split
        · have h2 := removeFromNameGroupOf_samePopulation
            { notifyModels s1 (s1.m_models.get filter)
                (fun m => .sourceAboutToRemoveItems m row row) with
              m_contactIndices :=
                (notifyModels s1 (s1.m_models.get filter)
                  (fun m => .sourceAboutToRemoveItems m row row)).m_contactIndices.set filter
                  (hashRemove ((notifyModels s1 (s1.m_models.get filter)
                    (fun m => .sourceAboutToRemoveItems m row row)).m_contactIndices.get filter)
                    (by assumption)),
              m_contacts :=
                (notifyModels s1 (s1.m_models.get filter)
                  (fun m => .sourceAboutToRemoveItems m row row)).m_contacts.set filter
                  (removeAt ((notifyModels s1 (s1.m_models.get filter)
                    (fun m => .sourceAboutToRemoveItems m row row)).m_contacts.get filter)
                    row.toNat) } iid
          exact ⟨h2.1.trans h1.1, h2.2.1.trans h1.2.1⟩
        · exact ⟨h1.1, h1.2.1⟩

theorem removeContact_sameProgress (s : State) (contact : QContact) (r : Bool × State)
    (h : removeContact s contact = some r) : SameProgress s r.2 := by
  unfold removeContact at h
  simp only at h
  split at h
  · cases h
    exact sameProgress_refl s
  · split at h
    · cases h
    · rename_i s2 h2
      split at h
      · cases h
      · rename_i s3 h3
        split at h
        · cases h
        · rename_i s4 h4
          cases h
          have ha := removeContactData_sameProgress _ _ _ _ h2
          have hb := removeContactData_sameProgress _ _ _ _ h3
          have hc := removeContactData_sameProgress _ _ _ _ h4
          have hd := sameProgress_of_samePopulation (requestUpdate_samePopulation s4)
          have he := sameProgress_trans (sameProgress_trans (sameProgress_trans ha hb) hc) hd
          exact ⟨he.1, he.2⟩

theorem fetchConstituents_samePopulation (s : State) (contact : QContact) :
    SamePopulation s (fetchConstituents s contact).2 := by
  unfold fetchConstituents
  simp only
  split
  · exact samePopulation_refl s
  · split
    · exact samePopulation_refl s
    · exact @samePopulation_trans s
        { s with m_contactsToFetchConstituents :=
            s.m_contactsToFetchConstituents ++ [contact.id] } _
        ⟨rfl, rfl, rfl⟩ (requestUpdate_samePopulation _)

theorem fetchMergeCandidates_samePopulation (s : State) (contact : QContact) :
    SamePopulation s (fetchMergeCandidates s contact).2 := by
  unfold fetchMergeCandidates
  simp only
  split
  · exact samePopulation_refl s
  · split
    · exact samePopulation_refl s
    · exact @samePopulation_trans s
        { s with m_contactsToFetchCandidates :=
            s.m_contactsToFetchCandidates ++ [contact.id] } _
        ⟨rfl, rfl, rfl⟩ (requestUpdate_samePopulation _)

theorem aggregateContacts_samePopulation (s : State) (contact1 contact2 : QContact) :
    SamePopulation s (aggregateContacts s contact1 contact2) := by
  unfold aggregateContacts
  simp only
  refine samePopulation_trans ?_ (fetchConstituents_samePopulation _ _)
  have h := fetchConstituents_samePopulation
    { s with m_contactPairsToLink := s.m_contactPairsToLink ++
      [(({ contactId := contact1.id } : ContactLinkRequest),
        ({ contactId := contact2.id } : ContactLinkRequest))] } contact1
  exact ⟨h.1, h.2.1, h.2.2⟩

theorem disaggregateContacts_samePopulation (s s' : State) (contact1 contact2 : QContact)
    (h : disaggregateContacts s contact1 contact2 = some s') : SamePopulation s s' := by
  unfold disaggregateContacts at h
  simp only at h
  split at h
  · cases h
  · rename_i s2 hs
    cases h
    split at hs
    · have h1 := saveContact_samePopulation _ _ _ hs
      exact ⟨h1.1, h1.2.1, h1.2.2⟩
    · cases hs
      exact ⟨rfl, rfl, rfl⟩

theorem contactIdsAvailable_sameProgress (env : Env) (henv : KeepsProgress env) (s : State) :
    SameProgress s (contactIdsAvailable env s) := by
  unfold contactIdsAvailable
  split
  · exact ⟨rfl, rfl⟩
  · split
    · exact (henv s).1
    · exact sameProgress_refl s

theorem fetchFinished_population (env : Env) (s : State) (contacts : List QContact) :
    ∃ s', fetchFinished env s contacts = some s' ∧
      s'.m_contacts = s.m_contacts ∧
      (∀ f ∈ s.m_populated, f ∈ s'.m_populated) ∧
      s'.m_populateProgress =
        (match s.m_populateProgress with
         | .Unpopulated => if s.m_keepPopulated then .FetchFavorites else .Unpopulated
         | .Populated => .Populated
         | p => p.successor) := by
  have h1 := fetchRequestFinished_contacts env
    { s with m_fetchRequest := { s.m_fetchRequest with active := false, contacts := contacts } }
  have h2 := fetchRequestFinished_populated env
    { s with m_fetchRequest := { s.m_fetchRequest with active := false, contacts := contacts } }
  have h3 := fetchRequestFinished_progress env
    { s with m_fetchRequest := { s.m_fetchRequest with active := false, contacts := contacts } }
  have hm : ∀ f ∈ s.m_populated, f ∈ (fetchRequestFinished env
      { s with m_fetchRequest :=
          { s.m_fetchRequest with active := false, contacts := contacts } }).1.m_populated := by
    intro f hf
    rw [h2]
    show f ∈ (match s.m_populateProgress with
       | .FetchFavorites => setInsert s.m_populated .FilterFavorites
       | .FetchMetadata => setInsert (setInsert s.m_populated .FilterNone) .FilterAll
       | .FetchOnline => setInsert s.m_populated .FilterOnline
       | _ => s.m_populated)
    cases s.m_populateProgress <;>
      first
        | exact hf
        | exact mem_setInsert_of_mem _ _ f hf
        | exact mem_setInsert_of_mem _ _ f (mem_setInsert_of_mem _ _ f hf)
  unfold fetchFinished requestStateChanged
  simp only
  generalize fetchRequestFinished env
    { s with m_fetchRequest :=
        { s.m_fetchRequest with active := false, contacts := contacts } } = r at h1 h3 hm ⊢
  obtain ⟨s1, b⟩ := r
  cases b
  · exact ⟨_, rfl, h1, hm, h3⟩
  · exact ⟨_, rfl, h1, hm, h3⟩

theorem successor_rank (p : PopulateProgress) : p.rank ≤ p.successor.rank := by
  cases p <;> decide

theorem rank_le_four (p : PopulateProgress) : p.rank ≤ 4 := by
  cases p <;> decide

theorem cacheStep_sameProgress (env : Env) (henv : KeepsProgress env) (s s' : State)
    (step : CacheStep) (hw : step ≠ .wake) (hf : ∀ contacts, step ≠ .fetchDone contacts)
    (h : step.run env s = some s') : SameProgress s s' := by
  cases step
  case wake => exact absurd rfl hw
  case fetchDone contacts => exact absurd rfl (hf contacts)
  case fetchTimer =>
    cases h
    exact sameProgress_of_samePopulation (fetchContacts_samePopulation s)
  case fetchResults contacts =>
    exact contactsAvailable_run_sameProgress env s
      { s with m_fetchRequest := { s.m_fetchRequest with contacts := contacts } } s' .Fetch
      ⟨rfl, rfl⟩ h
  case fetchByIdResults contacts =>
    exact contactsAvailable_run_sameProgress env s
      { s with m_fetchByIdRequest := { s.m_fetchByIdRequest with contacts := contacts } } s'
      .FetchById ⟨rfl, rfl⟩ h
  case fetchByIdDone =>
    have h1 := requestStateChanged_sameProgress env henv _ s' .FetchById (by decide) h
    exact ⟨h1.1, h1.2⟩
  case relationshipsResults relationships =>
    cases h
    exact ⟨rfl, rfl⟩
  case relationshipsDone =>
    have h1 := requestStateChanged_sameProgress env henv _ s' .RelationshipsFetch (by decide) h
    exact ⟨h1.1, h1.2⟩
  case contactIdResults ids =>
    cases h
    have h1 := contactIdsAvailable_sameProgress env henv
      { s with m_contactIdRequest := { s.m_contactIdRequest with ids := ids } }
    exact ⟨h1.1, h1.2⟩
  case contactIdDone =>
    have h1 := requestStateChanged_sameProgress env henv _ s' .ContactId (by decide) h
    exact ⟨h1.1, h1.2⟩
  case relationshipSaveDone =>
    have h1 := requestStateChanged_sameProgress env henv _ s' .RelationshipSave (by decide) h
    exact ⟨h1.1, h1.2⟩
  case relationshipRemoveDone =>
    have h1 := requestStateChanged_sameProgress env henv _ s' .RelationshipRemove (by decide) h
    exact ⟨h1.1, h1.2⟩
  case removeDone =>
    have h1 := requestStateChanged_sameProgress env henv _ s' .Remove (by decide) h
    exact ⟨h1.1, h1.2⟩
  case saveDone =>
    have h1 := requestStateChanged_sameProgress env henv _ s' .Save (by decide) h
    exact ⟨h1.1, h1.2⟩
  case storeAdded ids elapsed =>
    cases h
    exact sameProgress_of_samePopulation (contactsAdded_samePopulation s ids elapsed)
  case storeChanged ids elapsed =>
    cases h
    exact sameProgress_of_samePopulation (contactsChanged_samePopulation s ids elapsed)
  case storeRemoved ids =>
    cases h
    exact sameProgress_of_samePopulation (contactsRemoved_samePopulation s ids)
  case populate fetchTypes =>
    cases h
    exact sameProgress_of_samePopulation (keepPopulated_samePopulation s fetchTypes)
  case phoneResolve listener number requireComplete =>
    cases h
    exact sameProgress_of_samePopulation (resolvePhoneNumber_samePopulation env s _ _ _)
  case emailResolve listener address requireComplete =>
    cases h
    exact sameProgress_of_samePopulation (resolveEmailAddress_samePopulation env s _ _ _)
  case accountResolve listener localUid remoteUid requireComplete =>
    cases h
    exact sameProgress_of_samePopulation (resolveOnlineAccount_samePopulation env s _ _ _ _)
  case unregister listener =>
    cases h
    exact ⟨rfl, rfl⟩
  case listen listener =>
    cases h
    exact ⟨rfl, rfl⟩
  case lookup id requireComplete =>
    cases h
    exact sameProgress_of_samePopulation (itemById_samePopulation s id requireComplete)
  case attach key =>
    cases h
    exact sameProgress_of_samePopulation (attachItemData_samePopulation s key)
  case save contact =>
    exact sameProgress_of_samePopulation (saveContact_samePopulation s s' contact h)
  case remove contact =>
    cases hr : removeContact s contact with
    | none =>
      simp only [CacheStep.run, hr, Option.map_none'] at h
      cases h
    | some r =>
      simp only [CacheStep.run, hr, Option.map_some', Option.some.injEq] at h
      rw [← h]
      exact removeContact_sameProgress s contact r hr
  case merge contact1 contact2 =>
    cases h
    exact sameProgress_of_samePopulation (aggregateContacts_samePopulation s contact1 contact2)
  case split aggregate constituent =>
    exact sameProgress_of_samePopulation
      (disaggregateContacts_samePopulation s s' aggregate constituent h)
  case constituents contact =>
    cases h
    exact sameProgress_of_samePopulation (fetchConstituents_samePopulation s contact)
  case candidates contact =>
    cases h
    exact sameProgress_of_samePopulation (fetchMergeCandidates_samePopulation s contact)

theorem cacheStep_population (env : Env) (henv : KeepsProgress env) (s s' : State)
    (step : CacheStep) (h : step.run env s = some s') :
    (s'.m_populateProgress = s.m_populateProgress ∨
      s'.m_populateProgress = s.m_populateProgress.successor) ∧
    (s'.m_populateProgress ≠ s.m_populateProgress →
      step = .wake ∨ ∃ contacts, step = .fetchDone contacts) ∧
    (∀ f ∈ s.m_populated, f ∈ s'.m_populated) := by
  by_cases hw : step = .wake
  · subst hw
    cases h
    obtain ⟨h1, _, h3⟩ := event_population s
    refine ⟨?_, fun _ => Or.inl rfl, fun f hf => h1 ▸ hf⟩
    rcases h3 with h3 | ⟨hp, _, _, he⟩ | ⟨hp, _, _, he⟩
    · exact Or.inl h3
    · exact Or.inr (by rw [he, hp]; rfl)
    · exact Or.inr (by rw [he, hp]; rfl)
  · by_cases hf : ∃ contacts, step = .fetchDone contacts
    · obtain ⟨contacts, hc⟩ := hf
      subst hc
      obtain ⟨s1, e, _, hm, hp⟩ := fetchFinished_population env s contacts
      have e' : some s1 = some s' := e.symm.trans h
      cases e'
      refine ⟨?_, fun _ => Or.inr ⟨contacts, rfl⟩, hm⟩
      rw [hp]
      cases s.m_populateProgress <;> cases s.m_keepPopulated <;> simp [PopulateProgress.successor]
    · have hs := cacheStep_sameProgress env henv s s' step hw
        (fun contacts hc => hf ⟨contacts, hc⟩) h
      exact ⟨Or.inl hs.1, fun hne => absurd hs.1 hne, fun f hf => hs.2 ▸ hf⟩

theorem runCache_population (env : Env) (henv : KeepsProgress env) (steps : List CacheStep) :
    ∀ s s' : State, runCache env steps s = some s' →
      s.m_populateProgress.rank ≤ s'.m_populateProgress.rank ∧
      (∀ f ∈ s.m_populated, f ∈ s'.m_populated) := by
  induction steps with
  | nil =>
    intro s s' h
    cases h
    exact ⟨Nat.le_refl _, fun f hf => hf⟩
  | cons step rest ih =>
    intro s s' h
    unfold runCache at h
    split at h
    · cases h
    · rename_i s1 h1
      obtain ⟨hp, _, hm⟩ := cacheStep_population env henv s s1 step h1
      obtain ⟨ip, im⟩ := ih s1 s' h
      refine ⟨Nat.le_trans ?_ ip, fun f hf => im f (hm f hf)⟩
      rcases hp with hp | hp
      · rw [hp]
      · rw [hp]
        exact successor_rank _

/-- C21: the population is a state machine that only moves forward. For every step of the cache
(a wake, the fetch timer, results or completion of any store request, a change notification of
the store, a call of a consumer) the progress afterwards is the progress before or its
successor on the chains Unpopulated → FetchFavorites → FetchMetadata → FetchOnline → Populated
and Populated → RefetchFavorites → RefetchOthers → Populated; only a wake and the completion of
the fetch request change it, and every populated flag that is set stays set. A wake changes
the progress only with the fetch request idle, from Unpopulated with keep-populated set or
from Populated with changed fetch types. The completion of the fetch request always returns
and moves the progress exactly one step from each Fetch and Refetch phase (and from
Unpopulated when keep-populated is set), and leaves Populated alone. Records the fetch request
delivers while the progress is FetchFavorites, FetchMetadata or FetchOnline are appended, in
order, to the Favorites, All or Online view, the other views and the progress staying as they
are. Over any run of steps the rank of the progress never decreases, so that from Populated or
a Refetch phase (rank 4) the cache never returns to Unpopulated or a Fetch phase. The hooks of
synchronizelists.h are assumed to leave progress and flags alone. -/
theorem population_progress_follows_chain (env : Env) (henv : KeepsProgress env) (s : State) :
    (∀ step s', CacheStep.run env s step = some s' →
      (s'.m_populateProgress = s.m_populateProgress ∨
        s'.m_populateProgress = s.m_populateProgress.successor) ∧
      (s'.m_populateProgress ≠ s.m_populateProgress →
        step = .wake ∨ ∃ contacts, step = .fetchDone contacts) ∧
      (∀ f ∈ s.m_populated, f ∈ s'.m_populated)) ∧
    ((event s).m_populateProgress ≠ s.m_populateProgress →
      s.m_fetchRequest.active = false ∧
      ((s.m_populateProgress = .Unpopulated ∧ s.m_keepPopulated = true) ∨
        (s.m_populateProgress = .Populated ∧ s.m_fetchTypesChanged = true))) ∧
    (∀ contacts, ∃ s', fetchFinished env s contacts = some s' ∧
      s'.m_populateProgress =
        (match s.m_populateProgress with
         | .Unpopulated => if s.m_keepPopulated then .FetchFavorites else .Unpopulated
         | .Populated => .Populated
         | p => p.successor)) ∧
    (∀ type, s.m_populateProgress.view = some type → ∀ contacts,
      ∃ s', fetchResultsAvailable env s contacts = some s' ∧
        s'.m_contacts.get type =
          s.m_contacts.get type ++
            (contacts.drop s.m_fetchProcessedCount).map (fun c => internalId c.id) ∧
        (∀ g, g ≠ type → s'.m_contacts.get g = s.m_contacts.get g) ∧
        s'.m_populateProgress = s.m_populateProgress) ∧
    (∀ steps s', runCache env steps s = some s' →
      s.m_populateProgress.rank ≤ s'.m_populateProgress.rank ∧
      (s.m_populateProgress.rank = 4 → s'.m_populateProgress.rank = 4) ∧
      (∀ f ∈ s.m_populated, f ∈ s'.m_populated)) := by
  refine ⟨fun step s' h => cacheStep_population env henv s s' step h, ?_, ?_, ?_, ?_⟩
  · intro hne
    obtain ⟨_, _, h3⟩ := event_population s
    rcases h3 with h3 | ⟨hp, hk, ha, _⟩ | ⟨hp, hk, ha, _⟩
    · exact absurd h3 hne
    · exact ⟨ha, Or.inl ⟨hp, hk⟩⟩
    · exact ⟨ha, Or.inr ⟨hp, hk⟩⟩
  · intro contacts
    obtain ⟨s1, e, _, _, hp⟩ := fetchFinished_population env s contacts
    exact ⟨s1, e, hp⟩
  · intro type hv contacts
    obtain ⟨s1, e, hp, _, hc⟩ := contactsAvailable_appends env
      { s with m_fetchRequest := { s.m_fetchRequest with contacts := contacts } } .Fetch type hv
    refine ⟨s1, e, ?_, ?_, hp⟩
    · rw [hc, filterArray_get_set_self]
      have hd : deliveredRecords
          { s with m_fetchRequest := { s.m_fetchRequest with contacts := contacts } } .Fetch =
          contacts.drop s.m_fetchProcessedCount := by
        unfold deliveredRecords
        by_cases h0 : s.m_fetchProcessedCount = 0
        · simp [h0]
        · simp [h0]
      rw [hd]
    · intro g hg
      rw [hc, filterArray_get_set_ne _ _ _ _ hg]
  · intro steps s' h
    obtain ⟨h1, h2⟩ := runCache_population env henv steps s s' h
    refine ⟨h1, fun h4 => ?_, h2⟩
    have := rank_le_four s'.m_populateProgress
    omega

/-- C21 (the theorem at a concrete cache): with hooks that do nothing, in the middle of a
population, in the phase FetchMetadata. -/
theorem population_progress_follows_chain_witness :
    KeepsProgress exampleEnv ∧
    midPopulation.m_populateProgress = .FetchMetadata ∧
    ((∀ step s', CacheStep.run exampleEnv midPopulation step = some s' →
      (s'.m_populateProgress = midPopulation.m_populateProgress ∨
        s'.m_populateProgress = midPopulation.m_populateProgress.successor) ∧
      (s'.m_populateProgress ≠ midPopulation.m_populateProgress →
        step = .wake ∨ ∃ contacts, step = .fetchDone contacts) ∧
      (∀ f ∈ midPopulation.m_populated, f ∈ s'.m_populated)) ∧
    ((event midPopulation).m_populateProgress ≠ midPopulation.m_populateProgress →
      midPopulation.m_fetchRequest.active = false ∧
      ((midPopulation.m_populateProgress = .Unpopulated ∧
          midPopulation.m_keepPopulated = true) ∨
        (midPopulation.m_populateProgress = .Populated ∧
          midPopulation.m_fetchTypesChanged = true))) ∧
    (∀ contacts, ∃ s', fetchFinished exampleEnv midPopulation contacts = some s' ∧
      s'.m_populateProgress =
        (match midPopulation.m_populateProgress with
         | .Unpopulated =>
           if midPopulation.m_keepPopulated then .FetchFavorites else .Unpopulated
         | .Populated => .Populated
         | p => p.successor)) ∧
    (∀ type, midPopulation.m_populateProgress.view = some type → ∀ contacts,
      ∃ s', fetchResultsAvailable exampleEnv midPopulation contacts = some s' ∧
        s'.m_contacts.get type =
          midPopulation.m_contacts.get type ++
            (contacts.drop midPopulation.m_fetchProcessedCount).map
              (fun c => internalId c.id) ∧
        (∀ g, g ≠ type → s'.m_contacts.get g = midPopulation.m_contacts.get g) ∧
        s'.m_populateProgress = midPopulation.m_populateProgress) ∧
    (∀ steps s', runCache exampleEnv steps midPopulation = some s' →
      midPopulation.m_populateProgress.rank ≤ s'.m_populateProgress.rank ∧
      (midPopulation.m_populateProgress.rank = 4 → s'.m_populateProgress.rank = 4) ∧
      (∀ f ∈ midPopulation.m_populated, f ∈ s'.m_populated))) :=
  ⟨fun _ => ⟨⟨rfl, rfl⟩, ⟨rfl, rfl⟩⟩, by decide,
    population_progress_follows_chain exampleEnv (fun _ => ⟨⟨rfl, rfl⟩, ⟨rfl, rfl⟩⟩)
      midPopulation⟩

/-! ## Closed evaluations of the index update, the item ids and the name groups -/

/-- C32 (the code at the failing input): contact 9 has the phone numbers "+358474005000" and
"0474005000", which both have the normalized form "4005000", and it is indexed under that
form. updateContactIndexing is called with this contact as the old and as the new snapshot, so
that the sets of normalized address pairs are equal. The first number removes the pair from
oldAddresses; the second number finds it gone, is taken for a new address, and the call
returns true; with an unknown-address entry for the number in the list, listener 5 is
notified. -/
theorem updateContactIndexing_reports_change_for_repeated_address :
    twoSpellings.phoneNumbers.map (addressPairPhone exampleEnv) =
      [("", "4005000"), ("", "4005000")] ∧
    (updateContactIndexing exampleEnv twoSpellingsCached twoSpellings twoSpellings 9 [] 9).1 =
      true ∧
    (updateContactIndexing exampleEnv twoSpellingsCached twoSpellings twoSpellings 9 [] 9).2 =
      twoSpellingsCached ∧
    addressResolutions
      (updateContactIndexing exampleEnv
        { twoSpellingsCached with
          m_unknownAddresses :=
            [{ first := "", second := "4005000", compare := "4005000", listener := 5 }] }
        twoSpellings twoSpellings 9 [] 9).2.log =
      [(5, "", "4005000", some { iid := 9, contact := twoSpellings })] := by
  decide

/-- C35 (the code at the failing input): itemById(5) on the new cache creates the item under
key 5 and sets only its contact id, so the iid field keeps the 0 of the constructor. When the
store then delivers the contact, contactsAvailable finds the item, leaves the field alone and
adds item->iid to the name group: the set of group "G" holds 0 and not 5. -/
theorem itemById_leaves_iid_field_zero :
    (itemById State.init 5 true).2.m_people.map (fun e => (e.1, e.2.iid)) = [(5, 0)] ∧
    lookupThenFetch.map (fun s =>
      (s.m_people.map (fun e => (e.1, e.2.iid, e.2.nameGroup)), s.m_contactNameGroups)) =
    some ([(5, 0, some "G")], [("G", [0])]) := by
  decide

/-- C36 (the code at the failing input): the unknown-address list holds a phone entry
(listener 1), an e-mail entry (listener 2) and an online-account entry (listener 3). The index
update for the phone number satisfies only the phone entry and the update for the e-mail
address only the e-mail entry, but the update for the online account ("room@chat",
"room@chat") satisfies the e-mail entry of listener 2 together with the account entry: the
entries left are those of listeners 2 and 3, of 1 and 3, and of 1 alone. -/
theorem resolveUnknownAddresses_account_update_satisfies_email_entry :
    (resolveUnknownAddresses threeKindsUnknown "" "5550001" 3).m_unknownAddresses.map
      (fun d => d.listener) = [2, 3] ∧
    (resolveUnknownAddresses threeKindsUnknown "room@chat" "" 3).m_unknownAddresses.map
      (fun d => d.listener) = [1, 3] ∧
    (resolveUnknownAddresses threeKindsUnknown "room@chat" "room@chat" 3).m_unknownAddresses.map
      (fun d => d.listener) = [1] ∧
    (addressResolutions
      (resolveUnknownAddresses threeKindsUnknown "room@chat" "room@chat" 3).log).map
        (fun r => (r.1, r.2.1, r.2.2.1)) =
      [(2, "room@chat", ""), (3, "room@chat", "room@chat")] := by
  decide

/-- C38 (the code at the failing input): the cache is populated with Dora (4, group "D") and
Edgar (6, group "E"); removeRange takes row 0 out of the view of all contacts and the
dispatcher idles. The view is [6] and item 4 is destroyed, but removeRange has not touched the
name groups: 4 is still a member of the set of "D". -/
theorem removeRange_leaves_id_in_name_group :
    populateTwoThenRemoveRange.map (fun s =>
      (s.m_contacts.get .FilterAll, s.m_people.map (fun e => e.1), s.m_contactNameGroups)) =
    some ([6], [6], [("D", [4]), ("E", [6])]) := by
  decide

/-! ## Display labels -/

theorem string_ne_empty_of_append_left (a b : String) (h : a ≠ "") : a ++ b ≠ "" := by
  intro e
  have hl : (a ++ b).length = 0 := by rw [e]; rfl
  rw [String.length_append] at hl
  have ha : a.length = 0 := by omega
  apply h
  cases a with
  | mk data =>
    have : data = [] := List.length_eq_zero.mp ha
    subst this
    rfl

theorem string_ne_empty_of_append_right (a b : String) (h : b ≠ "") : a ++ b ≠ "" := by
  intro e
  have hl : (a ++ b).length = 0 := by rw [e]; rfl
  rw [String.length_append] at hl
  have hb : b.length = 0 := by omega
  apply h
  cases b with
  | mk data =>
    have : data = [] := List.length_eq_zero.mp hb
    subst this
    rfl

theorem firstNonEmpty_append (a b : List String) :
    firstNonEmpty (a ++ b) = if firstNonEmpty a ≠ "" then firstNonEmpty a else firstNonEmpty b := by
  induction a with
  | nil => simp [firstNonEmpty]
  | cons x rest ih =>
    by_cases hx : x = ""
    · simp only [List.cons_append, firstNonEmpty, hx, ne_eq, not_true_eq_false, if_false]
      exact ih
    · simp [firstNonEmpty, hx]

theorem firstNonEmpty_eq_empty_iff (l : List String) :
    firstNonEmpty l = "" ↔ ∀ x ∈ l, x = "" := by
  induction l with
  | nil => simp [firstNonEmpty]
  | cons x rest ih =>
    by_cases hx : x = ""
    · simp [firstNonEmpty, hx, ih]
    · simp [firstNonEmpty, hx]

theorem firstNonEmpty_singleton (x : String) : firstNonEmpty [x] = x := by
  by_cases hx : x = ""
  · simp [firstNonEmpty, hx]
  · simp [firstNonEmpty, hx]

theorem generateDisplayLabel_of_names (contact : QContact) (order : DisplayLabelOrder) :
    generateDisplayLabel contact order =
      (let name1 := if order = .LastNameFirst then contact.lastName else contact.firstName
       let name2 := if order = .LastNameFirst then contact.firstName else contact.lastName
       if name1 ≠ "" ∧ name2 ≠ "" then name1 ++ " " ++ name2
       else if name1 ≠ "" then name1
       else if name2 ≠ "" then name2
       else if generateDisplayLabelFromNonNameDetails contact ≠ "" then
         generateDisplayLabelFromNonNameDetails contact
       else if contact.displayLabel ≠ "" then contact.displayLabel
       else "(Unnamed)") := by
  unfold generateDisplayLabel
  simp only
  generalize (if order = .LastNameFirst then contact.lastName else contact.firstName) = name1
  generalize (if order = .LastNameFirst then contact.firstName else contact.lastName) = name2
  by_cases h1 : name1 = "" <;> by_cases h2 : name2 = ""
  · simp [h1, h2]
  · simp [h1, h2]
  · simp [h1, h2]
  · have h3 : name1 ++ " " ≠ "" := string_ne_empty_of_append_left _ _ h1
    have h4 : name1 ++ " " ++ name2 ≠ "" := string_ne_empty_of_append_right _ _ h2
    simp [h1, h2, h4]

theorem firstNonEmpty_mem (l : List String) (h : firstNonEmpty l ≠ "") :
    firstNonEmpty l ∈ l := by
  induction l with
  | nil => exact absurd rfl h
  | cons x rest ih =>
    unfold firstNonEmpty at h ⊢
    by_cases hx : x = ""
    · rw [if_neg (not_not.mpr hx)] at h ⊢
      exact List.mem_cons_of_mem _ (ih h)
    · rw [if_pos hx]
      exact List.mem_cons_self _ _

theorem updateCache_displayLabel (env : Env) (s : State) (key : Nat) (item : CacheItem)
    (h : hashFind s.m_people key = some item) (contact : QContact) (partialFetch : Bool) :
    ∃ item', existingItem (updateCache env s key contact partialFetch) key = some item' ∧
      item'.displayLabel = generateDisplayLabel item'.contact s.m_displayLabelOrder ∧
      (item.itemData = none → item'.contact = contact) ∧
      (updateCache env s key contact partialFetch).m_displayLabelOrder =
        s.m_displayLabelOrder := by
  unfold updateCache existingItem reportItemUpdated
  simp only [h]
  cases hd : item.itemData
  · exact ⟨_, hashFind_hashInsert_self _ _ _, rfl, fun _ => rfl, trivial⟩
  · refine ⟨_, hashFind_hashInsert_self _ _ _, rfl, fun hn => ?_, trivial⟩
    cases hn

/-- C31: for a contact whose first and last name are both non-empty, generateDisplayLabel
returns first name, one space, last name under the first-name-first order and last name, one
space, first name under the last-name-first order ("Daffy Duck" and "Duck Daffy" for the
contact of tst_resolve.cpp); when only one of the two names is non-empty it returns that name
alone under either order; and after updateCache the item stored under the key holds, as its
display label, generateDisplayLabel of the snapshot it then holds (the fetched contact when
the item has no item data) under the cache's display-label order. -/
theorem generateDisplayLabel_joins_non_empty_names (contact : QContact) :
    (contact.firstName ≠ "" → contact.lastName ≠ "" →
      generateDisplayLabel contact .FirstNameFirst =
        contact.firstName ++ " " ++ contact.lastName ∧
      generateDisplayLabel contact .LastNameFirst =
        contact.lastName ++ " " ++ contact.firstName) ∧
    (contact.firstName ≠ "" → contact.lastName = "" →
      ∀ order, generateDisplayLabel contact order = contact.firstName) ∧
    (contact.firstName = "" → contact.lastName ≠ "" →
      ∀ order, generateDisplayLabel contact order = contact.lastName) ∧
    (∀ (env : Env) (s : State) (key : Nat) (item : CacheItem) (partialFetch : Bool),
      hashFind s.m_people key = some item →
      ∃ item', existingItem (updateCache env s key contact partialFetch) key = some item' ∧
        item'.displayLabel = generateDisplayLabel item'.contact s.m_displayLabelOrder ∧
        (item.itemData = none → item'.contact = contact) ∧
        (updateCache env s key contact partialFetch).m_displayLabelOrder =
          s.m_displayLabelOrder) ∧
    generateDisplayLabel daffy .FirstNameFirst = "Daffy Duck" ∧
    generateDisplayLabel daffy .LastNameFirst = "Duck Daffy" := by
  refine ⟨fun hf hl => ⟨?_, ?_⟩, fun hf hl order => ?_, fun hf hl order => ?_,
    fun env s key item partialFetch h => updateCache_displayLabel env s key item h contact _,
    by decide, by decide⟩
  · rw [generateDisplayLabel_of_names]
    simp [hf, hl]
  · rw [generateDisplayLabel_of_names]
    simp [hf, hl]
  · rw [generateDisplayLabel_of_names]
    cases order <;> simp [hf, hl]
  · rw [generateDisplayLabel_of_names]
    cases order <;> simp [hf, hl]

theorem firstNonEmpty_chain (l1 l2 l3 l4 l5 l7 : List String) (org : String) :
    firstNonEmpty (l1 ++ l2 ++ l3 ++ l4 ++ l5 ++ [org] ++ l7) =
      if firstNonEmpty l1 ≠ "" then firstNonEmpty l1
      else if firstNonEmpty l2 ≠ "" then firstNonEmpty l2
      else if firstNonEmpty l3 ≠ "" then firstNonEmpty l3
      else if firstNonEmpty l4 ≠ "" then firstNonEmpty l4
      else if firstNonEmpty l5 ≠ "" then firstNonEmpty l5
      else if org ≠ "" then org
      else firstNonEmpty l7 := by
  rw [List.append_assoc, List.append_assoc, List.append_assoc, List.append_assoc,
    List.append_assoc, firstNonEmpty_append, firstNonEmpty_append, firstNonEmpty_append,
    firstNonEmpty_append, firstNonEmpty_append, firstNonEmpty_append, firstNonEmpty_singleton]

theorem generateDisplayLabelFromNonNameDetails_eq (contact : QContact) :
    ∃ l, labelFallbacks contact = l ++ [contact.displayLabel] ∧
      generateDisplayLabelFromNonNameDetails contact = firstNonEmpty l := by
  refine ⟨_, rfl, ?_⟩
  rw [firstNonEmpty_chain]
  rfl
theorem generateDisplayLabel_of_empty_names (contact : QContact) (order : DisplayLabelOrder)
    (h1 : contact.firstName = "") (h2 : contact.lastName = "") :
    generateDisplayLabel contact order =
      if firstNonEmpty (labelFallbacks contact) ≠ "" then firstNonEmpty (labelFallbacks contact)
      else "(Unnamed)" := by
  have hf : firstNonEmpty (labelFallbacks contact) =
      if generateDisplayLabelFromNonNameDetails contact ≠ "" then
        generateDisplayLabelFromNonNameDetails contact
      else contact.displayLabel := by
    obtain ⟨l, hl, hg⟩ := generateDisplayLabelFromNonNameDetails_eq contact
    rw [hl, firstNonEmpty_append, firstNonEmpty_singleton, ← hg]
  rw [generateDisplayLabel_of_names, hf]
  cases order <;> simp only [h1, h2] <;> split_ifs <;> simp_all

theorem generateDisplayLabel_ne_empty (contact : QContact) (order : DisplayLabelOrder) :
    generateDisplayLabel contact order ≠ "" := by
  rw [generateDisplayLabel_of_names]
  simp only
  generalize (if order = .LastNameFirst then contact.lastName else contact.firstName) = name1
  generalize (if order = .LastNameFirst then contact.firstName else contact.lastName) = name2
  split_ifs with a b c d e
  · exact string_ne_empty_of_append_right _ _ a.2
  · exact b
  · exact c
  · exact d
  · exact e
  · decide

/-- C39 (counterexample): a contact without a name whose nickname is the text "(Unnamed)" gets
the label "(Unnamed)" although not all of its fallback values are empty. -/
theorem generateDisplayLabel_unnamed_from_nickname :
    nicknamedUnnamed.firstName = "" ∧ nicknamedUnnamed.lastName = "" ∧
    labelFallbacks nicknamedUnnamed = ["(Unnamed)", "", "12345", ""] ∧
    generateDisplayLabel nicknamedUnnamed .FirstNameFirst = "(Unnamed)" ∧
    generateDisplayLabel nicknamedUnnamed .LastNameFirst = "(Unnamed)" := by
  decide

/-- C39 (amended): generateDisplayLabel never returns an empty string. When both names are
empty and one of the values nickname, global-presence nickname, presence nickname,
online-account uri, e-mail address, organization name, phone number, display label of the
store is non-empty, it returns the first non-empty one in that order; when all of them are
empty it returns "(Unnamed)"; and when it returns "(Unnamed)" either all of them are empty or
the first non-empty one is itself the text "(Unnamed)". -/
theorem generateDisplayLabel_never_empty (contact : QContact) (order : DisplayLabelOrder) :
    generateDisplayLabel contact order ≠ "" ∧
    (contact.firstName = "" → contact.lastName = "" →
      ((∃ x ∈ labelFallbacks contact, x ≠ "") →
        generateDisplayLabel contact order = firstNonEmpty (labelFallbacks contact) ∧
        firstNonEmpty (labelFallbacks contact) ∈ labelFallbacks contact ∧
        firstNonEmpty (labelFallbacks contact) ≠ "") ∧
      ((∀ x ∈ labelFallbacks contact, x = "") →
        generateDisplayLabel contact order = "(Unnamed)") ∧
      (generateDisplayLabel contact order = "(Unnamed)" →
        (∀ x ∈ labelFallbacks contact, x = "") ∨
        firstNonEmpty (labelFallbacks contact) = "(Unnamed)")) ∧
    generateDisplayLabel QContact.empty order = "(Unnamed)" ∧
    generateDisplayLabel
      { id := 12, details := [.phoneNumber "12345", .emailAddress "", .presence "dd"] } order =
      "dd" := by
  refine ⟨generateDisplayLabel_ne_empty contact order,
    fun h1 h2 => ⟨fun hex => ?_, fun hall => ?_, fun hu => ?_⟩, ?_, ?_⟩
  · have hne : firstNonEmpty (labelFallbacks contact) ≠ "" := by
      intro e
      obtain ⟨x, hx, hxn⟩ := hex
      exact hxn ((firstNonEmpty_eq_empty_iff _).mp e x hx)
    rw [generateDisplayLabel_of_empty_names contact order h1 h2, if_pos hne]
    exact ⟨rfl, firstNonEmpty_mem _ hne, hne⟩
  · have he := (firstNonEmpty_eq_empty_iff _).mpr hall
    rw [generateDisplayLabel_of_empty_names contact order h1 h2, he]
    rfl
  · rw [generateDisplayLabel_of_empty_names contact order h1 h2] at hu
    by_cases he : firstNonEmpty (labelFallbacks contact) = ""
    · exact Or.inl ((firstNonEmpty_eq_empty_iff _).mp he)
    · rw [if_pos he] at hu
      exact Or.inr hu
  · cases order <;> decide
  · cases order <;> decide

/-! ## Avatars -/

theorem avatarUrlLoop_queue_ne_nil (scheme : String → String) :
    ∀ (l : List (String × String)) (i : Nat) (m : List Nat), m ≠ [] →
      (avatarUrlLoop scheme "" l i m).2 ≠ [] := by
  intro l
  induction l with
  | nil => intro i m h; exact h
  | cons a rest ih =>
    intro i m h
    unfold avatarUrlLoop
    split_ifs
    · exact ih _ _ h
    · exact h
    · exact ih _ _ (by simp)
    · exact h
    · exact ih _ _ h

theorem avatarUrlLoop_local (scheme : String → String) (u : String)
    (post : List (String × String)) (hu : u ≠ "") :
    ∀ (pre : List (String × String)) (i : Nat) (m : List Nat),
      (∀ a ∈ pre, a.1 = "" ∨ (a.2 ≠ "local" ∧ scheme a.1 ≠ "" ∧ scheme a.1 ≠ "file")) →
      (avatarUrlLoop scheme "" (pre ++ (u, "local") :: post) i m).1 = some u := by
  intro pre
  induction pre with
  | nil =>
    intro i m _
    simp [avatarUrlLoop, hu]
  | cons a rest ih =>
    intro i m h
    have hr : ∀ b ∈ rest, b.1 = "" ∨ (b.2 ≠ "local" ∧ scheme b.1 ≠ "" ∧ scheme b.1 ≠ "file") :=
      fun b hb => h b (List.mem_cons_of_mem _ hb)
    rcases h a (List.mem_cons_self _ _) with h0 | ⟨h1, h2, h3⟩
    · simp only [List.cons_append, avatarUrlLoop, h0, if_true]
      exact ih _ _ hr
    · by_cases h0 : a.1 = ""
      · simp only [List.cons_append, avatarUrlLoop, h0, if_true]
        exact ih _ _ hr
      · simp only [List.cons_append, avatarUrlLoop, h0, h1, h2, h3, if_false, and_false,
          true_or, if_true, ne_eq, not_false_eq_true, and_self]
        exact ih _ _ hr

theorem avatarUrlLoop_invariant (scheme : String → String) (all : List (String × String)) :
    ∀ (l done : List (String × String)) (m : List Nat), all = done ++ l →
      (∀ k ∈ m, ∃ a, all.get? k = some a ∧ a.1 ≠ "") →
      (∀ url, (avatarUrlLoop scheme "" l done.length m).1 = some url → url ≠ "") ∧
      ((avatarUrlLoop scheme "" l done.length m).1 = none →
        (∀ k ∈ (avatarUrlLoop scheme "" l done.length m).2,
          ∃ a, all.get? k = some a ∧ a.1 ≠ "") ∧
        ((avatarUrlLoop scheme "" l done.length m).2 = [] → ∀ a ∈ l, a.1 = "")) := by
  intro l
  induction l with
  | nil =>
    intro done m _ hm
    unfold avatarUrlLoop
    exact ⟨fun _ h => (by cases h), fun _ => ⟨hm, fun _ a ha => (by cases ha)⟩⟩
  | cons a rest ih =>
    intro done m hall hm
    have hall2 : all = (done ++ [a]) ++ rest := by rw [hall, List.append_assoc]; rfl
    have hlen : (done ++ [a]).length = done.length + 1 := by simp
    have hget : all.get? done.length = some a := by
      rw [hall, List.get?_eq_getElem?, List.getElem?_append_right (Nat.le_refl _)]
      simp
    by_cases h0 : a.1 = ""
    · have e : avatarUrlLoop scheme "" (a :: rest) done.length m =
          avatarUrlLoop scheme "" rest (done ++ [a]).length m := by
        rw [hlen]; simp only [avatarUrlLoop, h0, if_true]
      rw [e]
      obtain ⟨i1, i2⟩ := ih (done ++ [a]) m hall2 hm
      refine ⟨i1, fun hn => ⟨(i2 hn).1, fun he b hb => ?_⟩⟩
      rcases List.mem_cons.mp hb with rfl | hb
      · exact h0
      · exact (i2 hn).2 he b hb
    · by_cases h1 : a.2 = "local"
      · have e : avatarUrlLoop scheme "" (a :: rest) done.length m = (some a.1, m) := by
          simp only [avatarUrlLoop, h0, h1, if_false, and_self, if_true]
        rw [e]
        exact ⟨fun url h => (by cases h; exact h0), fun h => (by cases h)⟩
      · by_cases h2 : scheme a.1 ≠ "" ∧ scheme a.1 ≠ "file"
        · have e : avatarUrlLoop scheme "" (a :: rest) done.length m =
              avatarUrlLoop scheme "" rest (done ++ [a]).length (m ++ [done.length]) := by
            rw [hlen]
            simp only [avatarUrlLoop, h0, h1, if_false, and_false, true_or, if_true]
            rw [if_pos h2]
          rw [e]
          have hm2 : ∀ k ∈ m ++ [done.length], ∃ b, all.get? k = some b ∧ b.1 ≠ "" := by
            intro k hk
            rcases List.mem_append.mp hk with hk | hk
            · exact hm k hk
            · rw [List.mem_singleton.mp hk]
              exact ⟨a, hget, h0⟩
          obtain ⟨i1, i2⟩ := ih (done ++ [a]) (m ++ [done.length]) hall2 hm2
          refine ⟨i1, fun hn => ⟨(i2 hn).1, fun he => ?_⟩⟩
          exfalso
          exact avatarUrlLoop_queue_ne_nil scheme rest _ _ (by simp) he
        · have e : avatarUrlLoop scheme "" (a :: rest) done.length m = (some a.1, m) := by
            simp only [avatarUrlLoop, h0, h1, if_false, and_false, true_or, if_true]
            rw [if_neg h2]
          rw [e]
          exact ⟨fun url h => (by cases h; exact h0), fun h => (by cases h)⟩

theorem avatarUrlLoop_of_empty (scheme : String → String) :
    ∀ (l : List (String × String)) (i : Nat) (m : List Nat), (∀ a ∈ l, a.1 = "") →
      avatarUrlLoop scheme "" l i m = (none, m) := by
  intro l
  induction l with
  | nil => intro i m _; rfl
  | cons a rest ih =>
    intro i m h
    simp only [avatarUrlLoop, h a (List.mem_cons_self _ _), if_true]
    exact ih _ _ (fun b hb => h b (List.mem_cons_of_mem _ hb))

theorem filteredAvatarUrl_nil (scheme : String → String) (contact : QContact) :
    filteredAvatarUrl scheme contact [] =
      match avatarUrlLoop scheme "" contact.avatars 0 [] with
      | (some url, _) => url
      | (none, matchingIndices) =>
        match matchingIndices with
        | i :: _ => ((contact.avatars.get? i).map (fun av => av.1)).getD ""
        | [] => "" := rfl

/-- C40 (counterexample): the contact's second avatar detail has a path of the file system as
its url and the metadata "cover", its third a non-empty url and the metadata "local"; without
a metadata filter filteredAvatarUrl returns the url of the second, not that of the local
avatar. -/
theorem filteredAvatarUrl_returns_file_path_before_local :
    threeAvatars.avatars =
      [("", "local"), ("/home/nemo/cover.png", "cover"), ("/home/nemo/own.png", "local"),
        ("http://example.com/ida.png", "")] ∧
    urlScheme "/home/nemo/cover.png" = "" ∧
    filteredAvatarUrl urlScheme threeAvatars [] = "/home/nemo/cover.png" := by
  decide

/-- C40 (amended): without a metadata filter, for every contact with an avatar detail of
non-empty url and metadata "local", filteredAvatarUrl returns the url of the first such
avatar whenever every avatar detail of non-empty url before it has a url scheme that is
neither empty nor "file" (a remote picture does not win over the local one, a picture of the
file system that comes first does); and for every contact the result is empty exactly when no
avatar detail has a non-empty url. -/
theorem filteredAvatarUrl_prefers_local_to_remote (scheme : String → String)
    (contact : QContact) :
    (∀ pre u post, contact.avatars = pre ++ (u, "local") :: post → u ≠ "" →
      (∀ a ∈ pre, a.1 = "" ∨ (a.2 ≠ "local" ∧ scheme a.1 ≠ "" ∧ scheme a.1 ≠ "file")) →
      filteredAvatarUrl scheme contact [] = u) ∧
    (filteredAvatarUrl scheme contact [] = "" ↔ ∀ a ∈ contact.avatars, a.1 = "") ∧
    (remoteThenLocal.avatars =
        [("http://example.com/jo.png", ""), ("", "local"), ("/home/nemo/jo.png", "local")] ∧
      filteredAvatarUrl urlScheme remoteThenLocal [] = "/home/nemo/jo.png") := by
  refine ⟨fun pre u post hd hu hpre => ?_, ⟨fun he => ?_, fun hall => ?_⟩, by decide⟩
  · have h := avatarUrlLoop_local scheme u post hu pre 0 [] hpre
    rw [filteredAvatarUrl_nil, hd]
    revert h
    cases avatarUrlLoop scheme "" (pre ++ (u, "local") :: post) 0 [] with
    | mk o m =>
      intro h
      cases h
      rfl
  · have h := avatarUrlLoop_invariant scheme contact.avatars contact.avatars [] [] rfl
      (fun k hk => by cases hk)
    rw [filteredAvatarUrl_nil] at he
    revert h he
    simp only [List.length_nil]
    cases avatarUrlLoop scheme "" contact.avatars 0 [] with
    | mk o m =>
      cases o with
      | some url =>
        intro he h
        exact absurd he (h.1 url rfl)
      | none =>
        cases m with
        | nil =>
          intro _ h
          exact (h.2 rfl).2 rfl
        | cons i m =>
          intro he h
          obtain ⟨a, ha, hne⟩ := (h.2 rfl).1 i (List.mem_cons_self _ _)
          simp only [ha, Option.map_some', Option.getD_some] at he
          exact absurd he hne
  · rw [filteredAvatarUrl_nil, avatarUrlLoop_of_empty scheme _ _ _ hall]

/-! ## The reverse index of a view -/

theorem sameViewData_refl (s : State) : SameViewData s s := ⟨rfl, rfl, rfl⟩

theorem sameViewData_trans {s₁ s₂ s₃ : State} (h₁ : SameViewData s₁ s₂)
    (h₂ : SameViewData s₂ s₃) : SameViewData s₁ s₃ :=
  ⟨h₂.1.trans h₁.1, h₂.2.1.trans h₁.2.1, h₂.2.2.trans h₁.2.2⟩

theorem sameViewData_of_itemFrame {s s' : State} (h : ItemFrame s s') :
    SameViewData s s' := by
  obtain ⟨e, _⟩ := h
  have h1 : s'.m_contacts = (itemFrameOf s s').m_contacts := congrArg State.m_contacts e
  have h2 : s'.m_contactIndices = (itemFrameOf s s').m_contactIndices :=
    congrArg State.m_contactIndices e
  have h3 : s'.m_expiredContacts = (itemFrameOf s s').m_expiredContacts :=
    congrArg State.m_expiredContacts e
  exact ⟨h1, h2, h3⟩

theorem requestUpdate_sameViewData (s : State) : SameViewData s (requestUpdate s) :=
  sameViewData_of_itemFrame (requestUpdate_itemFrame s)

theorem ensureCompletion_sameViewData (s : State) (key : Nat) :
    SameViewData s (ensureCompletion s key) :=
  sameViewData_of_itemFrame (ensureCompletion_itemFrame s key)

theorem resolveUnknownAddressesLoop_sameViewData (first second : String) (item : Nat)
    (l : List ResolveData) :
    ∀ s : State, SameViewData s (resolveUnknownAddressesLoop first second item l s).2 := by
  induction l with
  | nil => intro s; exact sameViewData_refl s
  | cons it rest ih =>
    intro s
    unfold resolveUnknownAddressesLoop
    split
    · refine sameViewData_trans ?_ (ih _)
      split
      · exact @sameViewData_trans s (s.emit _) _ ⟨rfl, rfl, rfl⟩
          (ensureCompletion_sameViewData _ _)
      · exact ⟨rfl, rfl, rfl⟩
    · exact ih s

theorem resolveUnknownAddresses_sameViewData (s : State) (first second : String)
    (item : Nat) : SameViewData s (resolveUnknownAddresses s first second item) := by
  have h := resolveUnknownAddressesLoop_sameViewData first second item s.m_unknownAddresses s
  exact ⟨h.1, h.2.1, h.2.2⟩

theorem indexPhoneNumbers_sameViewData (env : Env) (iid item : Nat) (numbers : List String) :
    ∀ (oldAddresses : List (String × String)) (s : State) (modified : Bool),
      SameViewData s (indexPhoneNumbers env iid item numbers oldAddresses s modified).2.1 := by
  induction numbers with
  | nil => intro _ s _; exact sameViewData_refl s
  | cons number rest ih =>
    intro oldAddresses s modified
    unfold indexPhoneNumbers
    refine sameViewData_trans ?_ (ih _ _ _)
    by_cases h : addressPairPhone env number ∈ oldAddresses
    · simp only [h, if_true]
      exact ⟨rfl, rfl, rfl⟩
    · simp only [h, if_false]
      have h1 := resolveUnknownAddresses_sameViewData s (addressPairPhone env number).1
        (addressPairPhone env number).2 item
      exact ⟨h1.1, h1.2.1, h1.2.2⟩

theorem indexEmailAddresses_sameViewData (env : Env) (iid item : Nat)
    (addresses : List String) :
    ∀ (oldAddresses : List (String × String)) (s : State) (modified : Bool),
      SameViewData s
        (indexEmailAddresses env iid item addresses oldAddresses s modified).2.1 := by
  induction addresses with
  | nil => intro _ s _; exact sameViewData_refl s
  | cons address rest ih =>
    intro oldAddresses s modified
    unfold indexEmailAddresses
    refine sameViewData_trans ?_ (ih _ _ _)
    by_cases h : addressPairEmail env address ∈ oldAddresses
    · simp only [h, if_true]
      exact ⟨rfl, rfl, rfl⟩
    · simp only [h, if_false]
      have h1 := resolveUnknownAddresses_sameViewData s (addressPairEmail env address).1
        (addressPairEmail env address).2 item
      exact ⟨h1.1, h1.2.1, h1.2.2⟩

theorem indexOnlineAccounts_sameViewData (env : Env) (iid item : Nat)
    (accounts : List (String × String)) :
    ∀ (oldAddresses : List (String × String)) (s : State) (modified : Bool),
      SameViewData s
        (indexOnlineAccounts env iid item accounts oldAddresses s modified).2.1 := by
  induction accounts with
  | nil => intro _ s _; exact sameViewData_refl s
  | cons account rest ih =>
    intro oldAddresses s modified
    unfold indexOnlineAccounts
    refine sameViewData_trans ?_ (ih _ _ _)
    by_cases h : addressPairAccount env account ∈ oldAddresses
    · simp only [h, if_true]
      exact ⟨rfl, rfl, rfl⟩
    · simp only [h, if_false]
      have h1 := resolveUnknownAddresses_sameViewData s (addressPairAccount env account).1
        (addressPairAccount env account).2 item
      exact ⟨h1.1, h1.2.1, h1.2.2⟩

theorem updatePhoneNumberIndexing_sameViewData (env : Env) (s : State)
    (oldContact contact : QContact) (iid item : Nat) (modified : Bool) :
    SameViewData s
      (updatePhoneNumberIndexing env s oldContact contact iid item modified).2 := by
  unfold updatePhoneNumberIndexing
  simp only
  have h := indexPhoneNumbers_sameViewData env iid item contact.phoneNumbers
    (insertAddresses [] (oldContact.phoneNumbers.map (addressPairPhone env))) s modified
  split
  · exact h
  · exact ⟨h.1, h.2.1, h.2.2⟩

theorem updateEmailAddressIndexing_sameViewData (env : Env) (s : State)
    (oldContact contact : QContact) (iid item : Nat) (modified : Bool) :
    SameViewData s
      (updateEmailAddressIndexing env s oldContact contact iid item modified).2 := by
  unfold updateEmailAddressIndexing
  simp only
  have h := indexEmailAddresses_sameViewData env iid item contact.emailAddresses
    (insertAddresses [] (oldContact.emailAddresses.map (addressPairEmail env))) s modified
  split
  · exact h
  · exact ⟨h.1, h.2.1, h.2.2⟩

theorem updateOnlineAccountIndexing_sameViewData (env : Env) (s : State)
    (oldContact contact : QContact) (iid item : Nat) (modified : Bool) :
    SameViewData s
      (updateOnlineAccountIndexing env s oldContact contact iid item modified).2 := by
  unfold updateOnlineAccountIndexing
  simp only
  have h := indexOnlineAccounts_sameViewData env iid item contact.onlineAccounts
    (insertAddresses [] (oldContact.onlineAccounts.map (addressPairAccount env))) s modified
  split
  · exact h
  · exact ⟨h.1, h.2.1, h.2.2⟩

theorem updateContactIndexing_sameViewData (env : Env) (s : State)
    (oldContact contact : QContact) (iid : Nat) (queryDetailTypes : List DetailTypeId)
    (item : Nat) :
    SameViewData s
      (updateContactIndexing env s oldContact contact iid queryDetailTypes item).2 := by
  unfold updateContactIndexing
  simp only
  have h1 : SameViewData s
      (if detailTypeQueried queryDetailTypes .PhoneNumber then
        updatePhoneNumberIndexing env s oldContact contact iid item false
      else (false, s)).2 := by
    split
    · exact updatePhoneNumberIndexing_sameViewData _ _ _ _ _ _ _
    · exact sameViewData_refl s
  generalize (if detailTypeQueried queryDetailTypes .PhoneNumber then
        updatePhoneNumberIndexing env s oldContact contact iid item false
      else (false, s)) = r1 at h1 ⊢
  have h2 : SameViewData s
      (if detailTypeQueried queryDetailTypes .EmailAddress then
        updateEmailAddressIndexing env r1.2 oldContact contact iid item r1.1
      else r1).2 := by
    split
    · exact sameViewData_trans h1 (updateEmailAddressIndexing_sameViewData _ _ _ _ _ _ _)
    · exact h1
  generalize (if detailTypeQueried queryDetailTypes .EmailAddress then
        updateEmailAddressIndexing env r1.2 oldContact contact iid item r1.1
      else r1) = r2 at h2 ⊢
  split
  · exact sameViewData_trans h2 (updateOnlineAccountIndexing_sameViewData _ _ _ _ _ _ _)
  · exact h2

theorem updateCache_sameViewData (env : Env) (s : State) (key : Nat) (contact : QContact)
    (partialFetch : Bool) : SameViewData s (updateCache env s key contact partialFetch) := by
  unfold updateCache
  split
  · exact sameViewData_refl s
  · exact ⟨rfl, rfl, rfl⟩

theorem addToContactNameGroup_sameViewData (s : State) (iid : Nat) (group : Option String)
    (modifiedGroups : List String) :
    SameViewData s (addToContactNameGroup s iid group modifiedGroups).1 := by
  unfold addToContactNameGroup
  split
  · exact sameViewData_refl s
  · simp only
    split <;> exact ⟨rfl, rfl, rfl⟩

theorem removeFromContactNameGroup_sameViewData (s : State) (iid : Nat)
    (group : Option String) (modifiedGroups : List String) :
    SameViewData s (removeFromContactNameGroup s iid group modifiedGroups).1 := by
  unfold removeFromContactNameGroup
  split
  · exact sameViewData_refl s
  · exact ⟨rfl, rfl, rfl⟩

theorem notifyNameGroupsChanged_sameViewData (s : State) (groups : List String) :
    SameViewData s (notifyNameGroupsChanged s groups) := by
  unfold notifyNameGroupsChanged
  split
  · exact sameViewData_refl s
  · exact ⟨rfl, rfl, rfl⟩

theorem peopleItem_sameViewData (s : State) (iid : Nat) :
    SameViewData s (peopleItem s iid).2 := by
  unfold peopleItem
  split
  · exact sameViewData_refl s
  · exact ⟨rfl, rfl, rfl⟩

theorem removeFromNameGroupOf_sameViewData (s : State) (iid : Nat) :
    SameViewData s (removeFromNameGroupOf s iid) := by
  unfold removeFromNameGroupOf
  split
  · exact sameViewData_refl s
  · exact sameViewData_trans (removeFromContactNameGroup_sameViewData _ _ _ _)
      (notifyNameGroupsChanged_sameViewData _ _)


theorem isSome_hashInsert {κ ν : Type} [DecidableEq κ] (m : List (κ × ν)) (k k₀ : κ) (v : ν) :
    (hashFind (hashInsert m k v) k₀).isSome ↔ k₀ = k ∨ (hashFind m k₀).isSome := by
  by_cases h : k = k₀
  · subst h
    rw [hashFind_hashInsert_self]
    simp
  · rw [hashFind_hashInsert_ne m k k₀ v h]
    constructor
    · exact Or.inr
    · rintro (h1 | h1)
      · exact absurd h1.symm h
      · exact h1

theorem isSome_hashRemove {κ ν : Type} [DecidableEq κ] (m : List (κ × ν)) (k k₀ : κ) :
    (hashFind (hashRemove m k) k₀).isSome ↔ k₀ ≠ k ∧ (hashFind m k₀).isSome := by
  by_cases h : k = k₀
  · subst h
    rw [hashFind_hashRemove_self]
    simp
  · rw [hashFind_hashRemove_ne m k k₀ h]
    constructor
    · exact fun h1 => ⟨fun e => h e.symm, h1⟩
    · exact fun h1 => h1.2

theorem insertAt_perm {α : Type} (l : List α) (i : Nat) (a : α) :
    List.Perm (insertAt l i a) (a :: l) := by
  unfold insertAt
  have h := @List.perm_middle α a (l.take i) (l.drop i)
  rw [List.take_append_drop] at h
  exact h

theorem removeAt_nodup {α : Type} (l : List α) :
    ∀ (p : Nat) (a : α), l.Nodup → l.get? p = some a →
      (removeAt l p).Nodup ∧ ∀ b, b ∈ removeAt l p ↔ b ∈ l ∧ b ≠ a := by
  induction l with
  | nil => intro p a _ h; simp at h
  | cons x rest ih =>
    intro p a hn h
    obtain ⟨hx, hr⟩ := List.nodup_cons.mp hn
    cases p with
    | zero =>
      simp only [List.get?_cons_zero, Option.some.injEq] at h
      subst h
      refine ⟨hr, fun b => ?_⟩
      simp only [removeAt, List.mem_cons]
      constructor
      · intro hb
        exact ⟨Or.inr hb, fun e => hx (e ▸ hb)⟩
      · rintro ⟨hb | hb, hne⟩
        · exact absurd hb hne
        · exact hb
    | succ p =>
      simp only [List.get?_cons_succ] at h
      obtain ⟨i1, i2⟩ := ih p a hr h
      have ha : a ∈ rest := List.get?_mem h
      refine ⟨?_, fun b => ?_⟩
      · simp only [removeAt]
        refine List.nodup_cons.mpr ⟨fun hm => hx ((i2 x).mp hm).1, i1⟩
      · simp only [removeAt, List.mem_cons, i2 b]
        constructor
        · rintro (hb | ⟨hb, hne⟩)
          · exact ⟨Or.inl hb, fun e => hx (hb ▸ e ▸ ha)⟩
          · exact ⟨Or.inr hb, hne⟩
        · rintro ⟨hb | hb, hne⟩
          · exact Or.inl hb
          · exact Or.inr ⟨hb, hne⟩

theorem viewIndexed_insert (cacheIds : List Nat) (indices : List (Nat × Int)) (i : Nat)
    (a : Nat) (x : Int) (hn : cacheIds.Nodup)
    (hk : ∀ id, (hashFind indices id).isSome ↔ id ∈ cacheIds) (ha : a ∉ cacheIds) :
    (insertAt cacheIds i a).Nodup ∧
      ∀ id, (hashFind (hashInsert indices a x) id).isSome ↔ id ∈ insertAt cacheIds i a := by
  have hp := insertAt_perm cacheIds i a
  refine ⟨hp.nodup_iff.mpr (List.nodup_cons.mpr ⟨ha, hn⟩), fun id => ?_⟩
  rw [isSome_hashInsert, hp.mem_iff, List.mem_cons, hk id]

theorem viewIndexed_append (cacheIds : List Nat) (indices : List (Nat × Int))
    (a : Nat) (x : Int) (hn : cacheIds.Nodup)
    (hk : ∀ id, (hashFind indices id).isSome ↔ id ∈ cacheIds) (ha : a ∉ cacheIds) :
    (cacheIds ++ [a]).Nodup ∧
      ∀ id, (hashFind (hashInsert indices a x) id).isSome ↔ id ∈ cacheIds ++ [a] := by
  refine ⟨?_, fun id => ?_⟩
  · rw [List.nodup_append]
    refine ⟨hn, List.nodup_singleton a, ?_⟩
    intro b hb hb'
    rw [List.mem_singleton] at hb'
    exact ha (hb' ▸ hb)
  · rw [isSome_hashInsert, List.mem_append, List.mem_singleton, hk id]
    exact Or.comm

theorem viewIndexed_remove (cacheIds : List Nat) (indices : List (Nat × Int)) (p : Nat)
    (a : Nat) (hn : cacheIds.Nodup)
    (hk : ∀ id, (hashFind indices id).isSome ↔ id ∈ cacheIds) (ha : cacheIds.get? p = some a) :
    (removeAt cacheIds p).Nodup ∧
      ∀ id, (hashFind (hashRemove indices a) id).isSome ↔ id ∈ removeAt cacheIds p := by
  obtain ⟨h1, h2⟩ := removeAt_nodup cacheIds p a hn ha
  refine ⟨h1, fun id => ?_⟩
  rw [isSome_hashRemove, h2 id, hk id]
  exact And.comm

theorem drop_of_get? {α : Type} (l : List α) :
    ∀ (n : Nat) (a : α), l.get? n = some a → l.drop n = a :: l.drop (n + 1) := by
  induction l with
  | nil => intro n a h; simp at h
  | cons x rest ih =>
    intro n a h
    cases n with
    | zero =>
      simp only [List.get?_cons_zero, Option.some.injEq] at h
      subst h
      rfl
    | succ n =>
      simp only [List.get?_cons_succ] at h
      simp only [List.drop_succ_cons]
      exact ih n a h

theorem removeRangeLoop_viewIndexed (filter : FilterType) (index : Nat) :
    ∀ (count : Nat) (s s' : State), removeRangeLoop filter index count s = some s' →
      ViewIndexed s filter → ViewIndexed s' filter := by
  intro count
  induction count with
  | zero =>
    intro s s' h hv
    unfold removeRangeLoop at h
    rw [← Option.some.inj h]
    exact hv
  | succ count ih =>
    intro s s' h hv
    unfold removeRangeLoop at h
    split at h
    · cases h
    · rename_i iid hat
      refine ih _ s' h ?_
      have hget : (s.m_contacts.get filter).get? index = some iid := hat
      have hr := viewIndexed_remove _ _ _ _ hv.1 hv.2 hget
      unfold ViewIndexed
      simp only [filterArray_get_set_self]
      exact hr

theorem removeRange_viewIndexed (s s' : State) (filter : FilterType) (index count : Nat)
    (h : removeRange s filter index count = some s') (hv : ViewIndexed s filter) :
    ViewIndexed s' filter := by
  unfold removeRange at h
  simp only at h
  split at h
  · cases h
  · rename_i s2 hloop
    rw [← Option.some.inj h]
    exact removeRangeLoop_viewIndexed filter index count _ s2 hloop hv

theorem insertRangeLoop_viewIndexed (env : Env) (filter : FilterType) (index : Nat)
    (queryIds : List Nat) (queryIndex : Nat) :
    ∀ (remaining i : Nat) (s s' : State),
      insertRangeLoop env filter index queryIds queryIndex remaining i s = some s' →
      ViewIndexed s filter →
      (((queryIds.drop (queryIndex + i)).take remaining).filter
        (fun iid => decide (iid ≠ internalId env.selfContactId))).Nodup →
      (∀ id ∈ ((queryIds.drop (queryIndex + i)).take remaining).filter
        (fun iid => decide (iid ≠ internalId env.selfContactId)),
        id ∉ s.m_contacts.get filter) →
      ViewIndexed s' filter := by
  intro remaining
  induction remaining with
  | zero =>
    intro i s s' h hv _ _
    unfold insertRangeLoop at h
    rw [← Option.some.inj h]
    exact hv
  | succ remaining ih =>
    intro i s s' h hv hn hf
    unfold insertRangeLoop at h
    split at h
    · cases h
    · rename_i iid hat
      have hget : queryIds.get? (queryIndex + i) = some iid := hat
      rw [drop_of_get? queryIds _ iid hget, List.take_succ_cons] at hn hf
      by_cases hself : iid = internalId env.selfContactId
      · rw [if_pos hself] at h
        rw [List.filter_cons_of_neg (by simp [hself])] at hn hf
        exact ih (i + 1) s s' h hv hn hf
      · rw [if_neg hself] at h
        rw [List.filter_cons_of_pos (by simp [hself])] at hn hf
        obtain ⟨hnot, hn'⟩ := List.nodup_cons.mp hn
        have hfresh : iid ∉ s.m_contacts.get filter := hf iid (List.mem_cons_self _ _)
        have hr := viewIndexed_insert (s.m_contacts.get filter) (s.m_contactIndices.get filter)
          (index + i) iid (Int.ofNat (index + i)) hv.1 hv.2 hfresh
        refine ih (i + 1) _ s' h ?_ hn' ?_
        · unfold ViewIndexed
          simp only [filterArray_get_set_self]
          exact hr
        · intro id hid
          simp only [filterArray_get_set_self]
          rw [(insertAt_perm _ _ _).mem_iff, List.mem_cons]
          rintro (e | hm)
          · exact hnot (e ▸ hid)
          · exact hf id (List.mem_cons_of_mem _ hid) hm

theorem appendContact_viewData (env : Env) (filterType : FilterType) (partialFetch : Bool)
    (acc : State × List String) (contact : QContact) :
    (appendContact env filterType partialFetch acc contact).1.m_contacts =
        acc.1.m_contacts.set filterType
          (acc.1.m_contacts.get filterType ++ [internalId contact.id]) ∧
      (appendContact env filterType partialFetch acc contact).1.m_contactIndices =
        acc.1.m_contactIndices.set filterType
          (hashInsert (acc.1.m_contactIndices.get filterType) (internalId contact.id)
            (Int.ofNat
              ((acc.1.m_contacts.get filterType ++ [internalId contact.id]).length - 1))) ∧
      (appendContact env filterType partialFetch acc contact).1.m_expiredContacts =
        acc.1.m_expiredContacts := by
  have key : ∀ s1 : State, SameViewData s1
      (let r := peopleItem s1 (internalId contact.id)
       let cacheItem := r.1
       let s2 := r.2
       let s3 :=
         if cacheItem.iid = 0 ∨ cacheItem.contact.isFavorite = false then
           let s21 := { s2 with m_people := hashInsert s2.m_people (internalId contact.id)
                                  { cacheItem with iid := internalId contact.id } }
           let s22 := (updateContactIndexing env s21 QContact.empty contact
             (internalId contact.id) [] (internalId contact.id)).2
           updateCache env s22 (internalId contact.id) contact partialFetch
         else s2
       if filterType = .FilterAll then
         addToContactNameGroup s3 (internalId contact.id)
           (nameGroup (existingItem s3 (internalId contact.id))) acc.2
       else (s3, acc.2)).1 := by
    intro s1
    simp only
    have h2 := peopleItem_sameViewData s1 (internalId contact.id)
    have h3 : SameViewData s1
        (if (peopleItem s1 (internalId contact.id)).1.iid = 0 ∨
            (peopleItem s1 (internalId contact.id)).1.contact.isFavorite = false then
          updateCache env
            (updateContactIndexing env
              { (peopleItem s1 (internalId contact.id)).2 with
                m_people := hashInsert (peopleItem s1 (internalId contact.id)).2.m_people
                  (internalId contact.id)
                  { (peopleItem s1 (internalId contact.id)).1 with
                    iid := internalId contact.id } }
              QContact.empty contact (internalId contact.id) [] (internalId contact.id)).2
            (internalId contact.id) contact partialFetch
        else (peopleItem s1 (internalId contact.id)).2) := by
      split
      · refine sameViewData_trans ?_ (updateCache_sameViewData _ _ _ _ _)
        refine sameViewData_trans ?_ (updateContactIndexing_sameViewData _ _ _ _ _ _ _)
        exact ⟨h2.1, h2.2.1, h2.2.2⟩
      · exact h2
    split
    · exact sameViewData_trans h3 (addToContactNameGroup_sameViewData _ _ _ _)
    · exact h3
  have h := key { acc.1 with
    m_contacts := acc.1.m_contacts.set filterType
      (acc.1.m_contacts.get filterType ++ [internalId contact.id]),
    m_contactIndices := acc.1.m_contactIndices.set filterType
      (hashInsert (acc.1.m_contactIndices.get filterType) (internalId contact.id)
        (Int.ofNat ((acc.1.m_contacts.get filterType ++ [internalId contact.id]).length - 1))) }
  exact ⟨h.1, h.2.1, h.2.2⟩

theorem appendContact_foldl_viewIndexed (env : Env) (filterType : FilterType)
    (partialFetch : Bool) (contacts : List QContact) :
    ∀ acc : State × List String, ViewIndexed acc.1 filterType →
      (contacts.map (fun c => internalId c.id)).Nodup →
      (∀ id ∈ contacts.map (fun c => internalId c.id), id ∉ acc.1.m_contacts.get filterType) →
      ViewIndexed (contacts.foldl (appendContact env filterType partialFetch) acc).1
          filterType ∧
        (contacts.foldl (appendContact env filterType partialFetch) acc).1.m_expiredContacts =
          acc.1.m_expiredContacts := by
  induction contacts with
  | nil => intro acc hv _ _; exact ⟨hv, rfl⟩
  | cons contact rest ih =>
    intro acc hv hn hf
    simp only [List.map_cons] at hn hf
    obtain ⟨hnot, hn'⟩ := List.nodup_cons.mp hn
    obtain ⟨h1, h2, h3⟩ := appendContact_viewData env filterType partialFetch acc contact
    have hfresh : internalId contact.id ∉ acc.1.m_contacts.get filterType :=
      hf _ (List.mem_cons_self _ _)
    have hr := viewIndexed_append (acc.1.m_contacts.get filterType)
      (acc.1.m_contactIndices.get filterType) (internalId contact.id)
      (Int.ofNat ((acc.1.m_contacts.get filterType ++ [internalId contact.id]).length - 1))
      hv.1 hv.2 hfresh
    simp only [List.foldl_cons]
    obtain ⟨i1, i2⟩ := ih (appendContact env filterType partialFetch acc contact)
      (by
        unfold ViewIndexed
        rw [h1, h2, filterArray_get_set_self, filterArray_get_set_self]
        exact hr)
      hn'
      (by
        intro id hid
        rw [h1, filterArray_get_set_self, List.mem_append, List.mem_singleton]
        rintro (hm | e)
        · exact hf id (List.mem_cons_of_mem _ hid) hm
        · exact hnot (e ▸ hid))
    exact ⟨i1, i2.trans h3⟩

theorem appendContacts_viewIndexed (env : Env) (s : State) (contacts : List QContact)
    (filterType : FilterType) (partialFetch : Bool) (hv : ViewIndexed s filterType)
    (hn : (contacts.map (fun c => internalId c.id)).Nodup)
    (hf : ∀ id ∈ contacts.map (fun c => internalId c.id), id ∉ s.m_contacts.get filterType) :
    ViewIndexed (appendContacts env s contacts filterType partialFetch) filterType ∧
      (appendContacts env s contacts filterType partialFetch).m_expiredContacts =
        s.m_expiredContacts := by
  unfold appendContacts
  split
  · exact ⟨hv, rfl⟩
  · simp only
    obtain ⟨h1, h2⟩ := appendContact_foldl_viewIndexed env filterType partialFetch contacts
      (notifyModels s (s.m_models.get filterType)
        (fun m => .sourceAboutToInsertItems m
          (Int.ofNat (s.m_contacts.get filterType).length)
          (Int.ofNat (s.m_contacts.get filterType).length + Int.ofNat contacts.length - 1)), [])
      hv hn hf
    have hn := notifyNameGroupsChanged_sameViewData
      (notifyModels
        (contacts.foldl (appendContact env filterType partialFetch)
          (notifyModels s (s.m_models.get filterType)
            (fun m => .sourceAboutToInsertItems m
              (Int.ofNat (s.m_contacts.get filterType).length)
              (Int.ofNat (s.m_contacts.get filterType).length + Int.ofNat contacts.length - 1)),
            [])).1
        (s.m_models.get filterType)
        (fun m => .sourceItemsInserted m
          (Int.ofNat (s.m_contacts.get filterType).length)
          (Int.ofNat (s.m_contacts.get filterType).length + Int.ofNat contacts.length - 1)))
      (contacts.foldl (appendContact env filterType partialFetch)
          (notifyModels s (s.m_models.get filterType)
            (fun m => .sourceAboutToInsertItems m
              (Int.ofNat (s.m_contacts.get filterType).length)
              (Int.ofNat (s.m_contacts.get filterType).length + Int.ofNat contacts.length - 1)),
            [])).2
    refine ⟨?_, hn.2.2.trans h2⟩
    unfold ViewIndexed
    rw [hn.1, hn.2.1]
    exact h1

theorem indexOf_neg_one {α : Type} [DecidableEq α] (l : List α) (a : α)
    (h : indexOf l a = -1) : a ∉ l := by
  induction l with
  | nil => simp
  | cons b rest ih =>
    unfold indexOf at h
    by_cases hb : b = a
    · rw [if_pos hb] at h
      cases h
    · rw [if_neg hb] at h
      rcases indexOf_get rest a with h1 | ⟨n, h1, _⟩
      · intro hm
        rcases List.mem_cons.mp hm with e | hm
        · exact hb e.symm
        · exact ih h1 hm
      · rw [h1] at h
        cases h

theorem contactIndex_viewIndexed (s s1 : State) (iid : Nat) (filter : FilterType) (row : Int)
    (h : contactIndex s iid filter = some (row, s1)) (hv : ViewIndexed s filter) :
    ViewIndexed s1 filter := by
  have hs := (contactIndex_same s s1 iid filter row h).2.1.2
  unfold contactIndex at h
  simp only [] at h
  split at h
  · simp only [Option.some.injEq, Prod.mk.injEq] at h
    rw [← h.2]
    exact hv
  · rename_i index hfind
    split at h
    · exact absurd h (by simp)
    · rename_i contactIid hat
      split at h
      · split at h
        · rename_i hidx
          have hmem : iid ∈ s.m_contacts.get filter := by
            rw [← hv.2 iid, hfind]
            rfl
          exact absurd hmem (indexOf_neg_one _ _ hidx)
        · simp only [Option.some.injEq, Prod.mk.injEq] at h
          obtain ⟨_, h2⟩ := h
          subst h2
          refine ⟨hv.1, fun id => ?_⟩
          simp only [filterArray_get_set_self]
          rw [isSome_hashInsert, ← hv.2 id]
          constructor
          · rintro (e | hm)
            · rw [e, hfind]
              rfl
            · exact hm
          · exact Or.inr
      · simp only [Option.some.injEq, Prod.mk.injEq] at h
        rw [← h.2]
        exact hv

theorem removeContactData_viewIndexed (s s' : State) (iid : Nat) (filter : FilterType)
    (h : removeContactData s iid filter = some s') (hv : ViewIndexed s filter) :
    ViewIndexed s' filter := by
  unfold removeContactData at h
  split at h
  · cases h
  · rename_i row s1 hci
    have hv1 := contactIndex_viewIndexed s s1 iid filter row hci hv
    split at h
    · rw [← Option.some.inj h]
      exact hv1
    · simp only at h
      split at h
      · cases h
      · rename_i rowId hat
        have hrow : ∃ n : Nat, row = Int.ofNat n := by
          cases row with
          | ofNat n => exact ⟨n, rfl⟩
          | negSucc n => simp [notifyModels, listAt] at hat
        obtain ⟨n, hn⟩ := hrow
        subst hn
        have hget : (s1.m_contacts.get filter).get? n = some rowId := hat
        have hr := viewIndexed_remove _ _ n rowId hv1.1 hv1.2 hget
        rw [← Option.some.inj h]
        have hframe : ∀ s3 : State, SameViewData s3
            (if filter = .FilterAll then removeFromNameGroupOf s3 iid else s3) := by
          intro s3
          split
          · exact removeFromNameGroupOf_sameViewData s3 iid
          · exact sameViewData_refl s3
        have hf := hframe { notifyModels s1 (s1.m_models.get filter)
              (fun m => .sourceAboutToRemoveItems m (Int.ofNat n) (Int.ofNat n)) with
            m_contactIndices := s1.m_contactIndices.set filter
              (hashRemove (s1.m_contactIndices.get filter) rowId),
            m_contacts := s1.m_contacts.set filter
              (removeAt (s1.m_contacts.get filter) (Int.ofNat n).toNat) }
        unfold ViewIndexed
        simp only [notifyModels] at hf ⊢
        rw [hf.1, hf.2.1]
        simp only [filterArray_get_set_self]
        exact hr

theorem insertRange_viewIndexed (env : Env) (s : State) (filter : FilterType)
    (index count : Nat) (queryIds : List Nat) (queryIndex : Nat) (r : State × Int)
    (h : insertRange env s filter index count queryIds queryIndex = some r)
    (hv : ViewIndexed s filter)
    (hn : (((queryIds.drop queryIndex).take count).filter
        (fun iid => decide (iid ≠ internalId env.selfContactId))).Nodup)
    (hf : ∀ id ∈ ((queryIds.drop queryIndex).take count).filter
        (fun iid => decide (iid ≠ internalId env.selfContactId)),
        id ∉ s.m_contacts.get filter) :
    ViewIndexed r.1 filter := by
  unfold insertRange at h
  simp only at h
  split at h
  · cases h
  · rename_i s2 hloop
    rw [← Option.some.inj h]
    exact insertRangeLoop_viewIndexed env filter index queryIds queryIndex count 0 _ s2 hloop
      hv hn hf

theorem viewOp_viewIndexed (env : Env) (filter : FilterType) (s s' : State) (op : ViewOp)
    (h : op.run env filter s = some s') (hv : ViewIndexed s filter)
    (hn : (op.inserted env).Nodup)
    (hf : ∀ id ∈ op.inserted env, id ∉ s.m_contacts.get filter) :
    ViewIndexed s' filter := by
  cases op with
  | appendContacts contacts partialFetch =>
    simp only [ViewOp.run, Option.some.injEq] at h
    rw [← h]
    exact (appendContacts_viewIndexed env s contacts filter partialFetch hv hn hf).1
  | insertRange index count queryIds queryIndex =>
    simp only [ViewOp.run] at h
    cases hr : insertRange env s filter index count queryIds queryIndex with
    | none =>
      rw [hr] at h
      cases h
    | some r =>
      rw [hr] at h
      simp only [Option.map_some', Option.some.injEq] at h
      rw [← h]
      exact insertRange_viewIndexed env s filter index count queryIds queryIndex r hr hv hn hf
  | removeRange index count =>
    exact removeRange_viewIndexed s s' filter index count h hv
  | removeContactData iid =>
    exact removeContactData_viewIndexed s s' iid filter h hv

theorem viewStates_viewIndexed (env : Env) (filter : FilterType) (ops : List ViewOp) :
    ∀ (s : State) (states : List State), ViewIndexed s filter →
      freshInsertions env filter s ops = true →
      viewStates env filter s ops = some states →
      states.length = ops.length ∧ ∀ s' ∈ states, ViewIndexed s' filter := by
  induction ops with
  | nil =>
    intro s states _ _ hrun
    simp only [viewStates, Option.some.injEq] at hrun
    subst hrun
    exact ⟨rfl, fun s' hs => by cases hs⟩
  | cons op rest ih =>
    intro s states hv hfresh hrun
    unfold viewStates at hrun
    unfold freshInsertions at hfresh
    cases hop : op.run env filter s with
    | none =>
      rw [hop] at hrun
      cases hrun
    | some s1 =>
      rw [hop] at hrun hfresh
      simp only at hrun
      simp only [Bool.and_eq_true, decide_eq_true_eq, List.all_eq_true] at hfresh
      obtain ⟨⟨hn, hf⟩, hrest⟩ := hfresh
      have hv1 := viewOp_viewIndexed env filter s s1 op hop hv hn hf
      cases hr : viewStates env filter s1 rest with
      | none =>
        rw [hr] at hrun
        cases hrun
      | some states1 =>
        rw [hr] at hrun
        simp only [Option.map_some', Option.some.injEq] at hrun
        subst hrun
        obtain ⟨i1, i2⟩ := ih s1 states1 hv1 hrest hr
        refine ⟨by simp [i1], fun s' hs => ?_⟩
        rcases List.mem_cons.mp hs with e | hs
        · rw [e]
          exact hv1
        · exact i2 s' hs

/-- C37 (counterexample): the same contact is appended to the empty All view twice and the
first row is then removed. All three calls are defined; after the first the view holds the
id 5 twice and the reverse index has the one key 5, and after the second the view still holds
the id 5 while the reverse index has no key at all. -/
theorem repeated_id_stays_in_view_without_index_key :
    (viewStates exampleEnv .FilterAll State.init viewOpsWithRepeatedId).map
        (fun states => states.map (fun s =>
          (s.m_contacts.get .FilterAll, (s.m_contactIndices.get .FilterAll).map Prod.fst))) =
      some [([5, 5], [5]), ([5], [])] ∧
    freshInsertions exampleEnv .FilterAll State.init viewOpsWithRepeatedId = false := by
  decide

/-- C37 (amended): for every sequence of appendContacts, insertRange, removeRange and
removeContactData applied to a view that starts empty with an empty reverse index, in which no
operation inserts an id that the view holds at that time or inserts one id twice, and for
every cache the sequence leads to after one of its operations (each call of the sequence
being defined), the ids held as keys of the view's reverse index are exactly the ids in the
view's id sequence, and no id is in the sequence twice. -/
theorem reverse_index_keys_are_view_ids (env : Env) (filter : FilterType) (s : State)
    (ops : List ViewOp) (hview : s.m_contacts.get filter = [])
    (hindex : s.m_contactIndices.get filter = [])
    (hfresh : freshInsertions env filter s ops = true) :
    ∀ states, viewStates env filter s ops = some states →
      states.length = ops.length ∧
      ∀ s' ∈ states, (s'.m_contacts.get filter).Nodup ∧
        ∀ id, (hashFind (s'.m_contactIndices.get filter) id).isSome ↔
          id ∈ s'.m_contacts.get filter := by
  intro states hrun
  have hv : ViewIndexed s filter := by
    unfold ViewIndexed
    rw [hview, hindex]
    exact ⟨List.nodup_nil, fun id => by simp [hashFind]⟩
  exact viewStates_viewIndexed env filter ops s states hv hfresh hrun

theorem reverse_index_keys_are_view_ids_witness :
    State.init.m_contacts.get .FilterAll = [] ∧
    State.init.m_contactIndices.get .FilterAll = [] ∧
    freshInsertions exampleEnv .FilterAll State.init viewOpsExample = true ∧
    (viewStates exampleEnv .FilterAll State.init viewOpsExample).map
        (fun states => states.map (fun s =>
          (s.m_contacts.get .FilterAll, (s.m_contactIndices.get .FilterAll).map Prod.fst))) =
      some [([4, 5, 6], [4, 5, 6]), ([5, 6], [5, 6]), ([7, 5, 6], [5, 6, 7]),
        ([7, 5], [5, 7]), ([7, 5, 4], [5, 7, 4])] ∧
    ∀ states, viewStates exampleEnv .FilterAll State.init viewOpsExample = some states →
      states.length = viewOpsExample.length ∧
      ∀ s' ∈ states, (s'.m_contacts.get .FilterAll).Nodup ∧
        ∀ id, (hashFind (s'.m_contactIndices.get .FilterAll) id).isSome ↔
          id ∈ s'.m_contacts.get .FilterAll :=
  ⟨by decide, by decide, by decide, by decide,
    reverse_index_keys_are_view_ids exampleEnv .FilterAll State.init viewOpsExample
      (by decide) (by decide) (by decide)⟩

/-! ## Items of the identity store are kept -/

theorem keepsItems_refl (s : State) : KeepsItems s s := fun _ hk => hk

theorem keepsItems_trans {s₁ s₂ s₃ : State} (h₁ : KeepsItems s₁ s₂)
    (h₂ : KeepsItems s₂ s₃) : KeepsItems s₁ s₃ :=
  fun k hk => h₂ k (h₁ k hk)

theorem keepsItems_insert (s s' : State) (key : Nat) (item : CacheItem)
    (h : s'.m_people = hashInsert s.m_people key item) : KeepsItems s s' := by
  intro k hk
  rw [h, isSome_hashInsert]
  exact Or.inr hk


theorem requestUpdate_keepsItems (s : State) : KeepsItems s (requestUpdate s) := by
  unfold requestUpdate State.emit
  split <;> exact (fun _ hk => hk)

theorem fetchContacts_keepsItems (s : State) : KeepsItems s (fetchContacts s) := by
  unfold fetchContacts
  split
  · exact (fun _ hk => hk)
  · refine keepsItems_trans ?_ (requestUpdate_keepsItems _)
    by_cases h : s.m_contactsUpdated = true
    · simp only [h, if_true]
      exact (fun _ hk => hk)
    · simp only [h, if_false]
      exact (fun _ hk => hk)

theorem refreshContact_keepsItems (s : State) (key : Nat) :
    KeepsItems s (refreshContact s key) := by
  unfold refreshContact
  split
  · exact keepsItems_refl s
  · refine keepsItems_trans ?_ (fetchContacts_keepsItems _)
    exact keepsItems_insert _ _ _ _ rfl

theorem ensureCompletion_keepsItems (s : State) (key : Nat) :
    KeepsItems s (ensureCompletion s key) := by
  unfold ensureCompletion
  split
  · exact keepsItems_refl s
  · split
    · exact refreshContact_keepsItems s key
    · exact keepsItems_refl s

theorem itemById_keepsItems (s : State) (id : Nat) (requireComplete : Bool) :
    KeepsItems s (itemById s id requireComplete).2 := by
  unfold itemById
  split
  · exact keepsItems_refl s
  · simp only
    have h0 : KeepsItems s
        (match hashFind s.m_people (internalId id) with
         | some _ => s
         | none => { s with m_people := hashInsert s.m_people (internalId id)
                                          { contact := { id := id } } }) := by
      split
      · exact keepsItems_refl s
      · exact keepsItems_insert _ _ _ _ rfl
    split
    · exact keepsItems_trans h0 (ensureCompletion_keepsItems _ _)
    · exact h0

theorem resolveUnknownAddressesLoop_keepsItems (first second : String) (item : Nat)
    (l : List ResolveData) :
    ∀ s : State, KeepsItems s (resolveUnknownAddressesLoop first second item l s).2 := by
  induction l with
  | nil => intro s; exact keepsItems_refl s
  | cons it rest ih =>
    intro s
    unfold resolveUnknownAddressesLoop
    split
    · refine keepsItems_trans ?_ (ih _)
      split
      · exact @keepsItems_trans s (s.emit _) _ (fun _ hk => hk)
          (ensureCompletion_keepsItems _ _)
      · exact (fun _ hk => hk)
    · exact ih s

theorem resolveUnknownAddresses_keepsItems (s : State) (first second : String)
    (item : Nat) : KeepsItems s (resolveUnknownAddresses s first second item) := by
  have h := resolveUnknownAddressesLoop_keepsItems first second item s.m_unknownAddresses s
  exact (fun k hk => h k hk)

theorem indexPhoneNumbers_keepsItems (env : Env) (iid item : Nat) (numbers : List String) :
    ∀ (oldAddresses : List (String × String)) (s : State) (modified : Bool),
      KeepsItems s (indexPhoneNumbers env iid item numbers oldAddresses s modified).2.1 := by
  induction numbers with
  | nil => intro _ s _; exact keepsItems_refl s
  | cons number rest ih =>
    intro oldAddresses s modified
    unfold indexPhoneNumbers
    refine keepsItems_trans ?_ (ih _ _ _)
    by_cases h : addressPairPhone env number ∈ oldAddresses
    · simp only [h, if_true]
      exact (fun _ hk => hk)
    · simp only [h, if_false]
      have h1 := resolveUnknownAddresses_keepsItems s (addressPairPhone env number).1
        (addressPairPhone env number).2 item
      exact (fun k hk => h1 k hk)

theorem indexEmailAddresses_keepsItems (env : Env) (iid item : Nat)
    (addresses : List String) :
    ∀ (oldAddresses : List (String × String)) (s : State) (modified : Bool),
      KeepsItems s
        (indexEmailAddresses env iid item addresses oldAddresses s modified).2.1 := by
  induction addresses with
  | nil => intro _ s _; exact keepsItems_refl s
  | cons address rest ih =>
    intro oldAddresses s modified
    unfold indexEmailAddresses
    refine keepsItems_trans ?_ (ih _ _ _)
    by_cases h : addressPairEmail env address ∈ oldAddresses
    · simp only [h, if_true]
      exact (fun _ hk => hk)
    · simp only [h, if_false]
      have h1 := resolveUnknownAddresses_keepsItems s (addressPairEmail env address).1
        (addressPairEmail env address).2 item
      exact (fun k hk => h1 k hk)

theorem indexOnlineAccounts_keepsItems (env : Env) (iid item : Nat)
    (accounts : List (String × String)) :
    ∀ (oldAddresses : List (String × String)) (s : State) (modified : Bool),
      KeepsItems s
        (indexOnlineAccounts env iid item accounts oldAddresses s modified).2.1 := by
  induction accounts with
  | nil => intro _ s _; exact keepsItems_refl s
  | cons account rest ih =>
    intro oldAddresses s modified
    unfold indexOnlineAccounts
    refine keepsItems_trans ?_ (ih _ _ _)
    by_cases h : addressPairAccount env account ∈ oldAddresses
    · simp only [h, if_true]
      exact (fun _ hk => hk)
    · simp only [h, if_false]
      have h1 := resolveUnknownAddresses_keepsItems s (addressPairAccount env account).1
        (addressPairAccount env account).2 item
      exact (fun k hk => h1 k hk)

theorem updatePhoneNumberIndexing_keepsItems (env : Env) (s : State)
    (oldContact contact : QContact) (iid item : Nat) (modified : Bool) :
    KeepsItems s
      (updatePhoneNumberIndexing env s oldContact contact iid item modified).2 := by
  unfold updatePhoneNumberIndexing
  simp only
  have h := indexPhoneNumbers_keepsItems env iid item contact.phoneNumbers
    (insertAddresses [] (oldContact.phoneNumbers.map (addressPairPhone env))) s modified
  split
  · exact h
  · exact (fun k hk => h k hk)

theorem updateEmailAddressIndexing_keepsItems (env : Env) (s : State)
    (oldContact contact : QContact) (iid item : Nat) (modified : Bool) :
    KeepsItems s
      (updateEmailAddressIndexing env s oldContact contact iid item modified).2 := by
  unfold updateEmailAddressIndexing
  simp only
  have h := indexEmailAddresses_keepsItems env iid item contact.emailAddresses
    (insertAddresses [] (oldContact.emailAddresses.map (addressPairEmail env))) s modified
  split
  · exact h
  · exact (fun k hk => h k hk)

theorem updateOnlineAccountIndexing_keepsItems (env : Env) (s : State)
    (oldContact contact : QContact) (iid item : Nat) (modified : Bool) :
    KeepsItems s
      (updateOnlineAccountIndexing env s oldContact contact iid item modified).2 := by
  unfold updateOnlineAccountIndexing
  simp only
  have h := indexOnlineAccounts_keepsItems env iid item contact.onlineAccounts
    (insertAddresses [] (oldContact.onlineAccounts.map (addressPairAccount env))) s modified
  split
  · exact h
  · exact (fun k hk => h k hk)

theorem updateContactIndexing_keepsItems (env : Env) (s : State)
    (oldContact contact : QContact) (iid : Nat) (queryDetailTypes : List DetailTypeId)
    (item : Nat) :
    KeepsItems s
      (updateContactIndexing env s oldContact contact iid queryDetailTypes item).2 := by
  unfold updateContactIndexing
  simp only
  have h1 : KeepsItems s
      (if detailTypeQueried queryDetailTypes .PhoneNumber then
        updatePhoneNumberIndexing env s oldContact contact iid item false
      else (false, s)).2 := by
    split
    · exact updatePhoneNumberIndexing_keepsItems _ _ _ _ _ _ _
    · exact keepsItems_refl s
  generalize (if detailTypeQueried queryDetailTypes .PhoneNumber then
        updatePhoneNumberIndexing env s oldContact contact iid item false
      else (false, s)) = r1 at h1 ⊢
  have h2 : KeepsItems s
      (if detailTypeQueried queryDetailTypes .EmailAddress then
        updateEmailAddressIndexing env r1.2 oldContact contact iid item r1.1
      else r1).2 := by
    split
    · exact keepsItems_trans h1 (updateEmailAddressIndexing_keepsItems _ _ _ _ _ _ _)
    · exact h1
  generalize (if detailTypeQueried queryDetailTypes .EmailAddress then
        updateEmailAddressIndexing env r1.2 oldContact contact iid item r1.1
      else r1) = r2 at h2 ⊢
  split
  · exact keepsItems_trans h2 (updateOnlineAccountIndexing_keepsItems _ _ _ _ _ _ _)
  · exact h2

theorem updateCache_keepsItems (env : Env) (s : State) (key : Nat) (contact : QContact)
    (partialFetch : Bool) : KeepsItems s (updateCache env s key contact partialFetch) := by
  unfold updateCache
  split
  · exact keepsItems_refl s
  · exact keepsItems_insert _ _ _ _ rfl

theorem addToContactNameGroup_keepsItems (s : State) (iid : Nat) (group : Option String)
    (modifiedGroups : List String) :
    KeepsItems s (addToContactNameGroup s iid group modifiedGroups).1 := by
  unfold addToContactNameGroup
  split
  · exact keepsItems_refl s
  · simp only
    split <;> exact (fun _ hk => hk)

theorem removeFromContactNameGroup_keepsItems (s : State) (iid : Nat)
    (group : Option String) (modifiedGroups : List String) :
    KeepsItems s (removeFromContactNameGroup s iid group modifiedGroups).1 := by
  unfold removeFromContactNameGroup
  split
  · exact keepsItems_refl s
  · exact (fun _ hk => hk)

theorem notifyNameGroupsChanged_keepsItems (s : State) (groups : List String) :
    KeepsItems s (notifyNameGroupsChanged s groups) := by
  unfold notifyNameGroupsChanged
  split
  · exact keepsItems_refl s
  · exact (fun _ hk => hk)

theorem contactIndex_keepsItems (s s1 : State) (iid : Nat) (filter : FilterType)
    (row : Int) (h : contactIndex s iid filter = some (row, s1)) : KeepsItems s s1 := by
  unfold contactIndex at h
  simp only at h
  split at h
  · cases h
    exact keepsItems_refl s
  · split at h
    · cases h
    · split at h
      · split at h <;> (cases h; exact (fun _ hk => hk))
      · cases h
        exact keepsItems_refl s

theorem contactDataChangedIn_keepsItems (s s1 : State) (iid : Nat) (filter : FilterType)
    (h : contactDataChangedIn s iid filter = some s1) : KeepsItems s s1 := by
  unfold contactDataChangedIn at h
  split at h
  · cases h
  · rename_i row s0 hc
    have h0 := contactIndex_keepsItems s s0 iid filter row hc
    split at h
    · cases h
      exact (fun k hk => h0 k hk)
    · cases h
      exact h0

theorem contactDataChanged_keepsItems (s s1 : State) (iid : Nat)
    (h : contactDataChanged s iid = some s1) : KeepsItems s s1 := by
  unfold contactDataChanged at h
  split at h
  · cases h
  · rename_i sa ha
    split at h
    · cases h
    · rename_i sb hb
      exact keepsItems_trans (contactDataChangedIn_keepsItems _ _ _ _ ha)
        (keepsItems_trans (contactDataChangedIn_keepsItems _ _ _ _ hb)
          (contactDataChangedIn_keepsItems _ _ _ _ h))

theorem saveContact_keepsItems (s s1 : State) (contact : QContact)
    (h : saveContact s contact = some s1) : KeepsItems s s1 := by
  unfold saveContact at h
  simp only at h
  split at h
  · cases h
  · rename_i s0 hq
    cases h
    refine keepsItems_trans ?_ (requestUpdate_keepsItems s0)
    split at hq
    · have h0 := contactDataChanged_keepsItems _ _ _ hq
      exact (fun k hk => h0 k hk)
    · cases hq
      exact (fun _ hk => hk)

theorem peopleItem_keepsItems (s : State) (iid : Nat) :
    KeepsItems s (peopleItem s iid).2 := by
  unfold peopleItem
  split
  · exact keepsItems_refl s
  · exact keepsItems_insert _ _ _ _ rfl


theorem appendContact_keepsItems (env : Env) (filterType : FilterType) (partialFetch : Bool)
    (acc : State × List String) (contact : QContact) :
    KeepsItems acc.1 (appendContact env filterType partialFetch acc contact).1 := by
  have key : ∀ s1 : State, KeepsItems s1
      (let r := peopleItem s1 (internalId contact.id)
       let cacheItem := r.1
       let s2 := r.2
       let s3 :=
         if cacheItem.iid = 0 ∨ cacheItem.contact.isFavorite = false then
           let s21 := { s2 with m_people := hashInsert s2.m_people (internalId contact.id)
                                  { cacheItem with iid := internalId contact.id } }
           let s22 := (updateContactIndexing env s21 QContact.empty contact
             (internalId contact.id) [] (internalId contact.id)).2
           updateCache env s22 (internalId contact.id) contact partialFetch
         else s2
       if filterType = .FilterAll then
         addToContactNameGroup s3 (internalId contact.id)
           (nameGroup (existingItem s3 (internalId contact.id))) acc.2
       else (s3, acc.2)).1 := by
    intro s1
    simp only
    have h2 := peopleItem_keepsItems s1 (internalId contact.id)
    have h3 : KeepsItems s1
        (if (peopleItem s1 (internalId contact.id)).1.iid = 0 ∨
            (peopleItem s1 (internalId contact.id)).1.contact.isFavorite = false then
          updateCache env
            (updateContactIndexing env
              { (peopleItem s1 (internalId contact.id)).2 with
                m_people := hashInsert (peopleItem s1 (internalId contact.id)).2.m_people
                  (internalId contact.id)
                  { (peopleItem s1 (internalId contact.id)).1 with
                    iid := internalId contact.id } }
              QContact.empty contact (internalId contact.id) [] (internalId contact.id)).2
            (internalId contact.id) contact partialFetch
        else (peopleItem s1 (internalId contact.id)).2) := by
      split
      · refine keepsItems_trans ?_ (updateCache_keepsItems _ _ _ _ _)
        refine keepsItems_trans ?_ (updateContactIndexing_keepsItems _ _ _ _ _ _ _)
        exact keepsItems_trans h2 (keepsItems_insert _ _ _ _ rfl)
      · exact h2
    split
    · exact keepsItems_trans h3 (addToContactNameGroup_keepsItems _ _ _ _)
    · exact h3
  have h := key { acc.1 with
    m_contacts := acc.1.m_contacts.set filterType
      (acc.1.m_contacts.get filterType ++ [internalId contact.id]),
    m_contactIndices := acc.1.m_contactIndices.set filterType
      (hashInsert (acc.1.m_contactIndices.get filterType) (internalId contact.id)
        (Int.ofNat ((acc.1.m_contacts.get filterType ++ [internalId contact.id]).length - 1))) }
  exact (fun k hk => h k hk)

theorem appendContact_foldl_keepsItems (env : Env) (filterType : FilterType)
    (partialFetch : Bool) (contacts : List QContact) :
    ∀ acc : State × List String,
      KeepsItems acc.1 (contacts.foldl (appendContact env filterType partialFetch) acc).1 := by
  induction contacts with
  | nil => intro acc; exact keepsItems_refl _
  | cons contact rest ih =>
    intro acc
    simp only [List.foldl_cons]
    exact keepsItems_trans (appendContact_keepsItems env filterType partialFetch acc contact)
      (ih _)

theorem appendContacts_keepsItems (env : Env) (s : State) (contacts : List QContact)
    (filterType : FilterType) (partialFetch : Bool) :
    KeepsItems s (appendContacts env s contacts filterType partialFetch) := by
  unfold appendContacts
  split
  · exact keepsItems_refl s
  · simp only
    refine keepsItems_trans ?_ (notifyNameGroupsChanged_keepsItems _ _)
    have h := appendContact_foldl_keepsItems env filterType partialFetch contacts
      (notifyModels s (s.m_models.get filterType)
        (fun m => .sourceAboutToInsertItems m
          (Int.ofNat (s.m_contacts.get filterType).length)
          (Int.ofNat (s.m_contacts.get filterType).length + Int.ofNat contacts.length - 1)), [])
    exact (fun k hk => h k hk)

theorem updateContactFromFetch_keepsItems (env : Env) (queryDetailTypes : List DetailTypeId)
    (partialFetch : Bool) (acc acc' : State × List String) (fetched : QContact)
    (h : updateContactFromFetch env queryDetailTypes partialFetch acc fetched = some acc') :
    KeepsItems acc.1 acc'.1 := by
  unfold updateContactFromFetch at h
  lift_lets at h
  extract_lets s iid preexisting s1 item oldNameGroup oldDisplayLabel contact avatarChanged
    presenceChanged indexed s2 item' roleDataChanged added grouped at h
  have h1 : KeepsItems acc.1 s1 := by
    by_cases hp : preexisting = true
    · have e : s1 = s := if_pos hp
      rw [e]
      exact keepsItems_refl _
    · have e : s1 = { s with m_people := hashInsert s.m_people iid { iid := iid } } := if_neg hp
      rw [e]
      exact keepsItems_insert _ _ _ _ rfl
  have h2 : KeepsItems s1 indexed.2 := updateContactIndexing_keepsItems _ _ _ _ _ _ _
  have h3 : KeepsItems indexed.2 s2 := updateCache_keepsItems _ _ _ _ _
  have h4 : KeepsItems s2 grouped.1 := by
    have e : grouped = (if qstringNe item'.nameGroup oldNameGroup = true then
        if (!ignoreContactForNameGroups env item'.contact) = true then
          match oldNameGroup with
          | none => added
          | some g => removeFromContactNameGroup added.1 item'.iid (some g) added.2
        else (s2, acc.2)
      else (s2, acc.2)) := rfl
    have ha : KeepsItems s2 added.1 := addToContactNameGroup_keepsItems _ _ _ _
    have hm : ∀ o : Option String, KeepsItems s2
        (match o with
          | none => added
          | some g => removeFromContactNameGroup added.1 item'.iid (some g) added.2).1 := by
      intro o
      cases o with
      | none => exact ha
      | some g => exact keepsItems_trans ha (removeFromContactNameGroup_keepsItems _ _ _ _)
    rw [e]
    split
    · split
      · exact hm oldNameGroup
      · exact keepsItems_refl _
    · exact keepsItems_refl _
  have h14 := keepsItems_trans h1 (keepsItems_trans h2 (keepsItems_trans h3 h4))
  split at h
  · split at h
    · cases h
    · rename_i s3 hd
      cases h
      exact keepsItems_trans h14 (contactDataChanged_keepsItems _ _ _ hd)
  · have e := Option.some.inj h
    rw [← e]
    exact h14

theorem updateContactsFromFetch_keepsItems (env : Env)
    (queryDetailTypes : List DetailTypeId) (partialFetch : Bool) (contacts : List QContact) :
    ∀ acc acc' : State × List String,
      updateContactsFromFetch env queryDetailTypes partialFetch contacts acc = some acc' →
        KeepsItems acc.1 acc'.1 := by
  induction contacts with
  | nil =>
    intro acc acc' h
    unfold updateContactsFromFetch at h
    cases h
    exact keepsItems_refl _
  | cons contact rest ih =>
    intro acc acc' h
    unfold updateContactsFromFetch at h
    split at h
    · cases h
    · rename_i acc1 h1
      exact keepsItems_trans (updateContactFromFetch_keepsItems _ _ _ _ _ _ h1)
        (ih _ _ h)

theorem contactsAvailable_keepsItems (env : Env) (s s' : State) (request : RequestKind)
    (h : contactsAvailable env s request = some s') : KeepsItems s s' := by
  unfold contactsAvailable at h
  lift_lets at h
  extract_lets byId delivered processed contacts s1 queryDetailTypes partialFetch type at h
  have h1 : KeepsItems s s1 := by
    by_cases hb : byId = true
    · have e : s1 = { s with m_fetchByIdProcessedCount :=
          s.m_fetchByIdProcessedCount + contacts.length } := if_pos hb
      rw [e]
      exact (fun _ hk => hk)
    · have e : s1 = { s with m_fetchProcessedCount :=
          s.m_fetchProcessedCount + contacts.length } := if_neg hb
      rw [e]
      exact (fun _ hk => hk)
  split at h
  · rw [← Option.some.inj h]
    exact keepsItems_trans h1 (appendContacts_keepsItems _ _ _ _ _)
  · split at h
    · cases h
    · rename_i r hr
      rw [← Option.some.inj h]
      have h0 := updateContactsFromFetch_keepsItems _ _ _ _ _ _ hr
      refine keepsItems_trans h1 (keepsItems_trans h0 ?_)
      refine keepsItems_trans ?_ (notifyNameGroupsChanged_keepsItems _ _)
      exact (fun _ hk => hk)

theorem completeContactAggregation_keepsItems (env : Env) (s s' : State) (A B : Nat)
    (h : completeContactAggregation env s A B = some s') : KeepsItems s s' := by
  have h2 : KeepsItems s
      (itemById (itemById s A env.requireCompleteDefault).2 B env.requireCompleteDefault).2 :=
    keepsItems_trans (itemById_keepsItems _ _ _) (itemById_keepsItems _ _ _)
  unfold completeContactAggregation at h
  simp only at h
  split at h
  · split at h
    · split at h
      · cases h
      · rename_i s3 hs3
        have h3 : KeepsItems s s3 := by
          refine keepsItems_trans h2 ?_
          split at hs3
          · exact saveContact_keepsItems _ _ _ hs3
          · cases hs3
            exact keepsItems_refl _
        split at h
        · cases h
          refine keepsItems_trans ?_ (requestUpdate_keepsItems _)
          exact (fun k hk => h3 k hk)
        · cases h
          exact (fun k hk => h3 k hk)
    · cases h
      exact h2
  · cases h
    exact h2

theorem mergePairs_keepsItems (env : Env)
    (pairs : List (ContactLinkRequest × ContactLinkRequest)) :
    ∀ s s' : State, mergePairs env pairs s = some s' → KeepsItems s s' := by
  induction pairs with
  | nil =>
    intro s s' h
    unfold mergePairs at h
    cases h
    exact keepsItems_refl _
  | cons pair rest ih =>
    intro s s' h
    unfold mergePairs at h
    split at h
    · cases h
    · rename_i s1 h1
      exact keepsItems_trans (completeContactAggregation_keepsItems _ _ _ _ _ h1)
        (ih _ _ h)

theorem updateConstituentAggregations_keepsItems (env : Env) (s s' : State)
    (contactId : Nat) (h : updateConstituentAggregations env s contactId = some s') :
    KeepsItems s s' := by
  unfold updateConstituentAggregations at h
  rw [updateConstituentAggregationsLoop_eq] at h
  cases hm : mergePairs env
      ((s.m_contactPairsToLink.map (markFetched contactId)).filter bothFetched) s with
  | none =>
    rw [hm] at h
    cases h
  | some s1 =>
    rw [hm] at h
    cases h
    have h1 := mergePairs_keepsItems env _ _ _ hm
    exact (fun k hk => h1 k hk)

theorem constituentsFetched_keepsItems (s : State) (key : Nat) (ids : List Nat) :
    KeepsItems s (constituentsFetched s key ids) := by
  unfold constituentsFetched
  split
  · exact keepsItems_refl s
  · split
    · exact keepsItems_refl s
    · exact keepsItems_insert _ _ _ _ rfl

theorem aggregationOperationsCompleted_keepsItems (env : Env) (ids : List Nat) :
    ∀ s : State, KeepsItems s (aggregationOperationsCompleted env ids s) := by
  induction ids with
  | nil => intro s; exact keepsItems_refl s
  | cons c rest ih =>
    intro s
    unfold aggregationOperationsCompleted
    refine keepsItems_trans ?_ (ih _)
    have h := itemById_keepsItems s c env.requireCompleteDefault
    split
    · exact h
    · split
      · exact h
      · exact (fun k hk => h k hk)

theorem resolveFinished_keepsItems (env : Env) (s : State) :
    KeepsItems s (resolveFinished env s) := by
  unfold resolveFinished
  split
  · exact keepsItems_refl s
  · simp only
    split
    · rename_i first _ hc
      have h1 := itemById_keepsItems s (apiId first.id) false
      exact (fun k hk => h1 k hk)
    · exact (fun _ hk => hk)

theorem startFetchRequest_keepsItems (s : State) (filter : QueryFilter)
    (hint : List DetailTypeId) : KeepsItems s (startFetchRequest s filter hint) :=
  (fun _ hk => hk)

theorem startContactIdRequest_keepsItems (s : State) (filter : QueryFilter) :
    KeepsItems s (startContactIdRequest s filter) :=
  (fun _ hk => hk)

theorem startRelationshipRequests_keepsItems (s : State) :
    KeepsItems s (startRelationshipRequests s) := by
  unfold startRelationshipRequests
  simp only
  split <;> split <;> exact (fun _ hk => hk)


theorem keepsItems_of_eq {s s' : State} (h : s'.m_people = s.m_people) : KeepsItems s s' := by
  intro k hk
  rw [h]
  exact hk

theorem startFetchRequest_people (s : State) (filter : QueryFilter)
    (hint : List DetailTypeId) : (startFetchRequest s filter hint).m_people = s.m_people :=
  rfl

theorem makePopulated_people (s : State) (filter : FilterType) :
    (makePopulated s filter).m_people = s.m_people :=
  rfl

theorem fetchRequestFinished_keepsItems (env : Env) (s : State) :
    KeepsItems s (fetchRequestFinished env s).1 := by
  unfold fetchRequestFinished
  split_ifs
  · exact keepsItems_of_eq rfl
  · refine keepsItems_of_eq ?_
    simp only [startFetchRequest_people, makePopulated_people]
  · refine keepsItems_of_eq ?_
    simp only [startFetchRequest_people, makePopulated_people]
  · refine keepsItems_of_eq ?_
    simp only [makePopulated_people]
  · exact keepsItems_of_eq rfl
  · exact keepsItems_of_eq rfl
  · exact resolveFinished_keepsItems env s

theorem contactIdRequestFinished_keepsItems (env : Env) (henv : HooksKeepItems env)
    (s : State) (r : State × Bool) (h : contactIdRequestFinished env s = some r) :
    KeepsItems s r.1 := by
  unfold contactIdRequestFinished at h
  split at h
  · rename_i contactId rest hc
    simp only at h
    have hi := itemById_keepsItems { s with m_contactsToFetchCandidates := rest } contactId
      env.requireCompleteDefault
    split at h
    · cases h
    · split at h <;> (cases h; exact (fun k hk => hi k hk))
  · split at h
    · have hc := (henv s).2
      generalize env.completeSynchronizeList s = sc at h hc
      simp only at h
      split at h
      · have e := Option.some.inj h
        rw [← e]
        exact (fun k hk => hc k hk)
      · split at h
        · have e := Option.some.inj h
          rw [← e]
          exact (fun k hk => hc k hk)
        · have e := Option.some.inj h
          rw [← e]
          exact (fun k hk => hc k hk)
    · cases h
      exact keepsItems_refl s

theorem requestStateChanged_keepsItems (env : Env) (henv : HooksKeepItems env) (s s' : State)
    (request : RequestKind)
    (h : requestStateChanged env s request = some s') : KeepsItems s s' := by
  have hdone : ∀ (done : Option (State × Bool)),
      (∀ r, done = some r → KeepsItems s r.1) →
      (match done with
       | none => none
       | some (s1, activityCompleted) =>
         if activityCompleted then some (s1.emit .postUpdateRequest) else some s1) = some s' →
      KeepsItems s s' := by
    intro done hd h
    cases done with
    | none => cases h
    | some r =>
      have h1 := hd r rfl
      obtain ⟨s1, b⟩ := r
      simp only at h
      split at h <;> (cases h; exact (fun k hk => h1 k hk))
  unfold requestStateChanged at h
  refine hdone _ ?_ h
  intro r hd
  cases request
  case Fetch =>
    cases hd
    exact fetchRequestFinished_keepsItems env s
  case RelationshipsFetch =>
    simp only at hd
    split at hd
    · cases hd
      exact keepsItems_refl s
    · rename_i aggregateId rest _
      split at hd
      · cases hd
        exact (fun _ hk => hk)
      · split at hd
        · cases hd
        · rename_i key hk
          have hi := itemById_keepsItems { s with m_contactsToFetchConstituents := rest }
            aggregateId env.requireCompleteDefault
          have hc := constituentsFetched_keepsItems
            (itemById { s with m_contactsToFetchConstituents := rest } aggregateId
              env.requireCompleteDefault).2 key []
          cases hu : updateConstituentAggregations env
            (constituentsFetched (itemById { s with m_contactsToFetchConstituents := rest }
              aggregateId env.requireCompleteDefault).2 key [])
            (hashValue (constituentsFetched (itemById
              { s with m_contactsToFetchConstituents := rest } aggregateId
              env.requireCompleteDefault).2 key []).m_people key {}).apiId with
          | none =>
            rw [hu] at hd
            cases hd
          | some s3 =>
            rw [hu] at hd
            cases hd
            have h3 := updateConstituentAggregations_keepsItems _ _ _ _ hu
            have h4 := keepsItems_trans hi (keepsItems_trans hc h3)
            exact (fun k hk => h4 k hk)
  case FetchById =>
    simp only at hd
    split at hd
    · cases hd
      exact keepsItems_refl s
    · rename_i aggregateId rest _
      split at hd
      · cases hd
      · rename_i key hk
        have hi := itemById_keepsItems { s with m_contactsToLinkTo := rest }
          aggregateId env.requireCompleteDefault
        generalize (itemById { s with m_contactsToLinkTo := rest } aggregateId
          env.requireCompleteDefault).2 = s2 at hd hi
        have hc := constituentsFetched_keepsItems { s2 with m_constituentIds := [] } key
          (s2.m_constituentIds.map internalId)
        cases hu : updateConstituentAggregations env
          (constituentsFetched { s2 with m_constituentIds := [] } key
            (s2.m_constituentIds.map internalId))
          (hashValue (constituentsFetched { s2 with m_constituentIds := [] } key
            (s2.m_constituentIds.map internalId)).m_people key {}).apiId with
        | none =>
          rw [hu] at hd
          cases hd
        | some s4 =>
          rw [hu] at hd
          cases hd
          have h3 := updateConstituentAggregations_keepsItems _ _ _ _ hu
          have h4 := keepsItems_trans hc h3
          exact keepsItems_trans (fun k hk => hi k hk) h4
  case ContactId => exact contactIdRequestFinished_keepsItems env henv s r hd
  case RelationshipSave =>
    cases hd
    exact aggregationOperationsCompleted_keepsItems _ _ _
  case RelationshipRemove =>
    cases hd
    exact aggregationOperationsCompleted_keepsItems _ _ _
  case Remove =>
    cases hd
    exact keepsItems_refl s
  case Save =>
    cases hd
    exact keepsItems_refl s

theorem updateContacts_keepsItems (s : State) (contactIds : List Nat) (elapsed : Nat) :
    KeepsItems s (updateContacts s contactIds elapsed) := by
  unfold updateContacts
  split
  · exact keepsItems_refl s
  · simp only
    split
    · split <;> exact (fun _ hk => hk)
    · exact (fun _ hk => hk)

theorem contactsChanged_keepsItems (s : State) (ids : List Nat) (elapsed : Nat) :
    KeepsItems s (contactsChanged s ids elapsed) := by
  unfold contactsChanged
  split <;> exact updateContacts_keepsItems _ _ _

theorem contactsAdded_keepsItems (s : State) (ids : List Nat) (elapsed : Nat) :
    KeepsItems s (contactsAdded s ids elapsed) := by
  unfold contactsAdded
  split
  · exact updateContacts_keepsItems _ _ _
  · exact keepsItems_refl s

theorem reportRemovals_keepsItems (ids : List Nat) :
    ∀ acc : State × List Nat, KeepsItems acc.1 (reportRemovals ids acc).1 := by
  induction ids with
  | nil => intro acc; exact keepsItems_refl _
  | cons id rest ih =>
    intro acc
    unfold reportRemovals
    simp only
    split
    · exact ih acc
    · refine keepsItems_trans ?_ (ih _)
      exact keepsItems_insert _ _ _ _ rfl

theorem contactsRemoved_keepsItems (s : State) (ids : List Nat) :
    KeepsItems s (contactsRemoved s ids) := by
  unfold contactsRemoved
  simp only
  have h := reportRemovals_keepsItems ids (s, [])
  refine keepsItems_trans ?_ (requestUpdate_keepsItems _)
  split <;> exact (fun k hk => h k hk)

theorem keepPopulated_keepsItems (s : State) (fetchTypes : Nat) :
    KeepsItems s (keepPopulated s fetchTypes) := by
  unfold keepPopulated
  simp only
  have h1 : KeepsItems s
      (if (s.m_fetchTypes &&& fetchTypes) ≠ fetchTypes then
        requestUpdate { s with m_fetchTypes := s.m_fetchTypes ||| fetchTypes,
                               m_fetchTypesChanged := true }
      else s) := by
    split
    · exact @keepsItems_trans s
        { s with m_fetchTypes := s.m_fetchTypes ||| fetchTypes, m_fetchTypesChanged := true } _
        (fun _ hk => hk) (requestUpdate_keepsItems _)
    · exact keepsItems_refl s
  generalize (if (s.m_fetchTypes &&& fetchTypes) ≠ fetchTypes then
        requestUpdate { s with m_fetchTypes := s.m_fetchTypes ||| fetchTypes,
                               m_fetchTypesChanged := true }
      else s) = s1 at h1 ⊢
  split
  · exact keepsItems_trans h1
      (@keepsItems_trans s1 { s1 with m_keepPopulated := true } _ (fun _ hk => hk)
        (requestUpdate_keepsItems _))
  · exact h1

theorem resolveAddress_keepsItems (s : State) (listener : Nat) (first second : String)
    (requireComplete : Bool) :
    KeepsItems s (resolveAddress s listener first second requireComplete) := by
  unfold resolveAddress
  exact (fun k hk => requestUpdate_keepsItems _ k hk)

theorem resolve_end_keepsItems (s : State) (r : Option Nat × State)
    (hr : KeepsItems s r.2) (listener : Nat) (first second : String)
    (requireComplete : Bool) :
    KeepsItems s
      (match r with
       | (none, s1) => ((none : Option Nat), resolveAddress s1 listener first second requireComplete)
       | (some key, s1) =>
         (some key, if requireComplete then ensureCompletion s1 key else s1)).2 := by
  obtain ⟨k, s1⟩ := r
  cases k with
  | none => exact keepsItems_trans hr (resolveAddress_keepsItems _ _ _ _ _)
  | some key =>
    simp only
    split
    · exact keepsItems_trans hr (ensureCompletion_keepsItems _ _)
    · exact hr

theorem resolvePhoneNumber_keepsItems (env : Env) (s : State) (listener : Nat)
    (number : String) (requireComplete : Bool) :
    KeepsItems s (resolvePhoneNumber env s listener number requireComplete).2 := by
  unfold resolvePhoneNumber
  refine resolve_end_keepsItems s _ ?_ listener "" number requireComplete
  unfold itemByPhoneNumber
  split
  · exact itemById_keepsItems _ _ _
  · exact keepsItems_refl s

theorem resolveEmailAddress_keepsItems (env : Env) (s : State) (listener : Nat)
    (address : String) (requireComplete : Bool) :
    KeepsItems s (resolveEmailAddress env s listener address requireComplete).2 := by
  unfold resolveEmailAddress
  refine resolve_end_keepsItems s _ ?_ listener address "" requireComplete
  unfold itemByEmailAddress
  split
  · exact itemById_keepsItems _ _ _
  · exact keepsItems_refl s

theorem resolveOnlineAccount_keepsItems (env : Env) (s : State) (listener : Nat)
    (localUid remoteUid : String) (requireComplete : Bool) :
    KeepsItems s
      (resolveOnlineAccount env s listener localUid remoteUid requireComplete).2 := by
  unfold resolveOnlineAccount
  refine resolve_end_keepsItems s _ ?_ listener localUid remoteUid requireComplete
  unfold itemByOnlineAccount
  split
  · exact itemById_keepsItems _ _ _
  · exact keepsItems_refl s

theorem attachItemData_keepsItems (s : State) (key : Nat) :
    KeepsItems s (attachItemData s key) := by
  unfold attachItemData
  split
  · exact keepsItems_refl s
  · exact keepsItems_insert _ _ _ _ rfl

theorem removeFromNameGroupOf_keepsItems (s : State) (iid : Nat) :
    KeepsItems s (removeFromNameGroupOf s iid) := by
  unfold removeFromNameGroupOf
  split
  · exact keepsItems_refl s
  · exact keepsItems_trans (removeFromContactNameGroup_keepsItems _ _ _ _)
      (notifyNameGroupsChanged_keepsItems _ _)

theorem removeContactData_keepsItems (s s' : State) (iid : Nat) (filter : FilterType)
    (h : removeContactData s iid filter = some s') : KeepsItems s s' := by
  unfold removeContactData at h
  split at h
  · cases h
  · rename_i row s1 hc
    have h1 := contactIndex_keepsItems s s1 iid filter row hc
    split at h
    · cases h
      exact (fun k hk => h1 k hk)
    · simp only at h
      split at h
      · cases h
      · cases h
        split
        · have h2 := removeFromNameGroupOf_keepsItems
            { notifyModels s1 (s1.m_models.get filter)
                (fun m => .sourceAboutToRemoveItems m row row) with
              m_contactIndices :=
                (notifyModels s1 (s1.m_models.get filter)
                  (fun m => .sourceAboutToRemoveItems m row row)).m_contactIndices.set filter
                  (hashRemove ((notifyModels s1 (s1.m_models.get filter)
                    (fun m => .sourceAboutToRemoveItems m row row)).m_contactIndices.get filter)
                    (by assumption)),
              m_contacts :=
                (notifyModels s1 (s1.m_models.get filter)
                  (fun m => .sourceAboutToRemoveItems m row row)).m_contacts.set filter
                  (removeAt ((notifyModels s1 (s1.m_models.get filter)
                    (fun m => .sourceAboutToRemoveItems m row row)).m_contacts.get filter)
                    row.toNat) } iid
          exact keepsItems_trans (fun k hk => h1 k hk) (fun k hk => h2 k hk)
        · exact (fun k hk => h1 k hk)

theorem removeContact_keepsItems (s : State) (contact : QContact) (r : Bool × State)
    (h : removeContact s contact = some r) : KeepsItems s r.2 := by
  unfold removeContact at h
  simp only at h
  split at h
  · cases h
    exact keepsItems_refl s
  · split at h
    · cases h
    · rename_i s2 h2
      split at h
      · cases h
      · rename_i s3 h3
        split at h
        · cases h
        · rename_i s4 h4
          cases h
          have ha := removeContactData_keepsItems _ _ _ _ h2
          have hb := removeContactData_keepsItems _ _ _ _ h3
          have hc := removeContactData_keepsItems _ _ _ _ h4
          have hd := id (requestUpdate_keepsItems s4)
          have he := keepsItems_trans (keepsItems_trans (keepsItems_trans ha hb) hc) hd
          exact (fun k hk => he k hk)

theorem fetchConstituents_keepsItems (s : State) (contact : QContact) :
    KeepsItems s (fetchConstituents s contact).2 := by
  unfold fetchConstituents
  simp only
  split
  · exact keepsItems_refl s
  · split
    · exact keepsItems_refl s
    · exact @keepsItems_trans s
        { s with m_contactsToFetchConstituents :=
            s.m_contactsToFetchConstituents ++ [contact.id] } _
        (fun _ hk => hk) (requestUpdate_keepsItems _)

theorem fetchMergeCandidates_keepsItems (s : State) (contact : QContact) :
    KeepsItems s (fetchMergeCandidates s contact).2 := by
  unfold fetchMergeCandidates
  simp only
  split
  · exact keepsItems_refl s
  · split
    · exact keepsItems_refl s
    · exact @keepsItems_trans s
        { s with m_contactsToFetchCandidates :=
            s.m_contactsToFetchCandidates ++ [contact.id] } _
        (fun _ hk => hk) (requestUpdate_keepsItems _)

theorem aggregateContacts_keepsItems (s : State) (contact1 contact2 : QContact) :
    KeepsItems s (aggregateContacts s contact1 contact2) := by
  unfold aggregateContacts
  simp only
  refine keepsItems_trans ?_ (fetchConstituents_keepsItems _ _)
  have h := fetchConstituents_keepsItems
    { s with m_contactPairsToLink := s.m_contactPairsToLink ++
      [(({ contactId := contact1.id } : ContactLinkRequest),
        ({ contactId := contact2.id } : ContactLinkRequest))] } contact1
  exact (fun k hk => h k hk)

theorem disaggregateContacts_keepsItems (s s' : State) (contact1 contact2 : QContact)
    (h : disaggregateContacts s contact1 contact2 = some s') : KeepsItems s s' := by
  unfold disaggregateContacts at h
  simp only at h
  split at h
  · cases h
  · rename_i s2 hs
    cases h
    split at hs
    · have h1 := saveContact_keepsItems _ _ _ hs
      exact (fun k hk => h1 k hk)
    · cases hs
      exact (fun _ hk => hk)

theorem contactIdsAvailable_keepsItems (env : Env) (henv : HooksKeepItems env) (s : State) :
    KeepsItems s (contactIdsAvailable env s) := by
  unfold contactIdsAvailable
  split
  · exact (fun _ hk => hk)
  · split
    · exact (henv s).1
    · exact keepsItems_refl s


theorem body_keepsItems (s : State) (r : Rung) : KeepsItems s (Rung.body s r) := by
  cases r
  case relationships => exact startRelationshipRequests_keepsItems s
  case resolution =>
    unfold Rung.body
    cases s.m_resolveAddresses <;> exact (fun _ hk => hk)
  all_goals exact (fun _ hk => hk)

theorem event_keepsItems (s : State) (r : Rung) (hr : r ∈ ladder) (hg : r.guard s = true) :
    KeepsItems s (event s) := by
  rw [event_eq_ladderStep]
  unfold ladderStep
  cases hf : ladder.find? (fun r => r.guard s) with
  | none =>
    have h := List.find?_eq_none.mp hf r hr
    exact absurd hg h
  | some r1 => exact body_keepsItems s r1

theorem event_idle (s : State) (h : ∀ r ∈ ladder, r.guard s = false) :
    event s = expireContacts s := by
  rw [event_eq_ladderStep]
  unfold ladderStep
  have hf : ladder.find? (fun r => r.guard s) = none := by
    rw [List.find?_eq_none]
    intro r hr
    rw [h r hr]
    simp
  rw [hf]

theorem cacheStep_keepsItems (env : Env) (henv : HooksKeepItems env) (s s' : State)
    (step : CacheStep) (hw : step = .wake → ∃ r ∈ ladder, r.guard s = true)
    (h : step.run env s = some s') : KeepsItems s s' := by
  cases step
  case wake =>
    obtain ⟨r, hr, hg⟩ := hw rfl
    cases h
    exact event_keepsItems s r hr hg
  case fetchDone contacts =>
    have h1 := requestStateChanged_keepsItems env henv _ s' .Fetch h
    exact (fun k hk => h1 k hk)
  case fetchTimer =>
    cases h
    exact fetchContacts_keepsItems s
  case fetchResults contacts =>
    have h1 := contactsAvailable_keepsItems env
      { s with m_fetchRequest := { s.m_fetchRequest with contacts := contacts } } s' .Fetch h
    exact (fun k hk => h1 k hk)
  case fetchByIdResults contacts =>
    have h1 := contactsAvailable_keepsItems env
      { s with m_fetchByIdRequest := { s.m_fetchByIdRequest with contacts := contacts } } s'
      .FetchById h
    exact (fun k hk => h1 k hk)
  case fetchByIdDone =>
    have h1 := requestStateChanged_keepsItems env henv _ s' .FetchById h
    exact (fun k hk => h1 k hk)
  case relationshipsResults relationships =>
    cases h
    exact (fun _ hk => hk)
  case relationshipsDone =>
    have h1 := requestStateChanged_keepsItems env henv _ s' .RelationshipsFetch h
    exact (fun k hk => h1 k hk)
  case contactIdResults ids =>
    cases h
    have h1 := contactIdsAvailable_keepsItems env henv
      { s with m_contactIdRequest := { s.m_contactIdRequest with ids := ids } }
    exact (fun k hk => h1 k hk)
  case contactIdDone =>
    have h1 := requestStateChanged_keepsItems env henv _ s' .ContactId h
    exact (fun k hk => h1 k hk)
  case relationshipSaveDone =>
    have h1 := requestStateChanged_keepsItems env henv _ s' .RelationshipSave h
    exact (fun k hk => h1 k hk)
  case relationshipRemoveDone =>
    have h1 := requestStateChanged_keepsItems env henv _ s' .RelationshipRemove h
    exact (fun k hk => h1 k hk)
  case removeDone =>
    have h1 := requestStateChanged_keepsItems env henv _ s' .Remove h
    exact (fun k hk => h1 k hk)
  case saveDone =>
    have h1 := requestStateChanged_keepsItems env henv _ s' .Save h
    exact (fun k hk => h1 k hk)
  case storeAdded ids elapsed =>
    cases h
    exact contactsAdded_keepsItems s ids elapsed
  case storeChanged ids elapsed =>
    cases h
    exact contactsChanged_keepsItems s ids elapsed
  case storeRemoved ids =>
    cases h
    exact contactsRemoved_keepsItems s ids
  case populate fetchTypes =>
    cases h
    exact keepPopulated_keepsItems s fetchTypes
  case phoneResolve listener number requireComplete =>
    cases h
    exact resolvePhoneNumber_keepsItems env s _ _ _
  case emailResolve listener address requireComplete =>
    cases h
    exact resolveEmailAddress_keepsItems env s _ _ _
  case accountResolve listener localUid remoteUid requireComplete =>
    cases h
    exact resolveOnlineAccount_keepsItems env s _ _ _ _
  case unregister listener =>
    cases h
    exact (fun _ hk => hk)
  case listen listener =>
    cases h
    exact (fun _ hk => hk)
  case lookup id requireComplete =>
    cases h
    exact itemById_keepsItems s id requireComplete
  case attach key =>
    cases h
    exact attachItemData_keepsItems s key
  case save contact =>
    exact saveContact_keepsItems s s' contact h
  case remove contact =>
    cases hr : removeContact s contact with
    | none =>
      simp only [CacheStep.run, hr, Option.map_none'] at h
      cases h
    | some r =>
      simp only [CacheStep.run, hr, Option.map_some', Option.some.injEq] at h
      rw [← h]
      exact removeContact_keepsItems s contact r hr
  case merge contact1 contact2 =>
    cases h
    exact aggregateContacts_keepsItems s contact1 contact2
  case split aggregate constituent =>
    exact disaggregateContacts_keepsItems s s' aggregate constituent h
  case constituents contact =>
    cases h
    exact fetchConstituents_keepsItems s contact
  case candidates contact =>
    cases h
    exact fetchMergeCandidates_keepsItems s contact


theorem hashValue_hashInsert {κ ν : Type} [DecidableEq κ] (m : List (κ × ν)) (k k₀ : κ)
    (v d : ν) : hashValue (hashInsert m k v) k₀ d = if k₀ = k then v else hashValue m k₀ d := by
  unfold hashValue
  by_cases h : k₀ = k
  · subst h
    rw [hashFind_hashInsert_self, if_pos rfl]
    rfl
  · rw [hashFind_hashInsert_ne m k k₀ v (fun e => h e.symm), if_neg h]

theorem expire_foldl_people (l : List (Nat × Int)) :
    ∀ (people : List (Nat × CacheItem)) (k : Nat),
      hashFind (l.foldl (fun people entry =>
          if entry.2 ≥ 0 then people else hashRemove people (internalId entry.1)) people) k =
        if ∃ e ∈ l, internalId e.1 = k ∧ e.2 < 0 then none else hashFind people k := by
  induction l with
  | nil => intro people k; simp
  | cons e rest ih =>
    intro people k
    simp only [List.foldl_cons]
    rw [ih]
    by_cases h1 : ∃ e' ∈ rest, internalId e'.1 = k ∧ e'.2 < 0
    · have h2 : ∃ e' ∈ e :: rest, internalId e'.1 = k ∧ e'.2 < 0 := by
        obtain ⟨e', he, hp⟩ := h1
        exact ⟨e', List.mem_cons_of_mem _ he, hp⟩
      rw [if_pos h1, if_pos h2]
    · rw [if_neg h1]
      by_cases h3 : e.2 ≥ 0
      · rw [if_pos h3]
        have h2 : ¬ ∃ e' ∈ e :: rest, internalId e'.1 = k ∧ e'.2 < 0 := by
          rintro ⟨e', he, hp⟩
          rcases List.mem_cons.mp he with rfl | he
          · omega
          · exact h1 ⟨e', he, hp⟩
        rw [if_neg h2]
      · rw [if_neg h3]
        by_cases h4 : internalId e.1 = k
        · have h2 : ∃ e' ∈ e :: rest, internalId e'.1 = k ∧ e'.2 < 0 :=
            ⟨e, List.mem_cons_self _ _, h4, by omega⟩
          rw [if_pos h2, ← h4, hashFind_hashRemove_self]
        · have h2 : ¬ ∃ e' ∈ e :: rest, internalId e'.1 = k ∧ e'.2 < 0 := by
            rintro ⟨e', he, hp⟩
            rcases List.mem_cons.mp he with rfl | he
            · exact h4 hp.1
            · exact h1 ⟨e', he, hp⟩
          rw [if_neg h2, hashFind_hashRemove_ne _ _ _ h4]

theorem expireContacts_people (s : State) (k : Nat) :
    hashFind (expireContacts s).m_people k =
      if ∃ e ∈ s.m_expiredContacts, internalId e.1 = k ∧ e.2 < 0 then none
      else hashFind s.m_people k :=
  expire_foldl_people s.m_expiredContacts s.m_people k

theorem hashFind_of_nodup_keys {κ ν : Type} [DecidableEq κ] (m : List (κ × ν)) (k : κ) (v : ν)
    (hn : (m.map Prod.fst).Nodup) : hashFind m k = some v ↔ (k, v) ∈ m := by
  induction m with
  | nil => simp [hashFind]
  | cons p rest ih =>
    obtain ⟨k', v'⟩ := p
    simp only [List.map_cons, List.nodup_cons] at hn
    by_cases h : k' = k
    · subst h
      simp only [hashFind, if_true, Option.some.injEq, List.mem_cons, Prod.mk.injEq, true_and]
      constructor
      · exact fun e => Or.inl e.symm
      · rintro (e | hm)
        · exact e.symm
        · exact absurd (List.mem_map_of_mem Prod.fst hm) hn.1
    · simp only [hashFind, h, if_false, List.mem_cons, Prod.mk.injEq]
      rw [ih hn.2]
      constructor
      · exact Or.inr
      · rintro (⟨e, _⟩ | hm)
        · exact absurd e.symm h
        · exact hm

theorem negative_entry_iff_counter (table : List (Nat × Int)) (k : Nat)
    (hn : (table.map Prod.fst).Nodup) :
    (∃ e ∈ table, internalId e.1 = k ∧ e.2 < 0) ↔ hashValue table k 0 < 0 := by
  unfold hashValue internalId
  constructor
  · rintro ⟨⟨k', v⟩, he, hk, hv⟩
    simp only at hk hv
    subst hk
    rw [(hashFind_of_nodup_keys table k' v hn).mpr he]
    exact hv
  · intro h
    cases hf : hashFind table k with
    | none =>
      rw [hf] at h
      simp at h
    | some v =>
      rw [hf] at h
      exact ⟨(k, v), (hashFind_of_nodup_keys table k v hn).mp hf, rfl, h⟩

theorem drop_removeAt {α : Type} (l : List α) :
    ∀ i : Nat, (removeAt l i).drop i = l.drop (i + 1) := by
  induction l with
  | nil => intro i; cases i <;> rfl
  | cons a rest ih =>
    intro i
    cases i with
    | zero => rfl
    | succ i =>
      simp only [removeAt, List.drop_succ_cons]
      exact ih i

theorem removeRangeLoop_counters (filter : FilterType) (index : Nat) :
    ∀ (count : Nat) (s s' : State), removeRangeLoop filter index count s = some s' →
      s'.m_people = s.m_people ∧
      ∀ id, hashValue s'.m_expiredContacts (apiId id) 0 =
        hashValue s.m_expiredContacts (apiId id) 0 -
          (if filter = .FilterAll then
            ((((s.m_contacts.get filter).drop index).take count).count id : Int)
           else 0) := by
  intro count
  induction count with
  | zero =>
    intro s s' h
    unfold removeRangeLoop at h
    rw [← Option.some.inj h]
    refine ⟨rfl, fun id => ?_⟩
    split <;> simp
  | succ count ih =>
    intro s s' h
    unfold removeRangeLoop at h
    split at h
    · cases h
    · rename_i iid hat
      have hget : (s.m_contacts.get filter).get? index = some iid := hat
      obtain ⟨i1, i2⟩ := ih _ s' h
      refine ⟨i1, fun id => ?_⟩
      rw [i2 id]
      simp only [filterArray_get_set_self, drop_removeAt]
      rw [drop_of_get? _ _ _ hget, List.take_succ_cons, List.count_cons]
      by_cases hf : filter = .FilterAll
      · simp only [hf, if_true, apiId]
        rw [hashValue_hashInsert]
        by_cases hid : id = iid
        · subst hid
          simp only [if_true, beq_self_eq_true]
          push_cast
          omega
        · have hne : (iid == id) = false := by
            simp only [beq_eq_false_iff_ne, ne_eq]
            exact fun e => hid e.symm
          simp only [hid, if_false, hne, Bool.false_eq_true]
          push_cast
          omega
      · simp only [hf, if_false]

theorem removeRange_counters (s s' : State) (filter : FilterType) (index count : Nat)
    (h : removeRange s filter index count = some s') :
    s'.m_people = s.m_people ∧
    ∀ id, hashValue s'.m_expiredContacts (apiId id) 0 =
      hashValue s.m_expiredContacts (apiId id) 0 -
        (if filter = .FilterAll then
          ((((s.m_contacts.get filter).drop index).take count).count id : Int)
         else 0) := by
  unfold removeRange at h
  simp only at h
  split at h
  · cases h
  · rename_i s2 hloop
    rw [← Option.some.inj h]
    have h1 := removeRangeLoop_counters filter index count _ s2 hloop
    exact ⟨h1.1, fun id => h1.2 id⟩

theorem insertRangeLoop_counters (env : Env) (filter : FilterType) (index : Nat)
    (queryIds : List Nat) (queryIndex : Nat) :
    ∀ (remaining i : Nat) (s s' : State),
      insertRangeLoop env filter index queryIds queryIndex remaining i s = some s' →
      s'.m_people = s.m_people ∧
      ∀ id, hashValue s'.m_expiredContacts (apiId id) 0 =
        hashValue s.m_expiredContacts (apiId id) 0 +
          (if filter = .FilterAll then
            (((((queryIds.drop (queryIndex + i)).take remaining).filter
              (fun iid => decide (iid ≠ internalId env.selfContactId))).count id : Nat) : Int)
           else 0) := by
  intro remaining
  induction remaining with
  | zero =>
    intro i s s' h
    unfold insertRangeLoop at h
    rw [← Option.some.inj h]
    refine ⟨rfl, fun id => ?_⟩
    split <;> simp
  | succ remaining ih =>
    intro i s s' h
    unfold insertRangeLoop at h
    split at h
    · cases h
    · rename_i iid hat
      have hget : queryIds.get? (queryIndex + i) = some iid := hat
      rw [drop_of_get? queryIds _ iid hget, List.take_succ_cons]
      by_cases hself : iid = internalId env.selfContactId
      · rw [if_pos hself] at h
        rw [List.filter_cons_of_neg (by simp [hself])]
        exact ih (i + 1) s s' h
      · rw [if_neg hself] at h
        rw [List.filter_cons_of_pos (by simp [hself])]
        obtain ⟨i1, i2⟩ := ih (i + 1) _ s' h
        refine ⟨i1, fun id => ?_⟩
        rw [i2 id, List.count_cons, Nat.add_assoc queryIndex i 1]
        by_cases hf : filter = .FilterAll
        · simp only [hf, if_true, apiId]
          rw [hashValue_hashInsert]
          by_cases hid : id = iid
          · subst hid
            simp only [if_true, beq_self_eq_true]
            push_cast
            omega
          · have hne : (iid == id) = false := by
              simp only [beq_eq_false_iff_ne, ne_eq]
              exact fun e => hid e.symm
            simp only [hid, if_false, hne, Bool.false_eq_true]
            push_cast
            omega
        · simp only [hf, if_false]

theorem insertRange_counters (env : Env) (s : State) (filter : FilterType)
    (index count : Nat) (queryIds : List Nat) (queryIndex : Nat) (r : State × Int)
    (h : insertRange env s filter index count queryIds queryIndex = some r) :
    r.1.m_people = s.m_people ∧
    ∀ id, hashValue r.1.m_expiredContacts (apiId id) 0 =
      hashValue s.m_expiredContacts (apiId id) 0 +
        (if filter = .FilterAll then
          (((((queryIds.drop queryIndex).take count).filter
            (fun iid => decide (iid ≠ internalId env.selfContactId))).count id : Nat) : Int)
         else 0) := by
  unfold insertRange at h
  simp only at h
  split at h
  · cases h
  · rename_i s2 hloop
    rw [← Option.some.inj h]
    have h1 := insertRangeLoop_counters env filter index queryIds queryIndex count 0 _ s2 hloop
    exact ⟨h1.1, fun id => h1.2 id⟩

theorem reportRemovals_result (ids : List Nat) :
    ∀ acc : State × List Nat,
      (reportRemovals ids acc).1.m_expiredContacts = acc.1.m_expiredContacts ∧
      (reportRemovals ids acc).1.m_keepPopulated = acc.1.m_keepPopulated ∧
      (∀ k, (hashFind (reportRemovals ids acc).1.m_people k).isSome =
        (hashFind acc.1.m_people k).isSome) ∧
      (reportRemovals ids acc).2 = acc.2 ++
        (if acc.1.m_keepPopulated then []
         else ids.filter (fun id => (hashFind acc.1.m_people (internalId id)).isSome)) := by
  induction ids with
  | nil =>
    intro acc
    unfold reportRemovals
    refine ⟨rfl, rfl, fun _ => rfl, ?_⟩
    split <;> simp
  | cons id rest ih =>
    intro acc
    unfold reportRemovals
    simp only
    cases hex : existingItem acc.1 (internalId id) with
    | none =>
      simp only
      obtain ⟨i1, i2, i3, i4⟩ := ih acc
      refine ⟨i1, i2, i3, ?_⟩
      rw [i4]
      have hf : (hashFind acc.1.m_people (internalId id)).isSome = false := by
        unfold existingItem at hex
        rw [hex]
        rfl
      rw [List.filter_cons_of_neg (by simp [hf])]
    | some item =>
      simp only
      have hfound : (hashFind acc.1.m_people (internalId id)).isSome = true := by
        unfold existingItem at hex
        rw [hex]
        rfl
      have hsame : ∀ k, (hashFind (hashInsert acc.1.m_people (internalId id)
          { item with listeners := [] }) k).isSome = (hashFind acc.1.m_people k).isSome := by
        intro k
        rw [Bool.eq_iff_iff, isSome_hashInsert]
        constructor
        · rintro (e | hk)
          · rw [e]
            exact hfound
          · exact hk
        · exact Or.inr
      obtain ⟨i1, i2, i3, i4⟩ := ih
        ({ acc.1 with
            log := acc.1.log ++
              (acc.1.m_changeListeners.map
                  (fun l => Notification.changeItemAboutToBeRemoved l item.iid) ++
                item.listeners.map (fun l => Notification.itemAboutToBeRemoved l item.iid)),
            m_people := hashInsert acc.1.m_people (internalId id)
              { item with listeners := [] } },
          if acc.1.m_keepPopulated then acc.2 else acc.2 ++ [id])
      refine ⟨i1, i2, fun k => (i3 k).trans (hsame k), ?_⟩
      rw [i4]
      by_cases hk : acc.1.m_keepPopulated = true
      · simp only [hk, if_true]
      · simp only [hk, if_false, Bool.false_eq_true]
        rw [@List.filter_cons_of_pos Nat
          (fun id => (hashFind acc.1.m_people (internalId id)).isSome) id rest hfound,
          List.append_assoc, List.singleton_append]
        congr 2
        exact List.filter_congr (fun x _ => hsame (internalId x))

theorem decrement_foldl_counter (l : List Nat) :
    ∀ (table : List (Nat × Int)) (k : Nat),
      hashValue (l.foldl (fun expired id => hashInsert expired id (hashValue expired id 0 + -1))
        table) k 0 = hashValue table k 0 - (l.count k : Int) := by
  induction l with
  | nil => intro table k; simp
  | cons a rest ih =>
    intro table k
    simp only [List.foldl_cons]
    rw [ih, hashValue_hashInsert, List.count_cons]
    by_cases h : k = a
    · subst h
      simp only [if_true, beq_self_eq_true]
      push_cast
      omega
    · have hne : (a == k) = false := by
        simp only [beq_eq_false_iff_ne, ne_eq]
        exact fun e => h e.symm
      simp only [h, if_false, hne, Bool.false_eq_true]
      push_cast
      omega

theorem contactsRemoved_counters (s : State) (ids : List Nat) (id : Nat) :
    hashValue (contactsRemoved s ids).m_expiredContacts (apiId id) 0 =
      hashValue s.m_expiredContacts (apiId id) 0 -
        (if s.m_keepPopulated then 0
         else ((ids.filter (fun i => (existingItem s (internalId i)).isSome)).count id : Int)) := by
  obtain ⟨h1, h2, _, h4⟩ := reportRemovals_result ids (s, [])
  have h1' : (reportRemovals ids (s, [])).1.m_expiredContacts = s.m_expiredContacts := h1
  have h2' : (reportRemovals ids (s, [])).1.m_keepPopulated = s.m_keepPopulated := h2
  unfold contactsRemoved
  simp only
  rw [(requestUpdate_sameViewData _).2.2]
  cases hk : s.m_keepPopulated with
  | true =>
    rw [if_pos (h2'.trans hk)]
    simp only [if_true, h1', Int.sub_zero]
  | false =>
    have hk' : ¬ (reportRemovals ids (s, [])).1.m_keepPopulated = true := by
      rw [h2', hk]
      simp
    rw [if_neg hk']
    simp only [Bool.false_eq_true, if_false]
    rw [decrement_foldl_counter, h1', h4]
    have hk2 : (s, ([] : List Nat)).1.m_keepPopulated = false := hk
    simp only [hk2, Bool.false_eq_true, if_false, List.nil_append, apiId]
    rw [hk]
    rfl

theorem appendContacts_expired (env : Env) (s : State) (contacts : List QContact)
    (filterType : FilterType) (partialFetch : Bool) :
    (appendContacts env s contacts filterType partialFetch).m_expiredContacts =
      s.m_expiredContacts := by
  have hfold : ∀ (l : List QContact) (acc : State × List String),
      (l.foldl (appendContact env filterType partialFetch) acc).1.m_expiredContacts =
        acc.1.m_expiredContacts := by
    intro l
    induction l with
    | nil => intro acc; rfl
    | cons c rest ih =>
      intro acc
      simp only [List.foldl_cons]
      rw [ih, (appendContact_viewData env filterType partialFetch acc c).2.2]
  unfold appendContacts
  split
  · rfl
  · simp only
    rw [(notifyNameGroupsChanged_sameViewData _ _).2.2]
    exact hfold contacts _

/-- C33 (counterexample): Dora and Edgar are appended to the empty view of all contacts with
appendContacts, as contactsAvailable does while the cache is being populated. Both ids are
in the view afterwards, and the expiry counter of neither has been increased: the expiry
table is still empty. -/
theorem appendContacts_inserts_without_counting :
    (appendContacts exampleEnv State.init [dora, edgar] .FilterAll false).m_contacts.get
        .FilterAll = [4, 6] ∧
    (appendContacts exampleEnv State.init [dora, edgar] .FilterAll false).m_expiredContacts =
      [] ∧
    expiryCounter (appendContacts exampleEnv State.init [dora, edgar] .FilterAll false) 4 =
      0 := by
  decide

/-- C33 (amended): no step of the cache other than a wake of the dispatcher at which no rung
has work, and none of removeRange, insertRange, appendContacts and removeContactData, takes
an item out of the identity store (the hooks of synchronizelists.h being assumed to take none
out). A wake at which no rung has work erases exactly the items whose id has a negative entry
in the expiry table, which with one entry per id is a negative expiry counter, keeps every
other item as it is, and empties the table. The counter of a contact is increased by one
for each insertion into the view of all contacts by insertRange, decreased by one for each
row holding it that removeRange takes out of that view and for each store removal of a
cached contact reported while the cache is not kept populated; appendContacts leaves the
counters as they are. A contact taken out of and put back into the view of all contacts in one
pass has the counter 0 and is kept by the next idle wake, one that is only taken out is
erased. -/
theorem items_destroyed_only_by_idle_wake (env : Env) (henv : HooksKeepItems env)
    (s : State) :
    (∀ step s', CacheStep.run env s step = some s' →
      (step = .wake → ∃ r ∈ ladder, r.guard s = true) →
      ∀ k, (hashFind s.m_people k).isSome → (hashFind s'.m_people k).isSome) ∧
    (∀ filter index count s', removeRange s filter index count = some s' →
      s'.m_people = s.m_people) ∧
    (∀ filter index count queryIds queryIndex r,
      insertRange env s filter index count queryIds queryIndex = some r →
      r.1.m_people = s.m_people) ∧
    (∀ contacts filter partialFetch k, (hashFind s.m_people k).isSome →
      (hashFind (appendContacts env s contacts filter partialFetch).m_people k).isSome) ∧
    (∀ iid filter s', removeContactData s iid filter = some s' →
      ∀ k, (hashFind s.m_people k).isSome → (hashFind s'.m_people k).isSome) ∧
    ((∀ r ∈ ladder, r.guard s = false) →
      CacheStep.run env s .wake = some (expireContacts s) ∧
      (expireContacts s).m_expiredContacts = [] ∧
      (∀ k, hashFind (expireContacts s).m_people k =
        if ∃ e ∈ s.m_expiredContacts, internalId e.1 = k ∧ e.2 < 0 then none
        else hashFind s.m_people k) ∧
      ((s.m_expiredContacts.map Prod.fst).Nodup →
        ∀ k, hashFind (expireContacts s).m_people k =
          if expiryCounter s k < 0 then none else hashFind s.m_people k)) ∧
    (∀ index count queryIds queryIndex r,
      insertRange env s .FilterAll index count queryIds queryIndex = some r →
      ∀ id, expiryCounter r.1 id = expiryCounter s id +
        (((((queryIds.drop queryIndex).take count).filter
          (fun iid => decide (iid ≠ internalId env.selfContactId))).count id : Nat) : Int)) ∧
    (∀ index count s', removeRange s .FilterAll index count = some s' →
      ∀ id, expiryCounter s' id = expiryCounter s id -
        ((((s.m_contacts.get .FilterAll).drop index).take count).count id : Int)) ∧
    (∀ ids id, expiryCounter (contactsRemoved s ids) id = expiryCounter s id -
      (if s.m_keepPopulated then 0
       else ((ids.filter (fun i => (existingItem s (internalId i)).isSome)).count id : Int))) ∧
    (∀ contacts filter partialFetch id,
      expiryCounter (appendContacts env s contacts filter partialFetch) id =
        expiryCounter s id) ∧
    removeThenReinsert.map (fun s1 =>
        (s1.m_contacts.get .FilterAll, expiryCounter s1 4, (event s1).m_expiredContacts,
          (event s1).m_people.map (fun e => e.1))) =
      some ([4, 6], 0, [], [4, 6]) ∧
    populateTwoThenRemoveRange.map (fun s1 =>
        (s1.m_contacts.get .FilterAll, s1.m_expiredContacts, s1.m_people.map (fun e => e.1))) =
      some ([6], [], [6]) := by
  refine ⟨fun step s' h hw => cacheStep_keepsItems env henv s s' step hw h,
    fun filter index count s' h => (removeRange_counters s s' filter index count h).1,
    fun filter index count queryIds queryIndex r h =>
      (insertRange_counters env s filter index count queryIds queryIndex r h).1,
    fun contacts filter partialFetch =>
      appendContacts_keepsItems env s contacts filter partialFetch,
    fun iid filter s' h => removeContactData_keepsItems s s' iid filter h,
    fun hidle => ⟨?_, rfl, expireContacts_people s, fun hn k => ?_⟩,
    fun index count queryIds queryIndex r h id => ?_,
    fun index count s' h id => ?_,
    fun ids id => contactsRemoved_counters s ids id,
    fun contacts filter partialFetch id => ?_,
    by decide, by decide⟩
  · simp only [CacheStep.run, event_idle s hidle]
  · rw [expireContacts_people]
    have hiff := negative_entry_iff_counter s.m_expiredContacts k hn
    unfold expiryCounter apiId
    by_cases hc : hashValue s.m_expiredContacts k 0 < 0
    · rw [if_pos (hiff.mpr hc), if_pos hc]
    · rw [if_neg (fun he => hc (hiff.mp he)), if_neg hc]
  · have h1 := (insertRange_counters env s .FilterAll index count queryIds queryIndex r h).2 id
    simp only [if_true] at h1
    exact h1
  · have h1 := (removeRange_counters s s' .FilterAll index count h).2 id
    simp only [if_true] at h1
    exact h1
  · unfold expiryCounter
    rw [appendContacts_expired]

/-- C33 (the theorem at a concrete cache): with hooks that do nothing, at a cache at rest whose
expiry table holds -1 for the item 4 and 0 for the item 6. -/
theorem items_destroyed_only_by_idle_wake_witness :
    HooksKeepItems exampleEnv ∧
    (∀ r ∈ ladder, r.guard expiringCache = false) ∧
    (expireContacts expiringCache).m_people.map (fun e => e.1) = [6] ∧
    ((∀ step s', CacheStep.run exampleEnv expiringCache step = some s' →
      (step = .wake → ∃ r ∈ ladder, r.guard expiringCache = true) →
      ∀ k, (hashFind expiringCache.m_people k).isSome → (hashFind s'.m_people k).isSome) ∧
    (∀ filter index count s', removeRange expiringCache filter index count = some s' →
      s'.m_people = expiringCache.m_people) ∧
    (∀ filter index count queryIds queryIndex r,
      insertRange exampleEnv expiringCache filter index count queryIds queryIndex = some r →
      r.1.m_people = expiringCache.m_people) ∧
    (∀ contacts filter partialFetch k, (hashFind expiringCache.m_people k).isSome →
      (hashFind (appendContacts exampleEnv expiringCache contacts filter partialFetch).m_people k).isSome) ∧
    (∀ iid filter s', removeContactData expiringCache iid filter = some s' →
      ∀ k, (hashFind expiringCache.m_people k).isSome → (hashFind s'.m_people k).isSome) ∧
    ((∀ r ∈ ladder, r.guard expiringCache = false) →
      CacheStep.run exampleEnv expiringCache .wake = some (expireContacts expiringCache) ∧
      (expireContacts expiringCache).m_expiredContacts = [] ∧
      (∀ k, hashFind (expireContacts expiringCache).m_people k =
        if ∃ e ∈ expiringCache.m_expiredContacts, internalId e.1 = k ∧ e.2 < 0 then none
        else hashFind expiringCache.m_people k) ∧
      ((expiringCache.m_expiredContacts.map Prod.fst).Nodup →
        ∀ k, hashFind (expireContacts expiringCache).m_people k =
          if expiryCounter expiringCache k < 0 then none else hashFind expiringCache.m_people k)) ∧
    (∀ index count queryIds queryIndex r,
      insertRange exampleEnv expiringCache .FilterAll index count queryIds queryIndex = some r →
      ∀ id, expiryCounter r.1 id = expiryCounter expiringCache id +
        (((((queryIds.drop queryIndex).take count).filter
          (fun iid => decide (iid ≠ internalId exampleEnv.selfContactId))).count id : Nat) : Int)) ∧
    (∀ index count s', removeRange expiringCache .FilterAll index count = some s' →
      ∀ id, expiryCounter s' id = expiryCounter expiringCache id -
        ((((expiringCache.m_contacts.get .FilterAll).drop index).take count).count id : Int)) ∧
    (∀ ids id, expiryCounter (contactsRemoved expiringCache ids) id = expiryCounter expiringCache id -
      (if expiringCache.m_keepPopulated then 0
       else ((ids.filter (fun i => (existingItem expiringCache (internalId i)).isSome)).count id : Int))) ∧
    (∀ contacts filter partialFetch id,
      expiryCounter (appendContacts exampleEnv expiringCache contacts filter partialFetch) id =
        expiryCounter expiringCache id) ∧
    removeThenReinsert.map (fun s1 =>
        (s1.m_contacts.get .FilterAll, expiryCounter s1 4, (event s1).m_expiredContacts,
          (event s1).m_people.map (fun e => e.1))) =
      some ([4, 6], 0, [], [4, 6]) ∧
    populateTwoThenRemoveRange.map (fun s1 =>
        (s1.m_contacts.get .FilterAll, s1.m_expiredContacts, s1.m_people.map (fun e => e.1))) =
      some ([6], [], [6])) :=
  ⟨fun _ => ⟨fun _ hk => hk, fun _ hk => hk⟩, by decide, by decide,
    items_destroyed_only_by_idle_wake exampleEnv (fun _ => ⟨fun _ hk => hk, fun _ hk => hk⟩)
      expiringCache⟩

/-! ## Name groups follow the group key -/

theorem sameGroups_of_itemFrame {s s' : State} (h : ItemFrame s s') :
    SameGroups s s' := by
  obtain ⟨e, _⟩ := h
  have h1 : s'.m_contactNameGroups = (itemFrameOf s s').m_contactNameGroups :=
    congrArg State.m_contactNameGroups e
  have h2 : s'.m_nameGroupChangeListeners = (itemFrameOf s s').m_nameGroupChangeListeners :=
    congrArg State.m_nameGroupChangeListeners e
  have h3 : s'.m_groupProperty = (itemFrameOf s s').m_groupProperty :=
    congrArg State.m_groupProperty e
  exact ⟨h1, h2, h3⟩

theorem requestUpdate_sameGroups (s : State) : SameGroups s (requestUpdate s) :=
  sameGroups_of_itemFrame (requestUpdate_itemFrame s)

end SeasideCache
